import Mathlib

/-!
BNO070 host driver: DFU engine, FRS read and write, command functions

A shallow embedding of `bno070.c` (firmware download) and of the FRS read and write
paths, the product-id request and the command functions of `SensorHub.c` /
`SensorHubHid.c`, with the properties proved about them.

Conventions of the embedding.

* Machine integers are `Nat` (unsigned) or `Int` (the `sh_Status_t` codes); every
  narrowing conversion of the C code appears as an explicit `%`.
* A C buffer is a `Mem`: a map from the index counted from the buffer's base to the
  value stored there.  Reading a `uint8_t` from a byte buffer reduces the cell modulo 256.
  The cells past the declared end of a buffer are whatever memory lies behind it; an
  out-of-bounds read of the C code reads those cells.
* The platform port (`shdev_*`) and the firmware blob (`HcBin_t`) are external: they are
  records of the answers they give.
* Structures overlaid on byte frames are decoded for a little-endian host, the only kind
  the driver supports.
* The inbound traffic of a call is the list of the platform's answers to its successive
  `shhid_in` calls; when the list is used up the hub is silent.  The outbound traffic is
  the list of the reports handed to `shhid_setOutReport`, byte for byte.
-/

namespace Bno070

/-! ## Status codes (`sh_types.h`) -/

@[reducible] def SH_STATUS_SUCCESS : Int := 0
@[reducible] def SH_STATUS_ERROR_I2C_IO : Int := -5
@[reducible] def SH_STATUS_NO_DATA : Int := -6
@[reducible] def SH_STATUS_FRS_READ_UNRECOGNIZED_FRS : Int := -103
@[reducible] def SH_STATUS_FRS_READ_BUSY : Int := -104
@[reducible] def SH_STATUS_FRS_READ_DEVICE_ERROR : Int := -105
@[reducible] def SH_STATUS_FRS_READ_OFFSET_OUT_OF_RANGE : Int := -108
@[reducible] def SH_STATUS_FRS_READ_UNEXPECTED_LENGTH : Int := -109
@[reducible] def SH_STATUS_INVALID_HCBIN : Int := -400
@[reducible] def SH_STATUS_NACK : Int := -401

/-! ## Buffers -/

/-- A buffer seen from its base pointer: index to stored value. -/
abbrev Mem := Nat → Nat

/-- The store `m[i] = v`. -/
def Mem.set (m : Mem) (i v : Nat) : Mem := fun j => if j = i then v else m j

/-- The callee stores the bytes `data` at `m[0]`, `m[1]`, ... -/
def Mem.store (m : Mem) (data : List Nat) : Mem :=
  fun j => if h : j < data.length then data[j] else m j

/-- The bytes `m[0 .. len)` as they go out on the wire. -/
def Mem.bytes (m : Mem) (len : Nat) : List Nat := (List.range len).map (fun i => m i % 256)

/-! ## `bno070.c`: CRC framing -/

@[reducible] def MAX_PACKET_LEN : Nat := 64

/-- The four stores of `write32be`. -/
def write32be (buf : Mem) (value : Nat) : Mem :=
  (((buf.set 0 ((value >>> 24) &&& 0xFF)).set 1 ((value >>> 16) &&& 0xFF)).set 2
    ((value >>> 8) &&& 0xFF)).set 3 ((value >>> 0) &&& 0xFF)

/-- One pass of the inner loop of `append_crc` on the pair `(crc, x)` of `uint16_t`. -/
def crcBit (s : Nat × Nat) : Nat × Nat :=
  let crc := s.1
  let x := s.2
  let crc := if (crc ^^^ x) &&& 0x8000 ≠ 0 then ((crc <<< 1) ^^^ 0x1021) % 65536
             else (crc <<< 1) % 65536
  (crc, (x <<< 1) % 65536)

/-- One pass of the outer loop of `append_crc`: `x = (uint16_t)packet[n] << 8`, then eight
inner passes; the new `crc`. -/
def crcByte (crc byte : Nat) : Nat :=
  (crcBit^[8] (crc, ((byte % 256) <<< 8) % 65536)).1

/-- The value of `crc` when the outer loop of `append_crc(packet, len)` ends. -/
def crcLoop (packet : Mem) (len : Nat) : Nat :=
  (List.range len).foldl (fun crc n => crcByte crc (packet n)) 0xFFFF

/-- The function `append_crc`: the packet with the two CRC bytes stored behind the data. -/
def append_crc (packet : Mem) (len : Nat) : Mem :=
  let crc := crcLoop packet len
  (packet.set len ((crc >>> 8) &&& 0xFF)).set (len + 1) (crc &&& 0xFF)

/-! ### CRC-16/CCITT-FALSE as the specification words it -/

/-- Shift the 16-bit register one bit to the left, MSB first; when the bit shifted out
is set, add the polynomial 0x1021. -/
def ccittShift (reg : Nat) : Nat :=
  if reg &&& 0x8000 ≠ 0 then ((reg <<< 1) ^^^ 0x1021) % 65536 else (reg <<< 1) % 65536

/-- Feed one byte, unreflected, into the top of the register and shift eight times. -/
def ccittUpdate (reg byte : Nat) : Nat := ccittShift^[8] (reg ^^^ (byte <<< 8))

/-- CRC-16/CCITT-FALSE: polynomial 0x1021, initial value 0xFFFF, no reflection of input
or output, no final XOR. -/
def crc16_ccitt_false (data : List Nat) : Nat := data.foldl ccittUpdate 0xFFFF

/-- The bytes of the string "123456789". -/
def checkString : List Nat := [0x31, 0x32, 0x33, 0x34, 0x35, 0x36, 0x37, 0x38, 0x39]

/-! ## `bno070.c`: the DFU engine -/

/-- The firmware blob `HcBin_t`, an external collaborator: the answers of its callbacks.
`getMeta` answers `none` for a null pointer; `getAppData offset len` answers its return
code and the bytes it stored at `packet[0], packet[1], ...`.  The calls of `open` and
`close` are recorded as events. -/
structure HcBin where
  getMeta : String → Option String
  getAppLen : Nat
  getPacketLen : Nat
  getAppData : Nat → Nat → Int × List Nat

/-- What the platform does during one `dfu_send`: the status of the `shdev_i2c` write, the
status of the one-byte `shdev_i2c` read, and the byte read. -/
structure SendOutcome where
  writeRc : Int
  readRc : Int
  ack : Nat

/-- The platform port as `bno070_performDfu` meets it: the pointer `shdev_init` returns
(0 is the null pointer), the status of `shdev_reset_dfu`, the outcome of the transfers of
the `j`-th `dfu_send`, and the value the `j`-th call of `shdev_waitIntn` returns (`false`
when INTN is asserted). -/
structure DfuPlatform where
  dev : Nat
  resetDfuRc : Int
  xfer : Nat → SendOutcome
  waitIntn : Nat → Bool

/-- What `bno070_performDfu` does to its collaborators, in program order. -/
inductive DfuEvent where
  | hcbinOpen
  | hcbinClose
  | resetDfu
  | i2cWrite (bytes : List Nat)
  | i2cRead (len : Nat)
  | waitIntn
  deriving DecidableEq

/-- A return of `bno070_performDfu`: the returned status and what was done before. -/
structure DfuResult where
  rc : Int
  events : List DfuEvent
  deriving DecidableEq

/-- The function `dfu_send(dev, packet, len)`: the status, the packet buffer afterwards
and the transfers performed. -/
def dfu_send (o : SendOutcome) (packet : Mem) (len : Nat) : Int × Mem × List DfuEvent :=
  let len := len % 256
  let packet := append_crc packet len
  let wr := DfuEvent.i2cWrite (packet.bytes (len + 2))
  if o.writeRc ≠ SH_STATUS_SUCCESS then ( SH_STATUS_ERROR_I2C_IO, packet, [wr])
  else if o.readRc ≠ SH_STATUS_SUCCESS then
    ( SH_STATUS_ERROR_I2C_IO, packet, [wr, DfuEvent.i2cRead 1])
  else if o.ack % 256 ≠ 0x73 then (SH_STATUS_NACK, packet, [wr, DfuEvent.i2cRead 1])
  else (SH_STATUS_SUCCESS, packet, [wr, DfuEvent.i2cRead 1])

/-- The loop `while (shdev_waitIntn(dev, SH_WAIT_FOREVER) != false);` from its `j`-th
call on; `none` when the fuel runs out before INTN is asserted. -/
def waitIntnLoop (plat : DfuPlatform) : Nat → Nat → Option (List DfuEvent)
  | 0, _ => none
  | fuel + 1, j =>
    if plat.waitIntn j then (waitIntnLoop plat fuel (j + 1)).map (fun w => DfuEvent.waitIntn :: w)
    else some [DfuEvent.waitIntn]

/-- The streaming loop of `bno070_performDfu` from the test `offset < app_len` on, and
what follows the loop.  `j` counts the `dfu_send` calls made so far, `rc` is the current
value of the variable `rc`, `fuel0` is the fuel of the closing INTN wait; `none` when the
fuel for the loop runs out. -/
def dfuStream (hcbin : HcBin) (plat : DfuPlatform) (app_len packet_len fuel0 : Nat) :
    Nat → Nat → Nat → Mem → Int → Option DfuResult
  | 0, _, _, _, _ => none
  | fuel + 1, offset, j, packet, rc =>
    if offset < app_len then
      let toSend := min (app_len - offset) packet_len
      let got := hcbin.getAppData offset toSend
      let packet := packet.store got.2
      if got.1 < 0 then some ⟨got.1, [DfuEvent.hcbinClose]⟩
      else
        let sent := dfu_send (plat.xfer j) packet toSend
        if sent.1 < 0 then some ⟨sent.1, sent.2.2 ++ [DfuEvent.hcbinClose]⟩
        else
          (dfuStream hcbin plat app_len packet_len fuel0 fuel
              ((offset + packet_len) % 2 ^ 32) (j + 1) sent.2.1 sent.1).map
            (fun r => ⟨r.rc, sent.2.2 ++ r.events⟩)
    else
      (waitIntnLoop plat fuel0 0).map (fun w => ⟨rc, DfuEvent.hcbinClose :: w⟩)

/-- The function `bno070_performDfu(unit, hcbin)`.  `packet0` is the content of the
uninitialised local `packet`; `fuel` bounds the iterations of each of the two loops.
`none`: the call does not return (the `while (1)` after a null `shdev_init`, or a loop
that outlives the fuel). -/
def bno070_performDfu (fuel : Nat) (plat : DfuPlatform) (hcbin : HcBin) (packet0 : Mem) :
    Option DfuResult :=
  if plat.dev = 0 then none
  else
    let fwFormat := hcbin.getMeta "FW-Format"
    if fwFormat = none ∨ fwFormat ≠ some "BNO_V1" then
      some ⟨SH_STATUS_INVALID_HCBIN, [DfuEvent.hcbinOpen]⟩
    else
      let app_len := hcbin.getAppLen % 2 ^ 32
      let packet_len := hcbin.getPacketLen % 2 ^ 32
      let packet_len :=
        if packet_len = 0 ∨ packet_len > MAX_PACKET_LEN then MAX_PACKET_LEN else packet_len
      if plat.resetDfuRc ≠ SH_STATUS_SUCCESS then
        some ⟨plat.resetDfuRc, [DfuEvent.hcbinOpen, DfuEvent.resetDfu]⟩
      else
        let packet := write32be packet0 app_len
        let s1 := dfu_send (plat.xfer 0) packet 4
        if s1.1 < 0 then
          some ⟨s1.1, [DfuEvent.hcbinOpen, DfuEvent.resetDfu] ++ s1.2.2 ++ [DfuEvent.hcbinClose]⟩
        else
          let packet := s1.2.1.set 0 (packet_len % 256)
          let s2 := dfu_send (plat.xfer 1) packet 1
          if s2.1 < 0 then
            some ⟨s2.1, [DfuEvent.hcbinOpen, DfuEvent.resetDfu] ++ s1.2.2 ++ s2.2.2
              ++ [DfuEvent.hcbinClose]⟩
          else
            (dfuStream hcbin plat app_len packet_len fuel fuel 0 2 s2.2.1 s2.1).map
              (fun r => ⟨r.rc, [DfuEvent.hcbinOpen, DfuEvent.resetDfu] ++ s1.2.2 ++ s2.2.2
                ++ r.events⟩)

/-! ### The DFU byte stream as the specification words it -/

/-- The four big-endian bytes of a 32-bit length. -/
def be32 (v : Nat) : List Nat := [v / 2 ^ 24 % 256, v / 2 ^ 16 % 256, v / 2 ^ 8 % 256, v % 256]

/-- A CRC-framed packet: the data followed by its CRC-16/CCITT-FALSE, high byte first. -/
def crcFramed (data : List Nat) : List Nat :=
  data ++ [crc16_ccitt_false data / 256 % 256, crc16_ccitt_false data % 256]

/-- The number of data packets: `ceil(appLen / p)`. -/
def numChunks (appLen p : Nat) : Nat := (appLen + p - 1) / p

/-- The `i`-th chunk of the image: bytes `[i*p, min(appLen, (i+1)*p))`. -/
def chunk (image : List Nat) (p i : Nat) : List Nat := (image.drop (i * p)).take p

/-- All packets of a download, in order: length, packet size, image chunks. -/
def dfuPackets (image : List Nat) (p : Nat) : List (List Nat) :=
  be32 image.length :: [p] :: (List.range (numChunks image.length p)).map (chunk image p)

/-- One CRC-framed write followed by the read of one ACK byte. -/
def sendEvents (data : List Nat) : List DfuEvent :=
  [DfuEvent.i2cWrite (crcFramed data), DfuEvent.i2cRead 1]

/-- The packet size the driver uses for a blob's suggestion. -/
def effPacketLen (suggested : Nat) : Nat :=
  if 1 ≤ suggested ∧ suggested ≤ 64 then suggested else 64

/-- A blob that serves the image `image` the way the specification describes blobs. -/
def imageBlob (format : Option String) (image : List Nat) (packetLen : Nat) : HcBin where
  getMeta := fun key => if key = "FW-Format" then format else none
  getAppLen := image.length
  getPacketLen := packetLen
  getAppData := fun offset len => (0, (image.drop offset).take len)

/-- A platform on which every transfer succeeds, with the given ACK bytes, and INTN is
asserted at the first wait. -/
def ackPlatform (acks : Nat → Nat) : DfuPlatform where
  dev := 1
  resetDfuRc := 0
  xfer := fun j => ⟨0, 0, acks j⟩
  waitIntn := fun _ => false

/-! ## `sh_util.c` and `SensorHubHid.c`: the IN primitive -/

/-- The pointer `m + k`. -/
def Mem.shift (m : Mem) (k : Nat) : Mem := fun i => m (i + k)

/-- The call `memcpy(dst, src, n)`. -/
def memcpy (dst src : Mem) (n : Nat) : Mem := fun i => if i < n then src i else dst i

/-- The function `read16`: a little-endian `uint16_t` from two bytes. -/
def read16 (buffer : Mem) : Nat := ((buffer 0 % 256) ||| ((buffer 1 % 256) <<< 8)) % 65536

/-- A `uint32_t` member of a packed structure overlaid on bytes, little-endian host. -/
def load32 (buffer : Mem) : Nat :=
  ((buffer 0 % 256) ||| ((buffer 1 % 256) <<< 8) ||| ((buffer 2 % 256) <<< 16)
    ||| ((buffer 3 % 256) <<< 24)) % 2 ^ 32

@[reducible] def SHHID_MAX_INPUT_REPORT_LEN : Nat := 16

/-- What the platform does during one call of `shhid_in`: the value `shdev_waitIntn`
returns (`false` when INTN is asserted), the value of `shdev_getTimestamp_us`, the status
of the `shdev_i2c` read and the content of `buffer` after it. -/
structure Poll where
  intn : Bool
  timestamp : Nat
  i2cRc : Int
  buffer : Mem

/-- The outcome of `shhid_in`: status, `*reportLen`, the report buffer, and the value
stored through `timestamp` when one was stored. -/
structure InResult where
  rc : Int
  reportLen : Nat
  report : Mem
  timestamp : Option Nat

/-- The function `shhid_in(hid, report, reportLen, wait_ms, timestamp)`; `wantTs` says
that `timestamp` is not null. -/
def shhid_in (p : Poll) (report : Mem) (reportLen : Nat) (wantTs : Bool) : InResult :=
  let ready := (p.intn == false)
  if !ready then ⟨SH_STATUS_NO_DATA, 0, report, none⟩
  else
    let ts := if wantTs then some (p.timestamp % 2 ^ 32) else none
    let rc := p.i2cRc
    if rc ≠ SH_STATUS_SUCCESS then ⟨rc, reportLen, report, ts⟩
    else
      let len := read16 p.buffer
      if len < 2 ∨ len > SHHID_MAX_INPUT_REPORT_LEN + 2 then
        ⟨ SH_STATUS_ERROR_I2C_IO, len, report, ts⟩
      else ⟨rc, len - 2, memcpy report (p.buffer.shift 2) (len - 2), ts⟩

/-! ## `SensorHub.c`: FRS read -/

@[reducible] def SH_FRS_READ_REQUEST : Nat := 0x85
@[reducible] def SH_FRS_READ_RESPONSE : Nat := 0x86
@[reducible] def SH_FRS_READ_NO_ERROR : Nat := 0
@[reducible] def SH_FRS_READ_UNRECOGNIZED : Nat := 1
@[reducible] def SH_FRS_READ_BUSY : Nat := 2
@[reducible] def SH_FRS_READ_RECORD_COMPLETED : Nat := 3
@[reducible] def SH_FRS_READ_OUT_OF_RANGE : Nat := 4
@[reducible] def SH_FRS_READ_EMPTY : Nat := 5
@[reducible] def SH_FRS_READ_BLOCK_COMPLETED : Nat := 6
@[reducible] def SH_FRS_READ_BOTH_COMPLETED : Nat := 7
@[reducible] def SH_FRS_READ_DEVICE_ERROR : Nat := 8

/-- Member `reportId` of `sh_HidReport_t` (byte 0). -/
def frsReportId (r : Mem) : Nat := r 0 % 256

/-- Member `words_status` of `sh_FrsReadResp_t` (byte 1). -/
def frsWordsStatus (r : Mem) : Nat := r 1 % 256

/-- Member `offset` of `sh_FrsReadResp_t` (bytes 2..3). -/
def frsOffset (r : Mem) : Nat := read16 (r.shift 2)

/-- Member `dataWord[n]` of `sh_FrsReadResp_t` (bytes 4+4n .. 7+4n); the array has two
elements, an index above 1 reads what lies behind them. -/
def frsDataWord (r : Mem) (n : Nat) : Nat := load32 (r.shift (4 + 4 * n))

/-- Member `recordId` of `sh_FrsReadResp_t` (bytes 12..13). -/
def frsRecordId (r : Mem) : Nat := read16 (r.shift 12)

/-- The variables of `sh_getFrs` that the copy loop changes, with the list of the stores
into `pData` made so far (index, value), oldest first. -/
structure FrsVars where
  rc : Int
  lastCopied : Nat
  pData : Mem
  writes : List (Nat × Nat)

/-- The body of `for (n = 0; n < words; n++)` in `sh_getFrs`. -/
def frsCopyWord (readLenWords offset : Nat) (readResp : Mem) (v : FrsVars) (n : Nat) :
    FrsVars :=
  if offset + n ≥ readLenWords then
    { v with rc := SH_STATUS_FRS_READ_UNEXPECTED_LENGTH }
  else
    let lastCopied := (offset + n) % 65536
    { v with
      lastCopied := lastCopied
      pData := v.pData.set lastCopied (frsDataWord readResp n)
      writes := v.writes ++ [(lastCopied, frsDataWord readResp n)] }

/-- Which `return` of `sh_getFrs` was taken. -/
inductive FrsExit where
  | inFailed
  | errorStatus
  | empty
  | done
  deriving DecidableEq

/-- A return of `sh_getFrs`: the status, `*dataLenWords`, the caller's buffer, the stores
made into it, the read request that was sent, and the `return` taken. -/
structure FrsReadResult where
  rc : Int
  dataLenWords : Nat
  pData : Mem
  writes : List (Nat × Nat)
  request : List Nat
  exit : FrsExit

/-- How one pass of the loop of `sh_getFrs` ends: with a `return`, or at the loop test
with `done` still false. -/
inductive FrsStep where
  | ret (r : FrsReadResult)
  | next (v : FrsVars)

/-- The body of the loop of `sh_getFrs` behind the three `continue` filters, for a report
`readResp` that passed them: the status checks, the copy loop and the done condition.
A pass that sets `done` ends the loop, so it is a return of what follows the loop. -/
def frsHandleResp (readLenWords : Nat) (request : List Nat) (readResp : Mem) (v : FrsVars) :
    FrsStep :=
  let status := frsWordsStatus readResp &&& 0x0F
  if status = SH_FRS_READ_UNRECOGNIZED then
    FrsStep.ret ⟨SH_STATUS_FRS_READ_UNRECOGNIZED_FRS, 0, v.pData, v.writes, request,
      FrsExit.errorStatus⟩
  else if status = SH_FRS_READ_BUSY then
    FrsStep.ret ⟨SH_STATUS_FRS_READ_BUSY, 0, v.pData, v.writes, request, FrsExit.errorStatus⟩
  else if status = SH_FRS_READ_OUT_OF_RANGE then
    FrsStep.ret ⟨SH_STATUS_FRS_READ_OFFSET_OUT_OF_RANGE, 0, v.pData, v.writes, request,
      FrsExit.errorStatus⟩
  else if status = SH_FRS_READ_DEVICE_ERROR then
    FrsStep.ret ⟨SH_STATUS_FRS_READ_DEVICE_ERROR, 0, v.pData, v.writes, request,
      FrsExit.errorStatus⟩
  else if status = SH_FRS_READ_EMPTY then
    FrsStep.ret ⟨SH_STATUS_SUCCESS, 0, v.pData, v.writes, request, FrsExit.empty⟩
  else
    let words := (frsWordsStatus readResp >>> 4) &&& 0x0F
    let offset := frsOffset readResp % 256
    let v := (List.range words).foldl (frsCopyWord readLenWords offset readResp) v
    if status = SH_FRS_READ_RECORD_COMPLETED ∨ status = SH_FRS_READ_BLOCK_COMPLETED
        ∨ status = SH_FRS_READ_BOTH_COMPLETED then
      FrsStep.ret ⟨v.rc, (v.lastCopied + 1) % 65536, v.pData, v.writes, request, FrsExit.done⟩
    else FrsStep.next v

/-- The loop `while (!done)` of `sh_getFrs` and the return behind it, over the platform's
answers to the successive `shhid_in` calls.  When the recorded answers are used up the
hub is silent: `shdev_waitIntn` times out and `shhid_in` returns `SH_STATUS_NO_DATA`. -/
def getFrsLoop (recordId readLenWords : Nat) (request : List Nat) :
    List Poll → Mem → FrsVars → FrsReadResult
  | [], _, v => ⟨SH_STATUS_NO_DATA, 0, v.pData, v.writes, request, FrsExit.inFailed⟩
  | p :: ps, inReport, v =>
    let r := shhid_in p inReport 16 false
    let v := { v with rc := r.rc }
    if r.rc ≠ SH_STATUS_SUCCESS then ⟨r.rc, 0, v.pData, v.writes, request, FrsExit.inFailed⟩
    else if r.reportLen ≠ 16 then getFrsLoop recordId readLenWords request ps r.report v
    else if frsReportId r.report ≠ SH_FRS_READ_RESPONSE then
      getFrsLoop recordId readLenWords request ps r.report v
    else if frsRecordId r.report ≠ recordId then
      getFrsLoop recordId readLenWords request ps r.report v
    else
      match frsHandleResp readLenWords request r.report v with
      | FrsStep.ret res => res
      | FrsStep.next v => getFrsLoop recordId readLenWords request ps r.report v

/-- The function `sh_getFrs(sh, recordId, pData, dataLenWords)`: `polls` are the
platform's answers to the successive `shhid_in` calls, `inReport0` is the memory at the
uninitialised local `inReport` (16 bytes) and behind it, `dataLenWords` is the incoming
`*dataLenWords`. -/
def sh_getFrs (polls : List Poll) (inReport0 : Mem) (recordId : Nat) (pData : Mem)
    (dataLenWords : Nat) : FrsReadResult :=
  let readLenWords := dataLenWords % 65536
  let recordId := recordId % 65536
  let outReport := [SH_FRS_READ_REQUEST, 0, 0, 0, recordId % 256, recordId / 256,
    readLenWords % 256, readLenWords / 256]
  getFrsLoop recordId readLenWords outReport polls inReport0 ⟨SH_STATUS_SUCCESS, 0, pData, []⟩

/-! ### Inbound traffic as the specification words it -/

/-- The report a poll delivers, seen from its first byte (behind the length field). -/
def Poll.frame (p : Poll) : Mem := p.buffer.shift 2

/-- The poll delivers a report: INTN asserted, the read succeeded, the length field valid. -/
def Poll.delivered (p : Poll) : Bool :=
  !p.intn && decide (p.i2cRc = 0) && decide (2 ≤ read16 p.buffer)
    && decide (read16 p.buffer ≤ 18)

/-- The poll delivers an FRS read response for `recordId`: a 16-byte report with reportId
0x86 and that record id. -/
def Poll.isFrsReadResp (recordId : Nat) (p : Poll) : Bool :=
  p.delivered && decide (read16 p.buffer = 18) && decide (frsReportId p.frame = 0x86)
    && decide (frsRecordId p.frame = recordId)

/-- The poll delivers a report that is not an FRS read response for `recordId`. -/
def Poll.isOther (recordId : Nat) (p : Poll) : Bool :=
  p.delivered && !p.isFrsReadResp recordId

/-- The status nibble of the response a poll delivers. -/
def Poll.frsStatus (p : Poll) : Nat := frsWordsStatus p.frame &&& 0x0F

/-- The word count nibble of the response a poll delivers. -/
def Poll.frsWords (p : Poll) : Nat := (frsWordsStatus p.frame >>> 4) &&& 0x0F

/-- A poll that delivers the FRS read response with the given fields. -/
def frsReadRespPoll (recordId words status offset w0 w1 : Nat) : Poll where
  intn := false
  timestamp := 0
  i2cRc := 0
  buffer := Mem.store (fun _ => 0)
    [18, 0, 0x86, words * 16 + status, offset % 256, offset / 256,
     w0 % 256, w0 / 2 ^ 8 % 256, w0 / 2 ^ 16 % 256, w0 / 2 ^ 24 % 256,
     w1 % 256, w1 / 2 ^ 8 % 256, w1 / 2 ^ 16 % 256, w1 / 2 ^ 24 % 256,
     recordId % 256, recordId / 256, 0, 0]

/-- A poll that delivers a 16-byte sensor event of the given sensor. -/
def sensorEventPoll (sensorId : Nat) : Poll where
  intn := false
  timestamp := 0
  i2cRc := 0
  buffer := Mem.store (fun _ => 0) [18, 0, sensorId, 1, 0, 0, 1, 2, 3, 4, 5, 6, 0, 0, 0, 0, 0, 0]

/-! ## Predicates and fixtures used in the statements -/

/-- What the blob must do for the image `image`: `getAppData` succeeds and stores the
requested range of the image. -/
def ServesImage (hcbin : HcBin) (image : List Nat) : Prop :=
  ∀ off len, off + len ≤ image.length →
    0 ≤ (hcbin.getAppData off len).1 ∧ (hcbin.getAppData off len).2 = (image.drop off).take len

/-- A blob with a valid format whose `getAppData` reports the firmware invalid. -/
def rejectingBlob : HcBin where
  getMeta := fun key => if key = "FW-Format" then some "BNO_V1" else none
  getAppLen := 1
  getPacketLen := 64
  getAppData := fun _ _ => (SH_STATUS_INVALID_HCBIN, [])

/-- The buffer after a list of stores. -/
def applyWrites (ws : List (Nat × Nat)) (m : Mem) : Mem := ws.foldl (fun m w => m.set w.1 w.2) m

/-- The four responses of the specification's scenario: record 0xE302, two words each at
the offsets 0, 2, 4, 6, the last one with RECORD_COMPLETED. -/
def scenarioResps : List Poll :=
  [frsReadRespPoll 0xE302 2 0 0 100 101, frsReadRespPoll 0xE302 2 0 2 102 103,
   frsReadRespPoll 0xE302 2 0 4 104 105, frsReadRespPoll 0xE302 2 3 6 106 107]

/-- The variable `lastCopied` is the index of the last store, and below 65535. -/
def LastCopiedOk (v : FrsVars) : Prop :=
  ∀ w, v.writes.getLast? = some w → w.1 = v.lastCopied ∧ v.lastCopied < 65535

/-- On the return behind the loop, `*dataLenWords` is the index of the last store plus one. -/
def LengthIsLastIndex (r : FrsReadResult) : Prop :=
  r.exit = FrsExit.done → ∀ w, r.writes.getLast? = some w → r.dataLenWords = w.1 + 1

/-! ## `SensorHub.c`: reports sent, and the receive loops -/

/-- A `uint16_t` member of a packed structure as bytes, little-endian host. -/
def le16 (v : Nat) : List Nat := [v % 256, v / 256 % 256]

/-- A `uint32_t` member of a packed structure as bytes, little-endian host. -/
def le32 (v : Nat) : List Nat := [v % 256, v / 2 ^ 8 % 256, v / 2 ^ 16 % 256, v / 2 ^ 24 % 256]

/-- How one pass of a receive loop ends: at the loop test with the loop going on, or with
a return (also the return behind a loop whose test fails). -/
inductive LoopStep (σ ρ : Type) where
  | next (s : σ)
  | ret (r : ρ)

/-- The receive loop that `sh_setFrs`, `sh_getProdIds`, `sh_getErrors`, `sh_getCounts`,
`sh_dcdSaveNow` and `sh_calConfig` each spell out: set the length to `sizeof(inReport)`,
call `shhid_in`, return when it fails (`onFail` builds that return), otherwise run the
rest of the loop body on the length and the report.  When the recorded answers of the
platform are used up the hub is silent and `shhid_in` returns `SH_STATUS_NO_DATA`. -/
def inLoop {σ ρ : Type} (onFail : Int → σ → ρ) (body : Nat → Mem → σ → LoopStep σ ρ) :
    List Poll → Mem → σ → ρ
  | [], _, s => onFail SH_STATUS_NO_DATA s
  | p :: ps, inReport, s =>
    let r := shhid_in p inReport 16 false
    if r.rc ≠ SH_STATUS_SUCCESS then onFail r.rc s
    else
      match body r.reportLen r.report s with
      | LoopStep.next s2 => inLoop onFail body ps r.report s2
      | LoopStep.ret res => res

/-! ## `SensorHub.c`: FRS write -/

@[reducible] def SH_STATUS_FRS_WRITE_BUSY : Int := -200
@[reducible] def SH_STATUS_FRS_WRITE_BAD_TYPE : Int := -201
@[reducible] def SH_STATUS_FRS_WRITE_BAD_LENGTH : Int := -202
@[reducible] def SH_STATUS_FRS_WRITE_DEVICE_ERROR : Int := -203
@[reducible] def SH_STATUS_FRS_WRITE_BAD_MODE : Int := -205
@[reducible] def SH_STATUS_FRS_WRITE_FAILED : Int := -206
@[reducible] def SH_STATUS_FRS_WRITE_READ_ONLY : Int := -207
@[reducible] def SH_STATUS_FRS_WRITE_INVALID_RECORD : Int := -208
@[reducible] def SH_STATUS_FRS_WRITE_NOT_ENOUGH : Int := -209

@[reducible] def SH_FRS_WRITE_REQUEST : Nat := 0x82
@[reducible] def SH_FRS_WRITE_DATA_REQUEST : Nat := 0x83
@[reducible] def SH_FRS_WRITE_RESPONSE : Nat := 0x84
@[reducible] def SH_FRS_WRITE_UNRECOGNIZED : Nat := 1
@[reducible] def SH_FRS_WRITE_BUSY : Nat := 2
@[reducible] def SH_FRS_WRITE_COMPLETED : Nat := 3
@[reducible] def SH_FRS_WRITE_FAILED : Nat := 5
@[reducible] def SH_FRS_WRITE_BAD_MODE : Nat := 6
@[reducible] def SH_FRS_WRITE_BAD_LEN : Nat := 7
@[reducible] def SH_FRS_WRITE_INVALID : Nat := 9
@[reducible] def SH_FRS_WRITE_DEVICE_ERR : Nat := 10
@[reducible] def SH_FRS_WRITE_READ_ONLY : Nat := 11

/-- The bytes of a `sh_FrsWriteReq_t`. -/
def frsWriteReq (dataLen recordId : Nat) : List Nat :=
  [SH_FRS_WRITE_REQUEST, 0] ++ le16 dataLen ++ le16 recordId

/-- The bytes of a `sh_FrsWriteDataReq_t`. -/
def frsWriteDataReq (wordOffset data0 data1 : Nat) : List Nat :=
  [SH_FRS_WRITE_DATA_REQUEST, 0] ++ le16 wordOffset ++ le32 data0 ++ le32 data1

/-- What `sh_setFrs` does on the bus, in program order: the two kinds of report it hands
to `shhid_setOutReport`, and the write responses it takes from `shhid_in` (the four bytes
of the report). -/
inductive FrsWriteEvent where
  | writeReq (report : List Nat)
  | dataReq (report : List Nat)
  | response (report : List Nat)
  deriving DecidableEq

/-- The variables of `sh_setFrs` that its loop changes: `toWrite`, `offset`, the member
`data[1]` of `writeDataReq`, with the number of `shhid_setOutReport` calls made and the
events so far. -/
structure FrsWriteVars where
  toWrite : Nat
  offset : Nat
  data1 : Nat
  sends : Nat
  log : List FrsWriteEvent

/-- Which `return` of `sh_setFrs` was taken. -/
inductive FrsWriteExit where
  | inFailed
  | errorStatus
  | completed
  | sendFailed
  deriving DecidableEq

/-- A return of `sh_setFrs`: the status, the variables at the return, the `return` taken. -/
structure FrsWriteResult where
  rc : Int
  vars : FrsWriteVars
  exit : FrsWriteExit

/-- The body of the loop of `sh_setFrs` behind the call of `shhid_in`.  `sendRc k` is the
status the platform gives the `k`-th `shhid_setOutReport` of the call (from 0). -/
def setFrsBody (pData : Mem) (sendRc : Nat → Int) (len : Nat) (inReport : Mem)
    (v : FrsWriteVars) : LoopStep FrsWriteVars FrsWriteResult :=
  if frsReportId inReport ≠ SH_FRS_WRITE_RESPONSE then LoopStep.next v
  else if len ≠ 4 then LoopStep.next v
  else
    let status := inReport 1 % 256
    let v := { v with log := v.log ++ [FrsWriteEvent.response (inReport.bytes 4)] }
    if status = SH_FRS_WRITE_UNRECOGNIZED then
      LoopStep.ret ⟨SH_STATUS_FRS_WRITE_BAD_TYPE, v, FrsWriteExit.errorStatus⟩
    else if status = SH_FRS_WRITE_BUSY then
      LoopStep.ret ⟨SH_STATUS_FRS_WRITE_BUSY, v, FrsWriteExit.errorStatus⟩
    else if status = SH_FRS_WRITE_FAILED then
      LoopStep.ret ⟨SH_STATUS_FRS_WRITE_FAILED, v, FrsWriteExit.errorStatus⟩
    else if status = SH_FRS_WRITE_BAD_MODE then
      LoopStep.ret ⟨SH_STATUS_FRS_WRITE_BAD_MODE, v, FrsWriteExit.errorStatus⟩
    else if status = SH_FRS_WRITE_BAD_LEN then
      LoopStep.ret ⟨SH_STATUS_FRS_WRITE_BAD_LENGTH, v, FrsWriteExit.errorStatus⟩
    else if status = SH_FRS_WRITE_INVALID then
      LoopStep.ret ⟨SH_STATUS_FRS_WRITE_INVALID_RECORD, v, FrsWriteExit.errorStatus⟩
    else if status = SH_FRS_WRITE_DEVICE_ERR then
      LoopStep.ret ⟨SH_STATUS_FRS_WRITE_DEVICE_ERROR, v, FrsWriteExit.errorStatus⟩
    else if status = SH_FRS_WRITE_READ_ONLY then
      LoopStep.ret ⟨SH_STATUS_FRS_WRITE_READ_ONLY, v, FrsWriteExit.errorStatus⟩
    else if status = SH_FRS_WRITE_COMPLETED ∧ v.toWrite = 0 then
      LoopStep.ret ⟨SH_STATUS_SUCCESS, v, FrsWriteExit.completed⟩
    else if status = SH_FRS_WRITE_COMPLETED then
      LoopStep.ret ⟨SH_STATUS_FRS_WRITE_NOT_ENOUGH, v, FrsWriteExit.completed⟩
    else if v.toWrite > 0 then
      let wordOffset := v.offset
      let data0 := pData v.offset % 2 ^ 32
      let offset := (v.offset + 1) % 65536
      let toWrite := (v.toWrite - 1) % 65536
      let data1 := if toWrite > 0 then pData offset % 2 ^ 32 else v.data1
      let offset2 := if toWrite > 0 then (offset + 1) % 65536 else offset
      let toWrite2 := if toWrite > 0 then (toWrite - 1) % 65536 else toWrite
      let rc := sendRc v.sends
      let v2 : FrsWriteVars :=
        { toWrite := toWrite2, offset := offset2, data1 := data1, sends := v.sends + 1,
          log := v.log ++ [FrsWriteEvent.dataReq (frsWriteDataReq wordOffset data0 data1)] }
      if rc ≠ 0 then LoopStep.ret ⟨rc, v2, FrsWriteExit.sendFailed⟩
      else LoopStep.next v2
    else LoopStep.next v

/-- The function `sh_setFrs(sh, recordId, pData, dataLen)`: `polls` are the platform's
answers to the successive `shhid_in` calls, `inReport0` the memory at the uninitialised
local `inReport`, `sendRc k` the status of the `k`-th `shhid_setOutReport`, `data1` the
content of the uninitialised member `writeDataReq.data[1]`.  The status of the first
`shhid_setOutReport` (the write request) is not looked at. -/
def sh_setFrs (polls : List Poll) (inReport0 : Mem) (sendRc : Nat → Int) (data1 : Nat)
    (recordId : Nat) (pData : Mem) (dataLen : Nat) : FrsWriteResult :=
  let dataLen := dataLen % 65536
  let recordId := recordId % 65536
  inLoop (fun rc v => ⟨rc, v, FrsWriteExit.inFailed⟩) (setFrsBody pData sendRc) polls inReport0
    ⟨dataLen, 0, data1, 1, [FrsWriteEvent.writeReq (frsWriteReq dataLen recordId)]⟩

/-- A poll that delivers the FRS write response with the given status and word offset. -/
def frsWriteRespPoll (status wordOffset : Nat) : Poll where
  intn := false
  timestamp := 0
  i2cRc := 0
  buffer := Mem.store (fun _ => 0) ([6, 0, SH_FRS_WRITE_RESPONSE, status] ++ le16 wordOffset)


/-! ## `SensorHub.c`: the command functions -/

@[reducible] def SH_STATUS_SH_ERR : Int := -3

@[reducible] def SH_PRODUCT_ID_REQUEST : Nat := 0x80
@[reducible] def SH_PRODUCT_ID_RESPONSE : Nat := 0x81
@[reducible] def SH_NUM_PRODUCT_IDS : Nat := 4
@[reducible] def SH_COMMAND_REQUEST : Nat := 0x87
@[reducible] def SH_COMMAND_RESPONSE : Nat := 0x88
@[reducible] def SH_CR_REPORT_ERRORS : Nat := 0x01
@[reducible] def SH_CR_COUNTS : Nat := 0x02
@[reducible] def SH_CR_COUNTS_GET : Nat := 0x00
@[reducible] def SH_CR_COUNTS_CLEAR : Nat := 0x01
@[reducible] def SH_CR_TARE : Nat := 0x03
@[reducible] def SH_CR_TARE_NOW : Nat := 0x00
@[reducible] def SH_CR_TARE_PERSIST : Nat := 0x01
@[reducible] def SH_CR_TARE_SET_ORIENT : Nat := 0x02
@[reducible] def SH_CR_INITIALIZE : Nat := 0x04
@[reducible] def SH_CR_INITIALIZE_SENSORHUB : Nat := 0x01
@[reducible] def SH_CR_SAVE_DCD : Nat := 0x06
@[reducible] def SH_CR_CAL_CONFIG : Nat := 0x07
@[reducible] def SH_CR_RV_SYNC : Nat := 0x08
@[reducible] def SH_CAL_ACCEL : Nat := 0x01
@[reducible] def SH_CAL_GYRO : Nat := 0x02
@[reducible] def SH_CAL_MAG : Nat := 0x04

/-- The member `commandSeq` of `sh_SensorHub_t`, the one member the functions of
`SensorHub.c` assign to after `sh_init`. -/
structure SensorHub where
  commandSeq : Nat
  deriving DecidableEq

/-- The value `thisSeq` of the statement `uint8_t thisSeq = pSensorHub->commandSeq++;`. -/
def SensorHub.thisSeq (sh : SensorHub) : Nat := sh.commandSeq % 256

/-- The session behind the statement `uint8_t thisSeq = pSensorHub->commandSeq++;`. -/
def SensorHub.incr (sh : SensorHub) : SensorHub := { commandSeq := (sh.commandSeq % 256 + 1) % 256 }

/-- A return of a function that waits for replies: the status, the data behind the output
pointers, the session, and the reports handed to `shhid_setOutReport`. -/
structure CmdResult (α : Type) where
  rc : Int
  out : α
  sh : SensorHub
  sent : List (List Nat)

/-- A return of a function that makes no `shhid_in` call: the status, the session, the
reports handed to `shhid_setOutReport`, and the answers of the platform that no
`shhid_in` call has taken. -/
structure SendResult where
  rc : Int
  sh : SensorHub
  sent : List (List Nat)
  pending : List Poll

/-- The type `sh_ProductId_t`. -/
structure ProductId where
  resetCause : Nat
  swVersionMajor : Nat
  swVersionMinor : Nat
  swPartNumber : Nat
  swBuildNumber : Nat
  swVersionPatch : Nat
  deriving DecidableEq

/-- The variables of the loop of `sh_getProdIds`: `prodIds` and the array `prodId`. -/
structure ProdIdVars where
  prodIds : Nat
  prodId : Nat → ProductId

/-- A return of `sh_getProdIds`: the status, the array `prodId`, the reports sent. -/
structure ProdIdResult where
  rc : Int
  prodId : Nat → ProductId
  sent : List (List Nat)

/-- The body of the loop of `sh_getProdIds` behind the call of `shhid_in`, up to the loop
test. -/
def getProdIdsBody (sent : List (List Nat)) (reportLen : Nat) (inReport : Mem)
    (v : ProdIdVars) : LoopStep ProdIdVars ProdIdResult :=
  if reportLen = 16 ∧ inReport 0 % 256 = SH_PRODUCT_ID_RESPONSE then
    let rec_ : ProductId :=
      { resetCause := inReport 1 % 256
        swVersionMajor := inReport 2 % 256
        swVersionMinor := inReport 3 % 256
        swPartNumber := load32 (inReport.shift 4)
        swBuildNumber := load32 (inReport.shift 8)
        swVersionPatch := read16 (inReport.shift 12) }
    let prodId := fun i => if i = v.prodIds then rec_ else v.prodId i
    let prodIds := v.prodIds + 1
    if prodIds < SH_NUM_PRODUCT_IDS then LoopStep.next ⟨prodIds, prodId⟩
    else LoopStep.ret ⟨SH_STATUS_SUCCESS, prodId, sent⟩
  else LoopStep.next v

/-- The function `sh_getProdIds(sh, prodId)`; `sendRc` is the status of the
`shhid_setOutReport` call. -/
def sh_getProdIds (polls : List Poll) (inReport0 : Mem) (sendRc : Int)
    (prodId : Nat → ProductId) : ProdIdResult :=
  let prodIdReq := [SH_PRODUCT_ID_REQUEST, 0]
  let rc := sendRc
  if rc ≠ SH_STATUS_SUCCESS then ⟨rc, prodId, [prodIdReq]⟩
  else
    inLoop (fun rc v => ⟨rc, v.prodId, [prodIdReq]⟩) (getProdIdsBody [prodIdReq]) polls inReport0
      ⟨0, prodId⟩

/-- The type `sh_ErrorRecord_t`. -/
structure ErrorRecord where
  severity : Nat
  sequence : Nat
  source : Nat
  error : Nat
  module : Nat
  code : Nat
  deriving DecidableEq

/-- The variables of the loop of `sh_getErrors`: `replies` and the array `pErrors`, with
the indices of `pErrors` stored to so far and the number of replies to this request taken
so far. -/
structure GetErrsVars where
  replies : Nat
  pErrors : Nat → ErrorRecord
  stores : List Nat
  seen : Nat

/-- What `sh_getErrors` leaves behind its pointers: `*numErrors` and the array `pErrors`,
with the indices stored to and the number of replies to this request taken. -/
structure GetErrsOut where
  numErrors : Nat
  pErrors : Nat → ErrorRecord
  stores : List Nat
  seen : Nat

/-- The body of the loop of `sh_getErrors` behind the call of `shhid_in`, up to the loop
test and the return behind the loop. -/
def getErrorsBody (thisSeq numErrors : Nat) (sh : SensorHub) (sent : List (List Nat))
    (reportLen : Nat) (inReport : Mem) (v : GetErrsVars) :
    LoopStep GetErrsVars (CmdResult GetErrsOut) :=
  if reportLen ≠ 16 ∨ inReport 0 % 256 ≠ SH_COMMAND_RESPONSE then LoopStep.next v
  else if inReport 2 % 256 ≠ SH_CR_REPORT_ERRORS ∨ inReport 3 % 256 ≠ thisSeq then
    LoopStep.next v
  else
    let v := { v with seen := v.seen + 1 }
    if inReport 7 % 256 = 255 ∨ inReport 5 % 256 = 255 then
      LoopStep.ret ⟨0, ⟨v.replies % 65536, v.pErrors, v.stores, v.seen⟩, sh, sent⟩
    else if v.replies < numErrors then
      let rec_ : ErrorRecord :=
        { severity := inReport 5 % 256
          sequence := inReport 6 % 256
          source := inReport 7 % 256
          error := inReport 8 % 256
          module := inReport 9 % 256
          code := inReport 10 % 256 }
      LoopStep.next
        { v with
          replies := v.replies + 1
          pErrors := fun i => if i = v.replies then rec_ else v.pErrors i
          stores := v.stores ++ [v.replies] }
    else LoopStep.next v

/-- The function `sh_getErrors(sh, severity, pErrors, numErrors)`; `numErrors` is the value
of `*numErrors` at the call, `sendRc` the status of the `shhid_setOutReport` call. -/
def sh_getErrors (polls : List Poll) (inReport0 : Mem) (sendRc : Int) (sh : SensorHub)
    (severity : Nat) (pErrors : Nat → ErrorRecord) (numErrors : Nat) : CmdResult GetErrsOut :=
  let numErrors := numErrors % 65536
  let thisSeq := sh.thisSeq
  let sh := sh.incr
  let request := [SH_COMMAND_REQUEST, thisSeq, SH_CR_REPORT_ERRORS, severity % 256]
    ++ List.replicate 8 0
  let rc := sendRc
  if rc ≠ 0 then ⟨rc, ⟨numErrors, pErrors, [], 0⟩, sh, [request]⟩
  else
    inLoop (fun rc v => ⟨rc, ⟨numErrors, v.pErrors, v.stores, v.seen⟩, sh, [request]⟩)
      (getErrorsBody thisSeq numErrors sh [request]) polls inReport0 ⟨0, pErrors, [], 0⟩

/-- The type `sh_Counts_t`; `on_` is the member `on`. -/
structure Counts where
  offered : Nat
  accepted : Nat
  on_ : Nat
  attempted : Nat
  deriving DecidableEq

/-- The variables of the loop of `sh_getCounts`: `replies` and the record `*pCounts`. -/
structure GetCountsVars where
  replies : Nat
  pCounts : Counts

/-- The body of the loop of `sh_getCounts` behind the call of `shhid_in`, up to the loop
test and the return behind the loop. -/
def getCountsBody (thisSeq : Nat) (sh : SensorHub) (sent : List (List Nat))
    (reportLen : Nat) (response : Mem) (v : GetCountsVars) :
    LoopStep GetCountsVars (CmdResult Counts) :=
  if reportLen ≠ 16 ∨ response 0 % 256 ≠ SH_COMMAND_RESPONSE then LoopStep.next v
  else if response 2 % 256 ≠ SH_CR_COUNTS ∨ response 3 % 256 ≠ thisSeq then LoopStep.next v
  else if response 6 % 256 ≠ 1 then LoopStep.ret ⟨SH_STATUS_SH_ERR, v.pCounts, sh, sent⟩
  else
    let pCounts : Counts :=
      if response 4 % 256 = 0 then
        { v.pCounts with
          offered := load32 (response.shift 8)
          accepted := load32 (response.shift 12) }
      else if response 4 % 256 = 1 then
        { v.pCounts with
          on_ := load32 (response.shift 8)
          attempted := load32 (response.shift 12) }
      else v.pCounts
    let replies := v.replies + 1
    if replies < 2 then LoopStep.next ⟨replies, pCounts⟩
    else LoopStep.ret ⟨0, pCounts, sh, sent⟩

/-- The function `sh_getCounts(sh, sensorId, pCounts)`; `pCounts` is the record at the
call, `sendRc` the status of the `shhid_setOutReport` call. -/
def sh_getCounts (polls : List Poll) (inReport0 : Mem) (sendRc : Int) (sh : SensorHub)
    (sensorId : Nat) (pCounts : Counts) : CmdResult Counts :=
  let thisSeq := sh.thisSeq
  let sh := sh.incr
  let request := [SH_COMMAND_REQUEST, thisSeq, SH_CR_COUNTS, SH_CR_COUNTS_GET, sensorId % 256]
    ++ List.replicate 7 0
  let rc := sendRc
  if rc ≠ 0 then ⟨rc, pCounts, sh, [request]⟩
  else
    inLoop (fun rc v => ⟨rc, v.pCounts, sh, [request]⟩) (getCountsBody thisSeq sh [request])
      polls inReport0 ⟨0, pCounts⟩

/-- The function `sh_clearCounts(sh, sensorId)`. -/
def sh_clearCounts (polls : List Poll) (sendRc : Int) (sh : SensorHub) (sensorId : Nat) :
    SendResult :=
  let thisSeq := sh.thisSeq
  let sh := sh.incr
  let request := [SH_COMMAND_REQUEST, thisSeq, SH_CR_COUNTS, SH_CR_COUNTS_CLEAR, sensorId % 256]
    ++ List.replicate 7 0
  let rc := sendRc
  if rc ≠ 0 then ⟨rc, sh, [request], polls⟩ else ⟨0, sh, [request], polls⟩

/-- The function `sh_tareNow(sh, axes, basis)`. -/
def sh_tareNow (polls : List Poll) (sendRc : Int) (sh : SensorHub) (axes basis : Nat) :
    SendResult :=
  let thisSeq := sh.thisSeq
  let sh := sh.incr
  let request := [SH_COMMAND_REQUEST, thisSeq, SH_CR_TARE, SH_CR_TARE_NOW, axes % 256,
    basis % 256] ++ List.replicate 6 0
  let rc := sendRc
  if rc ≠ 0 then ⟨rc, sh, [request], polls⟩ else ⟨0, sh, [request], polls⟩

/-- The function `sh_tareClear(sh)`; its request is a `sh_SetReorientationReq_t`. -/
def sh_tareClear (polls : List Poll) (sendRc : Int) (sh : SensorHub) : SendResult :=
  let thisSeq := sh.thisSeq
  let sh := sh.incr
  let request := [SH_COMMAND_REQUEST, thisSeq, SH_CR_TARE, SH_CR_TARE_SET_ORIENT]
    ++ le32 0 ++ le32 0 ++ le32 0 ++ le32 0
  let rc := sendRc
  if rc ≠ 0 then ⟨rc, sh, [request], polls⟩ else ⟨0, sh, [request], polls⟩

/-- The function `sh_persistTare(sh)`. -/
def sh_persistTare (polls : List Poll) (sendRc : Int) (sh : SensorHub) : SendResult :=
  let thisSeq := sh.thisSeq
  let sh := sh.incr
  let request := [SH_COMMAND_REQUEST, thisSeq, SH_CR_TARE, SH_CR_TARE_PERSIST]
    ++ List.replicate 8 0
  let rc := sendRc
  if rc ≠ 0 then ⟨rc, sh, [request], polls⟩ else ⟨0, sh, [request], polls⟩

/-- The function `sh_setReorientation(sh, orientation)`.  The four arguments are the values
of `TO_16Q14(orientation->x)` ... `TO_16Q14(orientation->w)`, an `int16_t` each (the
floating-point product and its conversion are not part of this development); each is
converted to the `uint32_t` member it is assigned to. -/
def sh_setReorientation (polls : List Poll) (sendRc : Int) (sh : SensorHub)
    (x y z w : Int) : SendResult :=
  let thisSeq := sh.thisSeq
  let sh := sh.incr
  let request := [SH_COMMAND_REQUEST, thisSeq, SH_CR_TARE, SH_CR_TARE_SET_ORIENT]
    ++ le32 (x % 2 ^ 32).toNat ++ le32 (y % 2 ^ 32).toNat ++ le32 (z % 2 ^ 32).toNat
    ++ le32 (w % 2 ^ 32).toNat
  let rc := sendRc
  if rc ≠ 0 then ⟨rc, sh, [request], polls⟩ else ⟨0, sh, [request], polls⟩

/-- The function `sh_reinitialize(sh)`. -/
def sh_reinitialize (polls : List Poll) (sendRc : Int) (sh : SensorHub) : SendResult :=
  let thisSeq := sh.thisSeq
  let sh := sh.incr
  let request := [SH_COMMAND_REQUEST, thisSeq, SH_CR_INITIALIZE, SH_CR_INITIALIZE_SENSORHUB]
    ++ List.replicate 8 0
  let rc := sendRc
  if rc ≠ 0 then ⟨rc, sh, [request], polls⟩ else ⟨0, sh, [request], polls⟩

/-- The body of the loops of `sh_dcdSaveNow` and `sh_calConfig` (they differ in the
command code only) behind the call of `shhid_in`, up to the loop test and the return
behind the loop; the loop has no variable but `replies`, which is 0 in every pass. -/
def statusReplyBody (command thisSeq : Nat) (sh : SensorHub) (sent : List (List Nat))
    (reportLen : Nat) (response : Mem) (_ : Unit) : LoopStep Unit (CmdResult Unit) :=
  if reportLen ≠ 16 ∨ response 0 % 256 ≠ SH_COMMAND_RESPONSE then LoopStep.next ()
  else if response 2 % 256 ≠ command ∨ response 3 % 256 ≠ thisSeq then LoopStep.next ()
  else LoopStep.ret ⟨(response 5 % 256 : Nat), (), sh, sent⟩

/-- The function `sh_dcdSaveNow(sh)`. -/
def sh_dcdSaveNow (polls : List Poll) (inReport0 : Mem) (sendRc : Int) (sh : SensorHub) :
    CmdResult Unit :=
  let thisSeq := sh.thisSeq
  let sh := sh.incr
  let request := [SH_COMMAND_REQUEST, thisSeq, SH_CR_SAVE_DCD] ++ List.replicate 9 0
  let rc := sendRc
  if rc ≠ 0 then ⟨rc, (), sh, [request]⟩
  else
    inLoop (fun rc _ => ⟨rc, (), sh, [request]⟩) (statusReplyBody SH_CR_SAVE_DCD thisSeq sh [request])
      polls inReport0 ()

/-- The function `sh_calConfig(sh, sensors)`. -/
def sh_calConfig (polls : List Poll) (inReport0 : Mem) (sendRc : Int) (sh : SensorHub)
    (sensors : Nat) : CmdResult Unit :=
  let sensors := sensors % 256
  let thisSeq := sh.thisSeq
  let sh := sh.incr
  let request := [SH_COMMAND_REQUEST, thisSeq, SH_CR_CAL_CONFIG,
    if sensors &&& SH_CAL_ACCEL ≠ 0 then 1 else 0,
    if sensors &&& SH_CAL_GYRO ≠ 0 then 1 else 0,
    if sensors &&& SH_CAL_MAG ≠ 0 then 1 else 0] ++ List.replicate 6 0
  let rc := sendRc
  if rc ≠ 0 then ⟨rc, (), sh, [request]⟩
  else
    inLoop (fun rc _ => ⟨rc, (), sh, [request]⟩)
      (statusReplyBody SH_CR_CAL_CONFIG thisSeq sh [request]) polls inReport0 ()

/-- The function `sh_rvSync(sh, rvSyncOp)`. -/
def sh_rvSync (polls : List Poll) (sendRc : Int) (sh : SensorHub) (rvSyncOp : Nat) :
    SendResult :=
  let thisSeq := sh.thisSeq
  let sh := sh.incr
  let request := [SH_COMMAND_REQUEST, thisSeq, SH_CR_RV_SYNC, rvSyncOp % 256]
    ++ List.replicate 8 0
  ⟨sendRc, sh, [request], polls⟩


/-- One call of a public function of `SensorHub.c` on an open session, with its arguments
and the answers of the platform.  The last seven take the session only to read
`pSensorHub->hid` (and `pSensorHub->dev` in the case of `sh_getEventTO`); what they do
with their arguments has no part in `apiSession`, so the arguments are left out. -/
inductive ApiCall where
  | getErrors (polls : List Poll) (inReport0 : Mem) (sendRc : Int) (severity : Nat)
      (pErrors : Nat → ErrorRecord) (numErrors : Nat)
  | getCounts (polls : List Poll) (inReport0 : Mem) (sendRc : Int) (sensorId : Nat)
      (pCounts : Counts)
  | clearCounts (polls : List Poll) (sendRc : Int) (sensorId : Nat)
  | tareNow (polls : List Poll) (sendRc : Int) (axes basis : Nat)
  | tareClear (polls : List Poll) (sendRc : Int)
  | persistTare (polls : List Poll) (sendRc : Int)
  | setReorientation (polls : List Poll) (sendRc : Int) (x y z w : Int)
  | reinitialize (polls : List Poll) (sendRc : Int)
  | dcdSaveNow (polls : List Poll) (inReport0 : Mem) (sendRc : Int)
  | calConfig (polls : List Poll) (inReport0 : Mem) (sendRc : Int) (sensors : Nat)
  | rvSync (polls : List Poll) (sendRc : Int) (rvSyncOp : Nat)
  | getFrs
  | setFrs
  | getProdIds
  | getSensorConfig
  | setSensorConfig
  | getEventTO
  | getMetadata

/-- The call is one of the eleven functions that send a command request. -/
def ApiCall.isCommand : ApiCall → Bool
  | ApiCall.getFrs => false
  | ApiCall.setFrs => false
  | ApiCall.getProdIds => false
  | ApiCall.getSensorConfig => false
  | ApiCall.setSensorConfig => false
  | ApiCall.getEventTO => false
  | ApiCall.getMetadata => false
  | _ => true

/-- The session object behind a call.  The bodies of `sh_getFrs`, `sh_setFrs`,
`sh_getProdIds`, `sh_getSensorConfig`, `sh_setSensorConfig`, `sh_getEventTO` and
`sh_getMetadata` (and of what they call: `shhid_*`, `decodeEvent`, `sh_getFrs`) hold no
assignment to a member of `*pSensorHub`. -/
def apiSession (sh : SensorHub) : ApiCall → SensorHub
  | ApiCall.getErrors polls inReport0 sendRc severity pErrors numErrors =>
    (sh_getErrors polls inReport0 sendRc sh severity pErrors numErrors).sh
  | ApiCall.getCounts polls inReport0 sendRc sensorId pCounts =>
    (sh_getCounts polls inReport0 sendRc sh sensorId pCounts).sh
  | ApiCall.clearCounts polls sendRc sensorId => (sh_clearCounts polls sendRc sh sensorId).sh
  | ApiCall.tareNow polls sendRc axes basis => (sh_tareNow polls sendRc sh axes basis).sh
  | ApiCall.tareClear polls sendRc => (sh_tareClear polls sendRc sh).sh
  | ApiCall.persistTare polls sendRc => (sh_persistTare polls sendRc sh).sh
  | ApiCall.setReorientation polls sendRc x y z w =>
    (sh_setReorientation polls sendRc sh x y z w).sh
  | ApiCall.reinitialize polls sendRc => ( sh_reinitialize polls sendRc sh).sh
  | ApiCall.dcdSaveNow polls inReport0 sendRc => (sh_dcdSaveNow polls inReport0 sendRc sh).sh
  | ApiCall.calConfig polls inReport0 sendRc sensors =>
    (sh_calConfig polls inReport0 sendRc sh sensors).sh
  | ApiCall.rvSync polls sendRc rvSyncOp => (sh_rvSync polls sendRc sh rvSyncOp).sh
  | _ => sh

/-- The reports a call of one of the eleven command functions hands to
`shhid_setOutReport`. -/
def apiSent (sh : SensorHub) : ApiCall → List (List Nat)
  | ApiCall.getErrors polls inReport0 sendRc severity pErrors numErrors =>
    (sh_getErrors polls inReport0 sendRc sh severity pErrors numErrors).sent
  | ApiCall.getCounts polls inReport0 sendRc sensorId pCounts =>
    (sh_getCounts polls inReport0 sendRc sh sensorId pCounts).sent
  | ApiCall.clearCounts polls sendRc sensorId => (sh_clearCounts polls sendRc sh sensorId).sent
  | ApiCall.tareNow polls sendRc axes basis => (sh_tareNow polls sendRc sh axes basis).sent
  | ApiCall.tareClear polls sendRc => (sh_tareClear polls sendRc sh).sent
  | ApiCall.persistTare polls sendRc => (sh_persistTare polls sendRc sh).sent
  | ApiCall.setReorientation polls sendRc x y z w =>
    (sh_setReorientation polls sendRc sh x y z w).sent
  | ApiCall.reinitialize polls sendRc => ( sh_reinitialize polls sendRc sh).sent
  | ApiCall.dcdSaveNow polls inReport0 sendRc => (sh_dcdSaveNow polls inReport0 sendRc sh).sent
  | ApiCall.calConfig polls inReport0 sendRc sensors =>
    (sh_calConfig polls inReport0 sendRc sh sensors).sent
  | ApiCall.rvSync polls sendRc rvSyncOp => (sh_rvSync polls sendRc sh rvSyncOp).sent
  | _ => []

/-! ### Traffic of the write and command functions as the specification words it -/

/-- The length of the report a poll delivers. -/
def Poll.len (p : Poll) : Nat := read16 p.buffer - 2

/-- A poll that delivers the given report. -/
def reportPoll (report : List Nat) : Poll where
  intn := false
  timestamp := 0
  i2cRc := 0
  buffer := Mem.store (fun _ => 0) ([report.length + 2, 0] ++ report)

/-- The poll delivers a sensor event: a report with a reportId below 0x80, of any length
and content. -/
def Poll.isSensorEvent (p : Poll) : Bool :=
  p.delivered && decide (1 ≤ p.len) && decide (p.frame 0 % 256 < 0x80)

/-- The poll delivers a COMMAND_RESPONSE: a 16-byte report with reportId 0x88. -/
def Poll.isCommandResp (p : Poll) : Bool :=
  p.delivered && decide (p.len = 16) && decide (p.frame 0 % 256 = 0x88)

/-- The poll delivers a reply to the request with the given command code and sequence
number: a COMMAND_RESPONSE with that command code (byte 2) and that cmdSeq (byte 3). -/
def Poll.isReply (command k : Nat) (p : Poll) : Bool :=
  p.isCommandResp && decide (p.frame 2 % 256 = command) && decide (p.frame 3 % 256 = k)

/-- The poll delivers a COMMAND_RESPONSE that is no reply to the request with the given
command code and sequence number. -/
def Poll.isStaleReply (command k : Nat) (p : Poll) : Bool :=
  p.isCommandResp && !p.isReply command k

/-- The poll delivers an FRS write response: a 4-byte report with reportId 0x84. -/
def Poll.isFrsWriteResp (p : Poll) : Bool :=
  p.delivered && decide (p.len = 4) && decide (p.frame 0 % 256 = 0x84)

/-- The write status is one of the eight error statuses. -/
def frsWriteError (status : Nat) : Bool :=
  status = 1 || status = 2 || status = 5 || status = 6 || status = 7 || status = 9
    || status = 10 || status = 11

/-- The write status asks for more data: neither an error status nor COMPLETED. -/
def frsWriteContinues (status : Nat) : Bool := !frsWriteError status && !(status = 3)

/-- The poll delivers an FRS write response that ends the call: its status is an error
status or COMPLETED. -/
def Poll.isFrsWriteEnd (p : Poll) : Bool :=
  p.isFrsWriteResp && !frsWriteContinues (p.frame 1 % 256)

/-- The error record a reply to REPORT_ERRORS carries (bytes 5 to 10). -/
def Poll.errorRecord (p : Poll) : ErrorRecord where
  severity := p.frame 5 % 256
  sequence := p.frame 6 % 256
  source := p.frame 7 % 256
  error := p.frame 8 % 256
  module := p.frame 9 % 256
  code := p.frame 10 % 256

/-- The reply to REPORT_ERRORS is the sentinel: source 255 or severity 255. -/
def Poll.isSentinel (p : Poll) : Bool :=
  decide (p.frame 7 % 256 = 255) || decide (p.frame 5 % 256 = 255)

/-- The write-data requests of a log of `sh_setFrs`, oldest first. -/
def dataReqs : List FrsWriteEvent → List (List Nat)
  | [] => []
  | FrsWriteEvent.dataReq q :: es => q :: dataReqs es
  | _ :: es => dataReqs es

/-- The number of write responses of a log of `sh_setFrs`. -/
def responseCount : List FrsWriteEvent → Nat
  | [] => 0
  | FrsWriteEvent.response _ :: es => responseCount es + 1
  | _ :: es => responseCount es

/-- The event is a write response whose status asks for more data. -/
def FrsWriteEvent.continues : FrsWriteEvent → Bool
  | FrsWriteEvent.response b => frsWriteContinues (b.getD 1 0)
  | _ => false

/-- The event is a write response with status COMPLETED. -/
def FrsWriteEvent.completed : FrsWriteEvent → Bool
  | FrsWriteEvent.response b => b.getD 1 0 = 3
  | _ => false

/-- The event is a write-data request. -/
def FrsWriteEvent.isDataReq : FrsWriteEvent → Bool
  | FrsWriteEvent.dataReq _ => true
  | _ => false

/-- A little-endian 32-bit word from four bytes of a list. -/
def word32At (bytes : List Nat) (i : Nat) : Nat :=
  bytes.getD i 0 + 2 ^ 8 * bytes.getD (i + 1) 0 + 2 ^ 16 * bytes.getD (i + 2) 0
    + 2 ^ 24 * bytes.getD (i + 3) 0

/-- A hub that stores the valid words of a write-data request at its wordOffset: the
first word always, the second when it lies inside a record of `n` words. -/
def hubStore (n : Nat) (record : Nat → Nat) (req : List Nat) : Nat → Nat :=
  let wordOffset := req.getD 2 0 + 256 * req.getD 3 0
  fun i =>
    if i = wordOffset then word32At req 4
    else if i = wordOffset + 1 ∧ wordOffset + 1 < n then word32At req 8
    else record i

/-- The record in the hub behind a list of write-data requests for a record of `n`
words that was `record0` before. -/
def hubRecord (n : Nat) (record0 : Nat → Nat) (reqs : List (List Nat)) : Nat → Nat :=
  reqs.foldl (hubStore n) record0

/-- The rest of a receive loop reads the report only below its length. -/
def BodyLocal {σ ρ : Type} (body : Nat → Mem → σ → LoopStep σ ρ) : Prop :=
  ∀ len R R2 s, (∀ i, i < len → R i = R2 i) → body len R s = body len R2 s

/-- The receive loop skips the reports selected by `ign`. -/
def BodySkips {σ ρ : Type} (body : Nat → Mem → σ → LoopStep σ ρ) (ign : Poll → Bool) : Prop :=
  ∀ p, ign p = true →
    p.delivered = true ∧ ∀ R s, body p.len (memcpy R p.frame p.len) s = LoopStep.next s


/-- The pacing of a log of `sh_setFrs` for a record of `n` words: at every point the
write-data requests sent are at most as many as the write responses received; a
write-data request comes right behind a write response that asks for more data, at a
point where words remain (twice the number of requests sent before is below `n`); and
such a response at such a point has a write-data request right behind it. -/
def Paced (n : Nat) (log : List FrsWriteEvent) : Prop :=
  (∀ m, (dataReqs (log.take m)).length ≤ responseCount (log.take m))
    ∧ (∀ i q, log[i + 1]? = some (FrsWriteEvent.dataReq q) →
        ∃ b, log[i]? = some (FrsWriteEvent.response b)
          ∧ frsWriteContinues (b.getD 1 0) = true ∧ 2 * (dataReqs (log.take i)).length < n)
    ∧ (∀ i b, log[i]? = some (FrsWriteEvent.response b) →
        frsWriteContinues (b.getD 1 0) = true → 2 * (dataReqs (log.take i)).length < n →
        ∃ q, log[i + 1]? = some (FrsWriteEvent.dataReq q))

/-- The write-data requests carry the record `pData` of `n` words two words at a time:
the `j`-th has wordOffset `2j`, `data[0] = pData[2j]` and, when `2j+1 < n`,
`data[1] = pData[2j+1]`. -/
def Streamed (n : Nat) (pData : Mem) (reqs : List (List Nat)) : Prop :=
  ∀ j, j < reqs.length →
    ∃ d1, reqs[j]? = some (frsWriteDataReq (2 * j) (pData (2 * j) % 2 ^ 32) d1)
      ∧ (2 * j + 1 < n → d1 = pData (2 * j + 1) % 2 ^ 32)

/-- The last event of the log is a write response with status COMPLETED. -/
def EndsCompleted (log : List FrsWriteEvent) : Prop :=
  ∃ b, log.getLast? = some (FrsWriteEvent.response b) ∧ b.getD 1 0 = 3

/-- What holds of the variables of `sh_setFrs` at the loop test, for a record `pData` of
`n` words. -/
def SetFrsInv (n : Nat) (pData : Mem) (v : FrsWriteVars) : Prop :=
  v.toWrite = n - 2 * (dataReqs v.log).length
    ∧ v.offset = min n (2 * (dataReqs v.log).length)
    ∧ 2 * (dataReqs v.log).length ≤ n + 1
    ∧ v.sends = (dataReqs v.log).length + 1
    ∧ Streamed n pData (dataReqs v.log)
    ∧ Paced n v.log

/-- What holds at a return of `sh_setFrs`, for a record `pData` of `n` words. -/
def SetFrsPost (n : Nat) (pData : Mem) (r : FrsWriteResult) : Prop :=
  SetFrsInv n pData r.vars
    ∧ (r.exit = FrsWriteExit.completed ↔ EndsCompleted r.vars.log)
    ∧ (r.exit = FrsWriteExit.completed →
        (r.vars.toWrite = 0 → r.rc = SH_STATUS_SUCCESS)
          ∧ (r.vars.toWrite ≠ 0 → r.rc = SH_STATUS_FRS_WRITE_NOT_ENOUGH))
    ∧ (r.exit ≠ FrsWriteExit.completed → r.rc ≠ SH_STATUS_SUCCESS)

/-- The variables of `sh_setFrs` behind the block `if (toWrite > 0) { ... }`, entered
with the variables `v`. -/
def setFrsData (pData : Mem) (v : FrsWriteVars) : FrsWriteVars :=
  let toWrite := (v.toWrite - 1) % 65536
  let offset := (v.offset + 1) % 65536
  let data1 := if toWrite > 0 then pData offset % 2 ^ 32 else v.data1
  { toWrite := if toWrite > 0 then (toWrite - 1) % 65536 else toWrite
    offset := if toWrite > 0 then (offset + 1) % 65536 else offset
    data1 := data1
    sends := v.sends + 1
    log := v.log ++ [FrsWriteEvent.dataReq
      (frsWriteDataReq v.offset (pData v.offset % 2 ^ 32) data1)] }

/-- The variables of `sh_setFrs` with a write response added to the log. -/
def FrsWriteVars.logResponse (v : FrsWriteVars) (inReport : Mem) : FrsWriteVars :=
  { v with log := v.log ++ [FrsWriteEvent.response (inReport.bytes 4)] }


/-- The poll delivers a report that is no reply to the request with the given command
code and sequence number. -/
def Poll.isNoReply (command k : Nat) (p : Poll) : Bool := p.delivered && !p.isReply command k

/-- The little-endian 32-bit word at byte `off` of the report a poll delivers. -/
def Poll.word32 (p : Poll) (off : Nat) : Nat :=
  p.frame off % 256 + 2 ^ 8 * (p.frame (off + 1) % 256) + 2 ^ 16 * (p.frame (off + 2) % 256)
    + 2 ^ 24 * (p.frame (off + 3) % 256)


/-! ## `SensorHubHid.c`: SET_REPORT and GET_REPORT -/

@[reducible] def SH_STATUS_BAD_PARAM : Int := -2
@[reducible] def SH_STATUS_BAD_REPORT : Int := -4

@[reducible] def SHHID_MAX_REPORT_LEN : Nat := 16
@[reducible] def SH_REGISTER_COMMAND : Nat := 5
@[reducible] def SH_REGISTER_DATA : Nat := 6
@[reducible] def HID_REPORT_TYPE_INPUT : Nat := 0x10
@[reducible] def HID_REPORT_TYPE_OUTPUT : Nat := 0x20
@[reducible] def HID_REPORT_TYPE_FEATURE : Nat := 0x30
@[reducible] def HID_GET_REPORT_OPCODE : Nat := 0x02
@[reducible] def HID_SET_REPORT_OPCODE : Nat := 0x03

/-- One call of `shdev_i2c`: the bytes written and the number of bytes asked to be read. -/
structure I2cTransfer where
  send : List Nat
  recvLen : Nat
  deriving DecidableEq

/-- The outcome of `shhid_setReport`: the status, the cells `cmd[0 .. ix)` as the function
stores them (the array `cmd` has `SHHID_MAX_REPORT_LEN+8` cells; a cell of a higher index
lies behind it), and the calls of `shdev_i2c` made. -/
structure SetReportResult where
  rc : Int
  cmd : List Nat
  i2c : List I2cTransfer

/-- The function `shhid_setReport(hid, reportType, reportId, payload, payloadLen)`;
`i2cRc` is the status `shdev_i2c` gives. -/
def shhid_setReport (i2cRc : Int) (reportType reportId : Nat) (payload : Mem)
    (payloadLen : Nat) : SetReportResult :=
  let reportType := reportType % 256
  let reportId := reportId % 256
  let payloadLen := payloadLen % 65536
  let head :=
    if reportId < 0x0F then
      [SH_REGISTER_COMMAND, 0, (reportType ||| reportId) % 256, HID_SET_REPORT_OPCODE]
    else
      [SH_REGISTER_COMMAND, 0, (reportType ||| 0x0F) % 256, HID_SET_REPORT_OPCODE, reportId]
  let cmd := head ++ [SH_REGISTER_DATA, 0, (payloadLen + 2) % 256, 0] ++ payload.bytes payloadLen
  ⟨i2cRc, cmd, [⟨cmd, 0⟩]⟩

/-- The function `shhid_setOutReport(hid, report, reportLen)`. -/
def shhid_setOutReport (i2cRc : Int) (report : Mem) (reportLen : Nat) : SetReportResult :=
  shhid_setReport i2cRc HID_REPORT_TYPE_OUTPUT (report 0) (report.shift 1)
    (reportLen % 65536 + 65535)

/-- The function `shhid_setFeatureReport(hid, report, reportLen)`. -/
def shhid_setFeatureReport (i2cRc : Int) (report : Mem) (reportLen : Nat) : SetReportResult :=
  shhid_setReport i2cRc HID_REPORT_TYPE_FEATURE (report 0) (report.shift 1)
    (reportLen % 65536 + 65535)

/-- The conversion of an `int` to `size_t` on a platform whose `size_t` has `sizeBits`
bits. -/
def toSizeT (sizeBits : Nat) (n : Int) : Nat := (n % 2 ^ sizeBits).toNat

/-- The outcome of `shhid_getReport`: the status, the memory at `payload`, `*payloadLen`,
the value of `copylen` at the call of `memcpy` and the number of bytes that call copies
(both absent when the function returns before it), and the calls of `shdev_i2c` made. -/
structure GetReportResult where
  status : Int
  payload : Mem
  payloadLen : Nat
  copylen : Option Int
  copied : Option Nat
  i2c : List I2cTransfer

/-- The function `shhid_getReport(hid, reportType, reportId, payload, payloadLen)`.
`i2cRc` is the status `shdev_i2c` gives and `buffer` the memory at the local `buffer`
(18 cells, and what lies behind them) when it returns; `payloadLen` is the incoming
`*payloadLen`; `sizeBits` is the width of `size_t`. -/
def shhid_getReport (sizeBits : Nat) (i2cRc : Int) (buffer : Mem) (reportType reportId : Nat)
    (payload : Mem) (payloadLen : Nat) : GetReportResult :=
  let reportType := reportType % 256
  let reportId := reportId % 256
  let payloadLen := payloadLen % 65536
  let head :=
    if reportId < 0x0F then
      [SH_REGISTER_COMMAND, 0, (reportType ||| reportId) % 256, HID_GET_REPORT_OPCODE]
    else
      [SH_REGISTER_COMMAND, 0, (reportType ||| 0x0F) % 256, HID_GET_REPORT_OPCODE, reportId]
  let cmd := head ++ [SH_REGISTER_DATA, 0]
  let i2c := [(⟨cmd, SHHID_MAX_REPORT_LEN + 2⟩ : I2cTransfer)]
  let status := i2cRc
  if status < 0 then ⟨status, payload, payloadLen, none, none, i2c⟩
  else
    let copylen : Int := (read16 buffer : Int) - 2
    let copylen : Int := if copylen > (payloadLen : Int) then (payloadLen : Int) else copylen
    let copied := toSizeT sizeBits copylen
    ⟨status, memcpy payload (buffer.shift 2) copied, (copylen % 65536).toNat, some copylen,
      some copied, i2c⟩

/-- The outcome of `shhid_getFeatureReport`: the status, the memory at `report`,
`*reportLen`, the calls of `shdev_i2c` made, and the count `memcpy` was given for the
copy into `report->body` when `shhid_getReport` made one. -/
structure GetFeatureResult where
  rc : Int
  report : Mem
  reportLen : Nat
  i2c : List I2cTransfer
  copied : Option Nat

/-- The memory at `report` given its first cell and the memory at `report->body`. -/
def withBody (report body : Mem) : Mem := fun i => if i = 0 then report 0 else body (i - 1)

/-- The function `shhid_getFeatureReport(hid, report, reportLen)`; `reportLen` is the
incoming `*reportLen`. -/
def shhid_getFeatureReport (sizeBits : Nat) (i2cRc : Int) (buffer : Mem) (report : Mem)
    (reportLen : Nat) : GetFeatureResult :=
  let reportLen := reportLen % 65536
  let len := (reportLen + 65535) % 65536
  let r := shhid_getReport sizeBits i2cRc buffer HID_REPORT_TYPE_FEATURE (report 0)
    (report.shift 1) len
  let rc := r.status
  if rc ≠ SH_STATUS_SUCCESS then ⟨rc, withBody report r.payload, reportLen, r.i2c, r.copied⟩
  else ⟨rc, withBody report r.payload, (r.payloadLen + 1) % 65536, r.i2c, r.copied⟩

/-! ## `SensorHub.c`: sensor configuration -/

@[reducible] def SH_CHANGE_SENSITIVITY_RELATIVE : Nat := 0x01
@[reducible] def SH_CHANGE_SENSITIVITY_ENABLED : Nat := 0x02
@[reducible] def SH_WAKEUP_ENABLED : Nat := 0x04

/-- The type `sh_SensorConfig_t`. -/
structure SensorConfig where
  changeSensitivityEnabled : Bool
  changeSensitivityRelative : Bool
  wakeupEnabled : Bool
  changeSensitivity : Nat
  reportInterval_us : Nat
  reserved1 : Nat
  sensorSpecific : Nat
  deriving DecidableEq

/-- A return of `sh_getSensorConfig`: the status, the record `*config`, and the calls of
`shdev_i2c` made. -/
structure GetConfigResult where
  rc : Int
  config : SensorConfig
  i2c : List I2cTransfer

/-- The function `sh_getSensorConfig(sh, sensorId, config)`.  `report0` is the memory at
the uninitialised local `report`, `config` the record `*config` at the call; `i2cRc` and
`buffer` are the answer of the platform to the GET_REPORT transfer.  The local `report`
has 16 bytes, one for the reportId and 15 for `report.body`, which is where
`shhid_getReport` copies to.  The result is `none` when that `memcpy` was given a count
above 15: it then writes past the local `report` and the call has no defined return. -/
def sh_getSensorConfig (sizeBits : Nat) (i2cRc : Int) (buffer : Mem) (report0 : Mem)
    (sensorId : Nat) (config : SensorConfig) : Option GetConfigResult :=
  let sensorId := sensorId % 256
  let report := report0.set 0 sensorId
  let g := shhid_getFeatureReport sizeBits i2cRc buffer report 16
  let status := g.rc
  if g.copied.getD 0 > 16 - 1 then none
  else if status < 0 then some ⟨status, config, g.i2c⟩
  else if g.reportLen ≠ 16 ∨ g.report 0 % 256 ≠ sensorId then
    some ⟨SH_STATUS_BAD_REPORT, config, g.i2c⟩
  else
    let flags := g.report 1 % 256
    some ⟨0,
      { config with
        changeSensitivityRelative := decide (flags &&& SH_CHANGE_SENSITIVITY_RELATIVE ≠ 0)
        changeSensitivityEnabled := decide (flags &&& SH_CHANGE_SENSITIVITY_ENABLED ≠ 0)
        wakeupEnabled := decide (flags &&& SH_WAKEUP_ENABLED ≠ 0)
        changeSensitivity := read16 (g.report.shift 2)
        reportInterval_us := load32 (g.report.shift 4)
        reserved1 := load32 (g.report.shift 8) },
      g.i2c⟩

/-- The bytes of the `sh_SensorConfigFeatureReport_t` that `sh_setSensorConfig` fills in. -/
def sensorConfigReport (sensorId : Nat) (config : SensorConfig) : List Nat :=
  [sensorId % 256,
    ((if config.changeSensitivityRelative then SH_CHANGE_SENSITIVITY_RELATIVE else 0)
      ||| (if config.changeSensitivityEnabled then SH_CHANGE_SENSITIVITY_ENABLED else 0)
      ||| (if config.wakeupEnabled then SH_WAKEUP_ENABLED else 0)) % 256]
    ++ le16 (config.changeSensitivity % 2 ^ 16) ++ le32 (config.reportInterval_us % 2 ^ 32)
    ++ le32 (config.reserved1 % 2 ^ 32) ++ le32 (config.sensorSpecific % 2 ^ 32)

/-- The function `sh_setSensorConfig(sh, sensorId, config)`: the status returned and what
`shhid_setFeatureReport` did; `junk` is the memory behind the local `report`. -/
def sh_setSensorConfig (i2cRc : Int) (junk : Mem) (sensorId : Nat) (config : SensorConfig) :
    SetReportResult :=
  shhid_setFeatureReport i2cRc (Mem.store junk (sensorConfigReport sensorId config)) 16


/-! ## `SensorHub.c`: the event decoder -/

@[reducible] def SH_RAW_ACCELEROMETER : Nat := 0x14
@[reducible] def SH_ACCELEROMETER : Nat := 0x01
@[reducible] def SH_LINEAR_ACCELERATION : Nat := 0x04
@[reducible] def SH_GRAVITY : Nat := 0x06
@[reducible] def SH_RAW_GYROSCOPE : Nat := 0x15
@[reducible] def SH_GYROSCOPE_CALIBRATED : Nat := 0x02
@[reducible] def SH_GYROSCOPE_UNCALIBRATED : Nat := 0x07
@[reducible] def SH_RAW_MAGNETOMETER : Nat := 0x16
@[reducible] def SH_MAGNETIC_FIELD_CALIBRATED : Nat := 0x03
@[reducible] def SH_MAGNETIC_FIELD_UNCALIBRATED : Nat := 0x0f
@[reducible] def SH_ROTATION_VECTOR : Nat := 0x05
@[reducible] def SH_GAME_ROTATION_VECTOR : Nat := 0x08
@[reducible] def SH_GEOMAGNETIC_ROTATION_VECTOR : Nat := 0x09
@[reducible] def SH_PRESSURE : Nat := 0x0a
@[reducible] def SH_AMBIENT_LIGHT : Nat := 0x0b
@[reducible] def SH_HUMIDITY : Nat := 0x0c
@[reducible] def SH_PROXIMITY : Nat := 0x0d
@[reducible] def SH_TEMPERATURE : Nat := 0x0e
@[reducible] def SH_SAR : Nat := 0x17
@[reducible] def SH_TAP_DETECTOR : Nat := 0x10
@[reducible] def SH_STEP_DETECTOR : Nat := 0x18
@[reducible] def SH_STEP_COUNTER : Nat := 0x11
@[reducible] def SH_SIGNIFICANT_MOTION : Nat := 0x12
@[reducible] def SH_ACTIVITY_CLASSIFICATION : Nat := 0x13
@[reducible] def SH_SHAKE_DETECTOR : Nat := 0x19
@[reducible] def SH_FLIP_DETECTOR : Nat := 0x1a
@[reducible] def SH_PICKUP_DETECTOR : Nat := 0x1b
@[reducible] def SH_STABILITY_DETECTOR : Nat := 0x1c

/-- The function `read32`: a little-endian `uint32_t` from four bytes. -/
def read32 (buffer : Mem) : Nat :=
  ((buffer 0 % 256) ||| ((buffer 1 % 256) <<< 8) ||| ((buffer 2 % 256) <<< 16)
    ||| ((buffer 3 % 256) <<< 24)) % 2 ^ 32

/-- The store of a `uint16_t` at byte `i` of a buffer, little-endian host. -/
def Mem.store16 (m : Mem) (i v : Nat) : Mem := (m.set i (v % 256)).set (i + 1) (v / 256 % 256)

/-- The store of a `uint32_t` at byte `i` of a buffer, little-endian host. -/
def Mem.store32 (m : Mem) (i v : Nat) : Mem :=
  (((m.set i (v % 256)).set (i + 1) (v / 2 ^ 8 % 256)).set (i + 2) (v / 2 ^ 16 % 256)).set
    (i + 3) (v / 2 ^ 24 % 256)

/-- The statics `time_us` and `last_timestamp` of `decodeEvent`. -/
structure DecoderState where
  time_us : Nat
  last_timestamp : Nat
  deriving DecidableEq

/-- The statics of `decodeEvent` before its first call. -/
def DecoderState.init : DecoderState := ⟨0, 0⟩

/-- The type `sh_SensorEvent_t`; `un` is the memory of the union, 12 bytes. -/
structure SensorEvent where
  sensor : Nat
  sequenceNumber : Nat
  time_us : Nat
  status : Nat
  delay : Nat
  un : Mem

/-- The member `un.field16[i]` of an event. -/
def SensorEvent.field16 (event : SensorEvent) (i : Nat) : Nat := read16 (event.un.shift (2 * i))

/-- The member `un.field32[i]` of an event. -/
def SensorEvent.field32 (event : SensorEvent) (i : Nat) : Nat := load32 (event.un.shift (4 * i))

/-- The member `un.stepCounter.detectLatency` of an event (bytes 0..3 of the union). -/
def SensorEvent.detectLatency (event : SensorEvent) : Nat := load32 event.un

/-- The member `un.stepCounter.steps` of an event (bytes 4..5 of the union). -/
def SensorEvent.steps (event : SensorEvent) : Nat := read16 (event.un.shift 4)

/-- The member `un.stepCounter.reserved` of an event (bytes 6..7 of the union). -/
def SensorEvent.reserved (event : SensorEvent) : Nat := read16 (event.un.shift 6)

/-- A return of `decodeEvent`: the status, the record `*event`, the statics. -/
structure DecodeResult where
  rc : Int
  event : SensorEvent
  st : DecoderState

/-- The conversion of a `uint32_t` to `int32_t` (two's complement). -/
def toInt32 (u : Nat) : Int :=
  if u % 2 ^ 32 < 2 ^ 31 then ((u % 2 ^ 32 : Nat) : Int) else ((u % 2 ^ 32 : Nat) : Int) - 2 ^ 32

/-- The function `decodeEvent(event, report, length, timestamp)`, with the statics
`time_us` and `last_timestamp` as the state `st`. -/
def decodeEvent (st : DecoderState) (event : SensorEvent) (report : Mem)
    (length timestamp : Nat) : DecodeResult :=
  let length := length % 65536
  let timestamp := timestamp % 2 ^ 32
  if length > SHHID_MAX_INPUT_REPORT_LEN then ⟨SH_STATUS_BAD_PARAM, event, st⟩
  else if report 0 % 256 ≥ 0x80 then ⟨SH_STATUS_BAD_REPORT, event, st⟩
  else
    let delay := ((report 3 % 256) * (1 <<< (((report 2 % 256) >>> 2) &&& 0x07))) % 2 ^ 32
    let delta_t := toInt32 ((timestamp + 2 ^ 32 - st.last_timestamp % 2 ^ 32) % 2 ^ 32)
    let last_timestamp := timestamp
    let time_us := ((((st.time_us % 2 ^ 64 : Nat) : Int) + delta_t) % 2 ^ 64).toNat
    let st : DecoderState := ⟨time_us, last_timestamp⟩
    let event : SensorEvent :=
      { event with
        time_us := (time_us + 2 ^ 64 - delay) % 2 ^ 64
        sensor := report 0 % 256
        sequenceNumber := report 1 % 256
        status := report 2 % 256
        delay := report 3 % 256 }
    let data := report.shift 4
    let sensor := event.sensor
    if sensor = SH_HUMIDITY ∨ sensor = SH_PROXIMITY ∨ sensor = SH_TEMPERATURE
        ∨ sensor = SH_SIGNIFICANT_MOTION ∨ sensor = SH_SHAKE_DETECTOR
        ∨ sensor = SH_FLIP_DETECTOR ∨ sensor = SH_PICKUP_DETECTOR
        ∨ sensor = SH_STABILITY_DETECTOR then
      if length < 6 then ⟨SH_STATUS_BAD_REPORT, event, st⟩
      else ⟨SH_STATUS_SUCCESS, { event with un := event.un.store16 0 (read16 data) }, st⟩
    else if sensor = SH_PRESSURE ∨ sensor = SH_AMBIENT_LIGHT ∨ sensor = SH_STEP_DETECTOR then
      if length < 8 then ⟨SH_STATUS_BAD_REPORT, event, st⟩
      else ⟨SH_STATUS_SUCCESS, { event with un := event.un.store32 0 (read32 data) }, st⟩
    else if sensor = SH_RAW_ACCELEROMETER ∨ sensor = SH_RAW_GYROSCOPE
        ∨ sensor = SH_RAW_MAGNETOMETER then
      if length < 16 then ⟨SH_STATUS_BAD_REPORT, event, st⟩
      else
        ⟨SH_STATUS_SUCCESS,
          { event with
            un := ((((event.un.store16 0 (read16 data)).store16 2 (read16 (data.shift 2))).store16
              4 (read16 (data.shift 4))).store16 6 (read16 (data.shift 6))).store32 8
              (read32 (data.shift 8)) }, st⟩
    else if sensor = SH_ACCELEROMETER ∨ sensor = SH_LINEAR_ACCELERATION ∨ sensor = SH_GRAVITY
        ∨ sensor = SH_GYROSCOPE_CALIBRATED ∨ sensor = SH_MAGNETIC_FIELD_CALIBRATED then
      if length < 10 then ⟨SH_STATUS_BAD_REPORT, event, st⟩
      else
        ⟨SH_STATUS_SUCCESS,
          { event with
            un := ((event.un.store16 0 (read16 data)).store16 2 (read16 (data.shift 2))).store16
              4 (read16 (data.shift 4)) }, st⟩
    else if sensor = SH_GAME_ROTATION_VECTOR then
      if length < 12 then ⟨SH_STATUS_BAD_REPORT, event, st⟩
      else
        ⟨SH_STATUS_SUCCESS,
          { event with
            un := (((event.un.store16 0 (read16 data)).store16 2 (read16 (data.shift 2))).store16
              4 (read16 (data.shift 4))).store16 6 (read16 (data.shift 6)) }, st⟩
    else if sensor = SH_ROTATION_VECTOR ∨ sensor = SH_GEOMAGNETIC_ROTATION_VECTOR then
      if length < 14 then ⟨SH_STATUS_BAD_REPORT, event, st⟩
      else
        ⟨SH_STATUS_SUCCESS,
          { event with
            un := ((((event.un.store16 0 (read16 data)).store16 2 (read16 (data.shift 2))).store16
              4 (read16 (data.shift 4))).store16 6 (read16 (data.shift 6))).store16 8
              (read16 (data.shift 8)) }, st⟩
    else if sensor = SH_GYROSCOPE_UNCALIBRATED ∨ sensor = SH_MAGNETIC_FIELD_UNCALIBRATED then
      if length < 16 then ⟨SH_STATUS_BAD_REPORT, event, st⟩
      else
        ⟨SH_STATUS_SUCCESS,
          { event with
            un := (((((event.un.store16 0 (read16 data)).store16 2
              (read16 (data.shift 2))).store16 4 (read16 (data.shift 4))).store16 6
              (read16 (data.shift 6))).store16 8 (read16 (data.shift 8))).store16 10
              (read16 (data.shift 10)) }, st⟩
    else if sensor = SH_STEP_COUNTER then
      if length < 12 then ⟨SH_STATUS_BAD_REPORT, event, st⟩
      else
        ⟨SH_STATUS_SUCCESS,
          { event with
            un := ((event.un.store32 0 (read32 data)).store16 4 (read16 (data.shift 4))).store16
              6 (read16 (data.shift 6)) }, st⟩
    else ⟨SH_STATUS_BAD_REPORT, event, st⟩


/-! ### Reports and events as the specification words them -/

/-- The little-endian 16-bit value at bytes `i`, `i+1` of a buffer. -/
def u16At (m : Mem) (i : Nat) : Nat := m i % 256 + 256 * (m (i + 1) % 256)

/-- The little-endian 32-bit value at bytes `i .. i+3` of a buffer. -/
def u32At (m : Mem) (i : Nat) : Nat :=
  m i % 256 + 2 ^ 8 * (m (i + 1) % 256) + 2 ^ 16 * (m (i + 2) % 256)
    + 2 ^ 24 * (m (i + 3) % 256)

/-- The common fields of the event are those of the report: sensor, sequence number,
status and delay are the bytes 0 to 3. -/
def CommonFields (r : DecodeResult) (report : Mem) : Prop :=
  r.event.sensor = report 0 % 256 ∧ r.event.sequenceNumber = report 1 % 256
    ∧ r.event.status = report 2 % 256 ∧ r.event.delay = report 3 % 256

/-- The first `n` members of `field16` are the little-endian 16-bit values of the data
bytes of the report (which start at byte 4). -/
def Decoded16 (r : DecodeResult) (report : Mem) (n : Nat) : Prop :=
  ∀ k, k < n → r.event.field16 k = u16At report (4 + 2 * k)


/-- The least length of a report the decoder takes for a sensor, by the layout of its
report: 6 for one 16-bit value, 8 for one 32-bit value, 10 for three 16-bit values, 12
for the game rotation vector and the step counter, 14 for the rotation vectors, 16 for
the raw and the uncalibrated sensors; none for an ID without a layout. -/
def layoutMin (reportId : Nat) : Option Nat :=
  if reportId ∈ [SH_HUMIDITY, SH_PROXIMITY, SH_TEMPERATURE, SH_SIGNIFICANT_MOTION,
      SH_SHAKE_DETECTOR, SH_FLIP_DETECTOR, SH_PICKUP_DETECTOR, SH_STABILITY_DETECTOR] then some 6
  else if reportId ∈ [SH_PRESSURE, SH_AMBIENT_LIGHT, SH_STEP_DETECTOR] then some 8
  else if reportId ∈ [SH_ACCELEROMETER, SH_LINEAR_ACCELERATION, SH_GRAVITY,
      SH_GYROSCOPE_CALIBRATED, SH_MAGNETIC_FIELD_CALIBRATED] then some 10
  else if reportId ∈ [SH_GAME_ROTATION_VECTOR, SH_STEP_COUNTER] then some 12
  else if reportId ∈ [SH_ROTATION_VECTOR, SH_GEOMAGNETIC_ROTATION_VECTOR] then some 14
  else if reportId ∈ [SH_RAW_ACCELEROMETER, SH_RAW_GYROSCOPE, SH_RAW_MAGNETOMETER,
      SH_GYROSCOPE_UNCALIBRATED, SH_MAGNETIC_FIELD_UNCALIBRATED] then some 16
  else none

/-- An event record with every member zero. -/
def zeroEvent : SensorEvent := ⟨0, 0, 0, 0, 0, fun _ => 0⟩

/-- The report of the specification's decoding scenario: rotation vector (0x05),
sequence number 7, status 0x03, delay 10, and the values 100, 200, 300, 400, 500. -/
def rotationVectorReport : Mem :=
  Mem.store (fun _ => 0)
    ([0x05, 7, 0x03, 10] ++ le16 100 ++ le16 200 ++ le16 300 ++ le16 400 ++ le16 500 ++ [0, 0])


/-- One call of `decodeEvent`: the record and report handed in, the length and the
timestamp. -/
structure DecodeCall where
  event : SensorEvent
  report : Mem
  length : Nat
  timestamp : Nat

/-- The statics of `decodeEvent` after a sequence of calls, the first made with the
statics at their initial values. -/
def decoderAfter (calls : List DecodeCall) : DecoderState :=
  calls.foldl (fun st c => (decodeEvent st c.event c.report c.length c.timestamp).st)
    DecoderState.init

/-- The step from the last timestamp to a new one as the specification words it: the
difference modulo 2^32, read as a signed 32-bit integer. -/
def signedDelta (ts last : Nat) : Int :=
  if ((ts : Int) - (last : Int)) % 2 ^ 32 < 2 ^ 31 then ((ts : Int) - (last : Int)) % 2 ^ 32
  else ((ts : Int) - (last : Int)) % 2 ^ 32 - 2 ^ 32

/-- The delay of a report in microseconds as the specification words it: the significand
(byte 3) times two to the exponent, the bits 4..2 of the status (byte 2). -/
def delayUs (report : Mem) : Nat := (report 3 % 256) * 2 ^ ((report 2 % 256) / 4 % 8)

/-- A humidity report (0x0c) of six bytes with the given delay byte, status 0. -/
def humidityReport (delay : Nat) : Mem := Mem.store (fun _ => 0) [0x0c, 0, 0, delay, 0x34, 0x12]

/-- What a call of `decodeEvent` with the statics `st` leaves when it reaches the
timestamp processing: the advanced statics, and the time and the common fields of the
event. -/
def Advanced (st : DecoderState) (report : Mem) (timestamp : Nat) (r : DecodeResult) : Prop :=
  r.st = ⟨((((st.time_us % 2 ^ 64 : Nat) : Int)
      + toInt32 ((timestamp % 2 ^ 32 + 2 ^ 32 - st.last_timestamp % 2 ^ 32) % 2 ^ 32))
        % 2 ^ 64).toNat, timestamp % 2 ^ 32⟩
    ∧ r.event.time_us
      = (r.st.time_us + 2 ^ 64
          - ((report 3 % 256) * (1 <<< (((report 2 % 256) >>> 2) &&& 0x07))) % 2 ^ 32) % 2 ^ 64
    ∧ CommonFields r report


/-! ### HID transfers as the specification words them -/

/-- The command byte of a SET_REPORT or GET_REPORT frame: the report type with the
reportId in the low four bits when it is below 0x0F, with 0x0F otherwise. -/
def hidCommandByte (reportType reportId : Nat) : Nat :=
  if reportId < 0x0F then reportType ||| reportId else reportType ||| 0x0F

/-- The extension byte of a frame: the reportId, present only when it is 0x0F or more. -/
def hidExtension (reportId : Nat) : List Nat := if reportId ≥ 0x0F then [reportId] else []

/-- The SET_REPORT frame in the words of the specification:
`[REG_COMMAND le16][0x00][command byte][0x03][extension][REG_DATA le16][len+2 le16]`
and the payload. -/
def setReportFrameAsWorded (reportType reportId : Nat) (payload : List Nat) : List Nat :=
  le16 SH_REGISTER_COMMAND ++ [0x00] ++ [hidCommandByte reportType reportId]
    ++ [HID_SET_REPORT_OPCODE] ++ hidExtension reportId ++ le16 SH_REGISTER_DATA
    ++ le16 (payload.length + 2) ++ payload

/-- The SET_REPORT frame without the 0x00 byte behind the command register:
`[REG_COMMAND le16][command byte][0x03][extension][REG_DATA le16][len+2 le16]` and the
payload. -/
def setReportFrame (reportType reportId : Nat) (payload : List Nat) : List Nat :=
  le16 SH_REGISTER_COMMAND ++ [hidCommandByte reportType reportId]
    ++ [HID_SET_REPORT_OPCODE] ++ hidExtension reportId ++ le16 SH_REGISTER_DATA
    ++ le16 (payload.length + 2) ++ payload

/-- The GET_REPORT frame: `[REG_COMMAND le16][command byte][0x02][extension][REG_DATA le16]`,
and no payload. -/
def getReportFrame (reportType reportId : Nat) : List Nat :=
  le16 SH_REGISTER_COMMAND ++ [hidCommandByte reportType reportId]
    ++ [HID_GET_REPORT_OPCODE] ++ hidExtension reportId ++ le16 SH_REGISTER_DATA

/-- A buffer of zeros. -/
def zeroMem : Mem := fun _ => 0

/-- The members of a configuration are in the range of their C types. -/
def SensorConfig.InRange (c : SensorConfig) : Prop :=
  c.changeSensitivity < 2 ^ 16 ∧ c.reportInterval_us < 2 ^ 32 ∧ c.reserved1 < 2 ^ 32
    ∧ c.sensorSpecific < 2 ^ 32

/-- The answer of the hub to GET_REPORT that hands back the payload a SET_REPORT frame
carried: the length field, which counts its own two bytes, and the payload. -/
def getReportAnswer (junk : Mem) (payload : List Nat) : Mem :=
  Mem.store junk (le16 (payload.length + 2) ++ payload)

/-- A configuration for the scenarios: relative change sensitivity of 100 and wake-up
enabled, an interval of 10000 microseconds, and the sensor-specific word 99. -/
def exampleConfig : SensorConfig := ⟨true, true, true, 100, 10000, 0, 99⟩

/-- The call is one of the two functions whose request is a `sh_SetReorientationReq_t`. -/
def ApiCall.usesReorientationReq : ApiCall → Bool
  | ApiCall.tareClear _ _ => true
  | ApiCall.setReorientation _ _ _ _ _ _ => true
  | _ => false

/-! ### Counting what the DFU engine did -/

/-- The event is an I2C write, that is the sending of one packet. -/
def DfuEvent.isWrite : DfuEvent → Bool
  | DfuEvent.i2cWrite _ => true
  | _ => false

/-- The number of packets sent. -/
def packetsSent (events : List DfuEvent) : Nat := events.countP DfuEvent.isWrite

/-- The number of calls of the blob's `close()`. -/
def closeCalls (events : List DfuEvent) : Nat := events.count DfuEvent.hcbinClose

/-- The number of calls of the blob's `open()`. -/
def openCalls (events : List DfuEvent) : Nat := events.count DfuEvent.hcbinOpen

/-- A blob of the given length and packet size whose `getAppData` succeeds and stores
nothing. -/
def silentBlob (format : Option String) (appLen packetLen : Nat) : HcBin where
  getMeta := fun key => if key = "FW-Format" then format else none
  getAppLen := appLen
  getPacketLen := packetLen
  getAppData := fun _ _ => (0, [])

/-! ## `SensorHubHid.c` and `SensorHub.c`: the transfers of `shhid_in`, and `sh_getEventTO` -/

/-- The calls of `shdev_i2c` that `shhid_in` makes: none when INTN is not asserted within
the wait, else one read of `sizeof(buffer)` bytes with nothing sent. -/
def shhid_in_i2c (p : Poll) : List I2cTransfer :=
  let ready := (p.intn == false)
  if !ready then [] else [⟨[], SHHID_MAX_REPORT_LEN + 2⟩]

/-- The function `sh_getEventTO(sh, timeout_ms, pEvent)`: the status, the record `*pEvent`
and the statics of `decodeEvent`.  `p` is what the platform does during the one call of
`shhid_in` (with `timeout_ms` as the wait), `inReport0` and `timestamp0` are the contents
of the uninitialised locals `inReport` and `timestamp`. -/
def sh_getEventTO (p : Poll) (inReport0 : Mem) (timestamp0 : Nat) (st : DecoderState)
    (pEvent : SensorEvent) : DecodeResult :=
  let r := shhid_in p inReport0 16 true
  let timestamp := match r.timestamp with
    | some ts => ts
    | none => timestamp0
  let rc := r.rc
  if rc ≠ SH_STATUS_SUCCESS then ⟨rc, pEvent, st⟩
  else decodeEvent st pEvent r.report r.reportLen timestamp

/-- What one matching reply stores into `*pCounts`, by its respSeq (byte 4): the two
32-bit words at bytes 8 and 12 go to `offered` and `accepted` for respSeq 0, to `on`
and `attempted` for respSeq 1, and nowhere for any other respSeq. -/
def storeCounts (c : Counts) (r : Poll) : Counts :=
  if r.frame 4 % 256 = 0 then { c with offered := r.word32 8, accepted := r.word32 12 }
  else if r.frame 4 % 256 = 1 then { c with on_ := r.word32 8, attempted := r.word32 12 }
  else c

/-- The poll delivers a product-ID response: a 16-byte report with reportId 0x81. -/
def Poll.isProdIdResp (p : Poll) : Bool :=
  p.delivered && decide (p.len = 16) && decide (p.frame 0 % 256 = 0x81)

/-- The poll delivers a report that is no product-ID response. -/
def Poll.isNoProdId (p : Poll) : Bool := p.delivered && !p.isProdIdResp

/-- The product-ID record a response carries: resetCause, swVerMajor and swVerMinor are
the bytes 1, 2, 3, swPartNo and swBuildNo the little-endian 32-bit words at bytes 4 and
8, swVerPatch the little-endian 16-bit value at byte 12. -/
def Poll.productId (p : Poll) : ProductId :=
  ⟨p.frame 1 % 256, p.frame 2 % 256, p.frame 3 % 256, p.word32 4, p.word32 8,
    u16At p.frame 12⟩

/-- A poll that delivers a product-ID response with the given fields. -/
def prodIdPoll (resetCause major minor part build patch : Nat) : Poll :=
  reportPoll ([0x81, resetCause, major, minor] ++ le32 part ++ le32 build ++ le16 patch ++ [0, 0])

/-! ## Sensor metadata (`sh_getMetadata`) -/

@[reducible] def SH_PERSONAL_ACTIVITY_CLASSIFIER : Nat := 0x1e
@[reducible] def SH_SLEEP_DETECTOR : Nat := 0x1f
@[reducible] def MAX_FRS_WORDS : Nat := 72

@[reducible] def SH_META_RAW_ACCELEROMETER : Nat := 0xE301
@[reducible] def SH_META_ACCELEROMETER : Nat := 0xE302
@[reducible] def SH_META_LINEAR_ACCELERATION : Nat := 0xE303
@[reducible] def SH_META_GRAVITY : Nat := 0xE304
@[reducible] def SH_META_RAW_GYROSCOPE : Nat := 0xE305
@[reducible] def SH_META_GYROSCOPE_CALIBRATED : Nat := 0xE306
@[reducible] def SH_META_GYROSCOPE_UNCALIBRATED : Nat := 0xE307
@[reducible] def SH_META_RAW_MAGNETOMETER : Nat := 0xE308
@[reducible] def SH_META_MAGNETIC_FIELD_CALIBRATED : Nat := 0xE309
@[reducible] def SH_META_MAGNETIC_FIELD_UNCALIBRATED : Nat := 0xE30A
@[reducible] def SH_META_ROTATION_VECTOR : Nat := 0xE30B
@[reducible] def SH_META_GAME_ROTATION_VECTOR : Nat := 0xE30C
@[reducible] def SH_META_GEOMAGNETIC_ROTATION_VECTOR : Nat := 0xE30D
@[reducible] def SH_META_PRESSURE : Nat := 0xE30E
@[reducible] def SH_META_AMBIENT_LIGHT : Nat := 0xE30F
@[reducible] def SH_META_HUMIDITY : Nat := 0xE310
@[reducible] def SH_META_PROXIMITY : Nat := 0xE311
@[reducible] def SH_META_TEMPERATURE : Nat := 0xE312
@[reducible] def SH_META_TAP_DETECTOR : Nat := 0xE313
@[reducible] def SH_META_STEP_DETECTOR : Nat := 0xE314
@[reducible] def SH_META_STEP_COUNTER : Nat := 0xE315
@[reducible] def SH_META_SIGNIFICANT_MOTION : Nat := 0xE316
@[reducible] def SH_META_ACTIVITY_CLASSIFICATION : Nat := 0xE317
@[reducible] def SH_META_SHAKE_DETECTOR : Nat := 0xE318
@[reducible] def SH_META_FLIP_DETECTOR : Nat := 0xE319
@[reducible] def SH_META_PICKUP_DETECTOR : Nat := 0xE31A
@[reducible] def SH_META_STABILITY_DETECTOR : Nat := 0xE31B
@[reducible] def SH_META_PERSONAL_ACTIVITY_CLASSIFIER : Nat := 0xE31C
@[reducible] def SH_META_SLEEP_DETECTOR : Nat := 0xE31D

/-- The static table `sensorToRecordMap` of `sh_getMetadata`: sensor id and the FRS record
that holds its metadata, in the order of the source. -/
def sensorToRecordMap : List (Nat × Nat) :=
  [(SH_RAW_ACCELEROMETER, SH_META_RAW_ACCELEROMETER), (SH_ACCELEROMETER, SH_META_ACCELEROMETER),
   (SH_LINEAR_ACCELERATION, SH_META_LINEAR_ACCELERATION), (SH_GRAVITY, SH_META_GRAVITY),
   (SH_RAW_GYROSCOPE, SH_META_RAW_GYROSCOPE),
   (SH_GYROSCOPE_CALIBRATED, SH_META_GYROSCOPE_CALIBRATED),
   (SH_GYROSCOPE_UNCALIBRATED, SH_META_GYROSCOPE_UNCALIBRATED),
   (SH_RAW_MAGNETOMETER, SH_META_RAW_MAGNETOMETER),
   (SH_MAGNETIC_FIELD_CALIBRATED, SH_META_MAGNETIC_FIELD_CALIBRATED),
   (SH_MAGNETIC_FIELD_UNCALIBRATED, SH_META_MAGNETIC_FIELD_UNCALIBRATED),
   (SH_ROTATION_VECTOR, SH_META_ROTATION_VECTOR),
   (SH_GAME_ROTATION_VECTOR, SH_META_GAME_ROTATION_VECTOR),
   (SH_GEOMAGNETIC_ROTATION_VECTOR, SH_META_GEOMAGNETIC_ROTATION_VECTOR),
   (SH_PRESSURE, SH_META_PRESSURE), (SH_AMBIENT_LIGHT, SH_META_AMBIENT_LIGHT),
   (SH_HUMIDITY, SH_META_HUMIDITY), (SH_PROXIMITY, SH_META_PROXIMITY),
   (SH_TEMPERATURE, SH_META_TEMPERATURE), (SH_TAP_DETECTOR, SH_META_TAP_DETECTOR),
   (SH_STEP_DETECTOR, SH_META_STEP_DETECTOR), (SH_STEP_COUNTER, SH_META_STEP_COUNTER),
   (SH_SIGNIFICANT_MOTION, SH_META_SIGNIFICANT_MOTION),
   (SH_ACTIVITY_CLASSIFICATION, SH_META_ACTIVITY_CLASSIFICATION),
   (SH_SHAKE_DETECTOR, SH_META_SHAKE_DETECTOR), (SH_FLIP_DETECTOR, SH_META_FLIP_DETECTOR),
   (SH_PICKUP_DETECTOR, SH_META_PICKUP_DETECTOR),
   (SH_STABILITY_DETECTOR, SH_META_STABILITY_DETECTOR),
   (SH_PERSONAL_ACTIVITY_CLASSIFIER, SH_META_PERSONAL_ACTIVITY_CLASSIFIER),
   (SH_SLEEP_DETECTOR, SH_META_SLEEP_DETECTOR)]

/-- The structure `sh_SensorMetadata_t`; `vendorId` and `sensorSpecific` are the two
48-byte arrays and the memory behind them. -/
structure SensorMetadata where
  meVersion : Nat
  mhVersion : Nat
  shVersion : Nat
  range : Nat
  resolution : Nat
  revision : Nat
  power_mA : Nat
  minPeriod_uS : Nat
  fifoReserved : Nat
  fifoMax : Nat
  batchBufferBytes : Nat
  qPoint1 : Nat
  qPoint2 : Nat
  vendorIdLen : Nat
  vendorId : Mem
  sensorSpecificLen : Nat
  sensorSpecific : Mem

/-- The bytes of an array of `uint32_t` as `(uint8_t *)&w[0]` sees them on the
little-endian host: byte `k` is byte `k % 4` of word `k / 4`. -/
def wordBytes (w : Mem) : Mem := fun k => (w (k / 4) % 2 ^ 32) / 2 ^ (8 * (k % 4)) % 256

/-- The words a `memcpy` of `len` bytes from `&frsData[start]` reads. -/
def wordsOfCopy (start len : Nat) : List Nat := List.range' start ((len + 3) / 4)

/-- What the part of `sh_getMetadata` behind the fetch leaves: the status, the caller's
structure, the indices `i` of every `frsData[i]` it read, and the byte counts of the
`memcpy` calls made into `vendorId` and into `sensorSpecific`. -/
structure MetadataUnpack where
  rc : Int
  md : SensorMetadata
  wordsRead : List Nat
  vendorCopy : Option Nat
  specificCopy : Option Nat

/-- The part of `sh_getMetadata` from `// Populate the sensorMetadata structure with
results` to the end, over the local array `frsData` (32-bit words) and `*pData`. -/
def populateMetadata (frsData : Mem) (md : SensorMetadata) : MetadataUnpack :=
  let w : Mem := fun i => frsData i % 2 ^ 32
  let md := { md with
    meVersion := (w 0 >>> 0) &&& 0xFF
    mhVersion := (w 0 >>> 8) &&& 0xFF
    shVersion := (w 0 >>> 16) &&& 0xFF
    range := w 1
    resolution := w 2
    power_mA := (w 3 >>> 0) &&& 0xFFFF
    revision := (w 3 >>> 16) &&& 0xFFFF
    minPeriod_uS := w 4
    fifoMax := (w 5 >>> 0) &&& 0xFFFF
    fifoReserved := (w 5 >>> 16) &&& 0xFFFF
    batchBufferBytes := (w 6 >>> 0) &&& 0xFFFF
    vendorIdLen := (w 6 >>> 16) &&& 0xFFFF }
  let md := { md with vendorId := md.vendorId.set 0 0 }
  let reads := [0, 1, 2, 3, 4, 5, 6]
  if md.vendorIdLen > 48 then ⟨SH_STATUS_BAD_PARAM, md, reads, none, none⟩
  else if md.revision = 0 then
    let md := { md with
      vendorId := memcpy md.vendorId ((wordBytes w).shift (4 * 7)) md.vendorIdLen }
    ⟨SH_STATUS_SUCCESS, md, reads ++ wordsOfCopy 7 md.vendorIdLen, some md.vendorIdLen, none⟩
  else if md.revision = 1 then
    let md := { md with
      qPoint1 := (w 7 >>> 0) &&& 0xFFFF
      qPoint2 := (w 7 >>> 16) &&& 0xFFFF }
    let md := { md with
      vendorId := memcpy md.vendorId ((wordBytes w).shift (4 * 8)) md.vendorIdLen }
    ⟨SH_STATUS_SUCCESS, md, reads ++ [7] ++ wordsOfCopy 8 md.vendorIdLen, some md.vendorIdLen,
      none⟩
  else if md.revision = 2 then
    let md := { md with
      qPoint1 := (w 7 >>> 0) &&& 0xFFFF
      qPoint2 := (w 7 >>> 16) &&& 0xFFFF
      sensorSpecificLen := (w 8 >>> 0) &&& 0xFFFF }
    if md.sensorSpecificLen > 48 then ⟨SH_STATUS_BAD_PARAM, md, reads ++ [7, 8], none, none⟩
    else
      let md := { md with
        sensorSpecific := memcpy md.sensorSpecific ((wordBytes w).shift (4 * 9))
          md.sensorSpecificLen }
      let vendorIdOffset := 9 + ((md.sensorSpecificLen + 3) / 4)
      let md := { md with
        vendorId := memcpy md.vendorId ((wordBytes w).shift (4 * vendorIdOffset)) md.vendorIdLen }
      ⟨SH_STATUS_SUCCESS, md,
        reads ++ [7, 8] ++ wordsOfCopy 9 md.sensorSpecificLen
          ++ wordsOfCopy vendorIdOffset md.vendorIdLen,
        some md.vendorIdLen, some md.sensorSpecificLen⟩
  else ⟨SH_STATUS_SUCCESS, md, reads, none, none⟩

/-- A return of `sh_getMetadata`: the status, `*pData` (`none` for a null pointer), the
call of `sh_getFrs` when one was made (`none`: the function returned before any traffic
with the hub), and the trace of the unpacking as in `MetadataUnpack`. -/
structure MetadataResult where
  rc : Int
  pData : Option SensorMetadata
  frs : Option FrsReadResult
  wordsRead : List Nat
  vendorCopy : Option Nat
  specificCopy : Option Nat

/-- The function `sh_getMetadata(sh, sensorId, pData)`: `polls` are the platform's answers
to the `shhid_in` calls of `sh_getFrs`, `inReport0` the memory at its local `inReport`,
`frsData0` the memory at the uninitialised local `frsData` (72 words), `pData` the caller's
structure or `none` for a null pointer. -/
def sh_getMetadata (polls : List Poll) (inReport0 frsData0 : Mem) (sensorId : Nat)
    (pData : Option SensorMetadata) : MetadataResult :=
  match pData with
  | none => ⟨SH_STATUS_BAD_PARAM, none, none, [], none, none⟩
  | some md =>
    match sensorToRecordMap.find? (fun e => e.1 == sensorId % 256) with
    | none => ⟨SH_STATUS_BAD_PARAM, some md, none, [], none, none⟩
    | some entry =>
      let recordId := entry.2 % 65536
      let frsDataLen := MAX_FRS_WORDS
      let frs := sh_getFrs polls inReport0 recordId frsData0 frsDataLen
      let rc := frs.rc
      if rc ≠ 0 then ⟨rc, some md, some frs, [], none, none⟩
      else
        let u := populateMetadata frs.pData md
        ⟨u.rc, some u.md, some frs, u.wordsRead, u.vendorCopy, u.specificCopy⟩

/-- The record id `sh_getMetadata` looks up for a sensor, when the table has one. -/
def metadataRecordId (sensorId : Nat) : Option Nat :=
  (sensorToRecordMap.find? (fun e => e.1 == sensorId % 256)).map (fun e => e.2 % 65536)

/-- The local array `frsData` of `sh_getMetadata` behind the call of `sh_getFrs` for the
record `recordId`, as 32-bit words. -/
def fetchedWords (polls : List Poll) (inReport0 frsData0 : Mem) (recordId : Nat) : Mem :=
  fun i => (sh_getFrs polls inReport0 recordId frsData0 MAX_FRS_WORDS).pData i % 2 ^ 32

/-- A metadata record of revision 2 in words: versions 1.2.3, range 100, resolution 200,
power 0x0400, minimum period 5000, FIFO 10/2, 64 batch bytes, vendor id "BNO!" (4 bytes),
Q points 12 and 14, five sensor-specific bytes 1..5. -/
def exampleRecord : Mem :=
  Mem.store zeroMem [0x00030201, 100, 200, 0x00020400, 5000, 0x0002000A, 0x00040040,
    0x000E000C, 5, 0x04030201, 0x00000005, 0x214F4E42]

/-- A caller's structure before the call: every field 99, both arrays filled with 0xEE. -/
def exampleMetadata0 : SensorMetadata :=
  ⟨99, 99, 99, 99, 99, 99, 99, 99, 99, 99, 99, 99, 99, 99, fun _ => 0xEE, 99, fun _ => 0xEE⟩


/-- Six FRS read responses that deliver the twelve words of `exampleRecord` as the
record 0xE302 (the metadata of `SH_ACCELEROMETER`), two words each, the last one with
the status "record completed". -/
def exampleRecordPolls : List Poll :=
  [frsReadRespPoll 0xE302 2 0 0 0x00030201 100,
   frsReadRespPoll 0xE302 2 0 2 200 0x00020400,
   frsReadRespPoll 0xE302 2 0 4 5000 0x0002000A,
   frsReadRespPoll 0xE302 2 0 6 0x00040040 0x000E000C,
   frsReadRespPoll 0xE302 2 0 8 5 0x04030201,
   frsReadRespPoll 0xE302 2 3 10 0x00000005 0x214F4E42]

/-! ## Proofs: CRC -/

theorem shift_xor_mod (a b : Nat) :
    ((a ^^^ b) <<< 1) % 65536 = ((a <<< 1) % 65536) ^^^ ((b <<< 1) % 65536) := by
  apply Nat.eq_of_testBit_eq
  intro i
  simp only [Nat.testBit_xor, Nat.testBit_mod_two_pow, Nat.testBit_shiftLeft,
    show (65536 : Nat) = 2 ^ 16 from rfl]
  cases decide (i < 16) <;> cases decide (i ≥ 1) <;> simp

theorem xor_mod_65536 (a b : Nat) : (a ^^^ b) % 65536 = (a % 65536) ^^^ (b % 65536) := by
  apply Nat.eq_of_testBit_eq
  intro i
  simp only [Nat.testBit_xor, Nat.testBit_mod_two_pow, show (65536 : Nat) = 2 ^ 16 from rfl]
  cases decide (i < 16) <;> simp

theorem crcBit_xor (c x : Nat) :
    (crcBit (c, x)).1 ^^^ (crcBit (c, x)).2 = ccittShift (c ^^^ x) := by
  unfold crcBit ccittShift
  by_cases h : (c ^^^ x) &&& 0x8000 = 0
  · simp only [ne_eq, h, not_true, if_false]
    exact (shift_xor_mod c x).symm
  · simp only [ne_eq, h, not_false_eq_true, if_true]
    rw [xor_mod_65536 ((c ^^^ x) <<< 1), xor_mod_65536 (c <<< 1), shift_xor_mod,
      Nat.xor_assoc, Nat.xor_assoc, Nat.xor_comm (4129 % 65536)]

theorem crcBit_iterate (n c x : Nat) (hx : x < 65536) :
    (crcBit^[n] (c, x)).1 ^^^ (crcBit^[n] (c, x)).2 = ccittShift^[n] (c ^^^ x)
      ∧ (crcBit^[n] (c, x)).2 = (x * 2 ^ n) % 65536 := by
  induction n with
  | zero => simp; omega
  | succ n ih =>
    rw [Function.iterate_succ_apply', Function.iterate_succ_apply']
    obtain ⟨h1, h2⟩ := ih
    refine ⟨?_, ?_⟩
    · rw [← h1]
      exact crcBit_xor _ _
    · show ((crcBit^[n] (c, x)).2 <<< 1) % 65536 = _
      have e : x * 2 ^ (n + 1) = x * 2 ^ n * 2 := by rw [pow_succ, Nat.mul_assoc]
      rw [h2, Nat.shiftLeft_eq, e, pow_one]
      generalize x * 2 ^ n = z
      omega

/-- The byte loop of `append_crc` and the register update of the specification agree. -/
theorem crcByte_eq_ccittUpdate (crc byte : Nat) (hb : byte < 256) :
    crcByte crc byte = ccittUpdate crc byte := by
  unfold crcByte ccittUpdate
  have hlt : ((byte % 256) <<< 8) % 65536 < 65536 := Nat.mod_lt _ (by decide)
  obtain ⟨h1, h2⟩ := crcBit_iterate 8 crc (((byte % 256) <<< 8) % 65536) hlt
  have hx : (crcBit^[8] (crc, ((byte % 256) <<< 8) % 65536)).2 = 0 := by
    rw [h2, Nat.shiftLeft_eq]; omega
  rw [hx, Nat.xor_zero] at h1
  rw [h1, Nat.mod_eq_of_lt hb, Nat.mod_eq_of_lt]
  rw [Nat.shiftLeft_eq]; omega

/-- The loop of `append_crc` over a buffer that holds the bytes `data` computes the
CRC-16/CCITT-FALSE of `data`. -/
theorem crcLoop_eq_ccitt (data : List Nat) (hb : ∀ b ∈ data, b < 256) (packet : Mem)
    (hp : ∀ i (h : i < data.length), packet i = data[i]) :
    crcLoop packet data.length = crc16_ccitt_false data := by
  unfold crcLoop crc16_ccitt_false
  generalize 0xFFFF = init
  induction data using List.reverseRecOn generalizing init with
  | nil => simp
  | append_singleton l a ih =>
    have hl : (l ++ [a]).length = l.length + 1 := by simp
    rw [hl, List.range_succ, List.foldl_append, List.foldl_append]
    have h1 := ih (fun b hb1 => hb b (by simp [hb1])) (fun i h => by
      have := hp i (by simp; omega)
      rw [this, List.getElem_append_left h]) init
    rw [h1]
    have h2 := hp l.length (by simp)
    simp only [List.foldl_cons, List.foldl_nil]
    rw [h2]
    simp only [List.getElem_append_right (le_refl l.length), Nat.sub_self, List.getElem_cons_zero]
    exact crcByte_eq_ccittUpdate _ _ (hb a (by simp))

set_option maxRecDepth 100000 in
theorem crc_check_value : crc16_ccitt_false checkString = 0x29B1 := by
  decide

theorem and_255 (x : Nat) : x &&& 0xFF = x % 256 :=
  Nat.and_pow_two_sub_one_eq_mod x 8

theorem Mem.set_same (m : Mem) (i v : Nat) : m.set i v i = v := by
  simp [Mem.set]

theorem Mem.set_other (m : Mem) (i v j : Nat) (h : j ≠ i) : m.set i v j = m j := by
  simp [Mem.set, h]

theorem Mem.store_lt (m : Mem) (data : List Nat) (i : Nat) (h : i < data.length) :
    m.store data i = data[i] := by
  simp [Mem.store, h]

theorem Mem.bytes_succ (m : Mem) (n : Nat) : m.bytes (n + 1) = m.bytes n ++ [m n % 256] := by
  simp [Mem.bytes, List.range_succ]

theorem Mem.bytes_congr (m m2 : Mem) (n : Nat) (h : ∀ i, i < n → m i = m2 i) :
    m.bytes n = m2.bytes n := by
  unfold Mem.bytes
  apply List.map_congr_left
  intro i hi
  rw [h i (List.mem_range.mp hi)]

/-- A buffer that holds the bytes `data` yields `data` on the wire. -/
theorem Mem.bytes_eq (m : Mem) (data : List Nat) (hb : ∀ b ∈ data, b < 256)
    (hp : ∀ i (h : i < data.length), m i = data[i]) : m.bytes data.length = data := by
  apply List.ext_getElem
  · simp [Mem.bytes]
  · intro n h1 h2
    simp only [Mem.bytes, List.getElem_map, List.getElem_range]
    rw [hp n h2]
    exact Nat.mod_eq_of_lt (hb _ (List.getElem_mem h2))

/-- The frame `append_crc` builds around `data` is the CRC-framed packet of the
specification. -/
theorem append_crc_bytes (data : List Nat) (hb : ∀ b ∈ data, b < 256) (packet : Mem)
    (hp : ∀ i (h : i < data.length), packet i = data[i]) :
    (append_crc packet data.length).bytes (data.length + 2) = crcFramed data := by
  have hcrc := crcLoop_eq_ccitt data hb packet hp
  unfold append_crc crcFramed
  simp only [hcrc]
  rw [Mem.bytes_succ, Mem.bytes_succ, List.append_assoc]
  congr 1
  · refine Eq.trans (Mem.bytes_congr _ packet _ ?_) (Mem.bytes_eq packet data hb hp)
    intro i hi
    rw [Mem.set_other _ _ _ _ (by omega), Mem.set_other _ _ _ _ (by omega)]
  · rw [Mem.set_other _ _ _ _ (by omega), Mem.set_same, Mem.set_same, and_255, and_255,
      Nat.shiftRight_eq_div_pow]
    simp

/-- C1: for every byte sequence `data` of length 0..64 held in the packet buffer, the
16-bit value `append_crc` computes over it is the CRC-16/CCITT-FALSE of `data`
(polynomial 0x1021, initial value 0xFFFF, MSB first, no reflection, no final XOR), and
the two bytes it stores behind the data are that value, high byte first; over the nine
ASCII bytes of "123456789" the value is 0x29B1. -/
theorem append_crc_is_ccitt_false (data : List Nat) (packet : Mem)
    (_hlen : data.length ≤ 64) (hb : ∀ b ∈ data, b < 256)
    (hp : ∀ i (h : i < data.length), packet i = data[i]) :
    crcLoop packet data.length = crc16_ccitt_false data
      ∧ append_crc packet data.length data.length = crc16_ccitt_false data / 256 % 256
      ∧ append_crc packet data.length (data.length + 1) = crc16_ccitt_false data % 256
      ∧ crcLoop (packet.store checkString) 9 = 0x29B1 := by
  have hcrc := crcLoop_eq_ccitt data hb packet hp
  refine ⟨hcrc, ?_, ?_, ?_⟩
  · unfold append_crc
    simp only [hcrc]
    rw [Mem.set_other _ _ _ _ (by omega), Mem.set_same, and_255, Nat.shiftRight_eq_div_pow]
  · unfold append_crc
    simp only [hcrc]
    rw [Mem.set_same, and_255]
  · have h9 : checkString.length = 9 := rfl
    rw [← h9, crcLoop_eq_ccitt checkString (by decide) _
      (fun i h => Mem.store_lt packet checkString i h)]
    exact crc_check_value

/-- C1 at the check string "123456789" held in a zeroed buffer. -/
theorem append_crc_is_ccitt_false_witness :
    crcLoop (Mem.store (fun _ => 0) checkString) checkString.length
        = crc16_ccitt_false checkString
      ∧ append_crc (Mem.store (fun _ => 0) checkString) checkString.length checkString.length
        = crc16_ccitt_false checkString / 256 % 256
      ∧ append_crc (Mem.store (fun _ => 0) checkString) checkString.length
          (checkString.length + 1) = crc16_ccitt_false checkString % 256
      ∧ crcLoop ((Mem.store (fun _ => 0) checkString).store checkString) 9 = 0x29B1 :=
  append_crc_is_ccitt_false checkString (Mem.store (fun _ => 0) checkString) (by decide)
    (by decide) (fun i h => Mem.store_lt _ checkString i h)

/-! ## Proofs: DFU engine -/

theorem dfu_send_ok (o : SendOutcome) (packet : Mem) (data : List Nat)
    (hw : o.writeRc = SH_STATUS_SUCCESS) (hr : o.readRc = SH_STATUS_SUCCESS)
    (ha : o.ack % 256 = 0x73) (hb : ∀ b ∈ data, b < 256) (hl : data.length < 256)
    (hp : ∀ i (h : i < data.length), packet i = data[i]) :
    dfu_send o packet data.length
      = (SH_STATUS_SUCCESS, append_crc packet data.length, sendEvents data) := by
  unfold dfu_send
  simp only [Nat.mod_eq_of_lt hl, hw, hr, ha, ne_eq, not_true, if_false,
    append_crc_bytes data hb packet hp, sendEvents]

theorem dfu_send_nack (o : SendOutcome) (packet : Mem) (data : List Nat)
    (hw : o.writeRc = SH_STATUS_SUCCESS) (hr : o.readRc = SH_STATUS_SUCCESS)
    (ha : o.ack % 256 ≠ 0x73) (hb : ∀ b ∈ data, b < 256) (hl : data.length < 256)
    (hp : ∀ i (h : i < data.length), packet i = data[i]) :
    dfu_send o packet data.length
      = (SH_STATUS_NACK, append_crc packet data.length, sendEvents data) := by
  unfold dfu_send
  simp only [Nat.mod_eq_of_lt hl, hw, hr, ha, ne_eq, not_true, not_false_eq_true, if_false,
    if_true, append_crc_bytes data hb packet hp, sendEvents]

/-- The status `dfu_send` returns is one of three. -/
theorem dfu_send_rc (o : SendOutcome) (packet : Mem) (len : Nat) :
    (dfu_send o packet len).1 = SH_STATUS_SUCCESS
      ∨ (dfu_send o packet len).1 = SH_STATUS_ERROR_I2C_IO
      ∨ (dfu_send o packet len).1 = SH_STATUS_NACK := by
  unfold dfu_send
  dsimp only
  split
  · simp
  · split
    · simp
    · split <;> simp

theorem waitIntnLoop_asserted (plat : DfuPlatform) (w : Nat) (hintn : plat.waitIntn w = false)
    (hwait : ∀ j < w, plat.waitIntn j = true) :
    ∀ (k j fuel : Nat), j + k = w → k < fuel →
      waitIntnLoop plat fuel j = some (List.replicate (k + 1) DfuEvent.waitIntn) := by
  intro k
  induction k with
  | zero =>
    intro j fuel hj hf
    obtain ⟨f, rfl⟩ : ∃ f, fuel = f + 1 := ⟨fuel - 1, by omega⟩
    have : j = w := by omega
    subst this
    simp [waitIntnLoop, hintn]
  | succ k ih =>
    intro j fuel hj hf
    obtain ⟨f, rfl⟩ : ∃ f, fuel = f + 1 := ⟨fuel - 1, by omega⟩
    have h1 := hwait j (by omega)
    have h2 := ih (j + 1) f (by omega) (by omega)
    simp [waitIntnLoop, h1, h2, List.replicate_succ]

theorem lt_numChunks (appLen p i : Nat) (hp : 1 ≤ p) : i < numChunks appLen p ↔ i * p < appLen := by
  unfold numChunks
  rw [Nat.lt_iff_add_one_le, Nat.le_div_iff_mul_le (by omega), Nat.add_mul]
  omega

theorem chunk_eq (image : List Nat) (p i : Nat) :
    (image.drop (i * p)).take (min (image.length - i * p) p) = chunk image p i := by
  unfold chunk
  rw [← List.take_take]
  apply List.take_of_length_le
  simp

theorem chunk_length (image : List Nat) (p i : Nat) :
    (chunk image p i).length = min (image.length - i * p) p := by
  unfold chunk
  simp [Nat.min_comm]

theorem chunk_bytes (image : List Nat) (p i : Nat) (himg : ∀ b ∈ image, b < 256) :
    ∀ b ∈ chunk image p i, b < 256 := by
  intro b hb
  exact himg b (List.mem_of_mem_drop (List.mem_of_mem_take hb))

theorem dfuStream_getAppData (hcbin : HcBin) (image : List Nat) (p i : Nat)
    (hdata : ServesImage hcbin image) (hi : i * p < image.length) :
    0 ≤ (hcbin.getAppData (i * p) (min (image.length - i * p) p)).1
      ∧ (hcbin.getAppData (i * p) (min (image.length - i * p) p)).2 = chunk image p i := by
  have h := hdata (i * p) (min (image.length - i * p) p) (by omega)
  rw [chunk_eq] at h
  exact h

/-- One pass of the streaming loop whose packet is acknowledged. -/
theorem dfuStream_step_ok (hcbin : HcBin) (plat : DfuPlatform) (image : List Nat)
    (p fuel0 fuel i j : Nat) (packet : Mem) (rc : Int)
    (hp2 : p ≤ 64) (himg : ∀ b ∈ image, b < 256)
    (hdata : ServesImage hcbin image) (hi : i * p < image.length)
    (hw : (plat.xfer j).writeRc = SH_STATUS_SUCCESS)
    (hr : (plat.xfer j).readRc = SH_STATUS_SUCCESS)
    (ha : (plat.xfer j).ack % 256 = 0x73) :
    dfuStream hcbin plat image.length p fuel0 (fuel + 1) (i * p) j packet rc
      = (dfuStream hcbin plat image.length p fuel0 fuel ((i * p + p) % 2 ^ 32) (j + 1)
          (append_crc (packet.store (chunk image p i)) (chunk image p i).length)
          SH_STATUS_SUCCESS).map
        (fun r => ⟨r.rc, sendEvents (chunk image p i) ++ r.events⟩) := by
  obtain ⟨h1, h2⟩ := dfuStream_getAppData hcbin image p i hdata hi
  have hs := dfu_send_ok (plat.xfer j) (packet.store (chunk image p i)) (chunk image p i)
    hw hr ha (chunk_bytes image p i himg) (by rw [chunk_length]; omega)
    (fun k h => Mem.store_lt _ _ k h)
  rw [chunk_length] at hs
  rw [dfuStream]
  simp only [hi, if_true, h2, not_lt.mpr h1, if_false, hs, chunk_length]
  simp

/-- One pass of the streaming loop whose packet is not acknowledged. -/
theorem dfuStream_step_nack (hcbin : HcBin) (plat : DfuPlatform) (image : List Nat)
    (p fuel0 fuel i j : Nat) (packet : Mem) (rc : Int)
    (hp2 : p ≤ 64) (himg : ∀ b ∈ image, b < 256)
    (hdata : ServesImage hcbin image) (hi : i * p < image.length)
    (hw : (plat.xfer j).writeRc = SH_STATUS_SUCCESS)
    (hr : (plat.xfer j).readRc = SH_STATUS_SUCCESS)
    (ha : (plat.xfer j).ack % 256 ≠ 0x73) :
    dfuStream hcbin plat image.length p fuel0 (fuel + 1) (i * p) j packet rc
      = some ⟨SH_STATUS_NACK, sendEvents (chunk image p i) ++ [DfuEvent.hcbinClose]⟩ := by
  obtain ⟨h1, h2⟩ := dfuStream_getAppData hcbin image p i hdata hi
  have hs := dfu_send_nack (plat.xfer j) (packet.store (chunk image p i)) (chunk image p i)
    hw hr ha (chunk_bytes image p i himg) (by rw [chunk_length]; omega)
    (fun k h => Mem.store_lt _ _ k h)
  rw [chunk_length] at hs
  rw [dfuStream]
  simp only [hi, if_true, h2, not_lt.mpr h1, if_false, hs]
  simp

/-- The streaming loop on a platform that acknowledges every packet: from chunk `i` on it
sends the remaining `m` chunks, closes the blob and waits for INTN. -/
theorem dfuStream_all_acked (hcbin : HcBin) (plat : DfuPlatform) (image : List Nat)
    (p fuel0 : Nat) (tail : List DfuEvent)
    (hp1 : 1 ≤ p) (hp2 : p ≤ 64) (himg : ∀ b ∈ image, b < 256)
    (hbound : image.length ≤ 2 ^ 32 - 65)
    (hdata : ServesImage hcbin image)
    (hxfer : ∀ j, (plat.xfer j).writeRc = SH_STATUS_SUCCESS
      ∧ (plat.xfer j).readRc = SH_STATUS_SUCCESS ∧ (plat.xfer j).ack % 256 = 0x73)
    (hwait : waitIntnLoop plat fuel0 0 = some tail) :
    ∀ (m i fuel : Nat) (packet : Mem), i + m = numChunks image.length p → m < fuel →
      dfuStream hcbin plat image.length p fuel0 fuel (i * p) (i + 2) packet SH_STATUS_SUCCESS
        = some ⟨SH_STATUS_SUCCESS,
            (List.range' i m).flatMap (fun k => sendEvents (chunk image p k))
              ++ DfuEvent.hcbinClose :: tail⟩ := by
  intro m
  induction m with
  | zero =>
    intro i fuel packet hi hf
    obtain ⟨f, rfl⟩ : ∃ f, fuel = f + 1 := ⟨fuel - 1, by omega⟩
    have hge : ¬ i * p < image.length := by
      rw [← lt_numChunks image.length p i hp1]; omega
    rw [dfuStream]
    simp [hge, hwait]
  | succ m ih =>
    intro i fuel packet hi hf
    obtain ⟨f, rfl⟩ : ∃ f, fuel = f + 1 := ⟨fuel - 1, by omega⟩
    have hlt : i * p < image.length := by
      rw [← lt_numChunks image.length p i hp1]; omega
    obtain ⟨hw, hr, ha⟩ := hxfer (i + 2)
    rw [dfuStream_step_ok hcbin plat image p fuel0 f i (i + 2) packet _ hp2 himg hdata hlt
      hw hr ha]
    have hoff : (i * p + p) % 2 ^ 32 = (i + 1) * p := by
      rw [Nat.add_mul, Nat.one_mul]
      apply Nat.mod_eq_of_lt
      omega
    rw [hoff, ih (i + 1) f _ (by omega) (by omega)]
    simp [List.range'_succ]

/-- The streaming loop on a platform whose first missing acknowledgement is the one of
chunk `c`: it sends the chunks up to `c`, closes the blob and stops. -/
theorem dfuStream_nack_at (hcbin : HcBin) (plat : DfuPlatform) (image : List Nat)
    (p fuel0 c : Nat)
    (hp1 : 1 ≤ p) (hp2 : p ≤ 64) (himg : ∀ b ∈ image, b < 256)
    (hbound : image.length < 2 ^ 32)
    (hdata : ServesImage hcbin image)
    (hc : c < numChunks image.length p)
    (hxfer : ∀ j ≤ c + 2, (plat.xfer j).writeRc = SH_STATUS_SUCCESS
      ∧ (plat.xfer j).readRc = SH_STATUS_SUCCESS)
    (hack : ∀ j < c + 2, (plat.xfer j).ack % 256 = 0x73)
    (hnack : (plat.xfer (c + 2)).ack % 256 ≠ 0x73) :
    ∀ (m i fuel : Nat) (packet : Mem) (rc : Int), i + m = c → m < fuel →
      dfuStream hcbin plat image.length p fuel0 fuel (i * p) (i + 2) packet rc
        = some ⟨SH_STATUS_NACK,
            (List.range' i (m + 1)).flatMap (fun k => sendEvents (chunk image p k))
              ++ [DfuEvent.hcbinClose]⟩ := by
  intro m
  induction m with
  | zero =>
    intro i fuel packet rc hi hf
    obtain ⟨f, rfl⟩ : ∃ f, fuel = f + 1 := ⟨fuel - 1, by omega⟩
    have hic : i = c := by omega
    subst hic
    have hlt : i * p < image.length := (lt_numChunks image.length p i hp1).mp hc
    obtain ⟨hw, hr⟩ := hxfer (i + 2) (le_refl _)
    rw [dfuStream_step_nack hcbin plat image p fuel0 f i (i + 2) packet rc hp2 himg hdata hlt
      hw hr hnack]
    simp [List.range'_succ]
  | succ m ih =>
    intro i fuel packet rc hi hf
    obtain ⟨f, rfl⟩ : ∃ f, fuel = f + 1 := ⟨fuel - 1, by omega⟩
    have hlt : i * p < image.length :=
      (lt_numChunks image.length p i hp1).mp (by omega)
    have hlt2 : (i + 1) * p < image.length :=
      (lt_numChunks image.length p (i + 1) hp1).mp (by omega)
    obtain ⟨hw, hr⟩ := hxfer (i + 2) (by omega)
    rw [dfuStream_step_ok hcbin plat image p fuel0 f i (i + 2) packet rc hp2 himg hdata hlt
      hw hr (hack (i + 2) (by omega))]
    have hoff : (i * p + p) % 2 ^ 32 = (i + 1) * p := by
      rw [Nat.add_mul, Nat.one_mul] at hlt2 ⊢
      apply Nat.mod_eq_of_lt
      omega
    rw [hoff, ih (i + 1) f _ _ (by omega) (by omega)]
    simp [List.range'_succ]

theorem write32be_holds (buf : Mem) (v : Nat) :
    ∀ i (h : i < (be32 v).length), write32be buf v i = (be32 v)[i] := by
  intro i h
  have h4 : i < 4 := h
  interval_cases i <;>
    simp [write32be, Mem.set, be32, and_255, Nat.shiftRight_eq_div_pow]

theorem be32_bytes (v : Nat) : ∀ b ∈ be32 v, b < 256 := by
  intro b hb
  simp only [be32, List.mem_cons, List.mem_singleton, List.not_mem_nil, or_false] at hb
  omega

/-- The clamping of the suggested packet length in `bno070_performDfu`. -/
theorem clamp_eq_effPacketLen (q : Nat) (hq : q < 2 ^ 32) :
    (if q % 2 ^ 32 = 0 ∨ q % 2 ^ 32 > MAX_PACKET_LEN then MAX_PACKET_LEN else q % 2 ^ 32)
      = effPacketLen q := by
  unfold effPacketLen
  rw [Nat.mod_eq_of_lt hq]
  by_cases h : q = 0 ∨ q > 64
  · rw [if_pos h, if_neg (by omega)]
  · rw [if_neg h, if_pos (by omega)]

theorem effPacketLen_range (q : Nat) : 1 ≤ effPacketLen q ∧ effPacketLen q ≤ 64 := by
  unfold effPacketLen
  split <;> omega

/-- The two header packets of a download, when both are acknowledged: `bno070_performDfu`
is the streaming loop behind the length and packet-size packets. -/
theorem performDfu_header (fuel : Nat) (plat : DfuPlatform) (hcbin : HcBin)
    (image : List Nat) (packet0 : Mem)
    (hdev : plat.dev ≠ 0) (hfmt : hcbin.getMeta "FW-Format" = some "BNO_V1")
    (hlen : hcbin.getAppLen = image.length) (hbound : image.length < 2 ^ 32)
    (hpl : hcbin.getPacketLen < 2 ^ 32)
    (hreset : plat.resetDfuRc = SH_STATUS_SUCCESS)
    (hx0 : (plat.xfer 0).writeRc = SH_STATUS_SUCCESS ∧ (plat.xfer 0).readRc = SH_STATUS_SUCCESS
      ∧ (plat.xfer 0).ack % 256 = 0x73)
    (hx1 : (plat.xfer 1).writeRc = SH_STATUS_SUCCESS ∧ (plat.xfer 1).readRc = SH_STATUS_SUCCESS
      ∧ (plat.xfer 1).ack % 256 = 0x73) :
    ∃ packet : Mem, bno070_performDfu fuel plat hcbin packet0
      = (dfuStream hcbin plat image.length (effPacketLen hcbin.getPacketLen) fuel fuel 0 2
          packet SH_STATUS_SUCCESS).map
        (fun r => ⟨r.rc, [DfuEvent.hcbinOpen, DfuEvent.resetDfu]
          ++ sendEvents (be32 image.length)
          ++ sendEvents [effPacketLen hcbin.getPacketLen] ++ r.events⟩) := by
  obtain ⟨hp1, hp2⟩ := effPacketLen_range hcbin.getPacketLen
  have s1 := dfu_send_ok (plat.xfer 0) (write32be packet0 image.length) (be32 image.length)
    hx0.1 hx0.2.1 hx0.2.2 (be32_bytes _) (by simp [be32]) (write32be_holds _ _)
  have s2 := dfu_send_ok (plat.xfer 1)
    ((append_crc (write32be packet0 image.length) (be32 image.length).length).set 0
      (effPacketLen hcbin.getPacketLen % 256))
    [effPacketLen hcbin.getPacketLen] hx1.1 hx1.2.1 hx1.2.2
    (by intro b hb; simp at hb; omega) (by simp)
    (by
      intro i h
      have hi : i = 0 := by simpa using h
      subst hi
      rw [Mem.set_same]
      simp only [List.getElem_cons_zero]
      omega)
  have e4 : (be32 image.length).length = 4 := rfl
  have e1 : [effPacketLen hcbin.getPacketLen].length = 1 := rfl
  rw [e4] at s1 s2
  rw [e1] at s2
  refine ⟨append_crc ((append_crc (write32be packet0 image.length) 4).set 0
    (effPacketLen hcbin.getPacketLen % 256)) 1, ?_⟩
  unfold bno070_performDfu
  simp only [hdev, if_false, hfmt, hlen, Nat.mod_eq_of_lt hbound,
    clamp_eq_effPacketLen _ hpl, hreset, s1, s2]
  simp

/-- C2 (DFU happy path): for a blob with FW-Format "BNO_V1" that serves an image of
`appLen <= 2^32 - 65` bytes, with `p` the suggested packet length when that is in 1..64
and 64 otherwise, on a platform that opens, resets into DFU mode, completes every I2C
transfer, answers 0x73 to every packet and asserts INTN after `w` further waits,
`bno070_performDfu` returns `SH_STATUS_SUCCESS` (for every fuel above the number of
loop passes) after doing exactly this: open the blob, reset into DFU mode, write the four
big-endian bytes of `appLen` with their CRC and read one ACK byte, write the byte `p`
with its CRC and read one ACK byte, write each of the `ceil(appLen/p)` chunks
`[i*p, min(appLen,(i+1)*p))` of the image with its CRC and read one ACK byte after each,
close the blob, wait for INTN. -/
theorem performDfu_happy_path (fuel w : Nat) (plat : DfuPlatform) (hcbin : HcBin)
    (image : List Nat) (packet0 : Mem)
    (hdev : plat.dev ≠ 0) (hfmt : hcbin.getMeta "FW-Format" = some "BNO_V1")
    (hlen : hcbin.getAppLen = image.length) (hbound : image.length ≤ 2 ^ 32 - 65)
    (hpl : hcbin.getPacketLen < 2 ^ 32)
    (himg : ∀ b ∈ image, b < 256) (hdata : ServesImage hcbin image)
    (hreset : plat.resetDfuRc = SH_STATUS_SUCCESS)
    (hxfer : ∀ j, (plat.xfer j).writeRc = SH_STATUS_SUCCESS
      ∧ (plat.xfer j).readRc = SH_STATUS_SUCCESS ∧ (plat.xfer j).ack = 0x73)
    (hintn : plat.waitIntn w = false) (hwait : ∀ j < w, plat.waitIntn j = true)
    (hfuel : numChunks image.length (effPacketLen hcbin.getPacketLen) + w < fuel) :
    bno070_performDfu fuel plat hcbin packet0
      = some ⟨SH_STATUS_SUCCESS,
          [DfuEvent.hcbinOpen, DfuEvent.resetDfu]
            ++ (dfuPackets image (effPacketLen hcbin.getPacketLen)).flatMap sendEvents
            ++ [DfuEvent.hcbinClose] ++ List.replicate (w + 1) DfuEvent.waitIntn⟩ := by
  obtain ⟨hp1, hp2⟩ := effPacketLen_range hcbin.getPacketLen
  have hx : ∀ j, (plat.xfer j).writeRc = SH_STATUS_SUCCESS
      ∧ (plat.xfer j).readRc = SH_STATUS_SUCCESS ∧ (plat.xfer j).ack % 256 = 0x73 := by
    intro j
    obtain ⟨a, b, c⟩ := hxfer j
    exact ⟨a, b, by rw [c]⟩
  obtain ⟨packet, hh⟩ := performDfu_header fuel plat hcbin image packet0 hdev hfmt hlen
    (by omega) hpl hreset (hx 0) (hx 1)
  have hw := waitIntnLoop_asserted plat w hintn hwait w 0 fuel (by omega) (by omega)
  have hs := dfuStream_all_acked hcbin plat image (effPacketLen hcbin.getPacketLen) fuel _
    hp1 hp2 himg hbound hdata hx hw (numChunks image.length (effPacketLen hcbin.getPacketLen))
    0 fuel packet (by omega) (by omega)
  rw [Nat.zero_mul] at hs
  rw [hh, hs]
  simp [dfuPackets, List.flatMap_map, List.range_eq_range']

/-- C2 at the scenario of the specification: `appLen = 128`, `p = 64`; the packets are one
of 4 bytes, one of 1 byte and two of 64 bytes. -/
theorem performDfu_happy_path_witness :
    bno070_performDfu 3 (ackPlatform (fun _ => 0x73))
        (imageBlob (some "BNO_V1") (List.replicate 128 0xA5) 64) (fun _ => 0)
      = some ⟨SH_STATUS_SUCCESS,
          [DfuEvent.hcbinOpen, DfuEvent.resetDfu]
            ++ (dfuPackets (List.replicate 128 0xA5)
                (effPacketLen (imageBlob (some "BNO_V1") (List.replicate 128 0xA5) 64).getPacketLen)).flatMap
                  sendEvents
            ++ [DfuEvent.hcbinClose] ++ List.replicate (0 + 1) DfuEvent.waitIntn⟩
      ∧ (dfuPackets (List.replicate 128 0xA5) 64).map List.length = [4, 1, 64, 64] :=
  ⟨performDfu_happy_path 3 0 (ackPlatform (fun _ => 0x73))
      (imageBlob (some "BNO_V1") (List.replicate 128 0xA5) 64) (List.replicate 128 0xA5)
      (fun _ => 0) (by decide) (by decide) rfl (by simp) (by decide)
      (fun b hb => by rw [List.eq_of_mem_replicate hb]; decide)
      (fun _ _ _ => ⟨le_refl _, rfl⟩) rfl (fun _ => ⟨rfl, rfl, rfl⟩) rfl
      (fun j hj => absurd hj (Nat.not_lt_zero j))
      (by simp [numChunks, effPacketLen, imageBlob]),
    by simp [dfuPackets, numChunks, be32, chunk, List.range_succ]⟩

/-- C3 (DFU NACK): for a blob with FW-Format "BNO_V1" that serves its image, on a
platform that opens, resets into DFU mode and completes every I2C transfer, if the ACK
bytes read after the packets before the `m`-th are 0x73 and the one read after the
`m`-th packet (counted from 0 over the length packet, the packet-size packet and the data
packets) is any other value, then `bno070_performDfu` returns `SH_STATUS_NACK`, the
packets it sent are exactly those up to the `m`-th, each followed by the read of one ACK
byte, and the last thing it did before returning is the call of the blob's `close()`. -/
theorem performDfu_nack (fuel m : Nat) (plat : DfuPlatform) (hcbin : HcBin)
    (image : List Nat) (packet0 : Mem)
    (hdev : plat.dev ≠ 0) (hfmt : hcbin.getMeta "FW-Format" = some "BNO_V1")
    (hlen : hcbin.getAppLen = image.length) (hbound : image.length < 2 ^ 32)
    (hpl : hcbin.getPacketLen < 2 ^ 32)
    (himg : ∀ b ∈ image, b < 256) (hdata : ServesImage hcbin image)
    (hreset : plat.resetDfuRc = SH_STATUS_SUCCESS)
    (hm : m < (dfuPackets image (effPacketLen hcbin.getPacketLen)).length)
    (hxfer : ∀ j ≤ m, (plat.xfer j).writeRc = SH_STATUS_SUCCESS
      ∧ (plat.xfer j).readRc = SH_STATUS_SUCCESS)
    (hack : ∀ j < m, (plat.xfer j).ack % 256 = 0x73)
    (hnack : (plat.xfer m).ack % 256 ≠ 0x73)
    (hfuel : m < fuel) :
    bno070_performDfu fuel plat hcbin packet0
      = some ⟨SH_STATUS_NACK,
          [DfuEvent.hcbinOpen, DfuEvent.resetDfu]
            ++ ((dfuPackets image (effPacketLen hcbin.getPacketLen)).take (m + 1)).flatMap
                sendEvents
            ++ [DfuEvent.hcbinClose]⟩ := by
  obtain ⟨hp1, hp2⟩ := effPacketLen_range hcbin.getPacketLen
  have s1 : ∀ (a : (plat.xfer 0).ack % 256 = 0x73), _ := fun a =>
    dfu_send_ok (plat.xfer 0) (write32be packet0 image.length) (be32 image.length)
      (hxfer 0 (by omega)).1 (hxfer 0 (by omega)).2 a (be32_bytes _) (by simp [be32])
      (write32be_holds _ _)
  have e4 : (be32 image.length).length = 4 := rfl
  match m, hm, hxfer, hack, hnack, hfuel with
  | 0, _, hxfer, _, hnack, _ =>
    have n1 := dfu_send_nack (plat.xfer 0) (write32be packet0 image.length) (be32 image.length)
      (hxfer 0 (by omega)).1 (hxfer 0 (by omega)).2 hnack (be32_bytes _) (by simp [be32])
      (write32be_holds _ _)
    rw [e4] at n1
    unfold bno070_performDfu
    simp only [hdev, if_false, hfmt, hlen, Nat.mod_eq_of_lt hbound,
      clamp_eq_effPacketLen _ hpl, hreset, n1]
    simp [dfuPackets]
  | 1, _, hxfer, hack, hnack, _ =>
    have s1 := s1 (hack 0 (by omega))
    have n2 := dfu_send_nack (plat.xfer 1)
      ((append_crc (write32be packet0 image.length) (be32 image.length).length).set 0
        (effPacketLen hcbin.getPacketLen % 256))
      [effPacketLen hcbin.getPacketLen] (hxfer 1 (by omega)).1 (hxfer 1 (by omega)).2 hnack
      (by intro b hb; simp at hb; omega) (by simp)
      (by
        intro i h
        have hi : i = 0 := by simpa using h
        subst hi
        rw [Mem.set_same]
        simp only [List.getElem_cons_zero]
        omega)
    have e1 : [effPacketLen hcbin.getPacketLen].length = 1 := rfl
    rw [e4] at s1 n2
    rw [e1] at n2
    unfold bno070_performDfu
    simp only [hdev, if_false, hfmt, hlen, Nat.mod_eq_of_lt hbound,
      clamp_eq_effPacketLen _ hpl, hreset, s1, n2]
    simp [dfuPackets]
  | c + 2, hm, hxfer, hack, hnack, hfuel =>
    have hc : c < numChunks image.length (effPacketLen hcbin.getPacketLen) := by
      simpa [dfuPackets] using hm
    obtain ⟨packet, hh⟩ := performDfu_header fuel plat hcbin image packet0 hdev hfmt hlen
      hbound hpl hreset
      ⟨(hxfer 0 (by omega)).1, (hxfer 0 (by omega)).2, hack 0 (by omega)⟩
      ⟨(hxfer 1 (by omega)).1, (hxfer 1 (by omega)).2, hack 1 (by omega)⟩
    have hs := dfuStream_nack_at hcbin plat image (effPacketLen hcbin.getPacketLen) fuel c
      hp1 hp2 himg hbound hdata hc hxfer hack hnack c 0 fuel packet SH_STATUS_SUCCESS
      (by omega) (by omega)
    rw [Nat.zero_mul] at hs
    rw [hh, hs]
    have ht : (List.range' 0 (numChunks image.length (effPacketLen hcbin.getPacketLen))).take
        (c + 1) = List.range' 0 (c + 1) := by
      rw [← List.range_eq_range', ← List.range_eq_range', List.take_range]; congr 1; omega
    simp [dfuPackets, ← List.map_take, ht, List.flatMap_map, List.range_eq_range']

/-- C3 at the scenario of the specification: `appLen = 128`, `p = 64`, and the byte 0x00
read after the second data packet (packet 3). -/
theorem performDfu_nack_witness :
    bno070_performDfu 4 (ackPlatform (fun j => if j = 3 then 0x00 else 0x73))
        (imageBlob (some "BNO_V1") (List.replicate 128 0xA5) 64) (fun _ => 0)
      = some ⟨SH_STATUS_NACK,
          [DfuEvent.hcbinOpen, DfuEvent.resetDfu]
            ++ ((dfuPackets (List.replicate 128 0xA5)
                (effPacketLen (imageBlob (some "BNO_V1") (List.replicate 128 0xA5) 64).getPacketLen)).take
                  (3 + 1)).flatMap sendEvents
            ++ [DfuEvent.hcbinClose]⟩ :=
  performDfu_nack 4 3 (ackPlatform (fun j => if j = 3 then 0x00 else 0x73))
    (imageBlob (some "BNO_V1") (List.replicate 128 0xA5) 64) (List.replicate 128 0xA5)
    (fun _ => 0) (by decide) (by decide) rfl (by simp) (by decide)
    (fun b hb => by rw [List.eq_of_mem_replicate hb]; decide)
    (fun _ _ _ => ⟨le_refl _, rfl⟩) rfl
    (by simp [dfuPackets, numChunks, effPacketLen, imageBlob])
    (fun _ _ => ⟨rfl, rfl⟩)
    (fun j hj => by
      have h3 : j ≠ 3 := by omega
      simp [ackPlatform, h3])
    (by simp [ackPlatform]) (by decide)

/-- Where the status returned through the streaming loop can come from. -/
theorem dfuStream_rc (hcbin : HcBin) (plat : DfuPlatform) (app_len packet_len fuel0 : Nat) :
    ∀ (fuel offset j : Nat) (packet : Mem) (rc : Int) (r : DfuResult),
      dfuStream hcbin plat app_len packet_len fuel0 fuel offset j packet rc = some r →
      r.rc = rc ∨ r.rc = SH_STATUS_SUCCESS ∨ r.rc = SH_STATUS_ERROR_I2C_IO
        ∨ r.rc = SH_STATUS_NACK ∨ ∃ off len, r.rc = (hcbin.getAppData off len).1 := by
  intro fuel
  induction fuel with
  | zero =>
    intro offset j packet rc r h
    simp [dfuStream] at h
  | succ fuel ih =>
    intro offset j packet rc r h
    rw [dfuStream] at h
    by_cases h1 : offset < app_len
    · simp only [h1, if_true] at h
      by_cases h2 : (hcbin.getAppData offset (min (app_len - offset) packet_len)).1 < 0
      · simp only [h2, if_true, Option.some.injEq] at h
        subst h
        exact Or.inr (Or.inr (Or.inr (Or.inr ⟨_, _, rfl⟩)))
      · simp only [h2, if_false] at h
        have hrc := dfu_send_rc (plat.xfer j)
          (packet.store (hcbin.getAppData offset (min (app_len - offset) packet_len)).2)
          (min (app_len - offset) packet_len)
        by_cases h3 : (dfu_send (plat.xfer j)
            (packet.store (hcbin.getAppData offset (min (app_len - offset) packet_len)).2)
            (min (app_len - offset) packet_len)).1 < 0
        · simp only [h3, if_true, Option.some.injEq] at h
          subst h
          dsimp only
          rcases hrc with h4 | h4 | h4
          · exact Or.inr (Or.inl h4)
          · exact Or.inr (Or.inr (Or.inl h4))
          · exact Or.inr (Or.inr (Or.inr (Or.inl h4)))
        · simp only [h3, if_false, Option.map_eq_some'] at h
          obtain ⟨r2, hr2, rfl⟩ := h
          dsimp only
          rcases ih _ _ _ _ r2 hr2 with h4 | h4 | h4 | h4 | h4
          · rw [← h4] at hrc
            rcases hrc with h5 | h5 | h5
            · exact Or.inr (Or.inl h5)
            · exact Or.inr (Or.inr (Or.inl h5))
            · exact Or.inr (Or.inr (Or.inr (Or.inl h5)))
          · exact Or.inr (Or.inl h4)
          · exact Or.inr (Or.inr (Or.inl h4))
          · exact Or.inr (Or.inr (Or.inr (Or.inl h4)))
          · exact Or.inr (Or.inr (Or.inr (Or.inr h4)))
    · simp only [h1, if_false, Option.map_eq_some'] at h
      obtain ⟨w, _, rfl⟩ := h
      exact Or.inl rfl

/-- C4, the claim as stated fails: a blob whose FW-Format is "BNO_V1" and whose
`getAppData` returns `SH_STATUS_INVALID_HCBIN` makes `bno070_performDfu` return
`SH_STATUS_INVALID_HCBIN` as well, after the DFU reset and two I2C packets. -/
theorem performDfu_invalid_hcbin_by_blob :
    rejectingBlob.getMeta "FW-Format" = some "BNO_V1"
      ∧ Option.map DfuResult.rc
          (bno070_performDfu 2 (ackPlatform (fun _ => 0x73)) rejectingBlob (fun _ => 0))
        = some SH_STATUS_INVALID_HCBIN
      ∧ Option.map (fun r => decide (DfuEvent.resetDfu ∈ r.events ∧ DfuEvent.i2cRead 1 ∈ r.events))
          (bno070_performDfu 2 (ackPlatform (fun _ => 0x73)) rejectingBlob (fun _ => 0))
        = some true := by
  refine ⟨by decide, ?_, ?_⟩
  · simp [bno070_performDfu, dfuStream, dfu_send, ackPlatform, rejectingBlob]
  · simp [bno070_performDfu, dfuStream, dfu_send, ackPlatform, rejectingBlob]

/-- C4 (DFU firmware validation), amended: whenever `getMeta("FW-Format")` is absent or
differs from "BNO_V1", `bno070_performDfu` returns `SH_STATUS_INVALID_HCBIN` having done
nothing but open the blob: no DFU reset, no I2C transfer.  Conversely, when it returns
`SH_STATUS_INVALID_HCBIN` and neither `shdev_reset_dfu` nor `getAppData` produced that
code themselves, `getMeta("FW-Format")` is absent or differs from "BNO_V1". -/
theorem performDfu_invalid_hcbin (fuel : Nat) (plat : DfuPlatform) (hcbin : HcBin)
    (packet0 : Mem) (hdev : plat.dev ≠ 0) :
    ((hcbin.getMeta "FW-Format" = none ∨ hcbin.getMeta "FW-Format" ≠ some "BNO_V1") →
        bno070_performDfu fuel plat hcbin packet0
          = some ⟨SH_STATUS_INVALID_HCBIN, [DfuEvent.hcbinOpen]⟩)
      ∧ (∀ r, bno070_performDfu fuel plat hcbin packet0 = some r →
          r.rc = SH_STATUS_INVALID_HCBIN →
          plat.resetDfuRc ≠ SH_STATUS_INVALID_HCBIN →
          (∀ off len, (hcbin.getAppData off len).1 ≠ SH_STATUS_INVALID_HCBIN) →
          (hcbin.getMeta "FW-Format" = none ∨ hcbin.getMeta "FW-Format" ≠ some "BNO_V1")) := by
  constructor
  · intro h
    unfold bno070_performDfu
    simp only [hdev, if_false, h, if_true]
  · intro r hr hrc hreset hdata
    by_contra hfmt
    unfold bno070_performDfu at hr
    simp only [hdev, if_false, hfmt] at hr
    generalize (if hcbin.getPacketLen % 2 ^ 32 = 0 ∨ hcbin.getPacketLen % 2 ^ 32 > MAX_PACKET_LEN
      then MAX_PACKET_LEN else hcbin.getPacketLen % 2 ^ 32) = pl at hr
    by_cases h0 : plat.resetDfuRc ≠ SH_STATUS_SUCCESS
    · rw [if_pos h0, Option.some.injEq] at hr
      subst hr
      exact hreset hrc
    · rw [if_neg h0] at hr
      have hs1 := dfu_send_rc (plat.xfer 0) (write32be packet0 (hcbin.getAppLen % 2 ^ 32)) 4
      split at hr
      · simp only [Option.some.injEq] at hr
        subst hr
        dsimp only at hrc
        rw [hrc] at hs1
        revert hs1
        decide
      · have hs2 := dfu_send_rc (plat.xfer 1)
          ((dfu_send (plat.xfer 0) (write32be packet0 (hcbin.getAppLen % 2 ^ 32)) 4).2.1.set 0
            (pl % 256)) 1
        split at hr
        · simp only [Option.some.injEq] at hr
          subst hr
          dsimp only at hrc
          rw [hrc] at hs2
          revert hs2
          decide
        · simp only [Option.map_eq_some'] at hr
          obtain ⟨r2, hr2, rfl⟩ := hr
          dsimp only at hrc
          rcases dfuStream_rc _ _ _ _ _ _ _ _ _ _ r2 hr2 with h | h | h | h | ⟨off, len, h⟩
          · rw [hrc] at h
            rw [← h] at hs2
            revert hs2
            decide
          · rw [hrc] at h; revert h; decide
          · rw [hrc] at h; revert h; decide
          · rw [hrc] at h; revert h; decide
          · rw [hrc] at h
            exact hdata off len h.symm

/-- C4 (amended) at a blob whose FW-Format is "BNO_V2": the call returns
`SH_STATUS_INVALID_HCBIN` having only opened the blob. -/
theorem performDfu_invalid_hcbin_witness :
    (ackPlatform (fun _ => 0x73)).dev ≠ 0
      ∧ bno070_performDfu 2 (ackPlatform (fun _ => 0x73))
          (imageBlob (some "BNO_V2") [1, 2, 3] 64) (fun _ => 0)
        = some ⟨SH_STATUS_INVALID_HCBIN, [DfuEvent.hcbinOpen]⟩ :=
  ⟨by decide,
    (performDfu_invalid_hcbin 2 (ackPlatform (fun _ => 0x73))
      (imageBlob (some "BNO_V2") [1, 2, 3] 64) (fun _ => 0) (by decide)).1
      (Or.inr (by decide))⟩

/-! ## Proofs: FRS read -/

theorem Poll.delivered_iff (p : Poll) :
    p.delivered = true ↔
      p.intn = false ∧ p.i2cRc = 0 ∧ 2 ≤ read16 p.buffer ∧ read16 p.buffer ≤ 18 := by
  simp [Poll.delivered, and_assoc]

/-- The outcome of `shhid_in` on a poll that delivers a report. -/
theorem shhid_in_delivered (p : Poll) (report : Mem) (h : p.delivered = true) :
    shhid_in p report 16 false
      = ⟨SH_STATUS_SUCCESS, read16 p.buffer - 2, memcpy report p.frame (read16 p.buffer - 2),
          none⟩ := by
  obtain ⟨h1, h2, h3, h4⟩ := (Poll.delivered_iff p).mp h
  unfold shhid_in
  have h5 : ¬ (read16 p.buffer < 2 ∨ read16 p.buffer > SHHID_MAX_INPUT_REPORT_LEN + 2) := by
    simp only [SHHID_MAX_INPUT_REPORT_LEN]
    omega
  simp only [h1, h2, h5]
  simp [Poll.frame]

/-- The status of `shhid_in` on a poll that delivers no report is not success, and neither
the status nor the length depends on the report buffer. -/
theorem shhid_in_failed (p : Poll) (report : Mem) (h : p.delivered = false) :
    (shhid_in p report 16 false).rc ≠ SH_STATUS_SUCCESS := by
  have hnd : ¬ (p.intn = false ∧ p.i2cRc = 0 ∧ 2 ≤ read16 p.buffer ∧ read16 p.buffer ≤ 18) := by
    rw [← Poll.delivered_iff, h]; simp
  unfold shhid_in
  by_cases h1 : p.intn = false
  · by_cases h2 : p.i2cRc = 0
    · have h5 : read16 p.buffer < 2 ∨ read16 p.buffer > SHHID_MAX_INPUT_REPORT_LEN + 2 := by
        by_contra hc
        simp only [SHHID_MAX_INPUT_REPORT_LEN] at hc
        exact hnd ⟨h1, h2, by omega, by omega⟩
      simp [h1, h2, h5]
    · simp [h1, h2]
  · simp [h1]

theorem shhid_in_rc_indep (p : Poll) (r1 r2 : Mem) :
    (shhid_in p r1 16 false).rc = (shhid_in p r2 16 false).rc := by
  unfold shhid_in
  dsimp only
  split
  · rfl
  · split
    · rfl
    · split <;> rfl

theorem Poll.isFrsReadResp_iff (recordId : Nat) (p : Poll) :
    p.isFrsReadResp recordId = true ↔
      p.delivered = true ∧ read16 p.buffer = 18 ∧ frsReportId p.frame = 0x86
        ∧ frsRecordId p.frame = recordId := by
  simp [Poll.isFrsReadResp, and_assoc]

theorem memcpy_lt (dst src : Mem) (n i : Nat) (h : i < n) : memcpy dst src n i = src i := by
  simp [memcpy, h]

theorem memcpy_ge (dst src : Mem) (n i : Nat) (h : n ≤ i) : memcpy dst src n i = dst i := by
  simp [memcpy, Nat.not_lt.mpr h]

theorem frsReportId_memcpy (dst src : Mem) : frsReportId (memcpy dst src 16) = frsReportId src := by
  simp [frsReportId, memcpy]

theorem frsWordsStatus_memcpy (dst src : Mem) :
    frsWordsStatus (memcpy dst src 16) = frsWordsStatus src := by
  simp [frsWordsStatus, memcpy]

theorem frsOffset_memcpy (dst src : Mem) : frsOffset (memcpy dst src 16) = frsOffset src := by
  simp [frsOffset, read16, Mem.shift, memcpy]

theorem frsRecordId_memcpy (dst src : Mem) : frsRecordId (memcpy dst src 16) = frsRecordId src := by
  simp [frsRecordId, read16, Mem.shift, memcpy]

theorem frsDataWord_memcpy (dst src : Mem) (n : Nat) (h : n < 3) :
    frsDataWord (memcpy dst src 16) n = frsDataWord src n := by
  interval_cases n <;> simp [frsDataWord, load32, Mem.shift, memcpy]

/-- A pass of the loop of `sh_getFrs` over a poll that delivers no report. -/
theorem getFrsLoop_cons_failed (recordId c : Nat) (request : List Nat) (p : Poll)
    (ps : List Poll) (inReport : Mem) (v : FrsVars) (h : p.delivered = false) :
    getFrsLoop recordId c request (p :: ps) inReport v
      = ⟨(shhid_in p inReport 16 false).rc, 0, v.pData, v.writes, request, FrsExit.inFailed⟩ := by
  rw [getFrsLoop]
  simp only [shhid_in_failed p inReport h, ne_eq, not_false_eq_true, if_true]

/-- A pass of the loop of `sh_getFrs` over a poll that delivers another report. -/
theorem getFrsLoop_cons_other (recordId c : Nat) (request : List Nat) (p : Poll)
    (ps : List Poll) (inReport : Mem) (v : FrsVars) (h : p.isOther recordId = true) :
    getFrsLoop recordId c request (p :: ps) inReport v
      = getFrsLoop recordId c request ps (memcpy inReport p.frame (read16 p.buffer - 2))
          { v with rc := SH_STATUS_SUCCESS } := by
  simp only [Poll.isOther, Bool.and_eq_true, Bool.not_eq_true'] at h
  obtain ⟨hd, hn⟩ := h
  have hn2 : ¬ (p.isFrsReadResp recordId = true) := by simp [hn]
  rw [Poll.isFrsReadResp_iff] at hn2
  obtain ⟨h1, h2, h3, h4⟩ := (Poll.delivered_iff p).mp hd
  rw [getFrsLoop, shhid_in_delivered p inReport hd]
  by_cases hl : read16 p.buffer - 2 = 16
  · have h18 : read16 p.buffer = 18 := by omega
    simp only [hl, frsReportId_memcpy, frsRecordId_memcpy]
    by_cases hid : frsReportId p.frame = 0x86
    · have hrec : frsRecordId p.frame ≠ recordId := fun hr => hn2 ⟨hd, h18, hid, hr⟩
      simp [hid, hrec]
    · simp [hid]
  · simp [hl]

/-- A pass of the loop of `sh_getFrs` over a poll that delivers an FRS read response for
the requested record. -/
theorem getFrsLoop_cons_resp (recordId c : Nat) (request : List Nat) (p : Poll)
    (ps : List Poll) (inReport : Mem) (v : FrsVars) (h : p.isFrsReadResp recordId = true) :
    getFrsLoop recordId c request (p :: ps) inReport v
      = match frsHandleResp c request (memcpy inReport p.frame 16)
          { v with rc := SH_STATUS_SUCCESS } with
        | FrsStep.ret res => res
        | FrsStep.next v2 => getFrsLoop recordId c request ps (memcpy inReport p.frame 16) v2 := by
  obtain ⟨hd, h18, hid, hrec⟩ := (Poll.isFrsReadResp_iff recordId p).mp h
  rw [getFrsLoop, shhid_in_delivered p inReport hd]
  simp [h18, frsReportId_memcpy, frsRecordId_memcpy, hid, hrec]

theorem memcpy_agree (r1 r2 src : Mem) (n : Nat) (hn : n ≤ 16)
    (h : ∀ i, 16 ≤ i → r1 i = r2 i) : ∀ i, 16 ≤ i → memcpy r1 src n i = memcpy r2 src n i := by
  intro i hi
  rw [memcpy_ge _ _ _ _ (by omega), memcpy_ge _ _ _ _ (by omega)]
  exact h i hi

theorem memcpy_16_eq (r1 r2 src : Mem) (h : ∀ i, 16 ≤ i → r1 i = r2 i) :
    memcpy r1 src 16 = memcpy r2 src 16 := by
  funext i
  by_cases hi : i < 16
  · rw [memcpy_lt _ _ _ _ hi, memcpy_lt _ _ _ _ hi]
  · rw [memcpy_ge _ _ _ _ (by omega), memcpy_ge _ _ _ _ (by omega)]
    exact h i (by omega)

/-- The loop of `sh_getFrs` does not depend on the 16 bytes of `inReport` it starts
with, nor on the value of `rc` it starts with: both are overwritten before they are read. -/
theorem getFrsLoop_congr (recordId c : Nat) (request : List Nat) :
    ∀ (ps : List Poll) (r1 r2 : Mem) (v : FrsVars) (rc2 : Int),
      (∀ i, 16 ≤ i → r1 i = r2 i) →
      getFrsLoop recordId c request ps r1 v
        = getFrsLoop recordId c request ps r2 { v with rc := rc2 } := by
  intro ps
  induction ps with
  | nil =>
    intro r1 r2 v rc2 h
    simp [getFrsLoop]
  | cons p ps ih =>
    intro r1 r2 v rc2 h
    by_cases hd : p.delivered = true
    · by_cases hr : p.isFrsReadResp recordId = true
      · rw [getFrsLoop_cons_resp _ _ _ _ _ _ _ hr, getFrsLoop_cons_resp _ _ _ _ _ _ _ hr,
          memcpy_16_eq r1 r2 p.frame h]
      · have ho : p.isOther recordId = true := by
          simp [Poll.isOther, hd, hr]
        obtain ⟨_, _, _, h4⟩ := (Poll.delivered_iff p).mp hd
        rw [getFrsLoop_cons_other _ _ _ _ _ _ _ ho, getFrsLoop_cons_other _ _ _ _ _ _ _ ho]
        exact ih _ _ _ _ (memcpy_agree r1 r2 p.frame _ (by omega) h)
    · have hf : p.delivered = false := by simpa using hd
      rw [getFrsLoop_cons_failed _ _ _ _ _ _ _ hf, getFrsLoop_cons_failed _ _ _ _ _ _ _ hf,
        shhid_in_rc_indep p r1 r2]

/-- A report that is not an FRS read response for the requested record is skipped. -/
theorem getFrsLoop_skip (recordId c : Nat) (request : List Nat) (p : Poll) (ps : List Poll)
    (inReport : Mem) (v : FrsVars) (h : p.isOther recordId = true) :
    getFrsLoop recordId c request (p :: ps) inReport v
      = getFrsLoop recordId c request ps inReport v := by
  have hd : p.delivered = true := by
    simp only [Poll.isOther, Bool.and_eq_true] at h
    exact h.1
  obtain ⟨_, _, _, h4⟩ := (Poll.delivered_iff p).mp hd
  rw [getFrsLoop_cons_other _ _ _ _ _ _ _ h]
  exact (getFrsLoop_congr recordId c request ps inReport _ v SH_STATUS_SUCCESS
    (fun i hi => (memcpy_ge _ _ _ _ (by omega)).symm)).symm

/-- Two streams on which the loop agrees still agree behind a common first poll. -/
theorem getFrsLoop_cons_congr (recordId c : Nat) (request : List Nat) (p : Poll)
    (l1 l2 : List Poll)
    (h : ∀ r v, getFrsLoop recordId c request l1 r v = getFrsLoop recordId c request l2 r v) :
    ∀ r v, getFrsLoop recordId c request (p :: l1) r v
      = getFrsLoop recordId c request (p :: l2) r v := by
  intro r v
  simp only [getFrsLoop, h]

theorem getFrsLoop_insert (recordId c : Nat) (request : List Nat) (x : Poll)
    (hx : x.isOther recordId = true) (post : List Poll) :
    ∀ (pre : List Poll) (r : Mem) (v : FrsVars),
      getFrsLoop recordId c request (pre ++ x :: post) r v
        = getFrsLoop recordId c request (pre ++ post) r v := by
  intro pre
  induction pre with
  | nil =>
    intro r v
    exact getFrsLoop_skip recordId c request x post r v hx
  | cons p pre ih =>
    intro r v
    exact getFrsLoop_cons_congr recordId c request p _ _ ih r v

/-- The loop of `sh_getFrs` sees only the polls that are not skipped. -/
theorem getFrsLoop_filter (recordId c : Nat) (request : List Nat) :
    ∀ (ps : List Poll) (r : Mem) (v : FrsVars),
      getFrsLoop recordId c request ps r v
        = getFrsLoop recordId c request (ps.filter (fun p => !p.isOther recordId)) r v := by
  intro ps
  induction ps with
  | nil => intro r v; rfl
  | cons p ps ih =>
    intro r v
    by_cases ho : p.isOther recordId = true
    · rw [getFrsLoop_skip _ _ _ _ _ _ _ ho, List.filter_cons_of_neg (by simp [ho])]
      exact ih r v
    · rw [List.filter_cons_of_pos (by simp [ho])]
      exact getFrsLoop_cons_congr recordId c request p _ _ ih r v

/-- C10 (FRS read filtering): for every stream of inbound traffic, every requested record
and every capacity, the result of `sh_getFrs` (status, `*dataLenWords`, the buffer and the
stores made into it) is the same when a report that is not an FRS read response for the
requested record (a delivered report whose length is not 16, whose reportId is not 0x86
or whose recordId field is not the requested one) is inserted at any place of the stream. -/
theorem getFrs_ignores_other_reports (pre post : List Poll) (x : Poll) (inReport0 : Mem)
    (recordId : Nat) (pData : Mem) (dataLenWords : Nat)
    (hx : x.isOther (recordId % 65536) = true) :
    sh_getFrs (pre ++ x :: post) inReport0 recordId pData dataLenWords
      = sh_getFrs (pre ++ post) inReport0 recordId pData dataLenWords := by
  unfold sh_getFrs
  exact getFrsLoop_insert _ _ _ x hx post pre _ _

/-- A fold preserves what each of its steps preserves. -/
theorem foldl_preserves {α β : Type} (P : β → Prop) (f : β → α → β)
    (hf : ∀ b a, P b → P (f b a)) : ∀ (l : List α) (b : β), P b → P (l.foldl f b) := by
  intro l
  induction l with
  | nil => intro b hb; exact hb
  | cons a l ih => intro b hb; exact ih _ (hf b a hb)

/-- What `frsHandleResp` can end in, given what the copy loop preserves: a property of
the stores and the buffer that the copy of one word preserves holds of the outcome. -/
theorem frsHandleResp_preserves (P : Mem → List (Nat × Nat) → Prop) (c : Nat)
    (request : List Nat) (R : Mem) (v : FrsVars)
    (hstep : ∀ (v : FrsVars) (off n : Nat), P v.pData v.writes →
      P (frsCopyWord c off R v n).pData (frsCopyWord c off R v n).writes)
    (hv : P v.pData v.writes) :
    match frsHandleResp c request R v with
    | FrsStep.ret res => P res.pData res.writes
    | FrsStep.next v2 => P v2.pData v2.writes := by
  have hfold := foldl_preserves (fun v : FrsVars => P v.pData v.writes)
    (frsCopyWord c (frsOffset R % 256) R) (fun b a hb => hstep b _ a hb)
    (List.range ((frsWordsStatus R >>> 4) &&& 0x0F)) v hv
  unfold frsHandleResp
  dsimp only
  split_ifs <;> first | exact hv | exact hfold

/-- A property of the stores and the buffer that the copy of one word preserves holds
of the result of the loop of `sh_getFrs`. -/
theorem getFrsLoop_preserves (P : Mem → List (Nat × Nat) → Prop) (recordId c : Nat)
    (request : List Nat)
    (hstep : ∀ (R : Mem) (v : FrsVars) (off n : Nat), P v.pData v.writes →
      P (frsCopyWord c off R v n).pData (frsCopyWord c off R v n).writes) :
    ∀ (ps : List Poll) (inReport : Mem) (v : FrsVars), P v.pData v.writes →
      P (getFrsLoop recordId c request ps inReport v).pData
        (getFrsLoop recordId c request ps inReport v).writes := by
  intro ps
  induction ps with
  | nil => intro inReport v hv; exact hv
  | cons p ps ih =>
    intro inReport v hv
    by_cases hd : p.delivered = true
    · by_cases hr : p.isFrsReadResp recordId = true
      · rw [getFrsLoop_cons_resp _ _ _ _ _ _ _ hr]
        have hh := frsHandleResp_preserves P c request (memcpy inReport p.frame 16)
          { v with rc := SH_STATUS_SUCCESS } (hstep _) hv
        revert hh
        cases frsHandleResp c request (memcpy inReport p.frame 16)
          { v with rc := SH_STATUS_SUCCESS } with
        | ret res => intro hh; exact hh
        | next v2 => intro hh; exact ih _ _ hh
      · have ho : p.isOther recordId = true := by
          simp [Poll.isOther, hd, hr]
        rw [getFrsLoop_skip _ _ _ _ _ _ _ ho]
        exact ih _ _ hv
    · have hf : p.delivered = false := by simpa using hd
      rw [getFrsLoop_cons_failed _ _ _ _ _ _ _ hf]
      exact hv

/-- C6 (FRS read buffer bound): for every caller capacity `c` (the incoming
`*dataLenWords`, a `uint16_t`: `c % 65536`), every stream of inbound traffic, every
requested record and every buffer, each index at which `sh_getFrs` stores into `pData`
is strictly below the capacity, and the cells of `pData` at the capacity and above are
left as they were. -/
theorem getFrs_within_capacity (polls : List Poll) (inReport0 : Mem) (recordId : Nat)
    (pData : Mem) (c : Nat) :
    (∀ w ∈ (sh_getFrs polls inReport0 recordId pData c).writes, w.1 < c % 65536)
      ∧ (∀ i, c % 65536 ≤ i → (sh_getFrs polls inReport0 recordId pData c).pData i = pData i) := by
  unfold sh_getFrs
  refine getFrsLoop_preserves
    (fun m ws => (∀ w ∈ ws, w.1 < c % 65536) ∧ (∀ i, c % 65536 ≤ i → m i = pData i))
    _ _ _ ?_ polls inReport0 _ ⟨by simp, fun i _ => rfl⟩
  intro R v off n ⟨h1, h2⟩
  unfold frsCopyWord
  split
  · exact ⟨h1, h2⟩
  · rename_i hlt
    have hidx : (off + n) % 65536 < c % 65536 :=
      Nat.lt_of_le_of_lt (Nat.mod_le _ _) (by omega)
    constructor
    · intro w hw
      simp only [List.mem_append, List.mem_singleton] at hw
      rcases hw with hw | hw
      · exact h1 w hw
      · rw [hw]; exact hidx
    · intro i hi
      show (v.pData.set _ _) i = pData i
      rw [Mem.set_other _ _ _ _ (by omega)]
      exact h2 i hi

/-- The recorded stores are the stores: the buffer `sh_getFrs` leaves is the caller's
buffer with the recorded stores applied in order. -/
theorem getFrs_pData_eq_writes (polls : List Poll) (inReport0 : Mem) (recordId : Nat)
    (pData : Mem) (c : Nat) :
    (sh_getFrs polls inReport0 recordId pData c).pData
      = applyWrites (sh_getFrs polls inReport0 recordId pData c).writes pData := by
  unfold sh_getFrs
  refine getFrsLoop_preserves (fun m ws => m = applyWrites ws pData) _ _ _ ?_ polls inReport0 _ rfl
  intro R v off n h
  unfold frsCopyWord
  split
  · exact h
  · show v.pData.set _ _ = applyWrites (v.writes ++ [_]) pData
    rw [h]
    simp [applyWrites, List.foldl_append]

/-- The return `frsHandleResp` takes on one of the five statuses that end the read without
data. -/
theorem frsHandleResp_no_data (c : Nat) (request : List Nat) (R : Mem) (v : FrsVars) :
    (frsWordsStatus R &&& 0x0F = 1 → frsHandleResp c request R v
        = FrsStep.ret ⟨SH_STATUS_FRS_READ_UNRECOGNIZED_FRS, 0, v.pData, v.writes, request,
            FrsExit.errorStatus⟩)
      ∧ (frsWordsStatus R &&& 0x0F = 2 → frsHandleResp c request R v
        = FrsStep.ret ⟨SH_STATUS_FRS_READ_BUSY, 0, v.pData, v.writes, request,
            FrsExit.errorStatus⟩)
      ∧ (frsWordsStatus R &&& 0x0F = 4 → frsHandleResp c request R v
        = FrsStep.ret ⟨SH_STATUS_FRS_READ_OFFSET_OUT_OF_RANGE, 0, v.pData, v.writes, request,
            FrsExit.errorStatus⟩)
      ∧ (frsWordsStatus R &&& 0x0F = 8 → frsHandleResp c request R v
        = FrsStep.ret ⟨SH_STATUS_FRS_READ_DEVICE_ERROR, 0, v.pData, v.writes, request,
            FrsExit.errorStatus⟩)
      ∧ (frsWordsStatus R &&& 0x0F = 5 → frsHandleResp c request R v
        = FrsStep.ret ⟨SH_STATUS_SUCCESS, 0, v.pData, v.writes, request, FrsExit.empty⟩) := by
  refine ⟨?_, ?_, ?_, ?_, ?_⟩ <;> intro h <;> simp [frsHandleResp, h]

/-- C8 (FRS read status mapping): when the first FRS read response for the requested
record that the stream delivers (behind any number of other reports) has status `s` in
{1, 2, 4, 8, 5}, `sh_getFrs` returns with `*dataLenWords = 0`, without a store into
`pData`, and with `SH_STATUS_FRS_READ_UNRECOGNIZED_FRS` for 1, `SH_STATUS_FRS_READ_BUSY`
for 2, `SH_STATUS_FRS_READ_OFFSET_OUT_OF_RANGE` for 4, `SH_STATUS_FRS_READ_DEVICE_ERROR`
for 8 and `SH_STATUS_SUCCESS` for 5 (EMPTY); the five results are pairwise distinct. -/
theorem getFrs_status_mapping (polls rest : List Poll) (t : Poll) (inReport0 : Mem)
    (recordId : Nat) (pData : Mem) (c : Nat)
    (hacc : polls.filter (fun p => !p.isOther (recordId % 65536)) = t :: rest)
    (ht : t.isFrsReadResp (recordId % 65536) = true)
    (hs : t.frsStatus = 1 ∨ t.frsStatus = 2 ∨ t.frsStatus = 4 ∨ t.frsStatus = 8
      ∨ t.frsStatus = 5) :
    (sh_getFrs polls inReport0 recordId pData c).dataLenWords = 0
      ∧ (sh_getFrs polls inReport0 recordId pData c).writes = []
      ∧ (sh_getFrs polls inReport0 recordId pData c).pData = pData
      ∧ (t.frsStatus = 1 → (sh_getFrs polls inReport0 recordId pData c).rc
          = SH_STATUS_FRS_READ_UNRECOGNIZED_FRS)
      ∧ (t.frsStatus = 2 → (sh_getFrs polls inReport0 recordId pData c).rc
          = SH_STATUS_FRS_READ_BUSY)
      ∧ (t.frsStatus = 4 → (sh_getFrs polls inReport0 recordId pData c).rc
          = SH_STATUS_FRS_READ_OFFSET_OUT_OF_RANGE)
      ∧ (t.frsStatus = 8 → (sh_getFrs polls inReport0 recordId pData c).rc
          = SH_STATUS_FRS_READ_DEVICE_ERROR)
      ∧ (t.frsStatus = 5 → (sh_getFrs polls inReport0 recordId pData c).rc
          = SH_STATUS_SUCCESS)
      ∧ [SH_STATUS_FRS_READ_UNRECOGNIZED_FRS, SH_STATUS_FRS_READ_BUSY,
          SH_STATUS_FRS_READ_OFFSET_OUT_OF_RANGE, SH_STATUS_FRS_READ_DEVICE_ERROR,
          SH_STATUS_SUCCESS].Nodup := by
  have hst : ∀ R : Mem, frsWordsStatus (memcpy R t.frame 16) &&& 0x0F = t.frsStatus := by
    intro R; rw [frsWordsStatus_memcpy]; rfl
  obtain ⟨e1, e2, e4, e8, e5⟩ := frsHandleResp_no_data (c % 65536)
    [SH_FRS_READ_REQUEST, 0, 0, 0, recordId % 65536 % 256, recordId % 65536 / 256,
      c % 65536 % 256, c % 65536 / 256]
    (memcpy inReport0 t.frame 16) ⟨SH_STATUS_SUCCESS, 0, pData, []⟩
  rw [hst] at e1 e2 e4 e8 e5
  have hrun : sh_getFrs polls inReport0 recordId pData c
      = match frsHandleResp (c % 65536)
          [SH_FRS_READ_REQUEST, 0, 0, 0, recordId % 65536 % 256, recordId % 65536 / 256,
            c % 65536 % 256, c % 65536 / 256]
          (memcpy inReport0 t.frame 16) ⟨SH_STATUS_SUCCESS, 0, pData, []⟩ with
        | FrsStep.ret res => res
        | FrsStep.next v2 => getFrsLoop (recordId % 65536) (c % 65536)
            [SH_FRS_READ_REQUEST, 0, 0, 0, recordId % 65536 % 256, recordId % 65536 / 256,
              c % 65536 % 256, c % 65536 / 256] rest (memcpy inReport0 t.frame 16) v2 := by
    unfold sh_getFrs
    dsimp only
    rw [getFrsLoop_filter, hacc, getFrsLoop_cons_resp _ _ _ _ _ _ _ ht]
  rw [hrun]
  rcases hs with h | h | h | h | h
  · rw [e1 h]; simp [h]
  · rw [e2 h]; simp [h]
  · rw [e4 h]; simp [h]
  · rw [e8 h]; simp [h]
  · rw [e5 h]; simp [h]

/-- C8 at a stream that delivers a sensor event and then a response with status BUSY. -/
theorem getFrs_status_mapping_witness :
    (sh_getFrs [sensorEventPoll 5, frsReadRespPoll 0xE302 0 2 0 0 0] (fun _ => 0) 0xE302
        (fun _ => 0) 16).dataLenWords = 0
      ∧ (sh_getFrs [sensorEventPoll 5, frsReadRespPoll 0xE302 0 2 0 0 0] (fun _ => 0) 0xE302
        (fun _ => 0) 16).rc = SH_STATUS_FRS_READ_BUSY :=
  have h := getFrs_status_mapping [sensorEventPoll 5, frsReadRespPoll 0xE302 0 2 0 0 0] []
    (frsReadRespPoll 0xE302 0 2 0 0 0) (fun _ => 0) 0xE302 (fun _ => 0) 16 rfl (by decide)
    (Or.inr (Or.inl (by decide)))
  ⟨h.1, h.2.2.2.2.1 (by decide)⟩

/-- C10 at a stream of two responses with a sensor event inserted between them. -/
theorem getFrs_ignores_other_reports_witness :
    sh_getFrs ([frsReadRespPoll 0xE302 2 0 0 10 11] ++ sensorEventPoll 5
        :: [frsReadRespPoll 0xE302 2 3 2 12 13]) (fun _ => 0) 0xE302 (fun _ => 0) 16
      = sh_getFrs ([frsReadRespPoll 0xE302 2 0 0 10 11] ++ [frsReadRespPoll 0xE302 2 3 2 12 13])
          (fun _ => 0) 0xE302 (fun _ => 0) 16 :=
  getFrs_ignores_other_reports [frsReadRespPoll 0xE302 2 0 0 10 11]
    [frsReadRespPoll 0xE302 2 3 2 12 13] (sensorEventPoll 5) (fun _ => 0) 0xE302 (fun _ => 0) 16
    (by decide)

/-- The copy loop on a response that carries two words at an offset `b` with both words
inside the capacity. -/
theorem frsCopy_two_words (c b : Nat) (R : Mem) (v : FrsVars) (hb : b + 2 ≤ c)
    (hc : c < 65536) :
    (List.range 2).foldl (frsCopyWord c b R) v
      = ⟨v.rc, b + 1, (v.pData.set b (frsDataWord R 0)).set (b + 1) (frsDataWord R 1),
          v.writes ++ [(b, frsDataWord R 0), (b + 1, frsDataWord R 1)]⟩ := by
  have h0 : ¬ (c ≤ b) := by omega
  have h1 : ¬ (c ≤ b + 1) := by omega
  have m0 : b % 65536 = b := Nat.mod_eq_of_lt (by omega)
  have m1 : (b + 1) % 65536 = b + 1 := Nat.mod_eq_of_lt (by omega)
  simp [List.range_succ, frsCopyWord, h0, h1, m0, m1]

/-- The loop of `sh_getFrs` over responses that carry two words each at the offsets `b`,
`b + 2`, ..., the last one with a terminal status and the others with NO_ERROR. -/
theorem getFrsLoop_in_order (recordId c : Nat) (request : List Nat) (hc : c < 65536) :
    ∀ (resps rest : List Poll) (b : Nat) (inReport : Mem) (v : FrsVars),
      resps ≠ [] → b + 2 * resps.length ≤ c → b + 2 * resps.length ≤ 256 →
      (∀ j (h : j < resps.length),
        resps[j].isFrsReadResp recordId = true ∧ resps[j].frsWords = 2
          ∧ frsOffset resps[j].frame = b + 2 * j
          ∧ (j + 1 < resps.length → resps[j].frsStatus = 0)
          ∧ (j + 1 = resps.length → resps[j].frsStatus = 3 ∨ resps[j].frsStatus = 6
              ∨ resps[j].frsStatus = 7)) →
      (getFrsLoop recordId c request (resps ++ rest) inReport v).rc = SH_STATUS_SUCCESS
        ∧ (getFrsLoop recordId c request (resps ++ rest) inReport v).dataLenWords
            = b + 2 * resps.length
        ∧ (getFrsLoop recordId c request (resps ++ rest) inReport v).exit = FrsExit.done
        ∧ (∀ i, i < b →
            (getFrsLoop recordId c request (resps ++ rest) inReport v).pData i = v.pData i)
        ∧ (∀ j (h : j < resps.length),
            (getFrsLoop recordId c request (resps ++ rest) inReport v).pData (b + 2 * j)
                = frsDataWord resps[j].frame 0
              ∧ (getFrsLoop recordId c request (resps ++ rest) inReport v).pData (b + 2 * j + 1)
                = frsDataWord resps[j].frame 1) := by
  intro resps
  induction resps with
  | nil => intro rest b inReport v hne; exact absurd rfl hne
  | cons p ps ih =>
    intro rest b inReport v _ hcap h256 hall
    obtain ⟨hp, hw, ho, hs0, hs1⟩ := hall 0 (by simp)
    simp only [List.getElem_cons_zero, List.length_cons] at hp hw ho hs0 hs1
    simp only [List.length_cons] at hcap h256
    have hwR : (frsWordsStatus (memcpy inReport p.frame 16) >>> 4) &&& 0x0F = 2 := by
      rw [frsWordsStatus_memcpy]; exact hw
    have hoR : frsOffset (memcpy inReport p.frame 16) % 256 = b := by
      rw [frsOffset_memcpy, ho]; exact Nat.mod_eq_of_lt (by omega)
    have hsR : frsWordsStatus (memcpy inReport p.frame 16) &&& 0x0F = p.frsStatus := by
      rw [frsWordsStatus_memcpy]; rfl
    have hcopy := frsCopy_two_words c b (memcpy inReport p.frame 16)
      { v with rc := SH_STATUS_SUCCESS } (by omega) hc
    rw [frsDataWord_memcpy _ _ 0 (by omega), frsDataWord_memcpy _ _ 1 (by omega)] at hcopy
    rw [List.cons_append, getFrsLoop_cons_resp _ _ _ _ _ _ _ hp]
    by_cases hlast : ps = []
    · subst hlast
      have hterm := hs1 (by simp)
      have hret : frsHandleResp c request (memcpy inReport p.frame 16)
          { v with rc := SH_STATUS_SUCCESS }
          = FrsStep.ret ⟨SH_STATUS_SUCCESS, b + 2,
              (v.pData.set b (frsDataWord p.frame 0)).set (b + 1) (frsDataWord p.frame 1),
              v.writes ++ [(b, frsDataWord p.frame 0), (b + 1, frsDataWord p.frame 1)],
              request, FrsExit.done⟩ := by
        unfold frsHandleResp
        simp only [hsR, hwR, hoR, hcopy]
        have e : (b + 1 + 1) % 65536 = b + 2 := Nat.mod_eq_of_lt (by omega)
        rcases hterm with h | h | h <;> simp [h, e]
      rw [hret]
      refine ⟨rfl, by simp, rfl, ?_, ?_⟩
      · intro i hi
        show ((v.pData.set b _).set (b + 1) _) i = v.pData i
        rw [Mem.set_other _ _ _ _ (by omega), Mem.set_other _ _ _ _ (by omega)]
      · intro j hj
        have hj0 : j = 0 := by simpa using hj
        subst hj0
        constructor
        · show ((v.pData.set b _).set (b + 1) _) (b + 2 * 0) = _
          rw [Mem.set_other _ _ _ _ (by omega)]
          exact Mem.set_same _ _ _
        · show ((v.pData.set b _).set (b + 1) _) (b + 2 * 0 + 1) = _
          exact Mem.set_same _ _ _
    · have hlen : 0 < ps.length := List.length_pos.mpr hlast
      have hst0 := hs0 (by omega)
      have hnext : frsHandleResp c request (memcpy inReport p.frame 16)
          { v with rc := SH_STATUS_SUCCESS }
          = FrsStep.next ⟨SH_STATUS_SUCCESS, b + 1,
              (v.pData.set b (frsDataWord p.frame 0)).set (b + 1) (frsDataWord p.frame 1),
              v.writes ++ [(b, frsDataWord p.frame 0), (b + 1, frsDataWord p.frame 1)]⟩ := by
        unfold frsHandleResp
        simp only [hsR, hwR, hoR, hcopy]
        simp [hst0]
      rw [hnext]
      have hall2 : ∀ j (h : j < ps.length),
          ps[j].isFrsReadResp recordId = true ∧ ps[j].frsWords = 2
            ∧ frsOffset ps[j].frame = b + 2 + 2 * j
            ∧ (j + 1 < ps.length → ps[j].frsStatus = 0)
            ∧ (j + 1 = ps.length → ps[j].frsStatus = 3 ∨ ps[j].frsStatus = 6
                ∨ ps[j].frsStatus = 7) := by
        intro j hj
        obtain ⟨a1, a2, a3, a4, a5⟩ := hall (j + 1) (by simp; omega)
        simp only [List.getElem_cons_succ, List.length_cons] at a1 a2 a3 a4 a5
        exact ⟨a1, a2, by omega, fun h => a4 (by omega), fun h => a5 (by omega)⟩
      obtain ⟨r1, r2, r3, r4, r5⟩ := ih rest (b + 2) (memcpy inReport p.frame 16)
        ⟨SH_STATUS_SUCCESS, b + 1,
          (v.pData.set b (frsDataWord p.frame 0)).set (b + 1) (frsDataWord p.frame 1),
          v.writes ++ [(b, frsDataWord p.frame 0), (b + 1, frsDataWord p.frame 1)]⟩
        hlast (by omega) (by omega) hall2
      refine ⟨r1, by simp only [List.length_cons]; omega, r3, ?_, ?_⟩
      · intro i hi
        rw [r4 i (by omega)]
        show ((v.pData.set b _).set (b + 1) _) i = v.pData i
        rw [Mem.set_other _ _ _ _ (by omega), Mem.set_other _ _ _ _ (by omega)]
      · intro j hj
        cases j with
        | zero =>
          simp only [List.getElem_cons_zero]
          constructor
          · rw [r4 _ (by omega)]
            show ((v.pData.set b _).set (b + 1) _) (b + 2 * 0) = _
            rw [Mem.set_other _ _ _ _ (by omega)]
            exact Mem.set_same _ _ _
          · rw [r4 _ (by omega)]
            show ((v.pData.set b _).set (b + 1) _) (b + 2 * 0 + 1) = _
            exact Mem.set_same _ _ _
        | succ j =>
          have hj2 : j < ps.length := by simpa using hj
          obtain ⟨q1, q2⟩ := r5 j hj2
          simp only [List.getElem_cons_succ]
          have e1 : b + 2 * (j + 1) = b + 2 + 2 * j := by omega
          rw [e1]
          exact ⟨q1, q2⟩

/-- C5 (FRS read assembly): for every `k >= 1` with `2k <= 72` and every capacity
`c >= 2k`, if the FRS read responses for the requested record that the stream delivers
(between any other reports) begin with `k` responses carrying two words each at the
offsets 0, 2, ..., 2k-2, all with status NO_ERROR except the `k`-th whose status is
RECORD_COMPLETED, BLOCK_COMPLETED or BOTH_COMPLETED, then `sh_getFrs` returns
`SH_STATUS_SUCCESS`, sets `*dataLenWords = 2k`, and `pData[0..2k)` holds the data words
of the responses in arrival order. -/
theorem getFrs_in_order_assembly (polls resps rest : List Poll) (inReport0 : Mem)
    (recordId : Nat) (pData : Mem) (c k : Nat)
    (hc : c < 65536) (hk1 : 1 ≤ k) (hk2 : 2 * k ≤ 72) (hcap : 2 * k ≤ c)
    (hacc : polls.filter (fun p => !p.isOther (recordId % 65536)) = resps ++ rest)
    (hlen : resps.length = k)
    (hresp : ∀ j (h : j < resps.length),
      resps[j].isFrsReadResp (recordId % 65536) = true ∧ resps[j].frsWords = 2
        ∧ frsOffset resps[j].frame = 2 * j
        ∧ (j + 1 < k → resps[j].frsStatus = SH_FRS_READ_NO_ERROR)
        ∧ (j + 1 = k → resps[j].frsStatus = SH_FRS_READ_RECORD_COMPLETED
            ∨ resps[j].frsStatus = SH_FRS_READ_BLOCK_COMPLETED
            ∨ resps[j].frsStatus = SH_FRS_READ_BOTH_COMPLETED)) :
    (sh_getFrs polls inReport0 recordId pData c).rc = SH_STATUS_SUCCESS
      ∧ (sh_getFrs polls inReport0 recordId pData c).dataLenWords = 2 * k
      ∧ (∀ j (h : j < resps.length),
          (sh_getFrs polls inReport0 recordId pData c).pData (2 * j)
              = frsDataWord resps[j].frame 0
            ∧ (sh_getFrs polls inReport0 recordId pData c).pData (2 * j + 1)
              = frsDataWord resps[j].frame 1) := by
  have hne : resps ≠ [] := by
    intro h; rw [h] at hlen; simp at hlen; omega
  have hrun := getFrsLoop_in_order (recordId % 65536) c
    [SH_FRS_READ_REQUEST, 0, 0, 0, recordId % 65536 % 256, recordId % 65536 / 256,
      c % 256, c / 256] hc resps rest 0 inReport0 ⟨SH_STATUS_SUCCESS, 0, pData, []⟩ hne
    (by omega) (by omega)
    (by
      intro j h
      obtain ⟨a1, a2, a3, a4, a5⟩ := hresp j h
      exact ⟨a1, a2, by omega, fun h2 => a4 (by omega), fun h2 => a5 (by omega)⟩)
  have hsame : sh_getFrs polls inReport0 recordId pData c
      = getFrsLoop (recordId % 65536) c
          [SH_FRS_READ_REQUEST, 0, 0, 0, recordId % 65536 % 256, recordId % 65536 / 256,
            c % 256, c / 256] (resps ++ rest) inReport0 ⟨SH_STATUS_SUCCESS, 0, pData, []⟩ := by
    unfold sh_getFrs
    dsimp only
    rw [Nat.mod_eq_of_lt hc, getFrsLoop_filter, hacc]
  rw [hsame]
  obtain ⟨r1, r2, _, _, r5⟩ := hrun
  refine ⟨r1, by rw [r2]; omega, ?_⟩
  intro j h
  have := r5 j h
  simpa using this

/-- C5 at the scenario of the specification, with a sensor event between the responses:
capacity 16, result length 8, the buffer holds the eight words. -/
theorem getFrs_in_order_assembly_witness :
    (sh_getFrs (sensorEventPoll 5 :: scenarioResps) (fun _ => 0) 0xE302 (fun _ => 0) 16).rc
        = SH_STATUS_SUCCESS
      ∧ (sh_getFrs (sensorEventPoll 5 :: scenarioResps) (fun _ => 0) 0xE302 (fun _ => 0)
          16).dataLenWords = 2 * 4
      ∧ (List.range 8).map
          (sh_getFrs (sensorEventPoll 5 :: scenarioResps) (fun _ => 0) 0xE302 (fun _ => 0)
            16).pData = [100, 101, 102, 103, 104, 105, 106, 107] := by
  have h := getFrs_in_order_assembly (sensorEventPoll 5 :: scenarioResps) scenarioResps []
    (fun _ => 0) 0xE302 (fun _ => 0) 16 4 (by decide) (by decide) (by decide) (by decide)
    rfl rfl
    (by
      intro j h
      have h4 : j < 4 := h
      interval_cases j <;>
        simp only [scenarioResps, List.getElem_cons_zero, List.getElem_cons_succ] <;> decide)
  refine ⟨h.1, h.2.1, ?_⟩
  have h0 := h.2.2 0 (by decide)
  have h1 := h.2.2 1 (by decide)
  have h2 := h.2.2 2 (by decide)
  have h3 := h.2.2 3 (by decide)
  simp only [List.range_succ, List.range_zero, List.map_append, List.map_cons, List.map_nil,
    List.nil_append, List.cons_append]
  rw [h0.1, h0.2, h1.1, h1.2, h2.1, h2.2, h3.1, h3.2]
  decide

theorem frsCopyWord_lastCopied (c off n : Nat) (R : Mem) (v : FrsVars) (hc : c < 65536)
    (hv : LastCopiedOk v) : LastCopiedOk (frsCopyWord c off R v n) := by
  unfold frsCopyWord
  split
  · exact hv
  · rename_i hlt
    intro w hw
    simp only [List.getLast?_concat, Option.some.injEq] at hw
    subst hw
    have : (off + n) % 65536 = off + n := Nat.mod_eq_of_lt (by omega)
    exact ⟨rfl, by show (off + n) % 65536 < 65535; omega⟩

theorem frsHandleResp_lastCopied (c : Nat) (request : List Nat) (R : Mem) (v : FrsVars)
    (hc : c < 65536) (hv : LastCopiedOk v) :
    match frsHandleResp c request R v with
    | FrsStep.ret res => LengthIsLastIndex res
    | FrsStep.next v2 => LastCopiedOk v2 := by
  have hfold := foldl_preserves LastCopiedOk (frsCopyWord c (frsOffset R % 256) R)
    (fun b a hb => frsCopyWord_lastCopied c _ a R b hc hb)
    (List.range ((frsWordsStatus R >>> 4) &&& 0x0F)) v hv
  unfold frsHandleResp
  dsimp only
  split_ifs
  · intro h; simp at h
  · intro h; simp at h
  · intro h; simp at h
  · intro h; simp at h
  · intro h; simp at h
  · intro _ w hw
    obtain ⟨h1, h2⟩ := hfold w hw
    show (_ + 1) % 65536 = w.1 + 1
    rw [h1]
    exact Nat.mod_eq_of_lt (by omega)
  · exact hfold

theorem getFrsLoop_lastCopied (recordId c : Nat) (request : List Nat) (hc : c < 65536) :
    ∀ (ps : List Poll) (inReport : Mem) (v : FrsVars), LastCopiedOk v →
      LengthIsLastIndex (getFrsLoop recordId c request ps inReport v) := by
  intro ps
  induction ps with
  | nil => intro inReport v _ h; exact absurd h (by simp [getFrsLoop])
  | cons p ps ih =>
    intro inReport v hv
    by_cases hd : p.delivered = true
    · by_cases hr : p.isFrsReadResp recordId = true
      · rw [getFrsLoop_cons_resp _ _ _ _ _ _ _ hr]
        have hh := frsHandleResp_lastCopied c request (memcpy inReport p.frame 16)
          { v with rc := SH_STATUS_SUCCESS } hc hv
        revert hh
        cases frsHandleResp c request (memcpy inReport p.frame 16)
          { v with rc := SH_STATUS_SUCCESS } with
        | ret res => intro hh; exact hh
        | next v2 => intro hh; exact ih _ _ hh
      · have ho : p.isOther recordId = true := by
          simp [Poll.isOther, hd, hr]
        rw [getFrsLoop_skip _ _ _ _ _ _ _ ho]
        exact ih _ _ hv
    · have hf : p.delivered = false := by simpa using hd
      rw [getFrsLoop_cons_failed _ _ _ _ _ _ _ hf]
      intro h; simp at h

/-- One response that carries two words at offset 4 with status RECORD_COMPLETED,
capacity 16.  `sh_getFrs` finishes through the terminal status with `SH_STATUS_SUCCESS`,
has copied two words, and returns `*dataLenWords = 6`. -/
theorem getFrs_length_not_word_count :
    (sh_getFrs [frsReadRespPoll 0xE302 2 3 4 10 11] (fun _ => 0) 0xE302 (fun _ => 0) 16).rc
        = SH_STATUS_SUCCESS
      ∧ (sh_getFrs [frsReadRespPoll 0xE302 2 3 4 10 11] (fun _ => 0) 0xE302 (fun _ => 0)
          16).exit = FrsExit.done
      ∧ (sh_getFrs [frsReadRespPoll 0xE302 2 3 4 10 11] (fun _ => 0) 0xE302 (fun _ => 0)
          16).writes = [(4, 10), (5, 11)]
      ∧ (sh_getFrs [frsReadRespPoll 0xE302 2 3 4 10 11] (fun _ => 0) 0xE302 (fun _ => 0)
          16).dataLenWords = 6 := by
  decide

/-- The zero-word case: one response with word count 0 and status RECORD_COMPLETED.
`sh_getFrs` returns `SH_STATUS_SUCCESS` without a store into `pData`, and
`*dataLenWords = 1`. -/
theorem getFrs_zero_words_terminal :
    (sh_getFrs [frsReadRespPoll 0xE302 0 3 0 0 0] (fun _ => 0) 0xE302 (fun _ => 0) 16).rc
        = SH_STATUS_SUCCESS
      ∧ (sh_getFrs [frsReadRespPoll 0xE302 0 3 0 0 0] (fun _ => 0) 0xE302 (fun _ => 0)
          16).exit = FrsExit.done
      ∧ (sh_getFrs [frsReadRespPoll 0xE302 0 3 0 0 0] (fun _ => 0) 0xE302 (fun _ => 0)
          16).writes = []
      ∧ (sh_getFrs [frsReadRespPoll 0xE302 0 3 0 0 0] (fun _ => 0) 0xE302 (fun _ => 0)
          16).dataLenWords = 1 := by
  decide

/-- Whenever `sh_getFrs` finishes through a terminal status (3, 6 or 7) having stored at
least one word into `pData`, the returned `*dataLenWords` is the index of the last word
it stored plus one; so it is the number of words copied whenever the words were stored
at the indices 0, 1, 2, ... in order. -/
theorem getFrs_length_is_last_index (polls : List Poll) (inReport0 : Mem) (recordId : Nat)
    (pData : Mem) (c : Nat) (w : Nat × Nat)
    (hexit : (sh_getFrs polls inReport0 recordId pData c).exit = FrsExit.done)
    (hlast : (sh_getFrs polls inReport0 recordId pData c).writes.getLast? = some w) :
    (sh_getFrs polls inReport0 recordId pData c).dataLenWords = w.1 + 1
      ∧ ((sh_getFrs polls inReport0 recordId pData c).writes.map Prod.fst
            = List.range (sh_getFrs polls inReport0 recordId pData c).writes.length →
          (sh_getFrs polls inReport0 recordId pData c).dataLenWords
            = (sh_getFrs polls inReport0 recordId pData c).writes.length) := by
  have hlen : (sh_getFrs polls inReport0 recordId pData c).dataLenWords = w.1 + 1 := by
    have h := getFrsLoop_lastCopied (recordId % 65536) (c % 65536)
      [SH_FRS_READ_REQUEST, 0, 0, 0, recordId % 65536 % 256, recordId % 65536 / 256,
        c % 65536 % 256, c % 65536 / 256] (Nat.mod_lt _ (by decide)) polls inReport0
      ⟨SH_STATUS_SUCCESS, 0, pData, []⟩ (by intro w hw; simp at hw)
    exact h hexit w hlast
  refine ⟨hlen, ?_⟩
  intro hidx
  rw [hlen]
  generalize (sh_getFrs polls inReport0 recordId pData c).writes = ws at hlast hidx
  obtain ⟨ys, rfl⟩ := List.getLast?_eq_some_iff.mp hlast
  have h1 := congrArg List.getLast? hidx
  simp only [List.map_append, List.map_cons, List.map_nil, List.getLast?_concat,
    List.length_append, List.length_singleton, List.getLast?_range] at h1
  simp at h1
  simp [h1]

set_option maxRecDepth 100000 in
/-- The scenario of the specification: the last store is at index 7 and the returned
length is 8, the number of words copied. -/
theorem getFrs_length_is_last_index_witness :
    (sh_getFrs scenarioResps (fun _ => 0) 0xE302 (fun _ => 0) 16).dataLenWords = (7, 107).1 + 1
      ∧ ((sh_getFrs scenarioResps (fun _ => 0) 0xE302 (fun _ => 0) 16).writes.map Prod.fst
            = List.range (sh_getFrs scenarioResps (fun _ => 0) 0xE302 (fun _ => 0)
                16).writes.length →
          (sh_getFrs scenarioResps (fun _ => 0) 0xE302 (fun _ => 0) 16).dataLenWords
            = (sh_getFrs scenarioResps (fun _ => 0) 0xE302 (fun _ => 0) 16).writes.length) :=
  getFrs_length_is_last_index scenarioResps (fun _ => 0) 0xE302 (fun _ => 0) 16 (7, 107)
    (by decide) (by decide)

/-- C7, the code at the failing input: capacity 2; a response with two words at offset 0,
a response with two words at offset 2 (both beyond the capacity), and a terminal response
without words.  `sh_getFrs` consumes all three, finishes through the terminal status and
returns `SH_STATUS_SUCCESS`: the `SH_STATUS_FRS_READ_UNEXPECTED_LENGTH` it put into `rc`
at the second response was overwritten by the status of the next `shhid_in`. -/
theorem getFrs_overflow_forgotten :
    (sh_getFrs [frsReadRespPoll 0xE302 2 0 0 10 11, frsReadRespPoll 0xE302 2 0 2 12 13,
        frsReadRespPoll 0xE302 0 3 4 0 0] (fun _ => 0) 0xE302 (fun _ => 0) 2).rc
        = SH_STATUS_SUCCESS
      ∧ (sh_getFrs [frsReadRespPoll 0xE302 2 0 0 10 11, frsReadRespPoll 0xE302 2 0 2 12 13,
          frsReadRespPoll 0xE302 0 3 4 0 0] (fun _ => 0) 0xE302 (fun _ => 0) 2).exit
        = FrsExit.done
      ∧ (sh_getFrs [frsReadRespPoll 0xE302 2 0 0 10 11, frsReadRespPoll 0xE302 2 3 2 12 13]
          (fun _ => 0) 0xE302 (fun _ => 0) 2).rc = SH_STATUS_FRS_READ_UNEXPECTED_LENGTH := by
  decide

/-! ## Proofs: the receive loop -/

theorem Poll.len_le (p : Poll) (h : p.delivered = true) : p.len ≤ 16 := by
  obtain ⟨_, _, _, h4⟩ := (Poll.delivered_iff p).mp h
  unfold Poll.len
  omega

theorem inLoop_nil {σ ρ : Type} (onFail : Int → σ → ρ) (body : Nat → Mem → σ → LoopStep σ ρ)
    (R : Mem) (s : σ) : inLoop onFail body [] R s = onFail SH_STATUS_NO_DATA s := rfl

/-- A pass of the receive loop whose `shhid_in` fails returns the status of `shhid_in`,
which is not success. -/
theorem inLoop_cons_failed {σ ρ : Type} (onFail : Int → σ → ρ)
    (body : Nat → Mem → σ → LoopStep σ ρ) (p : Poll) (ps : List Poll) (R : Mem) (s : σ)
    (h : p.delivered = false) :
    inLoop onFail body (p :: ps) R s = onFail (shhid_in p R 16 false).rc s := by
  have hrc := shhid_in_failed p R h
  simp only [inLoop]
  rw [if_pos hrc]

/-- A pass of the receive loop whose `shhid_in` delivers a report runs the rest of the body
on that report. -/
theorem inLoop_cons_delivered {σ ρ : Type} (onFail : Int → σ → ρ)
    (body : Nat → Mem → σ → LoopStep σ ρ) (p : Poll) (ps : List Poll) (R : Mem) (s : σ)
    (h : p.delivered = true) :
    inLoop onFail body (p :: ps) R s
      = match body p.len (memcpy R p.frame p.len) s with
        | LoopStep.next s2 => inLoop onFail body ps (memcpy R p.frame p.len) s2
        | LoopStep.ret res => res := by
  simp only [inLoop, shhid_in_delivered p R h, Poll.len]
  rw [if_neg (by simp)]

/-- A receive loop whose body reads the report only below its length does not depend on
the content of the report buffer it starts with. -/
theorem inLoop_congr {σ ρ : Type} (onFail : Int → σ → ρ)
    (body : Nat → Mem → σ → LoopStep σ ρ) (hloc : BodyLocal body) :
    ∀ (ps : List Poll) (R R2 : Mem) (s : σ),
      inLoop onFail body ps R s = inLoop onFail body ps R2 s := by
  intro ps
  induction ps with
  | nil => intro R R2 s; rfl
  | cons p ps ih =>
    intro R R2 s
    by_cases hd : p.delivered = true
    · rw [inLoop_cons_delivered _ _ _ _ _ _ hd, inLoop_cons_delivered _ _ _ _ _ _ hd]
      have hb : body p.len (memcpy R p.frame p.len) s = body p.len (memcpy R2 p.frame p.len) s :=
        hloc _ _ _ _ (fun i hi => by rw [memcpy_lt _ _ _ _ hi, memcpy_lt _ _ _ _ hi])
      rw [hb]
      cases body p.len (memcpy R2 p.frame p.len) s with
      | next s2 => exact ih _ _ _
      | ret res => rfl
    · have hf : p.delivered = false := by simpa using hd
      rw [inLoop_cons_failed _ _ _ _ _ _ hf, inLoop_cons_failed _ _ _ _ _ _ hf,
        shhid_in_rc_indep p R R2]

/-- A report the body skips leaves the run of the receive loop as it is without it. -/
theorem inLoop_skip {σ ρ : Type} (onFail : Int → σ → ρ)
    (body : Nat → Mem → σ → LoopStep σ ρ) (hloc : BodyLocal body) (ign : Poll → Bool)
    (hign : BodySkips body ign) (p : Poll) (hp : ign p = true) (ps : List Poll) (R : Mem)
    (s : σ) : inLoop onFail body (p :: ps) R s = inLoop onFail body ps R s := by
  obtain ⟨hd, hskip⟩ := hign p hp
  rw [inLoop_cons_delivered _ _ _ _ _ _ hd, hskip R s]
  exact inLoop_congr onFail body hloc ps _ _ s

theorem inLoop_cons_congr {σ ρ : Type} (onFail : Int → σ → ρ)
    (body : Nat → Mem → σ → LoopStep σ ρ) (p : Poll) (l1 l2 : List Poll)
    (h : ∀ R s, inLoop onFail body l1 R s = inLoop onFail body l2 R s) :
    ∀ R s, inLoop onFail body (p :: l1) R s = inLoop onFail body (p :: l2) R s := by
  intro R s
  simp only [inLoop, h]

/-- A skipped report may be inserted at any place of the stream. -/
theorem inLoop_insert {σ ρ : Type} (onFail : Int → σ → ρ)
    (body : Nat → Mem → σ → LoopStep σ ρ) (hloc : BodyLocal body) (ign : Poll → Bool)
    (hign : BodySkips body ign) (x : Poll) (hx : ign x = true) (post : List Poll) :
    ∀ (pre : List Poll) (R : Mem) (s : σ),
      inLoop onFail body (pre ++ x :: post) R s = inLoop onFail body (pre ++ post) R s := by
  intro pre
  induction pre with
  | nil => intro R s; exact inLoop_skip onFail body hloc ign hign x hx post R s
  | cons p pre ih => intro R s; exact inLoop_cons_congr onFail body p _ _ ih R s

/-- The receive loop sees only the reports that are not skipped. -/
theorem inLoop_filter {σ ρ : Type} (onFail : Int → σ → ρ)
    (body : Nat → Mem → σ → LoopStep σ ρ) (hloc : BodyLocal body) (ign : Poll → Bool)
    (hign : BodySkips body ign) :
    ∀ (ps : List Poll) (R : Mem) (s : σ),
      inLoop onFail body ps R s = inLoop onFail body (ps.filter (fun p => !ign p)) R s := by
  intro ps
  induction ps with
  | nil => intro R s; rfl
  | cons p ps ih =>
    intro R s
    by_cases hp : ign p = true
    · rw [inLoop_skip onFail body hloc ign hign p hp, List.filter_cons_of_neg (by simp [hp])]
      exact ih R s
    · rw [List.filter_cons_of_pos (by simp [hp])]
      exact inLoop_cons_congr onFail body p _ _ ih R s

/-- Two streams that are the same behind the skipped reports give the same run. -/
theorem inLoop_filter_eq {σ ρ : Type} (onFail : Int → σ → ρ)
    (body : Nat → Mem → σ → LoopStep σ ρ) (hloc : BodyLocal body) (ign : Poll → Bool)
    (hign : BodySkips body ign) (l1 l2 : List Poll)
    (h : l1.filter (fun p => !ign p) = l2.filter (fun p => !ign p)) (R : Mem) (s : σ) :
    inLoop onFail body l1 R s = inLoop onFail body l2 R s := by
  rw [inLoop_filter onFail body hloc ign hign l1, inLoop_filter onFail body hloc ign hign l2, h]

/-- What every pass of the receive loop keeps, and every return establishes from it, holds
at the return of the loop. -/
theorem inLoop_invariant {σ ρ : Type} (onFail : Int → σ → ρ)
    (body : Nat → Mem → σ → LoopStep σ ρ) (P : σ → Prop) (Q : ρ → Prop)
    (hfail : ∀ rc s, rc ≠ SH_STATUS_SUCCESS → P s → Q (onFail rc s))
    (hnext : ∀ len R s s2, P s → body len R s = LoopStep.next s2 → P s2)
    (hret : ∀ len R s res, P s → body len R s = LoopStep.ret res → Q res) :
    ∀ (ps : List Poll) (R : Mem) (s : σ), P s → Q (inLoop onFail body ps R s) := by
  intro ps
  induction ps with
  | nil =>
    intro R s hs
    rw [inLoop_nil]
    exact hfail _ _ (by decide) hs
  | cons p ps ih =>
    intro R s hs
    by_cases hd : p.delivered = true
    · rw [inLoop_cons_delivered _ _ _ _ _ _ hd]
      cases hb : body p.len (memcpy R p.frame p.len) s with
      | next s2 => exact ih _ _ (hnext _ _ _ _ hs hb)
      | ret res => exact hret _ _ _ _ hs hb
    · have hf : p.delivered = false := by simpa using hd
      rw [inLoop_cons_failed _ _ _ _ _ _ hf]
      exact hfail _ _ (shhid_in_failed p R hf) hs

/-! ## Proofs: FRS read placement -/

/-- C11 (FRS read placement), where the code departs from it: `sh_getFrs` keeps the 16-bit
offset field of a response in a `uint8_t`.  One terminal response for record 0xE302 with
offset 256 carrying the words 7 and 8, read with a capacity of 512 words into a zeroed
buffer, is accepted (status 0 is returned); its words are stored at `pData[0]` and
`pData[1]`, `pData[256]` and `pData[257]` keep their content, and the length returned
is 2. -/
theorem getFrs_offset_narrowed :
    (sh_getFrs [frsReadRespPoll 0xE302 2 3 256 7 8] (fun _ => 0) 0xE302 (fun _ => 0) 512).rc
        = SH_STATUS_SUCCESS
      ∧ (sh_getFrs [frsReadRespPoll 0xE302 2 3 256 7 8] (fun _ => 0) 0xE302 (fun _ => 0)
          512).writes = [(0, 7), (1, 8)]
      ∧ (sh_getFrs [frsReadRespPoll 0xE302 2 3 256 7 8] (fun _ => 0) 0xE302 (fun _ => 0)
          512).pData 0 = 7
      ∧ (sh_getFrs [frsReadRespPoll 0xE302 2 3 256 7 8] (fun _ => 0) 0xE302 (fun _ => 0)
          512).pData 1 = 8
      ∧ (sh_getFrs [frsReadRespPoll 0xE302 2 3 256 7 8] (fun _ => 0) 0xE302 (fun _ => 0)
          512).pData 256 = 0
      ∧ (sh_getFrs [frsReadRespPoll 0xE302 2 3 256 7 8] (fun _ => 0) 0xE302 (fun _ => 0)
          512).pData 257 = 0
      ∧ (sh_getFrs [frsReadRespPoll 0xE302 2 3 256 7 8] (fun _ => 0) 0xE302 (fun _ => 0)
          512).dataLenWords = 2 := by
  decide

theorem foldl_preserves_mem {α β : Type} (P : β → Prop) (f : β → α → β) :
    ∀ (l : List α) (b : β), (∀ b a, a ∈ l → P b → P (f b a)) → P b → P (l.foldl f b) := by
  intro l
  induction l with
  | nil => intro b _ hb; exact hb
  | cons a l ih =>
    intro b hf hb
    exact ih _ (fun b2 a2 ha2 => hf b2 a2 (List.mem_cons_of_mem _ ha2))
      (hf b a (List.mem_cons_self _ _) hb)

/-- As `frsHandleResp_preserves`, for a property that the copy of one word preserves
when the offset is a byte and the word index is below 15, as they are in the copy loop. -/
theorem frsHandleResp_preserves_narrow (P : Mem → List (Nat × Nat) → Prop) (c : Nat)
    (request : List Nat) (R : Mem) (v : FrsVars)
    (hstep : ∀ (v : FrsVars) (off n : Nat), off < 256 → n < 15 → P v.pData v.writes →
      P (frsCopyWord c off R v n).pData (frsCopyWord c off R v n).writes)
    (hv : P v.pData v.writes) :
    match frsHandleResp c request R v with
    | FrsStep.ret res => P res.pData res.writes
    | FrsStep.next v2 => P v2.pData v2.writes := by
  have hw : (frsWordsStatus R >>> 4) &&& 0x0F ≤ 15 := Nat.and_le_right
  have hfold := foldl_preserves_mem (fun v : FrsVars => P v.pData v.writes)
    (frsCopyWord c (frsOffset R % 256) R)
    (List.range ((frsWordsStatus R >>> 4) &&& 0x0F)) v
    (fun b a ha hb => hstep b _ a (Nat.mod_lt _ (by decide))
      (by have := List.mem_range.mp ha; omega) hb) hv
  unfold frsHandleResp
  dsimp only
  split_ifs <;> first | exact hv | exact hfold

theorem getFrsLoop_preserves_narrow (P : Mem → List (Nat × Nat) → Prop) (recordId c : Nat)
    (request : List Nat)
    (hstep : ∀ (R : Mem) (v : FrsVars) (off n : Nat), off < 256 → n < 15 →
      P v.pData v.writes → P (frsCopyWord c off R v n).pData (frsCopyWord c off R v n).writes) :
    ∀ (ps : List Poll) (inReport : Mem) (v : FrsVars), P v.pData v.writes →
      P (getFrsLoop recordId c request ps inReport v).pData
        (getFrsLoop recordId c request ps inReport v).writes := by
  intro ps
  induction ps with
  | nil => intro inReport v hv; exact hv
  | cons p ps ih =>
    intro inReport v hv
    by_cases hd : p.delivered = true
    · by_cases hr : p.isFrsReadResp recordId = true
      · rw [getFrsLoop_cons_resp _ _ _ _ _ _ _ hr]
        have hh := frsHandleResp_preserves_narrow P c request (memcpy inReport p.frame 16)
          { v with rc := SH_STATUS_SUCCESS } (hstep _) hv
        revert hh
        cases frsHandleResp c request (memcpy inReport p.frame 16)
          { v with rc := SH_STATUS_SUCCESS } with
        | ret res => intro hh; exact hh
        | next v2 => intro hh; exact ih _ _ hh
      · have ho : p.isOther recordId = true := by
          simp [Poll.isOther, hd, hr]
        rw [getFrsLoop_skip _ _ _ _ _ _ _ ho]
        exact ih _ _ hv
    · have hf : p.delivered = false := by simpa using hd
      rw [getFrsLoop_cons_failed _ _ _ _ _ _ _ hf]
      exact hv

/-- C12 (the read half of the round trip), where the code departs from it: whatever the
hub sends, `sh_getFrs` stores at no index above 269 (the low byte of an offset plus a word
index below 15) and leaves the buffer as it was from index 270 on, so of a record longer
than 270 words, written by `sh_setFrs` or not, the words behind index 269 are never
returned. -/
theorem getFrs_blind_above_269 (polls : List Poll) (inReport0 : Mem) (recordId : Nat)
    (pData : Mem) (dataLenWords : Nat) :
    (∀ w ∈ (sh_getFrs polls inReport0 recordId pData dataLenWords).writes, w.1 ≤ 269)
      ∧ ∀ i, 270 ≤ i →
        (sh_getFrs polls inReport0 recordId pData dataLenWords).pData i = pData i := by
  unfold sh_getFrs
  refine getFrsLoop_preserves_narrow
    (fun m ws => (∀ w ∈ ws, w.1 ≤ 269) ∧ (∀ i, 270 ≤ i → m i = pData i))
    _ _ _ ?_ polls inReport0 _ ⟨by simp, fun i _ => rfl⟩
  intro R v off n hoff hn ⟨h1, h2⟩
  unfold frsCopyWord
  split
  · exact ⟨h1, h2⟩
  · have hidx : (off + n) % 65536 ≤ 269 := by omega
    constructor
    · intro w hw
      simp only [List.mem_append, List.mem_singleton] at hw
      rcases hw with hw | hw
      · exact h1 w hw
      · rw [hw]; exact hidx
    · intro i hi
      show (v.pData.set _ _) i = pData i
      rw [Mem.set_other _ _ _ _ (by omega)]
      exact h2 i hi

/-! ## Proofs: FRS write -/

/-- The ways a pass of the loop of `sh_setFrs` can go behind the call of `shhid_in`. -/
theorem setFrsBody_cases (pData : Mem) (sendRc : Nat → Int) (len : Nat) (R : Mem)
    (v : FrsWriteVars) :
    (¬ (R 0 % 256 = 0x84 ∧ len = 4) ∧ setFrsBody pData sendRc len R v = LoopStep.next v)
    ∨ (R 0 % 256 = 0x84 ∧ len = 4 ∧
        ((frsWriteError (R 1 % 256) = true ∧ ∃ rc, rc ≠ 0 ∧
            setFrsBody pData sendRc len R v
              = LoopStep.ret ⟨rc, v.logResponse R, FrsWriteExit.errorStatus⟩)
        ∨ (R 1 % 256 = 3 ∧ v.toWrite = 0 ∧
            setFrsBody pData sendRc len R v
              = LoopStep.ret ⟨SH_STATUS_SUCCESS, v.logResponse R, FrsWriteExit.completed⟩)
        ∨ (R 1 % 256 = 3 ∧ v.toWrite ≠ 0 ∧
            setFrsBody pData sendRc len R v
              = LoopStep.ret ⟨SH_STATUS_FRS_WRITE_NOT_ENOUGH, v.logResponse R,
                  FrsWriteExit.completed⟩)
        ∨ (frsWriteContinues (R 1 % 256) = true ∧ v.toWrite = 0 ∧
            setFrsBody pData sendRc len R v = LoopStep.next (v.logResponse R))
        ∨ (frsWriteContinues (R 1 % 256) = true ∧ 0 < v.toWrite ∧ sendRc v.sends = 0 ∧
            setFrsBody pData sendRc len R v
              = LoopStep.next (setFrsData pData (v.logResponse R)))
        ∨ (frsWriteContinues (R 1 % 256) = true ∧ 0 < v.toWrite ∧ sendRc v.sends ≠ 0 ∧
            setFrsBody pData sendRc len R v
              = LoopStep.ret ⟨sendRc v.sends, setFrsData pData (v.logResponse R),
                  FrsWriteExit.sendFailed⟩))) := by
  by_cases hid : R 0 % 256 = 0x84
  swap
  · left
    exact ⟨fun h => hid h.1, by simp [setFrsBody, frsReportId, hid]⟩
  by_cases hlen : len = 4
  swap
  · left
    exact ⟨fun h => hlen h.2, by simp [setFrsBody, frsReportId, hid, hlen]⟩
  right
  refine ⟨hid, hlen, ?_⟩
  by_cases h1 : R 1 % 256 = 1
  · left; exact ⟨by simp [frsWriteError, h1], SH_STATUS_FRS_WRITE_BAD_TYPE, by decide,
      by simp [setFrsBody, frsReportId, hid, hlen, h1, FrsWriteVars.logResponse]⟩
  by_cases h2 : R 1 % 256 = 2
  · left; exact ⟨by simp [frsWriteError, h2], SH_STATUS_FRS_WRITE_BUSY, by decide,
      by simp [setFrsBody, frsReportId, hid, hlen, h2, FrsWriteVars.logResponse]⟩
  by_cases h5 : R 1 % 256 = 5
  · left; exact ⟨by simp [frsWriteError, h5], SH_STATUS_FRS_WRITE_FAILED, by decide,
      by simp [setFrsBody, frsReportId, hid, hlen, h5, FrsWriteVars.logResponse]⟩
  by_cases h6 : R 1 % 256 = 6
  · left; exact ⟨by simp [frsWriteError, h6], SH_STATUS_FRS_WRITE_BAD_MODE, by decide,
      by simp [setFrsBody, frsReportId, hid, hlen, h6, FrsWriteVars.logResponse]⟩
  by_cases h7 : R 1 % 256 = 7
  · left; exact ⟨by simp [frsWriteError, h7], SH_STATUS_FRS_WRITE_BAD_LENGTH, by decide,
      by simp [setFrsBody, frsReportId, hid, hlen, h7, FrsWriteVars.logResponse]⟩
  by_cases h9 : R 1 % 256 = 9
  · left; exact ⟨by simp [frsWriteError, h9], SH_STATUS_FRS_WRITE_INVALID_RECORD, by decide,
      by simp [setFrsBody, frsReportId, hid, hlen, h9, FrsWriteVars.logResponse]⟩
  by_cases h10 : R 1 % 256 = 10
  · left; exact ⟨by simp [frsWriteError, h10], SH_STATUS_FRS_WRITE_DEVICE_ERROR, by decide,
      by simp [setFrsBody, frsReportId, hid, hlen, h10, FrsWriteVars.logResponse]⟩
  by_cases h11 : R 1 % 256 = 11
  · left; exact ⟨by simp [frsWriteError, h11], SH_STATUS_FRS_WRITE_READ_ONLY, by decide,
      by simp [setFrsBody, frsReportId, hid, hlen, h11, FrsWriteVars.logResponse]⟩
  right
  by_cases h3 : R 1 % 256 = 3
  · by_cases ht : v.toWrite = 0
    · left; exact ⟨h3, ht,
        by simp [setFrsBody, frsReportId, hid, hlen, h3, ht, FrsWriteVars.logResponse]⟩
    · right; left; exact ⟨h3, ht,
        by simp [setFrsBody, frsReportId, hid, hlen, h3, ht, FrsWriteVars.logResponse]⟩
  right; right
  have hc : frsWriteContinues (R 1 % 256) = true := by
    simp [frsWriteContinues, frsWriteError, h1, h2, h3, h5, h6, h7, h9, h10, h11]
  by_cases ht : v.toWrite = 0
  · left; exact ⟨hc, ht, by
      simp [setFrsBody, frsReportId, hid, hlen, h1, h2, h3, h5, h6, h7, h9, h10, h11, ht,
        FrsWriteVars.logResponse]⟩
  have ht2 : 0 < v.toWrite := Nat.pos_of_ne_zero ht
  right
  by_cases hs : sendRc v.sends = 0
  · left; exact ⟨hc, ht2, hs, by
      simp [setFrsBody, frsReportId, hid, hlen, h1, h2, h3, h5, h6, h7, h9, h10, h11, ht2, hs,
        FrsWriteVars.logResponse, setFrsData]⟩
  · right; exact ⟨hc, ht2, hs, by
      simp [setFrsBody, frsReportId, hid, hlen, h1, h2, h3, h5, h6, h7, h9, h10, h11, ht2, hs,
        FrsWriteVars.logResponse, setFrsData]⟩

theorem dataReqs_append (l1 l2 : List FrsWriteEvent) :
    dataReqs (l1 ++ l2) = dataReqs l1 ++ dataReqs l2 := by
  induction l1 with
  | nil => rfl
  | cons e l1 ih => cases e <;> simp [dataReqs, ih]

theorem responseCount_append (l1 l2 : List FrsWriteEvent) :
    responseCount (l1 ++ l2) = responseCount l1 + responseCount l2 := by
  induction l1 with
  | nil => simp [responseCount]
  | cons e l1 ih =>
    cases e with
    | response b => simp [responseCount, ih]; omega
    | writeReq r => simp [responseCount, ih]
    | dataReq q => simp [responseCount, ih]

/-- The pacing of the log at the start of the loop. -/
theorem Paced_init (n : Nat) (req : List Nat) : Paced n [FrsWriteEvent.writeReq req] := by
  refine ⟨?_, ?_, ?_⟩
  · intro m
    cases m <;> simp [dataReqs, responseCount]
  · intro i q h
    simp at h
  · intro i b h
    cases i with
    | zero => simp at h
    | succ i => simp at h

/-- The pacing is kept when a response is logged that is followed by no data request:
one that does not ask for more data, or one received when no word remains. -/
theorem Paced_response (n : Nat) (log : List FrsWriteEvent) (b : List Nat) (h : Paced n log)
    (hno : ¬ (frsWriteContinues (b.getD 1 0) = true ∧ 2 * (dataReqs log).length < n)) :
    Paced n (log ++ [FrsWriteEvent.response b]) := by
  obtain ⟨h1, h2, h3⟩ := h
  refine ⟨?_, ?_, ?_⟩
  · intro m
    by_cases hm : m ≤ log.length
    · rw [List.take_append_of_le_length hm]
      exact h1 m
    · have := h1 log.length
      rw [List.take_length] at this
      rw [List.take_of_length_le (by simp; omega), dataReqs_append, responseCount_append]
      simp [dataReqs, responseCount]
      omega
  · intro i q hq
    by_cases hi : i + 1 < log.length
    · rw [List.getElem?_append_left hi] at hq
      rw [List.getElem?_append_left (by omega), List.take_append_of_le_length (by omega)]
      exact h2 i q hq
    · rw [List.getElem?_append_right (by omega)] at hq
      by_cases hz : i + 1 - log.length = 0
      · rw [hz] at hq
        simp at hq
      · have : ([FrsWriteEvent.response b])[i + 1 - log.length]? = none := by
          apply List.getElem?_eq_none
          simp
          omega
        rw [this] at hq
        simp at hq
  · intro i b2 hb hc hk
    by_cases hi : i + 1 < log.length
    · rw [List.getElem?_append_left (by omega)] at hb
      rw [List.take_append_of_le_length (by omega)] at hk
      rw [List.getElem?_append_left hi]
      exact h3 i b2 hb hc hk
    · by_cases hi2 : i + 1 = log.length
      · rw [List.getElem?_append_left (by omega)] at hb
        rw [List.take_append_of_le_length (by omega)] at hk
        obtain ⟨q, hq⟩ := h3 i b2 hb hc hk
        rw [List.getElem?_eq_none (by omega)] at hq
        simp at hq
      · by_cases hi3 : i = log.length
        · exfalso
          rw [hi3, List.getElem?_append_right (Nat.le_refl _)] at hb
          simp at hb
          rw [hi3, List.take_append_of_le_length (Nat.le_refl _), List.take_length] at hk
          rw [← hb] at hc
          exact hno ⟨hc, hk⟩
        · rw [List.getElem?_eq_none (by simp; omega)] at hb
          simp at hb

/-- The pacing is kept when a response that asks for more data is logged while words
remain, with the data request sent on it. -/
theorem Paced_response_data (n : Nat) (log : List FrsWriteEvent) (b q : List Nat)
    (h : Paced n log) (hc : frsWriteContinues (b.getD 1 0) = true)
    (hk : 2 * (dataReqs log).length < n) :
    Paced n (log ++ [FrsWriteEvent.response b, FrsWriteEvent.dataReq q]) := by
  obtain ⟨h1, h2, h3⟩ := h
  refine ⟨?_, ?_, ?_⟩
  · intro m
    by_cases hm : m ≤ log.length
    · rw [List.take_append_of_le_length hm]
      exact h1 m
    · have := h1 log.length
      rw [List.take_length] at this
      rw [List.take_append_eq_append_take, List.take_of_length_le (by omega), dataReqs_append,
        responseCount_append]
      have hm2 : m - log.length = 1 ∨ 2 ≤ m - log.length := by omega
      rcases hm2 with hm2 | hm2
      · rw [hm2]
        simp [dataReqs, responseCount]
        omega
      · rw [List.take_of_length_le (by simp; omega)]
        simp [dataReqs, responseCount]
        omega
  · intro i q2 hq
    by_cases hi : i + 1 < log.length
    · rw [List.getElem?_append_left hi] at hq
      rw [List.getElem?_append_left (by omega), List.take_append_of_le_length (by omega)]
      exact h2 i q2 hq
    · rw [List.getElem?_append_right (by omega)] at hq
      by_cases hz : i + 1 - log.length = 0
      · rw [hz] at hq
        simp at hq
      · by_cases hz1 : i + 1 - log.length = 1
        · have hi3 : i = log.length := by omega
          refine ⟨b, ?_, hc, ?_⟩
          · rw [hi3, List.getElem?_append_right (Nat.le_refl _)]
            simp
          · rw [hi3, List.take_append_of_le_length (Nat.le_refl _), List.take_length]
            exact hk
        · have : ([FrsWriteEvent.response b, FrsWriteEvent.dataReq q])[i + 1 - log.length]?
              = none := by
            apply List.getElem?_eq_none
            simp
            omega
          rw [this] at hq
          simp at hq
  · intro i b2 hb hc2 hk2
    by_cases hi : i + 1 < log.length
    · rw [List.getElem?_append_left (by omega)] at hb
      rw [List.take_append_of_le_length (by omega)] at hk2
      rw [List.getElem?_append_left hi]
      exact h3 i b2 hb hc2 hk2
    · by_cases hi2 : i + 1 = log.length
      · rw [List.getElem?_append_left (by omega)] at hb
        rw [List.take_append_of_le_length (by omega)] at hk2
        obtain ⟨q3, hq3⟩ := h3 i b2 hb hc2 hk2
        rw [List.getElem?_eq_none (by omega)] at hq3
        simp at hq3
      · by_cases hi3 : i = log.length
        · refine ⟨q, ?_⟩
          rw [hi3, List.getElem?_append_right (by omega)]
          simp
        · by_cases hi4 : i = log.length + 1
          · rw [hi4, List.getElem?_append_right (by omega)] at hb
            simp at hb
          · rw [List.getElem?_eq_none (by simp; omega)] at hb
            simp at hb

theorem bytes4_status (R : Mem) : (R.bytes 4).getD 1 0 = R 1 % 256 := by
  simp [Mem.bytes, List.range_succ]

/-- The invariant holds at the start of the loop of `sh_setFrs`. -/
theorem SetFrsInv_init (n : Nat) (pData : Mem) (data1 : Nat) (req : List Nat) :
    SetFrsInv n pData ⟨n, 0, data1, 1, [FrsWriteEvent.writeReq req]⟩ := by
  refine ⟨by simp [dataReqs], by simp [dataReqs], by simp [dataReqs], by simp [dataReqs],
    ?_, Paced_init n req⟩
  intro j hj
  simp [dataReqs] at hj

/-- The invariant is kept when a response is logged and no data request follows. -/
theorem SetFrsInv_response (n : Nat) (pData : Mem) (v : FrsWriteVars) (R : Mem)
    (h : SetFrsInv n pData v)
    (hno : ¬ (frsWriteContinues (R 1 % 256) = true ∧ 0 < v.toWrite)) :
    SetFrsInv n pData (v.logResponse R) := by
  obtain ⟨h1, h2, h3, h4, h5, h6⟩ := h
  have hd : dataReqs (v.logResponse R).log = dataReqs v.log := by
    simp [FrsWriteVars.logResponse, dataReqs_append, dataReqs]
  refine ⟨?_, ?_, ?_, ?_, ?_, ?_⟩
  · rw [hd]; exact h1
  · rw [hd]; exact h2
  · rw [hd]; exact h3
  · rw [hd]; exact h4
  · rw [hd]; exact h5
  · refine Paced_response n v.log _ h6 ?_
    rw [bytes4_status]
    intro hc
    exact hno ⟨hc.1, by omega⟩

/-- The invariant is kept by a pass that sends a data request. -/
theorem SetFrsInv_data (n : Nat) (pData : Mem) (v : FrsWriteVars) (R : Mem) (hn : n < 65536)
    (h : SetFrsInv n pData v) (hc : frsWriteContinues (R 1 % 256) = true)
    (ht : 0 < v.toWrite) : SetFrsInv n pData (setFrsData pData (v.logResponse R)) := by
  obtain ⟨h1, h2, h3, h4, h5, h6⟩ := h
  have hk : 2 * (dataReqs v.log).length < n := by omega
  have hoff : v.offset = 2 * (dataReqs v.log).length := by
    rw [h2]; exact Nat.min_eq_right (by omega)
  have hlog : (setFrsData pData (v.logResponse R)).log
      = v.log ++ [FrsWriteEvent.response (R.bytes 4), FrsWriteEvent.dataReq
          (frsWriteDataReq v.offset (pData v.offset % 2 ^ 32)
            (setFrsData pData (v.logResponse R)).data1)] := by
    simp [setFrsData, FrsWriteVars.logResponse]
  have hd : dataReqs (setFrsData pData (v.logResponse R)).log
      = dataReqs v.log ++ [frsWriteDataReq v.offset (pData v.offset % 2 ^ 32)
          (setFrsData pData (v.logResponse R)).data1] := by
    rw [hlog, dataReqs_append]
    simp [dataReqs]
  have hlen : (dataReqs (setFrsData pData (v.logResponse R)).log).length
      = (dataReqs v.log).length + 1 := by
    rw [hd]; simp
  refine ⟨?_, ?_, ?_, ?_, ?_, ?_⟩
  · rw [hlen]
    simp only [setFrsData, FrsWriteVars.logResponse]
    split_ifs <;> omega
  · rw [hlen]
    simp only [setFrsData, FrsWriteVars.logResponse]
    split_ifs <;> omega
  · rw [hlen]; omega
  · rw [hlen]
    simp only [setFrsData, FrsWriteVars.logResponse]
    omega
  · intro j hj
    rw [hlen] at hj
    rw [hd]
    by_cases hjk : j < (dataReqs v.log).length
    · rw [List.getElem?_append_left hjk]
      exact h5 j hjk
    · have hje : j = (dataReqs v.log).length := by omega
      refine ⟨(setFrsData pData (v.logResponse R)).data1, ?_, ?_⟩
      · rw [List.getElem?_append_right (by omega), hje, hoff]
        simp
      · intro hj1
        have e1 : (v.toWrite - 1) % 65536 > 0 := by omega
        have e2 : (v.offset + 1) % 65536 = 2 * j + 1 := by omega
        simp only [setFrsData, FrsWriteVars.logResponse]
        rw [if_pos e1, e2]
  · rw [hlog]
    exact Paced_response_data n v.log _ _ h6 (by rw [bytes4_status]; exact hc) hk

theorem EndsCompleted_response (log : List FrsWriteEvent) (R : Mem) :
    EndsCompleted (log ++ [FrsWriteEvent.response (R.bytes 4)]) ↔ R 1 % 256 = 3 := by
  unfold EndsCompleted
  rw [List.getLast?_concat]
  constructor
  · rintro ⟨b, hb, h3⟩
    simp only [Option.some.injEq, FrsWriteEvent.response.injEq] at hb
    rw [← hb, bytes4_status] at h3
    exact h3
  · intro h
    exact ⟨_, rfl, by rw [bytes4_status]; exact h⟩

theorem EndsCompleted_dataReq (log : List FrsWriteEvent) (q : List Nat) :
    ¬ EndsCompleted (log ++ [FrsWriteEvent.dataReq q]) := by
  unfold EndsCompleted
  rw [List.getLast?_concat]
  rintro ⟨b, hb, _⟩
  simp at hb

theorem frsWriteError_ne_completed (st : Nat) (h : frsWriteError st = true) : st ≠ 3 := by
  simp [frsWriteError] at h
  omega

theorem frsWriteContinues_ne_completed (st : Nat) (h : frsWriteContinues st = true) :
    st ≠ 3 := by
  simp [frsWriteContinues] at h
  exact h.2

theorem frsWriteError_not_continues (st : Nat) (h : frsWriteError st = true) :
    ¬ (frsWriteContinues st = true) := by
  simp [frsWriteContinues, h]

theorem not_continues_completed : ¬ (frsWriteContinues 3 = true) := by decide

/-- What holds at every return of `sh_setFrs`. -/
theorem setFrs_post (polls : List Poll) (inReport0 : Mem) (sendRc : Nat → Int) (data1 : Nat)
    (recordId : Nat) (pData : Mem) (dataLen : Nat) :
    SetFrsPost (dataLen % 65536) pData
      (sh_setFrs polls inReport0 sendRc data1 recordId pData dataLen) := by
  have hn : dataLen % 65536 < 65536 := Nat.mod_lt _ (by decide)
  unfold sh_setFrs
  refine inLoop_invariant _ _
    (fun v => SetFrsInv (dataLen % 65536) pData v ∧ ¬ EndsCompleted v.log)
    (SetFrsPost (dataLen % 65536) pData) ?_ ?_ ?_ polls inReport0 _
    ⟨SetFrsInv_init _ _ _ _, ?_⟩
  · intro rc v hrc ⟨hv, hl⟩
    exact ⟨hv, ⟨fun h => by simp at h, fun h => absurd h hl⟩, fun h => by simp at h,
      fun _ => hrc⟩
  · intro len R v v2 ⟨hv, hl⟩ hb
    rcases setFrsBody_cases pData sendRc len R v with
      ⟨_, h⟩ | ⟨_, _, ⟨_, _, _, h⟩ | ⟨_, _, h⟩ | ⟨_, _, h⟩ | ⟨hc, ht, h⟩ | ⟨hc, ht, _, h⟩
        | ⟨_, _, _, h⟩⟩
    · rw [h] at hb
      injection hb with hb
      rw [← hb]
      exact ⟨hv, hl⟩
    · rw [h] at hb; cases hb
    · rw [h] at hb; cases hb
    · rw [h] at hb; cases hb
    · rw [h] at hb
      injection hb with hb
      rw [← hb]
      refine ⟨SetFrsInv_response _ _ _ _ hv (fun hh => by omega), ?_⟩
      show ¬ EndsCompleted (v.log ++ _)
      rw [EndsCompleted_response]
      exact frsWriteContinues_ne_completed _ hc
    · rw [h] at hb
      injection hb with hb
      rw [← hb]
      exact ⟨SetFrsInv_data _ _ _ _ hn hv hc ht, EndsCompleted_dataReq _ _⟩
    · rw [h] at hb; cases hb
  · intro len R v res ⟨hv, hl⟩ hb
    rcases setFrsBody_cases pData sendRc len R v with
      ⟨_, h⟩ | ⟨_, _, ⟨he, rc, hrc, h⟩ | ⟨h3, ht, h⟩ | ⟨h3, ht, h⟩ | ⟨_, _, h⟩ | ⟨_, _, _, h⟩
        | ⟨hc, ht, hs, h⟩⟩
    · rw [h] at hb; cases hb
    · rw [h] at hb
      injection hb with hb
      rw [← hb]
      refine ⟨SetFrsInv_response _ _ _ _ hv
        (fun hh => frsWriteError_not_continues _ he hh.1), ⟨fun hh => by simp at hh, ?_⟩,
        fun hh => by simp at hh, fun _ => hrc⟩
      intro hh
      exact absurd ((EndsCompleted_response _ _).mp hh) (frsWriteError_ne_completed _ he)
    · rw [h] at hb
      injection hb with hb
      rw [← hb]
      refine ⟨SetFrsInv_response _ _ _ _ hv
        (fun hh => by rw [h3] at hh; exact not_continues_completed hh.1),
        ⟨fun _ => (EndsCompleted_response _ _).mpr h3, fun _ => rfl⟩,
        fun _ => ⟨fun _ => rfl, fun hh => absurd ht hh⟩, fun hh => absurd rfl hh⟩
    · rw [h] at hb
      injection hb with hb
      rw [← hb]
      refine ⟨SetFrsInv_response _ _ _ _ hv
        (fun hh => by rw [h3] at hh; exact not_continues_completed hh.1),
        ⟨fun _ => (EndsCompleted_response _ _).mpr h3, fun _ => rfl⟩,
        fun _ => ⟨fun hh => absurd hh ht, fun _ => rfl⟩, fun hh => absurd rfl hh⟩
    · rw [h] at hb; cases hb
    · rw [h] at hb; cases hb
    · rw [h] at hb
      injection hb with hb
      rw [← hb]
      exact ⟨SetFrsInv_data _ _ _ _ hn hv hc ht,
        ⟨fun hh => by simp at hh, fun hh => absurd hh (EndsCompleted_dataReq _ _)⟩,
        fun hh => by simp at hh, fun _ => hs⟩
  · unfold EndsCompleted
    rintro ⟨b, hb, _⟩
    simp at hb

theorem le16_value (w : Nat) : w % 256 + 256 * (w / 256 % 256) = w % 65536 := by omega

theorem le32_value (d : Nat) :
    d % 256 + 2 ^ 8 * (d / 2 ^ 8 % 256) + 2 ^ 16 * (d / 2 ^ 16 % 256)
      + 2 ^ 24 * (d / 2 ^ 24 % 256) = d % 2 ^ 32 := by
  norm_num
  omega

/-- What the hub of `hubStore` does with a write-data request of `sh_setFrs`. -/
theorem hubStore_dataReq (n : Nat) (record : Nat → Nat) (w d0 d1 : Nat) :
    hubStore n record (frsWriteDataReq w d0 d1)
      = fun i => if i = w % 65536 then d0 % 2 ^ 32
          else if i = w % 65536 + 1 ∧ w % 65536 + 1 < n then d1 % 2 ^ 32 else record i := by
  have e0 : (frsWriteDataReq w d0 d1).getD 2 0 + 256 * (frsWriteDataReq w d0 d1).getD 3 0
      = w % 65536 := by
    simp only [frsWriteDataReq, le16, le32, SH_FRS_WRITE_DATA_REQUEST, List.cons_append,
      List.nil_append, List.getD_cons_succ, List.getD_cons_zero]
    exact le16_value w
  have e1 : word32At (frsWriteDataReq w d0 d1) 4 = d0 % 2 ^ 32 := by
    simp only [word32At, frsWriteDataReq, le16, le32, SH_FRS_WRITE_DATA_REQUEST,
      List.cons_append, List.nil_append, List.getD_cons_succ, List.getD_cons_zero]
    exact le32_value d0
  have e2 : word32At (frsWriteDataReq w d0 d1) 8 = d1 % 2 ^ 32 := by
    simp only [word32At, frsWriteDataReq, le16, le32, SH_FRS_WRITE_DATA_REQUEST,
      List.cons_append, List.nil_append, List.getD_cons_succ, List.getD_cons_zero]
    exact le32_value d1
  unfold hubStore
  simp only [e0, e1, e2]

theorem Streamed_append (n : Nat) (pData : Mem) (l : List (List Nat)) (a : List Nat)
    (h : Streamed n pData (l ++ [a])) :
    Streamed n pData l
      ∧ ∃ d1, a = frsWriteDataReq (2 * l.length) (pData (2 * l.length) % 2 ^ 32) d1
          ∧ (2 * l.length + 1 < n → d1 = pData (2 * l.length + 1) % 2 ^ 32) := by
  constructor
  · intro j hj
    obtain ⟨d1, h1, h2⟩ := h j (by simp; omega)
    rw [List.getElem?_append_left hj] at h1
    exact ⟨d1, h1, h2⟩
  · obtain ⟨d1, h1, h2⟩ := h l.length (by simp)
    rw [List.getElem?_append_right (Nat.le_refl _)] at h1
    simp at h1
    exact ⟨d1, h1, h2⟩

/-- The record in a hub that follows the write-data requests of a streamed record: the
words sent so far are in place, the rest of the record is as it was. -/
theorem hubRecord_streamed (n : Nat) (pData : Mem) (record0 : Nat → Nat) (hn : n < 65536) :
    ∀ reqs : List (List Nat), Streamed n pData reqs → 2 * reqs.length ≤ n + 1 →
      ∀ i, (i < min n (2 * reqs.length) → hubRecord n record0 reqs i = pData i % 2 ^ 32)
        ∧ (min n (2 * reqs.length) ≤ i → hubRecord n record0 reqs i = record0 i) := by
  intro reqs
  induction reqs using List.reverseRecOn with
  | nil =>
    intro _ _ i
    simp [hubRecord]
  | append_singleton l a ih =>
    intro hs hl i
    obtain ⟨hsl, d1, ha, hd1⟩ := Streamed_append n pData l a hs
    simp only [List.length_append, List.length_singleton] at hl ⊢
    have ih2 := ih hsl (by omega) i
    have hrec : hubRecord n record0 (l ++ [a]) i
        = hubStore n (hubRecord n record0 l) a i := by
      simp [hubRecord, List.foldl_append]
    rw [hrec, ha, hubStore_dataReq]
    have hw : 2 * l.length % 65536 = 2 * l.length := Nat.mod_eq_of_lt (by omega)
    simp only [hw, Nat.mod_mod]
    constructor
    · intro hi
      by_cases h0 : i = 2 * l.length
      · rw [if_pos h0, h0]
      · rw [if_neg h0]
        by_cases h1 : i = 2 * l.length + 1 ∧ 2 * l.length + 1 < n
        · rw [if_pos h1, hd1 h1.2, h1.1, Nat.mod_mod]
        · rw [if_neg h1]
          exact ih2.1 (by omega)
    · intro hi
      have h0 : ¬ i = 2 * l.length := by omega
      have h1 : ¬ (i = 2 * l.length + 1 ∧ 2 * l.length + 1 < n) := by omega
      rw [if_neg h0, if_neg h1]
      exact ih2.2 (by omega)

/-- FRS write streaming, the host half of the round trip: for every record `pData` of
`n = dataLen` words and every stream of responses on which `sh_setFrs` returns
`SH_STATUS_SUCCESS`, the write-data requests sent are `ceil(n/2)` in number, the `j`-th has
wordOffset `2j`, `data[0] = pData[2j]` and, when `2j+1 < n`, `data[1] = pData[2j+1]`; a
hub that stores the valid words of each request at its wordOffset ends with
`pData[0..n)` and with the cells behind as they were. -/
theorem setFrs_streams_record (polls : List Poll) (inReport0 : Mem) (sendRc : Nat → Int)
    (data1 recordId : Nat) (pData : Mem) (dataLen : Nat) (record0 : Nat → Nat)
    (h : (sh_setFrs polls inReport0 sendRc data1 recordId pData dataLen).rc
      = SH_STATUS_SUCCESS) :
    (dataReqs (sh_setFrs polls inReport0 sendRc data1 recordId pData dataLen).vars.log).length
        = (dataLen % 65536 + 1) / 2
      ∧ Streamed (dataLen % 65536) pData
          (dataReqs (sh_setFrs polls inReport0 sendRc data1 recordId pData dataLen).vars.log)
      ∧ (∀ i, i < dataLen % 65536 →
          hubRecord (dataLen % 65536) record0
            (dataReqs (sh_setFrs polls inReport0 sendRc data1 recordId pData dataLen).vars.log) i
            = pData i % 2 ^ 32)
      ∧ (∀ i, dataLen % 65536 ≤ i →
          hubRecord (dataLen % 65536) record0
            (dataReqs (sh_setFrs polls inReport0 sendRc data1 recordId pData dataLen).vars.log) i
            = record0 i) := by
  have hn : dataLen % 65536 < 65536 := Nat.mod_lt _ (by decide)
  obtain ⟨⟨h1, h2, h3, h4, h5, h6⟩, hex, hc, hnc⟩ :=
    setFrs_post polls inReport0 sendRc data1 recordId pData dataLen
  generalize sh_setFrs polls inReport0 sendRc data1 recordId pData dataLen = r at *
  have hexit : r.exit = FrsWriteExit.completed := by
    by_contra hne
    exact hnc hne h
  have ht : r.vars.toWrite = 0 := by
    by_contra hne
    have := (hc hexit).2 hne
    rw [h] at this
    exact absurd this (by decide)
  have hlen : (dataReqs r.vars.log).length = (dataLen % 65536 + 1) / 2 := by omega
  have hub := hubRecord_streamed (dataLen % 65536) pData record0 hn (dataReqs r.vars.log) h5 h3
  refine ⟨hlen, h5, fun i hi => (hub i).1 (by omega), fun i hi => (hub i).2 (by omega)⟩

/-- The streaming theorem at work: a record of three words, written against a hub that
answers READY, two more-data responses and COMPLETED, with a sensor event in between. -/
theorem setFrs_streams_record_witness :
    (dataReqs (sh_setFrs [frsWriteRespPoll 4 0, sensorEventPoll 5, frsWriteRespPoll 0 0,
        frsWriteRespPoll 3 2] (fun _ => 0) (fun _ => 0) 77 0xE302 (fun i => 100 + i) 3).vars.log).length
      = 2 := by
  have h := setFrs_streams_record [frsWriteRespPoll 4 0, sensorEventPoll 5, frsWriteRespPoll 0 0,
    frsWriteRespPoll 3 2] (fun _ => 0) (fun _ => 0) 77 0xE302 (fun i => 100 + i) 3 (fun _ => 0)
    (by decide)
  exact h.1

/-- With no word left to write, `sh_setFrs` passes over everything that is not an error
or COMPLETED response, sends nothing, and succeeds on the COMPLETED response. -/
theorem setFrsLoop_nothing_to_write (pData : Mem) (sendRc : Nat → Int) (t : Poll)
    (rest : List Poll) (ht : t.isFrsWriteResp = true) (h3 : t.frame 1 % 256 = 3) :
    ∀ (pre : List Poll) (R : Mem) (v : FrsWriteVars), v.toWrite = 0 →
      (∀ p ∈ pre, p.delivered = true ∧ p.isFrsWriteEnd = false) →
      (inLoop (fun rc v => (⟨rc, v, FrsWriteExit.inFailed⟩ : FrsWriteResult))
          (setFrsBody pData sendRc) (pre ++ t :: rest) R v).rc = SH_STATUS_SUCCESS
        ∧ dataReqs (inLoop (fun rc v => (⟨rc, v, FrsWriteExit.inFailed⟩ : FrsWriteResult))
          (setFrsBody pData sendRc) (pre ++ t :: rest) R v).vars.log = dataReqs v.log
        ∧ (inLoop (fun rc v => (⟨rc, v, FrsWriteExit.inFailed⟩ : FrsWriteResult))
          (setFrsBody pData sendRc) (pre ++ t :: rest) R v).vars.sends = v.sends := by
  intro pre
  induction pre with
  | nil =>
    intro R v hv _
    simp only [Poll.isFrsWriteResp, Bool.and_eq_true, decide_eq_true_eq] at ht
    obtain ⟨⟨hd, hlen⟩, hid⟩ := ht
    rw [List.nil_append, inLoop_cons_delivered _ _ _ _ _ _ hd, hlen]
    have e0 : memcpy R t.frame 4 0 % 256 = 0x84 := by rw [memcpy_lt _ _ _ _ (by decide)]; exact hid
    have e1 : memcpy R t.frame 4 1 % 256 = 3 := by rw [memcpy_lt _ _ _ _ (by decide)]; exact h3
    simp [setFrsBody, frsReportId, e0, e1, hv, dataReqs_append, dataReqs]
  | cons p pre ih =>
    intro R v hv hpre
    obtain ⟨hd, hne⟩ := hpre p (List.mem_cons_self _ _)
    have hpre2 : ∀ q ∈ pre, q.delivered = true ∧ q.isFrsWriteEnd = false :=
      fun q hq => hpre q (List.mem_cons_of_mem _ hq)
    rw [List.cons_append, inLoop_cons_delivered _ _ _ _ _ _ hd]
    have hend : ∀ (h0 : memcpy R p.frame p.len 0 % 256 = 0x84) (h4 : p.len = 4),
        frsWriteContinues (memcpy R p.frame p.len 1 % 256) = true := by
      intro h0 h4
      rw [h4] at h0 ⊢
      rw [memcpy_lt _ _ _ _ (by decide)] at h0 ⊢
      simpa [Poll.isFrsWriteEnd, Poll.isFrsWriteResp, hd, h4, h0] using hne
    rcases setFrsBody_cases pData sendRc p.len (memcpy R p.frame p.len) v with
      ⟨_, h⟩ | ⟨h0, h4, ⟨he, _⟩ | ⟨hc3, _⟩ | ⟨hc3, _⟩ | ⟨_, _, h⟩ | ⟨_, hpos, _⟩ | ⟨_, hpos, _⟩⟩
    · rw [h]
      exact ih _ _ hv hpre2
    · exact absurd (hend h0 h4) (frsWriteError_not_continues _ he)
    · exact absurd hc3 (frsWriteContinues_ne_completed _ (hend h0 h4))
    · exact absurd hc3 (frsWriteContinues_ne_completed _ (hend h0 h4))
    · rw [h]
      have := ih (memcpy R p.frame p.len) (v.logResponse (memcpy R p.frame p.len)) hv hpre2
      simpa [FrsWriteVars.logResponse, dataReqs_append, dataReqs] using this
    · omega
    · omega

/-- For every record, every stream of inbound traffic and every outcome of the sends, a
run of `sh_setFrs` whose log ends on a write response with status COMPLETED returns
`SH_STATUS_SUCCESS` if and only if all `dataLen` words have been sent (the write-data
requests sent, two words each, cover the record), and `SH_STATUS_FRS_WRITE_NOT_ENOUGH`
when a word remains.  With `dataLen = 0`, on a stream that delivers a COMPLETED response
behind reports that are neither error nor COMPLETED responses, it returns
`SH_STATUS_SUCCESS` having sent the write request only. -/
theorem setFrs_completed_log (polls : List Poll) (inReport0 : Mem) (sendRc : Nat → Int)
    (data1 recordId : Nat) (pData : Mem) (dataLen : Nat) :
    (EndsCompleted (sh_setFrs polls inReport0 sendRc data1 recordId pData dataLen).vars.log →
      ((sh_setFrs polls inReport0 sendRc data1 recordId pData dataLen).rc = SH_STATUS_SUCCESS
          ↔ dataLen % 65536 ≤ 2 * (dataReqs
              (sh_setFrs polls inReport0 sendRc data1 recordId pData dataLen).vars.log).length)
        ∧ (2 * (dataReqs
              (sh_setFrs polls inReport0 sendRc data1 recordId pData dataLen).vars.log).length
            < dataLen % 65536 →
          (sh_setFrs polls inReport0 sendRc data1 recordId pData dataLen).rc
            = SH_STATUS_FRS_WRITE_NOT_ENOUGH))
    ∧ (dataLen % 65536 = 0 → ∀ (pre rest : List Poll) (t : Poll), polls = pre ++ t :: rest →
        (∀ p ∈ pre, p.delivered = true ∧ p.isFrsWriteEnd = false) →
        t.isFrsWriteResp = true → t.frame 1 % 256 = 3 →
        (sh_setFrs polls inReport0 sendRc data1 recordId pData dataLen).rc = SH_STATUS_SUCCESS
          ∧ dataReqs (sh_setFrs polls inReport0 sendRc data1 recordId pData dataLen).vars.log = []
          ∧ (sh_setFrs polls inReport0 sendRc data1 recordId pData dataLen).vars.sends = 1) := by
  constructor
  · intro hend
    obtain ⟨⟨h1, h2, h3, h4, h5, h6⟩, hex, hc, hnc⟩ :=
      setFrs_post polls inReport0 sendRc data1 recordId pData dataLen
    generalize sh_setFrs polls inReport0 sendRc data1 recordId pData dataLen = r at *
    have hexit := hex.mpr hend
    obtain ⟨hs, hf⟩ := hc hexit
    refine ⟨⟨fun hrc => ?_, fun hle => hs (by omega)⟩, fun hlt => hf (by omega)⟩
    by_contra hlt
    have := hf (by omega)
    rw [hrc] at this
    exact absurd this (by decide)
  · intro h0 pre rest t hp hpre ht h3
    subst hp
    unfold sh_setFrs
    have := setFrsLoop_nothing_to_write pData sendRc t rest ht h3 pre inReport0
      ⟨dataLen % 65536, 0, data1, 1,
        [FrsWriteEvent.writeReq (frsWriteReq (dataLen % 65536) (recordId % 65536))]⟩ h0 hpre
    simpa [dataReqs] using this

/-- With three words to write and COMPLETED arriving behind one data request, the call
returns NOT_ENOUGH; with no word to write it succeeds on the COMPLETED response that
follows a READY response and a sensor event, having sent one report. -/
theorem setFrs_completed_log_example :
    (sh_setFrs [frsWriteRespPoll 4 0, frsWriteRespPoll 3 0] (fun _ => 0) (fun _ => 0) 77 0xE302
        (fun i => 100 + i) 3).rc = SH_STATUS_FRS_WRITE_NOT_ENOUGH
      ∧ (sh_setFrs [frsWriteRespPoll 4 0, sensorEventPoll 5, frsWriteRespPoll 3 0] (fun _ => 0)
          (fun _ => 0) 77 0xE302 (fun i => 100 + i) 0).rc = SH_STATUS_SUCCESS
      ∧ (sh_setFrs [frsWriteRespPoll 4 0, sensorEventPoll 5, frsWriteRespPoll 3 0] (fun _ => 0)
          (fun _ => 0) 77 0xE302 (fun i => 100 + i) 0).vars.sends = 1 := by
  have ha := (setFrs_completed_log [frsWriteRespPoll 4 0, frsWriteRespPoll 3 0] (fun _ => 0)
    (fun _ => 0) 77 0xE302 (fun i => 100 + i) 3).1 ⟨[0x84, 3, 0, 0], by decide, by decide⟩
  have hb := (setFrs_completed_log [frsWriteRespPoll 4 0, sensorEventPoll 5, frsWriteRespPoll 3 0]
    (fun _ => 0) (fun _ => 0) 77 0xE302 (fun i => 100 + i) 0).2 (by decide)
    [frsWriteRespPoll 4 0, sensorEventPoll 5] [] (frsWriteRespPoll 3 0) rfl
    (by decide) (by decide) (by decide)
  exact ⟨ha.2 (by decide), hb.1, hb.2.2⟩

/-- C14 (FRS write pacing): in every run of `sh_setFrs`, for every record, stream of inbound
traffic and outcome of the sends: at every point of the log (every prefix) the write-data
requests sent are at most as many as the write responses received, so none is sent before
the first response; every write-data request comes right behind a write response that is
neither an error nor COMPLETED, received while words remained; and every such response
received while words remain has a write-data request right behind it, so that it
triggers exactly one, and none once all words are sent. -/
theorem setFrs_pacing (polls : List Poll) (inReport0 : Mem) (sendRc : Nat → Int)
    (data1 recordId : Nat) (pData : Mem) (dataLen : Nat) :
    (∀ m, (dataReqs ((sh_setFrs polls inReport0 sendRc data1 recordId pData dataLen).vars.log.take
          m)).length
        ≤ responseCount
            ((sh_setFrs polls inReport0 sendRc data1 recordId pData dataLen).vars.log.take m))
    ∧ (∀ i q, (sh_setFrs polls inReport0 sendRc data1 recordId pData dataLen).vars.log[i + 1]?
          = some (FrsWriteEvent.dataReq q) →
        ∃ b, (sh_setFrs polls inReport0 sendRc data1 recordId pData dataLen).vars.log[i]?
            = some (FrsWriteEvent.response b)
          ∧ frsWriteContinues (b.getD 1 0) = true
          ∧ 2 * (dataReqs ((sh_setFrs polls inReport0 sendRc data1 recordId pData
              dataLen).vars.log.take i)).length < dataLen % 65536)
    ∧ (∀ i b, (sh_setFrs polls inReport0 sendRc data1 recordId pData dataLen).vars.log[i]?
          = some (FrsWriteEvent.response b) →
        frsWriteContinues (b.getD 1 0) = true →
        2 * (dataReqs ((sh_setFrs polls inReport0 sendRc data1 recordId pData
            dataLen).vars.log.take i)).length < dataLen % 65536 →
        ∃ q, (sh_setFrs polls inReport0 sendRc data1 recordId pData dataLen).vars.log[i + 1]?
          = some (FrsWriteEvent.dataReq q)) :=
  (setFrs_post polls inReport0 sendRc data1 recordId pData dataLen).1.2.2.2.2.2

/-- C14 at work: in the run that writes three words against READY, a more-data response
and COMPLETED, the first write-data request (third event of the log) stands right behind
a response that asks for more data. -/
theorem setFrs_pacing_witness :
    ∃ b, (sh_setFrs [frsWriteRespPoll 4 0, frsWriteRespPoll 0 0, frsWriteRespPoll 3 2]
          (fun _ => 0) (fun _ => 0) 77 0xE302 (fun i => 100 + i) 3).vars.log[1]?
        = some (FrsWriteEvent.response b)
      ∧ frsWriteContinues (b.getD 1 0) = true
      ∧ 2 * (dataReqs ((sh_setFrs [frsWriteRespPoll 4 0, frsWriteRespPoll 0 0,
          frsWriteRespPoll 3 2] (fun _ => 0) (fun _ => 0) 77 0xE302
          (fun i => 100 + i) 3).vars.log.take 1)).length < 3 % 65536 :=
  (setFrs_pacing [frsWriteRespPoll 4 0, frsWriteRespPoll 0 0, frsWriteRespPoll 3 2]
    (fun _ => 0) (fun _ => 0) 77 0xE302 (fun i => 100 + i) 3).2.1 1
    (frsWriteDataReq 0 100 101) (by decide)

/-! ## Proofs: the command functions -/

theorem SensorHub.incr_commandSeq (sh : SensorHub) :
    sh.incr.commandSeq = (sh.commandSeq + 1) % 256 := by
  simp only [SensorHub.incr]
  omega

/-- A receive loop returns the session and the reports sent that each of its returns
holds. -/
theorem inLoop_frame {σ α : Type} (onFail : Int → σ → CmdResult α)
    (body : Nat → Mem → σ → LoopStep σ (CmdResult α)) (sh : SensorHub) (sent : List (List Nat))
    (hfail : ∀ rc s, (onFail rc s).sh = sh ∧ (onFail rc s).sent = sent)
    (hret : ∀ len R s res, body len R s = LoopStep.ret res → res.sh = sh ∧ res.sent = sent)
    (ps : List Poll) (R : Mem) (s : σ) :
    (inLoop onFail body ps R s).sh = sh ∧ (inLoop onFail body ps R s).sent = sent :=
  inLoop_invariant onFail body (fun _ => True) (fun r => r.sh = sh ∧ r.sent = sent)
    (fun rc s _ _ => hfail rc s) (fun _ _ _ _ _ _ => trivial)
    (fun len R s res _ h => hret len R s res h) ps R s trivial

theorem getErrorsBody_frame (thisSeq numErrors : Nat) (sh : SensorHub) (sent : List (List Nat))
    (len : Nat) (R : Mem) (v : GetErrsVars) (res : CmdResult GetErrsOut)
    (h : getErrorsBody thisSeq numErrors sh sent len R v = LoopStep.ret res) :
    res.sh = sh ∧ res.sent = sent := by
  unfold getErrorsBody at h
  dsimp only at h
  split_ifs at h
  all_goals first | (cases h; done) | (cases h; exact ⟨rfl, rfl⟩)

theorem getCountsBody_frame (thisSeq : Nat) (sh : SensorHub) (sent : List (List Nat))
    (len : Nat) (R : Mem) (v : GetCountsVars) (res : CmdResult Counts)
    (h : getCountsBody thisSeq sh sent len R v = LoopStep.ret res) :
    res.sh = sh ∧ res.sent = sent := by
  unfold getCountsBody at h
  dsimp only at h
  split_ifs at h
  all_goals first | (cases h; done) | (cases h; exact ⟨rfl, rfl⟩)

theorem statusReplyBody_frame (command thisSeq : Nat) (sh : SensorHub)
    (sent : List (List Nat)) (len : Nat) (R : Mem) (u : Unit) (res : CmdResult Unit)
    (h : statusReplyBody command thisSeq sh sent len R u = LoopStep.ret res) :
    res.sh = sh ∧ res.sent = sent := by
  unfold statusReplyBody at h
  split_ifs at h
  all_goals first | (cases h; done) | (cases h; exact ⟨rfl, rfl⟩)

/-- The session and the one report sent at every return of `sh_getErrors`. -/
theorem sh_getErrors_frame (polls : List Poll) (inReport0 : Mem) (sendRc : Int)
    (sh : SensorHub) (severity : Nat) (pErrors : Nat → ErrorRecord) (numErrors : Nat) :
    (sh_getErrors polls inReport0 sendRc sh severity pErrors numErrors).sh = sh.incr
      ∧ (sh_getErrors polls inReport0 sendRc sh severity pErrors numErrors).sent
        = [[SH_COMMAND_REQUEST, sh.thisSeq, SH_CR_REPORT_ERRORS, severity % 256]
            ++ List.replicate 8 0] := by
  unfold sh_getErrors
  dsimp only
  split_ifs
  · exact ⟨rfl, rfl⟩
  · apply inLoop_frame
    · intro rc s; exact ⟨rfl, rfl⟩
    · exact getErrorsBody_frame _ _ _ _

/-- The session and the one report sent at every return of `sh_getCounts`. -/
theorem sh_getCounts_frame (polls : List Poll) (inReport0 : Mem) (sendRc : Int)
    (sh : SensorHub) (sensorId : Nat) (pCounts : Counts) :
    (sh_getCounts polls inReport0 sendRc sh sensorId pCounts).sh = sh.incr
      ∧ (sh_getCounts polls inReport0 sendRc sh sensorId pCounts).sent
        = [[SH_COMMAND_REQUEST, sh.thisSeq, SH_CR_COUNTS, SH_CR_COUNTS_GET, sensorId % 256]
            ++ List.replicate 7 0] := by
  unfold sh_getCounts
  dsimp only
  split_ifs
  · exact ⟨rfl, rfl⟩
  · apply inLoop_frame
    · intro rc s; exact ⟨rfl, rfl⟩
    · exact getCountsBody_frame _ _ _

/-- The session and the one report sent at every return of `sh_dcdSaveNow`. -/
theorem sh_dcdSaveNow_frame (polls : List Poll) (inReport0 : Mem) (sendRc : Int)
    (sh : SensorHub) :
    (sh_dcdSaveNow polls inReport0 sendRc sh).sh = sh.incr
      ∧ (sh_dcdSaveNow polls inReport0 sendRc sh).sent
        = [[SH_COMMAND_REQUEST, sh.thisSeq, SH_CR_SAVE_DCD] ++ List.replicate 9 0] := by
  unfold sh_dcdSaveNow
  dsimp only
  split_ifs
  · exact ⟨rfl, rfl⟩
  · apply inLoop_frame
    · intro rc s; exact ⟨rfl, rfl⟩
    · exact statusReplyBody_frame _ _ _ _

/-- The session and the one report sent at every return of `sh_calConfig`. -/
theorem sh_calConfig_frame (polls : List Poll) (inReport0 : Mem) (sendRc : Int)
    (sh : SensorHub) (sensors : Nat) :
    (sh_calConfig polls inReport0 sendRc sh sensors).sh = sh.incr
      ∧ ∃ a g m, (sh_calConfig polls inReport0 sendRc sh sensors).sent
        = [[SH_COMMAND_REQUEST, sh.thisSeq, SH_CR_CAL_CONFIG, a, g, m] ++ List.replicate 6 0] := by
  unfold sh_calConfig
  dsimp only
  by_cases hs : sendRc ≠ 0
  · rw [if_pos hs]
    exact ⟨rfl, _, _, _, rfl⟩
  · rw [if_neg hs]
    have := inLoop_frame
      (fun rc (_ : Unit) => (⟨rc, (), sh.incr,
        [[SH_COMMAND_REQUEST, sh.thisSeq, SH_CR_CAL_CONFIG,
          if sensors % 256 &&& SH_CAL_ACCEL ≠ 0 then 1 else 0,
          if sensors % 256 &&& SH_CAL_GYRO ≠ 0 then 1 else 0,
          if sensors % 256 &&& SH_CAL_MAG ≠ 0 then 1 else 0] ++ List.replicate 6 0]⟩ :
          CmdResult Unit))
      _ _ _ (fun _ _ => ⟨rfl, rfl⟩) (statusReplyBody_frame SH_CR_CAL_CONFIG sh.thisSeq _ _)
      polls inReport0 ()
    exact ⟨this.1, _, _, _, this.2⟩

/-- C15 (command sequence counter): every call of one of the eleven command functions, for
every argument, every stream of inbound traffic and every status of the send (so whether
the call succeeds or not), hands to `shhid_setOutReport` exactly one report, a
COMMAND_REQUEST whose sequence byte is the session's `commandSeq` at the call, and leaves
`commandSeq` at that value plus one modulo 256; a call of one of the seven other
functions leaves the session as it was. -/
theorem command_sequence_counter (sh : SensorHub) (c : ApiCall) :
    (c.isCommand = true →
      (apiSession sh c).commandSeq = (sh.commandSeq + 1) % 256
        ∧ ∃ req, apiSent sh c = [req] ∧ req[0]? = some SH_COMMAND_REQUEST
            ∧ req[1]? = some (sh.commandSeq % 256))
    ∧ (c.isCommand = false → apiSession sh c = sh) := by
  constructor
  · intro hc
    cases c with
    | getErrors polls inReport0 sendRc severity pErrors numErrors =>
      obtain ⟨h1, h2⟩ := sh_getErrors_frame polls inReport0 sendRc sh severity pErrors numErrors
      refine ⟨?_, _, h2, rfl, rfl⟩
      show (sh_getErrors polls inReport0 sendRc sh severity pErrors numErrors).sh.commandSeq = _
      rw [h1, SensorHub.incr_commandSeq]
    | getCounts polls inReport0 sendRc sensorId pCounts =>
      obtain ⟨h1, h2⟩ := sh_getCounts_frame polls inReport0 sendRc sh sensorId pCounts
      refine ⟨?_, _, h2, rfl, rfl⟩
      show (sh_getCounts polls inReport0 sendRc sh sensorId pCounts).sh.commandSeq = _
      rw [h1, SensorHub.incr_commandSeq]
    | dcdSaveNow polls inReport0 sendRc =>
      obtain ⟨h1, h2⟩ := sh_dcdSaveNow_frame polls inReport0 sendRc sh
      refine ⟨?_, _, h2, rfl, rfl⟩
      show (sh_dcdSaveNow polls inReport0 sendRc sh).sh.commandSeq = _
      rw [h1, SensorHub.incr_commandSeq]
    | calConfig polls inReport0 sendRc sensors =>
      obtain ⟨h1, a, g, m, h2⟩ := sh_calConfig_frame polls inReport0 sendRc sh sensors
      refine ⟨?_, _, h2, rfl, rfl⟩
      show (sh_calConfig polls inReport0 sendRc sh sensors).sh.commandSeq = _
      rw [h1, SensorHub.incr_commandSeq]
    | clearCounts polls sendRc sensorId =>
      refine ⟨?_, ?_⟩
      · show (sh_clearCounts polls sendRc sh sensorId).sh.commandSeq = _
        unfold sh_clearCounts
        dsimp only
        split_ifs <;> exact SensorHub.incr_commandSeq sh
      · show ∃ req, (sh_clearCounts polls sendRc sh sensorId).sent = [req] ∧ _
        unfold sh_clearCounts
        dsimp only
        split_ifs <;> exact ⟨_, rfl, rfl, rfl⟩
    | tareNow polls sendRc axes basis =>
      refine ⟨?_, ?_⟩
      · show (sh_tareNow polls sendRc sh axes basis).sh.commandSeq = _
        unfold sh_tareNow
        dsimp only
        split_ifs <;> exact SensorHub.incr_commandSeq sh
      · show ∃ req, (sh_tareNow polls sendRc sh axes basis).sent = [req] ∧ _
        unfold sh_tareNow
        dsimp only
        split_ifs <;> exact ⟨_, rfl, rfl, rfl⟩
    | tareClear polls sendRc =>
      refine ⟨?_, ?_⟩
      · show (sh_tareClear polls sendRc sh).sh.commandSeq = _
        unfold sh_tareClear
        dsimp only
        split_ifs <;> exact SensorHub.incr_commandSeq sh
      · show ∃ req, (sh_tareClear polls sendRc sh).sent = [req] ∧ _
        unfold sh_tareClear
        dsimp only
        split_ifs <;> exact ⟨_, rfl, rfl, rfl⟩
    | persistTare polls sendRc =>
      refine ⟨?_, ?_⟩
      · show (sh_persistTare polls sendRc sh).sh.commandSeq = _
        unfold sh_persistTare
        dsimp only
        split_ifs <;> exact SensorHub.incr_commandSeq sh
      · show ∃ req, (sh_persistTare polls sendRc sh).sent = [req] ∧ _
        unfold sh_persistTare
        dsimp only
        split_ifs <;> exact ⟨_, rfl, rfl, rfl⟩
    | setReorientation polls sendRc x y z w =>
      refine ⟨?_, ?_⟩
      · show (sh_setReorientation polls sendRc sh x y z w).sh.commandSeq = _
        unfold sh_setReorientation
        dsimp only
        split_ifs <;> exact SensorHub.incr_commandSeq sh
      · show ∃ req, (sh_setReorientation polls sendRc sh x y z w).sent = [req] ∧ _
        unfold sh_setReorientation
        dsimp only
        split_ifs <;> exact ⟨_, rfl, rfl, rfl⟩
    | reinitialize polls sendRc =>
      refine ⟨?_, ?_⟩
      · show ( sh_reinitialize polls sendRc sh).sh.commandSeq = _
        unfold sh_reinitialize
        dsimp only
        split_ifs <;> exact SensorHub.incr_commandSeq sh
      · show ∃ req, ( sh_reinitialize polls sendRc sh).sent = [req] ∧ _
        unfold sh_reinitialize
        dsimp only
        split_ifs <;> exact ⟨_, rfl, rfl, rfl⟩
    | rvSync polls sendRc rvSyncOp =>
      exact ⟨SensorHub.incr_commandSeq sh, _, rfl, rfl, rfl⟩
    | getFrs => simp [ApiCall.isCommand] at hc
    | setFrs => simp [ApiCall.isCommand] at hc
    | getProdIds => simp [ApiCall.isCommand] at hc
    | getSensorConfig => simp [ApiCall.isCommand] at hc
    | setSensorConfig => simp [ApiCall.isCommand] at hc
    | getEventTO => simp [ApiCall.isCommand] at hc
    | getMetadata => simp [ApiCall.isCommand] at hc
  · intro hc
    cases c <;> first | rfl | simp [ApiCall.isCommand] at hc

/-- C15 at work: `sh_getCounts` on a session whose counter is 255, with a failing send:
the request carries 255 and the counter wraps to 0. -/
theorem command_sequence_counter_witness :
    (apiSession ⟨255⟩ (ApiCall.getCounts [] (fun _ => 0) (-5) 7 ⟨0, 0, 0, 0⟩)).commandSeq = 0
      ∧ apiSent ⟨255⟩ (ApiCall.getCounts [] (fun _ => 0) (-5) 7 ⟨0, 0, 0, 0⟩)
        = [[0x87, 255, 2, 0, 7, 0, 0, 0, 0, 0, 0, 0]] := by
  have h := (command_sequence_counter ⟨255⟩
    (ApiCall.getCounts [] (fun _ => 0) (-5) 7 ⟨0, 0, 0, 0⟩)).1 rfl
  exact ⟨h.1, by decide⟩

theorem load32_shift_congr (R R2 : Mem) (k : Nat) (h : ∀ i, i < k + 4 → R i = R2 i) :
    load32 (R.shift k) = load32 (R2.shift k) := by
  simp only [load32, Mem.shift]
  rw [h (0 + k) (by omega), h (1 + k) (by omega), h (2 + k) (by omega), h (3 + k) (by omega)]

theorem read16_shift_congr (R R2 : Mem) (k : Nat) (h : ∀ i, i < k + 2 → R i = R2 i) :
    read16 (R.shift k) = read16 (R2.shift k) := by
  simp only [read16, Mem.shift]
  rw [h (0 + k) (by omega), h (1 + k) (by omega)]

theorem setFrsBody_local (pData : Mem) (sendRc : Nat → Int) :
    BodyLocal (setFrsBody pData sendRc) := by
  intro len R R2 v h
  by_cases hlen : len = 4
  · subst hlen
    have hb : R.bytes 4 = R2.bytes 4 := Mem.bytes_congr R R2 4 h
    unfold setFrsBody frsReportId
    rw [h 0 (by decide), h 1 (by decide), hb]
  · unfold setFrsBody
    simp only [hlen, ne_eq, not_false_eq_true, if_true, ite_self]

theorem getProdIdsBody_local (sent : List (List Nat)) : BodyLocal (getProdIdsBody sent) := by
  intro len R R2 v h
  by_cases hlen : len = 16
  · subst hlen
    unfold getProdIdsBody
    rw [h 0 (by decide), h 1 (by decide), h 2 (by decide), h 3 (by decide),
      load32_shift_congr R R2 4 (fun i hi => h i (by omega)),
      load32_shift_congr R R2 8 (fun i hi => h i (by omega)),
      read16_shift_congr R R2 12 (fun i hi => h i (by omega))]
  · unfold getProdIdsBody
    simp only [hlen, false_and, if_false]

theorem getErrorsBody_local (thisSeq numErrors : Nat) (sh : SensorHub)
    (sent : List (List Nat)) : BodyLocal (getErrorsBody thisSeq numErrors sh sent) := by
  intro len R R2 v h
  by_cases hlen : len = 16
  · subst hlen
    unfold getErrorsBody
    rw [h 0 (by decide), h 2 (by decide), h 3 (by decide), h 5 (by decide), h 6 (by decide),
      h 7 (by decide), h 8 (by decide), h 9 (by decide), h 10 (by decide)]
  · unfold getErrorsBody
    simp only [hlen, ne_eq, not_false_eq_true, true_or, if_true]

theorem getCountsBody_local (thisSeq : Nat) (sh : SensorHub) (sent : List (List Nat)) :
    BodyLocal (getCountsBody thisSeq sh sent) := by
  intro len R R2 v h
  by_cases hlen : len = 16
  · subst hlen
    unfold getCountsBody
    rw [h 0 (by decide), h 2 (by decide), h 3 (by decide), h 4 (by decide), h 6 (by decide),
      load32_shift_congr R R2 8 (fun i hi => h i (by omega)),
      load32_shift_congr R R2 12 (fun i hi => h i (by omega))]
  · unfold getCountsBody
    simp only [hlen, ne_eq, not_false_eq_true, true_or, if_true]

theorem statusReplyBody_local (command thisSeq : Nat) (sh : SensorHub)
    (sent : List (List Nat)) : BodyLocal (statusReplyBody command thisSeq sh sent) := by
  intro len R R2 v h
  by_cases hlen : len = 16
  · subst hlen
    unfold statusReplyBody
    rw [h 0 (by decide), h 2 (by decide), h 3 (by decide), h 5 (by decide)]
  · unfold statusReplyBody
    simp only [hlen, ne_eq, not_false_eq_true, true_or, if_true]

theorem Poll.isSensorEvent_iff (p : Poll) :
    p.isSensorEvent = true ↔ p.delivered = true ∧ 1 ≤ p.len ∧ p.frame 0 % 256 < 0x80 := by
  simp [Poll.isSensorEvent, and_assoc]

theorem Poll.isStaleReply_iff (command k : Nat) (p : Poll) :
    p.isStaleReply command k = true ↔
      p.delivered = true ∧ p.len = 16 ∧ p.frame 0 % 256 = 0x88
        ∧ (p.frame 2 % 256 ≠ command ∨ p.frame 3 % 256 ≠ k) := by
  simp only [Poll.isStaleReply, Poll.isReply, Poll.isCommandResp, Bool.and_eq_true,
    decide_eq_true_eq, Bool.not_eq_true', Bool.and_eq_false_iff, decide_eq_false_iff_not]
  constructor
  · rintro ⟨⟨⟨h1, h2⟩, h3⟩, h4⟩
    refine ⟨h1, h2, h3, ?_⟩
    rcases h4 with (h4 | h4) | h4
    · rcases h4 with (h4 | h4) | h4
      · rw [h1] at h4; cases h4
      · exact absurd h2 h4
      · exact absurd h3 h4
    · exact Or.inl h4
    · exact Or.inr h4
  · rintro ⟨h1, h2, h3, h4⟩
    refine ⟨⟨⟨h1, h2⟩, h3⟩, ?_⟩
    rcases h4 with h4 | h4
    · exact Or.inl (Or.inr h4)
    · exact Or.inr h4

/-- The first byte of the report `shhid_in` leaves for a delivered report that is not
empty is the first byte of that report. -/
theorem memcpy_frame_zero (R : Mem) (p : Poll) (h : 1 ≤ p.len) :
    memcpy R p.frame p.len 0 = p.frame 0 := memcpy_lt _ _ _ _ (by omega)

theorem setFrsBody_skips_events (pData : Mem) (sendRc : Nat → Int) :
    BodySkips (setFrsBody pData sendRc) Poll.isSensorEvent := by
  intro p hp
  obtain ⟨hd, hl, hid⟩ := (Poll.isSensorEvent_iff p).mp hp
  refine ⟨hd, fun R v => ?_⟩
  have hne : frsReportId (memcpy R p.frame p.len) ≠ SH_FRS_WRITE_RESPONSE := by
    unfold frsReportId
    rw [memcpy_frame_zero R p hl]
    simp only [SH_FRS_WRITE_RESPONSE]
    omega
  unfold setFrsBody
  rw [if_pos hne]

theorem getProdIdsBody_skips_events (sent : List (List Nat)) :
    BodySkips (getProdIdsBody sent) Poll.isSensorEvent := by
  intro p hp
  obtain ⟨hd, hl, hid⟩ := (Poll.isSensorEvent_iff p).mp hp
  refine ⟨hd, fun R v => ?_⟩
  have hne : ¬ (p.len = 16 ∧ memcpy R p.frame p.len 0 % 256 = SH_PRODUCT_ID_RESPONSE) := by
    rw [memcpy_frame_zero R p hl]
    simp only [SH_PRODUCT_ID_RESPONSE]
    omega
  unfold getProdIdsBody
  rw [if_neg hne]

theorem getErrorsBody_skips_events (thisSeq numErrors : Nat) (sh : SensorHub)
    (sent : List (List Nat)) :
    BodySkips (getErrorsBody thisSeq numErrors sh sent) Poll.isSensorEvent := by
  intro p hp
  obtain ⟨hd, hl, hid⟩ := (Poll.isSensorEvent_iff p).mp hp
  refine ⟨hd, fun R v => ?_⟩
  have hne : p.len ≠ 16 ∨ memcpy R p.frame p.len 0 % 256 ≠ SH_COMMAND_RESPONSE := by
    rw [memcpy_frame_zero R p hl]
    simp only [SH_COMMAND_RESPONSE]
    omega
  unfold getErrorsBody
  rw [if_pos hne]

theorem getCountsBody_skips_events (thisSeq : Nat) (sh : SensorHub) (sent : List (List Nat)) :
    BodySkips (getCountsBody thisSeq sh sent) Poll.isSensorEvent := by
  intro p hp
  obtain ⟨hd, hl, hid⟩ := (Poll.isSensorEvent_iff p).mp hp
  refine ⟨hd, fun R v => ?_⟩
  have hne : p.len ≠ 16 ∨ memcpy R p.frame p.len 0 % 256 ≠ SH_COMMAND_RESPONSE := by
    rw [memcpy_frame_zero R p hl]
    simp only [SH_COMMAND_RESPONSE]
    omega
  unfold getCountsBody
  rw [if_pos hne]

theorem statusReplyBody_skips_events (command thisSeq : Nat) (sh : SensorHub)
    (sent : List (List Nat)) :
    BodySkips (statusReplyBody command thisSeq sh sent) Poll.isSensorEvent := by
  intro p hp
  obtain ⟨hd, hl, hid⟩ := (Poll.isSensorEvent_iff p).mp hp
  refine ⟨hd, fun R v => ?_⟩
  have hne : p.len ≠ 16 ∨ memcpy R p.frame p.len 0 % 256 ≠ SH_COMMAND_RESPONSE := by
    rw [memcpy_frame_zero R p hl]
    simp only [SH_COMMAND_RESPONSE]
    omega
  unfold statusReplyBody
  rw [if_pos hne]

theorem getErrorsBody_skips_stale (thisSeq numErrors : Nat) (sh : SensorHub)
    (sent : List (List Nat)) :
    BodySkips (getErrorsBody thisSeq numErrors sh sent)
      (Poll.isStaleReply SH_CR_REPORT_ERRORS thisSeq) := by
  intro p hp
  obtain ⟨hd, hl, hid, hst⟩ := (Poll.isStaleReply_iff _ _ p).mp hp
  refine ⟨hd, fun R v => ?_⟩
  rw [hl]
  have h1 : ¬ ((16 : Nat) ≠ 16 ∨ memcpy R p.frame 16 0 % 256 ≠ SH_COMMAND_RESPONSE) := by
    rw [memcpy_lt _ _ _ _ (by decide), hid]
    simp
  have h2 : memcpy R p.frame 16 2 % 256 ≠ SH_CR_REPORT_ERRORS
      ∨ memcpy R p.frame 16 3 % 256 ≠ thisSeq := by
    rw [memcpy_lt _ _ _ _ (by decide), memcpy_lt _ _ _ _ (by decide)]
    exact hst
  unfold getErrorsBody
  rw [if_neg h1, if_pos h2]

theorem getCountsBody_skips_stale (thisSeq : Nat) (sh : SensorHub) (sent : List (List Nat)) :
    BodySkips (getCountsBody thisSeq sh sent) (Poll.isStaleReply SH_CR_COUNTS thisSeq) := by
  intro p hp
  obtain ⟨hd, hl, hid, hst⟩ := (Poll.isStaleReply_iff _ _ p).mp hp
  refine ⟨hd, fun R v => ?_⟩
  rw [hl]
  have h1 : ¬ ((16 : Nat) ≠ 16 ∨ memcpy R p.frame 16 0 % 256 ≠ SH_COMMAND_RESPONSE) := by
    rw [memcpy_lt _ _ _ _ (by decide), hid]
    simp
  have h2 : memcpy R p.frame 16 2 % 256 ≠ SH_CR_COUNTS
      ∨ memcpy R p.frame 16 3 % 256 ≠ thisSeq := by
    rw [memcpy_lt _ _ _ _ (by decide), memcpy_lt _ _ _ _ (by decide)]
    exact hst
  unfold getCountsBody
  rw [if_neg h1, if_pos h2]

theorem statusReplyBody_skips_stale (command thisSeq : Nat) (sh : SensorHub)
    (sent : List (List Nat)) :
    BodySkips (statusReplyBody command thisSeq sh sent) (Poll.isStaleReply command thisSeq) := by
  intro p hp
  obtain ⟨hd, hl, hid, hst⟩ := (Poll.isStaleReply_iff _ _ p).mp hp
  refine ⟨hd, fun R v => ?_⟩
  rw [hl]
  have h1 : ¬ ((16 : Nat) ≠ 16 ∨ memcpy R p.frame 16 0 % 256 ≠ SH_COMMAND_RESPONSE) := by
    rw [memcpy_lt _ _ _ _ (by decide), hid]
    simp
  have h2 : memcpy R p.frame 16 2 % 256 ≠ command
      ∨ memcpy R p.frame 16 3 % 256 ≠ thisSeq := by
    rw [memcpy_lt _ _ _ _ (by decide), memcpy_lt _ _ _ _ (by decide)]
    exact hst
  unfold statusReplyBody
  rw [if_neg h1, if_pos h2]

/-- C16 (stale-reply filtering): for each of `sh_getErrors`, `sh_getCounts`, `sh_dcdSaveNow`
and `sh_calConfig`, issued on a session whose `commandSeq` gives the sequence `k`, for
every stream of inbound traffic, every status of the send and every argument: the whole
result of the call (status, output data, session, reports sent) is the same when a
COMMAND_RESPONSE whose command code is not the request's or whose cmdSeq is not `k` is
inserted at any place of the stream, whatever the other bytes of that report are. -/
theorem stale_replies_filtered (pre post : List Poll) (x : Poll) (inReport0 : Mem)
    (sendRc : Int) (sh : SensorHub) (severity numErrors sensorId sensors : Nat)
    (pErrors : Nat → ErrorRecord) (pCounts : Counts) :
    (x.isStaleReply SH_CR_REPORT_ERRORS sh.thisSeq = true →
      sh_getErrors (pre ++ x :: post) inReport0 sendRc sh severity pErrors numErrors
        = sh_getErrors (pre ++ post) inReport0 sendRc sh severity pErrors numErrors)
    ∧ (x.isStaleReply SH_CR_COUNTS sh.thisSeq = true →
      sh_getCounts (pre ++ x :: post) inReport0 sendRc sh sensorId pCounts
        = sh_getCounts (pre ++ post) inReport0 sendRc sh sensorId pCounts)
    ∧ (x.isStaleReply SH_CR_SAVE_DCD sh.thisSeq = true →
      sh_dcdSaveNow (pre ++ x :: post) inReport0 sendRc sh
        = sh_dcdSaveNow (pre ++ post) inReport0 sendRc sh)
    ∧ (x.isStaleReply SH_CR_CAL_CONFIG sh.thisSeq = true →
      sh_calConfig (pre ++ x :: post) inReport0 sendRc sh sensors
        = sh_calConfig (pre ++ post) inReport0 sendRc sh sensors) := by
  refine ⟨fun hx => ?_, fun hx => ?_, fun hx => ?_, fun hx => ?_⟩
  · unfold sh_getErrors
    dsimp only
    by_cases hs : sendRc ≠ 0
    · rw [if_pos hs, if_pos hs]
    · rw [if_neg hs, if_neg hs]
      exact inLoop_insert _ _ (getErrorsBody_local _ _ _ _) _ (getErrorsBody_skips_stale _ _ _ _)
        x hx post pre _ _
  · unfold sh_getCounts
    dsimp only
    by_cases hs : sendRc ≠ 0
    · rw [if_pos hs, if_pos hs]
    · rw [if_neg hs, if_neg hs]
      exact inLoop_insert _ _ (getCountsBody_local _ _ _) _ (getCountsBody_skips_stale _ _ _)
        x hx post pre _ _
  · unfold sh_dcdSaveNow
    dsimp only
    by_cases hs : sendRc ≠ 0
    · rw [if_pos hs, if_pos hs]
    · rw [if_neg hs, if_neg hs]
      exact inLoop_insert _ _ (statusReplyBody_local _ _ _ _) _
        (statusReplyBody_skips_stale _ _ _ _) x hx post pre _ _
  · unfold sh_calConfig
    dsimp only
    by_cases hs : sendRc ≠ 0
    · rw [if_pos hs, if_pos hs]
    · rw [if_neg hs, if_neg hs]
      exact inLoop_insert _ _ (statusReplyBody_local _ _ _ _) _
        (statusReplyBody_skips_stale _ _ _ _) x hx post pre _ _

/-- C16 at work: `sh_dcdSaveNow` on a session whose counter is 6; a COMMAND_RESPONSE to
SAVE_DCD with cmdSeq 5 and status byte 9, put before the reply with cmdSeq 6 and status 0,
leaves the result as it is without it (the status returned is that of the run on the
reply alone). -/
theorem stale_replies_filtered_witness :
    sh_dcdSaveNow ([] ++ reportPoll [0x88, 0, 0x06, 5, 0, 9, 0, 0, 0, 0, 0, 0, 0, 0, 0, 0]
        :: [reportPoll [0x88, 1, 0x06, 6, 0, 0, 0, 0, 0, 0, 0, 0, 0, 0, 0, 0]])
        (fun _ => 0) 0 ⟨6⟩
      = sh_dcdSaveNow ([] ++ [reportPoll [0x88, 1, 0x06, 6, 0, 0, 0, 0, 0, 0, 0, 0, 0, 0, 0, 0]])
        (fun _ => 0) 0 ⟨6⟩ :=
  (stale_replies_filtered [] [reportPoll [0x88, 1, 0x06, 6, 0, 0, 0, 0, 0, 0, 0, 0, 0, 0, 0, 0]]
    (reportPoll [0x88, 0, 0x06, 5, 0, 9, 0, 0, 0, 0, 0, 0, 0, 0, 0, 0]) (fun _ => 0) 0 ⟨6⟩
    0 0 0 0 (fun _ => ⟨0, 0, 0, 0, 0, 0⟩) ⟨0, 0, 0, 0⟩).2.2.1 (by decide)

theorem Poll.isSensorEvent_isOther (recordId : Nat) (p : Poll) (h : p.isSensorEvent = true) :
    p.isOther recordId = true := by
  obtain ⟨hd, hl, hid⟩ := (Poll.isSensorEvent_iff p).mp h
  have hr : p.isFrsReadResp recordId = false := by
    by_contra hc
    have hc2 : p.isFrsReadResp recordId = true := by simpa using hc
    obtain ⟨_, _, h86, _⟩ := (Poll.isFrsReadResp_iff recordId p).mp hc2
    unfold frsReportId at h86
    omega
  simp [Poll.isOther, hd, hr]

/-- The loop of `sh_getFrs` sees only the polls that are not sensor events. -/
theorem getFrsLoop_filter_events (recordId c : Nat) (request : List Nat) :
    ∀ (ps : List Poll) (r : Mem) (v : FrsVars),
      getFrsLoop recordId c request ps r v
        = getFrsLoop recordId c request (ps.filter (fun p => !p.isSensorEvent)) r v := by
  intro ps
  induction ps with
  | nil => intro r v; rfl
  | cons p ps ih =>
    intro r v
    by_cases ho : p.isSensorEvent = true
    · rw [getFrsLoop_skip _ _ _ _ _ _ _ (Poll.isSensorEvent_isOther recordId p ho),
        List.filter_cons_of_neg (by simp [ho])]
      exact ih r v
    · rw [List.filter_cons_of_pos (by simp [ho])]
      exact getFrsLoop_cons_congr recordId c request p _ _ ih r v

/-- C17 (non-interference of sensor events): two streams of inbound traffic that are the
same once the sensor events (delivered reports with a reportId below 0x80, of any length
and content) are taken out give the same whole result (status, output data, reports
sent, session) of `sh_getErrors`, `sh_getCounts`, `sh_dcdSaveNow`, `sh_calConfig`,
`sh_getFrs`, `sh_setFrs` and `sh_getProdIds`, for all arguments and all outcomes of the
sends. -/
theorem sensor_events_do_not_interfere (l1 l2 : List Poll)
    (h : l1.filter (fun p => !p.isSensorEvent) = l2.filter (fun p => !p.isSensorEvent))
    (inReport0 : Mem) (sendRc : Int) (sendRcs : Nat → Int) (sh : SensorHub)
    (severity numErrors sensorId sensors recordId dataLen data1 : Nat)
    (pErrors : Nat → ErrorRecord) (pCounts : Counts) (pData : Mem)
    (prodId : Nat → ProductId) :
    sh_getErrors l1 inReport0 sendRc sh severity pErrors numErrors
        = sh_getErrors l2 inReport0 sendRc sh severity pErrors numErrors
    ∧ sh_getCounts l1 inReport0 sendRc sh sensorId pCounts
        = sh_getCounts l2 inReport0 sendRc sh sensorId pCounts
    ∧ sh_dcdSaveNow l1 inReport0 sendRc sh = sh_dcdSaveNow l2 inReport0 sendRc sh
    ∧ sh_calConfig l1 inReport0 sendRc sh sensors = sh_calConfig l2 inReport0 sendRc sh sensors
    ∧ sh_getFrs l1 inReport0 recordId pData dataLen
        = sh_getFrs l2 inReport0 recordId pData dataLen
    ∧ sh_setFrs l1 inReport0 sendRcs data1 recordId pData dataLen
        = sh_setFrs l2 inReport0 sendRcs data1 recordId pData dataLen
    ∧ sh_getProdIds l1 inReport0 sendRc prodId = sh_getProdIds l2 inReport0 sendRc prodId := by
  refine ⟨?_, ?_, ?_, ?_, ?_, ?_, ?_⟩
  · unfold sh_getErrors
    dsimp only
    by_cases hs : sendRc ≠ 0
    · rw [if_pos hs, if_pos hs]
    · rw [if_neg hs, if_neg hs]
      exact inLoop_filter_eq _ _ (getErrorsBody_local _ _ _ _) _
        (getErrorsBody_skips_events _ _ _ _) l1 l2 h _ _
  · unfold sh_getCounts
    dsimp only
    by_cases hs : sendRc ≠ 0
    · rw [if_pos hs, if_pos hs]
    · rw [if_neg hs, if_neg hs]
      exact inLoop_filter_eq _ _ (getCountsBody_local _ _ _) _
        (getCountsBody_skips_events _ _ _) l1 l2 h _ _
  · unfold sh_dcdSaveNow
    dsimp only
    by_cases hs : sendRc ≠ 0
    · rw [if_pos hs, if_pos hs]
    · rw [if_neg hs, if_neg hs]
      exact inLoop_filter_eq _ _ (statusReplyBody_local _ _ _ _) _
        (statusReplyBody_skips_events _ _ _ _) l1 l2 h _ _
  · unfold sh_calConfig
    dsimp only
    by_cases hs : sendRc ≠ 0
    · rw [if_pos hs, if_pos hs]
    · rw [if_neg hs, if_neg hs]
      exact inLoop_filter_eq _ _ (statusReplyBody_local _ _ _ _) _
        (statusReplyBody_skips_events _ _ _ _) l1 l2 h _ _
  · unfold sh_getFrs
    dsimp only
    rw [getFrsLoop_filter_events _ _ _ l1, getFrsLoop_filter_events _ _ _ l2, h]
  · unfold sh_setFrs
    dsimp only
    exact inLoop_filter_eq _ _ (setFrsBody_local _ _) _ (setFrsBody_skips_events _ _) l1 l2 h _ _
  · unfold sh_getProdIds
    dsimp only
    by_cases hs : sendRc ≠ SH_STATUS_SUCCESS
    · rw [if_pos hs, if_pos hs]
    · rw [if_neg hs, if_neg hs]
      exact inLoop_filter_eq _ _ (getProdIdsBody_local _) _ (getProdIdsBody_skips_events _)
        l1 l2 h _ _

/-- C17 at work: the two replies to a counts request, with and without sensor events
around them. -/
theorem sensor_events_do_not_interfere_witness :
    sh_getCounts
        [sensorEventPoll 5, reportPoll [0x88, 0, 2, 6, 0, 1, 1, 0, 9, 0, 0, 0, 8, 0, 0, 0],
          sensorEventPoll 1, reportPoll [0x88, 1, 2, 6, 1, 1, 1, 0, 7, 0, 0, 0, 6, 0, 0, 0]]
        (fun _ => 0) 0 ⟨6⟩ 1 ⟨0, 0, 0, 0⟩
      = sh_getCounts
        [reportPoll [0x88, 0, 2, 6, 0, 1, 1, 0, 9, 0, 0, 0, 8, 0, 0, 0],
          reportPoll [0x88, 1, 2, 6, 1, 1, 1, 0, 7, 0, 0, 0, 6, 0, 0, 0], sensorEventPoll 2]
        (fun _ => 0) 0 ⟨6⟩ 1 ⟨0, 0, 0, 0⟩ :=
  (sensor_events_do_not_interfere _ _ (by rfl) (fun _ => 0) 0 (fun _ => 0) ⟨6⟩ 0 0 1 0 0 0 0
    (fun _ => ⟨0, 0, 0, 0, 0, 0⟩) ⟨0, 0, 0, 0⟩ (fun _ => 0) (fun _ => ⟨0, 0, 0, 0, 0, 0⟩)).2.1

/-! ## Proofs: counts and errors -/

/-- The member a `uint32_t` overlay reads is the little-endian value of its four bytes. -/
theorem load32_eq (m : Mem) :
    load32 m = m 0 % 256 + 2 ^ 8 * (m 1 % 256) + 2 ^ 16 * (m 2 % 256) + 2 ^ 24 * (m 3 % 256) := by
  have h0 : m 0 % 256 < 2 ^ 8 := Nat.mod_lt _ (by decide)
  have h1 : m 1 % 256 < 2 ^ 8 := Nat.mod_lt _ (by decide)
  have h2 : m 2 % 256 < 2 ^ 8 := Nat.mod_lt _ (by decide)
  have h3 : m 3 % 256 < 2 ^ 8 := Nat.mod_lt _ (by decide)
  have e1 : m 0 % 256 ||| (m 1 % 256) <<< 8 = 2 ^ 8 * (m 1 % 256) + m 0 % 256 := by
    rw [Nat.shiftLeft_eq, Nat.mul_comm (m 1 % 256) (2 ^ 8), Nat.lor_comm]
    exact (Nat.mul_add_lt_is_or h0 _).symm
  have b1 : 2 ^ 8 * (m 1 % 256) + m 0 % 256 < 2 ^ 16 := by norm_num at *; omega
  have e2 : (2 ^ 8 * (m 1 % 256) + m 0 % 256) ||| (m 2 % 256) <<< 16
      = 2 ^ 16 * (m 2 % 256) + (2 ^ 8 * (m 1 % 256) + m 0 % 256) := by
    rw [Nat.shiftLeft_eq, Nat.mul_comm (m 2 % 256) (2 ^ 16), Nat.lor_comm]
    exact (Nat.mul_add_lt_is_or b1 _).symm
  have b2 : 2 ^ 16 * (m 2 % 256) + (2 ^ 8 * (m 1 % 256) + m 0 % 256) < 2 ^ 24 := by
    norm_num at *; omega
  have e3 : (2 ^ 16 * (m 2 % 256) + (2 ^ 8 * (m 1 % 256) + m 0 % 256)) ||| (m 3 % 256) <<< 24
      = 2 ^ 24 * (m 3 % 256) + (2 ^ 16 * (m 2 % 256) + (2 ^ 8 * (m 1 % 256) + m 0 % 256)) := by
    rw [Nat.shiftLeft_eq, Nat.mul_comm (m 3 % 256) (2 ^ 24), Nat.lor_comm]
    exact (Nat.mul_add_lt_is_or b2 _).symm
  unfold load32
  rw [e1, e2, e3]
  norm_num at *
  omega

/-- The word a `uint32_t` overlay reads at byte `off` of a delivered 16-byte report. -/
theorem load32_report (R : Mem) (p : Poll) (off : Nat) (h : off + 4 ≤ 16) :
    load32 ((memcpy R p.frame 16).shift off) = p.word32 off := by
  rw [load32_eq]
  simp only [Mem.shift, Poll.word32]
  rw [memcpy_lt _ _ _ _ (by omega), memcpy_lt _ _ _ _ (by omega), memcpy_lt _ _ _ _ (by omega),
    memcpy_lt _ _ _ _ (by omega)]
  rw [Nat.zero_add, Nat.add_comm 1 off, Nat.add_comm 2 off, Nat.add_comm 3 off]

/-- A run of reports that the body skips in front of the stream changes nothing. -/
theorem inLoop_skip_run {σ ρ : Type} (onFail : Int → σ → ρ)
    (body : Nat → Mem → σ → LoopStep σ ρ) (hloc : BodyLocal body) (ign : Poll → Bool)
    (hign : BodySkips body ign) (post : List Poll) :
    ∀ (pre : List Poll), (∀ p ∈ pre, ign p = true) → ∀ (R : Mem) (s : σ),
      inLoop onFail body (pre ++ post) R s = inLoop onFail body post R s := by
  intro pre
  induction pre with
  | nil => intro _ R s; rfl
  | cons p pre ih =>
    intro hp R s
    rw [List.cons_append, inLoop_skip onFail body hloc ign hign p
      (hp p (List.mem_cons_self _ _))]
    exact ih (fun q hq => hp q (List.mem_cons_of_mem _ hq)) R s

theorem Poll.isReply_iff (command k : Nat) (p : Poll) :
    p.isReply command k = true ↔
      p.delivered = true ∧ p.len = 16 ∧ p.frame 0 % 256 = 0x88 ∧ p.frame 2 % 256 = command
        ∧ p.frame 3 % 256 = k := by
  simp [Poll.isReply, Poll.isCommandResp, and_assoc]

theorem Poll.isNoReply_iff (command k : Nat) (p : Poll) :
    p.isNoReply command k = true ↔ p.delivered = true ∧ p.isReply command k = false := by
  simp [Poll.isNoReply]

/-- What the loop body of `sh_getCounts` does with a reply to its request. -/
theorem getCountsBody_reply (k : Nat) (sh : SensorHub) (sent : List (List Nat)) (r : Poll)
    (R : Mem) (v : GetCountsVars) (h : r.isReply SH_CR_COUNTS k = true) :
    getCountsBody k sh sent r.len (memcpy R r.frame r.len) v
      = if r.frame 6 % 256 ≠ 1 then LoopStep.ret ⟨SH_STATUS_SH_ERR, v.pCounts, sh, sent⟩
        else if v.replies + 1 < 2 then
          LoopStep.next ⟨v.replies + 1,
            if r.frame 4 % 256 = 0 then
              { v.pCounts with offered := r.word32 8, accepted := r.word32 12 }
            else if r.frame 4 % 256 = 1 then
              { v.pCounts with on_ := r.word32 8, attempted := r.word32 12 }
            else v.pCounts⟩
        else
          LoopStep.ret ⟨0,
            if r.frame 4 % 256 = 0 then
              { v.pCounts with offered := r.word32 8, accepted := r.word32 12 }
            else if r.frame 4 % 256 = 1 then
              { v.pCounts with on_ := r.word32 8, attempted := r.word32 12 }
            else v.pCounts, sh, sent⟩ := by
  obtain ⟨hd, hl, hid, hc, hk⟩ := (Poll.isReply_iff _ _ r).mp h
  rw [hl]
  have h1 : ¬ ((16 : Nat) ≠ 16 ∨ memcpy R r.frame 16 0 % 256 ≠ SH_COMMAND_RESPONSE) := by
    rw [memcpy_lt _ _ _ _ (by decide), hid]
    simp
  have h2 : ¬ (memcpy R r.frame 16 2 % 256 ≠ SH_CR_COUNTS
      ∨ memcpy R r.frame 16 3 % 256 ≠ k) := by
    rw [memcpy_lt _ _ _ _ (by decide), memcpy_lt _ _ _ _ (by decide), hc, hk]
    simp
  unfold getCountsBody
  rw [if_neg h1, if_neg h2, load32_report R r 8 (by decide), load32_report R r 12 (by decide),
    memcpy_lt _ _ _ _ (by decide : 6 < 16), memcpy_lt _ _ _ _ (by decide : 4 < 16)]

theorem getCountsBody_skips_others (k : Nat) (sh : SensorHub) (sent : List (List Nat)) :
    BodySkips (getCountsBody k sh sent) (Poll.isNoReply SH_CR_COUNTS k) := by
  intro p hp
  obtain ⟨hd, hr⟩ := (Poll.isNoReply_iff _ _ p).mp hp
  refine ⟨hd, fun R v => ?_⟩
  unfold getCountsBody
  by_cases h1 : p.len ≠ 16 ∨ memcpy R p.frame p.len 0 % 256 ≠ SH_COMMAND_RESPONSE
  · rw [if_pos h1]
  · rw [if_neg h1]
    have hl : p.len = 16 := by
      by_contra hc
      exact h1 (Or.inl hc)
    have hid : memcpy R p.frame p.len 0 % 256 = SH_COMMAND_RESPONSE := by
      by_contra hc
      exact h1 (Or.inr hc)
    have h2 : memcpy R p.frame p.len 2 % 256 ≠ SH_CR_COUNTS
        ∨ memcpy R p.frame p.len 3 % 256 ≠ k := by
      by_contra hc
      have hc1 : memcpy R p.frame p.len 2 % 256 = SH_CR_COUNTS := by
        by_contra hh
        exact hc (Or.inl hh)
      have hc2 : memcpy R p.frame p.len 3 % 256 = k := by
        by_contra hh
        exact hc (Or.inr hh)
      rw [hl] at hid hc1 hc2
      rw [memcpy_lt _ _ _ _ (by decide)] at hid hc1 hc2
      have : p.isReply SH_CR_COUNTS k = true :=
        (Poll.isReply_iff _ _ p).mpr ⟨hd, hl, hid, hc1, hc2⟩
      rw [hr] at this
      cases this
    rw [if_pos h2]

/-- The loop of `sh_getCounts` passes over what is no reply to its request and handles
the first reply. -/
theorem getCountsLoop_reply (k : Nat) (sh : SensorHub) (sent : List (List Nat))
    (onFail : Int → GetCountsVars → CmdResult Counts) (pre rest : List Poll) (r : Poll)
    (R : Mem) (v : GetCountsVars) (hpre : ∀ p ∈ pre, p.isNoReply SH_CR_COUNTS k = true)
    (hr : r.isReply SH_CR_COUNTS k = true) :
    inLoop onFail (getCountsBody k sh sent) (pre ++ r :: rest) R v
      = match getCountsBody k sh sent r.len (memcpy R r.frame r.len) v with
        | LoopStep.next s2 => inLoop onFail (getCountsBody k sh sent) rest R s2
        | LoopStep.ret res => res := by
  obtain ⟨hd, _⟩ := (Poll.isReply_iff _ _ r).mp hr
  rw [inLoop_skip_run onFail _ (getCountsBody_local k sh sent) _
    (getCountsBody_skips_others k sh sent) _ pre hpre, inLoop_cons_delivered _ _ _ _ _ _ hd]
  cases getCountsBody k sh sent r.len (memcpy R r.frame r.len) v with
  | next s2 => exact inLoop_congr onFail _ (getCountsBody_local k sh sent) rest _ _ s2
  | ret res => rfl

/-- C18 (counts get): the request of `sh_getCounts` being sent with success, on every stream
in which the first two replies to it (COMMAND_RESPONSE reports with command 0x02 and the
cmdSeq of the request) stand behind and between reports that are no replies to it: when
the first has respSeq 0, the second respSeq 1 and both have status byte 1, the call
returns 0 with `offered` and `accepted` the two little-endian 32-bit words of the first
(bytes 8..11 and 12..15) and `on` and `attempted` those of the second; when the status
byte of the first is not 1, or that of the first is 1 and that of the second is not,
the call returns `SH_STATUS_SH_ERR`. -/
theorem getCounts_reads_counts (pre0 pre1 rest : List Poll) (r0 r1 : Poll) (inReport0 : Mem)
    (sh : SensorHub) (sensorId : Nat) (pCounts : Counts)
    (hpre0 : ∀ p ∈ pre0, p.isNoReply SH_CR_COUNTS sh.thisSeq = true)
    (hpre1 : ∀ p ∈ pre1, p.isNoReply SH_CR_COUNTS sh.thisSeq = true)
    (h0 : r0.isReply SH_CR_COUNTS sh.thisSeq = true)
    (h1 : r1.isReply SH_CR_COUNTS sh.thisSeq = true) :
    (r0.frame 4 % 256 = 0 → r0.frame 6 % 256 = 1 → r1.frame 4 % 256 = 1 →
      r1.frame 6 % 256 = 1 →
      (sh_getCounts (pre0 ++ r0 :: (pre1 ++ r1 :: rest)) inReport0 0 sh sensorId pCounts).rc = 0
        ∧ (sh_getCounts (pre0 ++ r0 :: (pre1 ++ r1 :: rest)) inReport0 0 sh sensorId pCounts).out
          = ⟨r0.word32 8, r0.word32 12, r1.word32 8, r1.word32 12⟩)
    ∧ (r0.frame 6 % 256 ≠ 1 →
      (sh_getCounts (pre0 ++ r0 :: (pre1 ++ r1 :: rest)) inReport0 0 sh sensorId pCounts).rc
        = SH_STATUS_SH_ERR)
    ∧ (r0.frame 6 % 256 = 1 → r1.frame 6 % 256 ≠ 1 →
      (sh_getCounts (pre0 ++ r0 :: (pre1 ++ r1 :: rest)) inReport0 0 sh sensorId pCounts).rc
        = SH_STATUS_SH_ERR) := by
  have hrun : sh_getCounts (pre0 ++ r0 :: (pre1 ++ r1 :: rest)) inReport0 0 sh sensorId pCounts
      = inLoop (fun rc v => (⟨rc, v.pCounts, sh.incr,
            [[SH_COMMAND_REQUEST, sh.thisSeq, SH_CR_COUNTS, SH_CR_COUNTS_GET, sensorId % 256]
              ++ List.replicate 7 0]⟩ : CmdResult Counts))
          (getCountsBody sh.thisSeq sh.incr
            [[SH_COMMAND_REQUEST, sh.thisSeq, SH_CR_COUNTS, SH_CR_COUNTS_GET, sensorId % 256]
              ++ List.replicate 7 0])
          (pre0 ++ r0 :: (pre1 ++ r1 :: rest)) inReport0 ⟨0, pCounts⟩ := by
    unfold sh_getCounts
    dsimp only
    rw [if_neg (by simp)]
  rw [hrun, getCountsLoop_reply _ _ _ _ pre0 _ r0 _ _ hpre0 h0, getCountsBody_reply _ _ _ _ _ _ h0]
  refine ⟨fun s0 st0 s1 st1 => ?_, fun st0 => ?_, fun st0 st1 => ?_⟩
  · rw [if_neg (by simp [st0]), if_pos (by simp)]
    dsimp only
    rw [getCountsLoop_reply _ _ _ _ pre1 _ r1 _ _ hpre1 h1, getCountsBody_reply _ _ _ _ _ _ h1,
      if_neg (by simp [st1]), if_neg (by simp)]
    simp [s0, s1]
  · rw [if_pos st0]
  · rw [if_neg (by simp [st0]), if_pos (by simp)]
    dsimp only
    rw [getCountsLoop_reply _ _ _ _ pre1 _ r1 _ _ hpre1 h1, getCountsBody_reply _ _ _ _ _ _ h1,
      if_pos st1]

/-- C18 at work: sensor 1, session counter 6; the replies carry (9, 8) and (7, 6) with a
sensor event and a stale reply (cmdSeq 5) around them. -/
theorem getCounts_reads_counts_witness :
    (sh_getCounts ([sensorEventPoll 5]
        ++ reportPoll [0x88, 0, 2, 6, 0, 1, 1, 0, 9, 0, 0, 0, 8, 0, 0, 0]
        :: ([reportPoll [0x88, 0, 2, 5, 1, 1, 1, 0, 3, 0, 0, 0, 3, 0, 0, 0]]
          ++ reportPoll [0x88, 1, 2, 6, 1, 1, 1, 0, 7, 0, 0, 0, 6, 0, 0, 0] :: []))
        (fun _ => 0) 0 ⟨6⟩ 1 ⟨0, 0, 0, 0⟩).out = ⟨9, 8, 7, 6⟩ :=
  ((getCounts_reads_counts [sensorEventPoll 5]
    [reportPoll [0x88, 0, 2, 5, 1, 1, 1, 0, 3, 0, 0, 0, 3, 0, 0, 0]] []
    (reportPoll [0x88, 0, 2, 6, 0, 1, 1, 0, 9, 0, 0, 0, 8, 0, 0, 0])
    (reportPoll [0x88, 1, 2, 6, 1, 1, 1, 0, 7, 0, 0, 0, 6, 0, 0, 0]) (fun _ => 0) ⟨6⟩ 1
    ⟨0, 0, 0, 0⟩ (by decide) (by decide) (by decide) (by decide)).1
    (by decide) (by decide) (by decide) (by decide)).2

theorem getErrorsBody_skips_others (k numErrors : Nat) (sh : SensorHub)
    (sent : List (List Nat)) :
    BodySkips (getErrorsBody k numErrors sh sent) (Poll.isNoReply SH_CR_REPORT_ERRORS k) := by
  intro p hp
  obtain ⟨hd, hr⟩ := (Poll.isNoReply_iff _ _ p).mp hp
  refine ⟨hd, fun R v => ?_⟩
  unfold getErrorsBody
  by_cases h1 : p.len ≠ 16 ∨ memcpy R p.frame p.len 0 % 256 ≠ SH_COMMAND_RESPONSE
  · rw [if_pos h1]
  · rw [if_neg h1]
    have hl : p.len = 16 := by
      by_contra hc
      exact h1 (Or.inl hc)
    have hid : memcpy R p.frame p.len 0 % 256 = SH_COMMAND_RESPONSE := by
      by_contra hc
      exact h1 (Or.inr hc)
    have h2 : memcpy R p.frame p.len 2 % 256 ≠ SH_CR_REPORT_ERRORS
        ∨ memcpy R p.frame p.len 3 % 256 ≠ k := by
      by_contra hc
      have hc1 : memcpy R p.frame p.len 2 % 256 = SH_CR_REPORT_ERRORS := by
        by_contra hh
        exact hc (Or.inl hh)
      have hc2 : memcpy R p.frame p.len 3 % 256 = k := by
        by_contra hh
        exact hc (Or.inr hh)
      rw [hl] at hid hc1 hc2
      rw [memcpy_lt _ _ _ _ (by decide)] at hid hc1 hc2
      have : p.isReply SH_CR_REPORT_ERRORS k = true :=
        (Poll.isReply_iff _ _ p).mpr ⟨hd, hl, hid, hc1, hc2⟩
      rw [hr] at this
      cases this
    rw [if_pos h2]

/-- What the loop body of `sh_getErrors` does with a reply to its request. -/
theorem getErrorsBody_reply (k numErrors : Nat) (sh : SensorHub) (sent : List (List Nat))
    (r : Poll) (R : Mem) (v : GetErrsVars) (h : r.isReply SH_CR_REPORT_ERRORS k = true) :
    getErrorsBody k numErrors sh sent r.len (memcpy R r.frame r.len) v
      = if r.isSentinel = true then
          LoopStep.ret ⟨0, ⟨v.replies % 65536, v.pErrors, v.stores, v.seen + 1⟩, sh, sent⟩
        else if v.replies < numErrors then
          LoopStep.next ⟨v.replies + 1,
            fun i => if i = v.replies then r.errorRecord else v.pErrors i,
            v.stores ++ [v.replies], v.seen + 1⟩
        else LoopStep.next ⟨v.replies, v.pErrors, v.stores, v.seen + 1⟩ := by
  obtain ⟨hd, hl, hid, hc, hk⟩ := (Poll.isReply_iff _ _ r).mp h
  rw [hl]
  have h1 : ¬ ((16 : Nat) ≠ 16 ∨ memcpy R r.frame 16 0 % 256 ≠ SH_COMMAND_RESPONSE) := by
    rw [memcpy_lt _ _ _ _ (by decide), hid]
    simp
  have h2 : ¬ (memcpy R r.frame 16 2 % 256 ≠ SH_CR_REPORT_ERRORS
      ∨ memcpy R r.frame 16 3 % 256 ≠ k) := by
    rw [memcpy_lt _ _ _ _ (by decide), memcpy_lt _ _ _ _ (by decide), hc, hk]
    simp
  have hs : (memcpy R r.frame 16 7 % 256 = 255 ∨ memcpy R r.frame 16 5 % 256 = 255)
      ↔ r.isSentinel = true := by
    rw [memcpy_lt _ _ _ _ (by decide), memcpy_lt _ _ _ _ (by decide)]
    simp [Poll.isSentinel]
  unfold getErrorsBody
  rw [if_neg h1, if_neg h2]
  dsimp only
  by_cases hsen : r.isSentinel = true
  · rw [if_pos (hs.mpr hsen), if_pos hsen]
  · rw [if_neg (fun hh => hsen (hs.mp hh)), if_neg hsen]
    simp only [Poll.errorRecord]
    rw [memcpy_lt _ _ _ _ (by decide : 5 < 16), memcpy_lt _ _ _ _ (by decide : 6 < 16),
      memcpy_lt _ _ _ _ (by decide : 7 < 16), memcpy_lt _ _ _ _ (by decide : 8 < 16),
      memcpy_lt _ _ _ _ (by decide : 9 < 16), memcpy_lt _ _ _ _ (by decide : 10 < 16)]

/-- The loop of `sh_getErrors` over a stream whose replies to the request are error
records followed by a sentinel: it takes every reply up to the sentinel, stores the
records while there is room, and returns 0 at the sentinel. -/
theorem getErrorsLoop_drain (k c : Nat) (sh : SensorHub) (sent : List (List Nat))
    (onFail : Int → GetErrsVars → CmdResult GetErrsOut) (s : Poll) (rest : List Poll)
    (hc : c < 65536) (hs : s.isReply SH_CR_REPORT_ERRORS k = true)
    (hsen : s.isSentinel = true) :
    ∀ (mid : List Poll) (R : Mem) (v : GetErrsVars) (res : CmdResult GetErrsOut)
      (es : List Poll),
      (∀ p ∈ mid, p.delivered = true) →
      es = mid.filter (fun p => p.isReply SH_CR_REPORT_ERRORS k) →
      (∀ e ∈ es, e.isSentinel = false) →
      v.replies ≤ c →
      res = inLoop onFail (getErrorsBody k c sh sent) (mid ++ s :: rest) R v →
      res.rc = 0 ∧ res.sh = sh ∧ res.sent = sent
        ∧ res.out.numErrors = min (v.replies + es.length) c
        ∧ res.out.seen = v.seen + es.length + 1
        ∧ res.out.stores
          = v.stores ++ List.range' v.replies (min (v.replies + es.length) c - v.replies)
        ∧ (∀ i e, es[i]? = some e → v.replies + i < c →
            res.out.pErrors (v.replies + i) = e.errorRecord)
        ∧ (∀ i, (i < v.replies ∨ min (v.replies + es.length) c ≤ i) →
            res.out.pErrors i = v.pErrors i) := by
  intro mid
  induction mid with
  | nil =>
    intro R v res es _ hes _ hv hres
    obtain ⟨hd, _⟩ := (Poll.isReply_iff _ _ s).mp hs
    rw [List.nil_append, inLoop_cons_delivered _ _ _ _ _ _ hd, getErrorsBody_reply _ _ _ _ _ _ _ hs,
      if_pos hsen] at hres
    simp only [List.filter_nil] at hes
    subst hes
    subst hres
    have hm : v.replies % 65536 = v.replies := Nat.mod_eq_of_lt (by omega)
    refine ⟨rfl, rfl, rfl, ?_, ?_, ?_, ?_, ?_⟩
    · show v.replies % 65536 = _
      rw [hm]
      simp only [List.length_nil, Nat.add_zero]
      omega
    · rfl
    · simp
    · intro i e he
      simp at he
    · intro i _
      rfl
  | cons p mid ih =>
    intro R v res es hdel hes hnos hv hres
    have hdel2 : ∀ q ∈ mid, q.delivered = true := fun q hq => hdel q (List.mem_cons_of_mem _ hq)
    have hd : p.delivered = true := hdel p (List.mem_cons_self _ _)
    by_cases hp : p.isReply SH_CR_REPORT_ERRORS k = true
    · rw [List.filter_cons_of_pos (by simpa using hp)] at hes
      have hnos2 : ∀ e ∈ mid.filter (fun p => p.isReply SH_CR_REPORT_ERRORS k),
          e.isSentinel = false := by
        intro e he
        exact hnos e (by rw [hes]; exact List.mem_cons_of_mem _ he)
      have hpns : ¬ (p.isSentinel = true) := by
        have := hnos p (by rw [hes]; exact List.mem_cons_self _ _)
        simp [this]
      rw [List.cons_append, inLoop_cons_delivered _ _ _ _ _ _ hd,
        getErrorsBody_reply _ _ _ _ _ _ _ hp, if_neg hpns] at hres
      have hlen : es.length
          = (mid.filter (fun p => p.isReply SH_CR_REPORT_ERRORS k)).length + 1 := by
        rw [hes]; rfl
      by_cases hlt : v.replies < c
      · rw [if_pos hlt] at hres
        obtain ⟨h1, h2, h3, h4, h5, h6, h7, h8⟩ := ih _ _ res _ hdel2 rfl hnos2
          (by show v.replies + 1 ≤ c; omega) hres
        simp only at h4 h5 h6 h7 h8
        refine ⟨h1, h2, h3, ?_, ?_, ?_, ?_, ?_⟩
        · rw [h4, hlen]; omega
        · rw [h5, hlen]; omega
        · rw [h6, hlen]
          have hm : min (v.replies + ((mid.filter
                (fun p => p.isReply SH_CR_REPORT_ERRORS k)).length + 1)) c - v.replies
              = (min (v.replies + 1 + (mid.filter
                (fun p => p.isReply SH_CR_REPORT_ERRORS k)).length) c - (v.replies + 1)) + 1 := by
            omega
          rw [hm, List.range'_succ]
          simp
        · intro i e he hi
          rw [hes] at he
          cases i with
          | zero =>
            simp only [List.getElem?_cons_zero, Option.some.injEq] at he
            rw [← he, Nat.add_zero, h8 v.replies (Or.inl (by omega))]
            simp
          | succ j =>
            simp only [List.getElem?_cons_succ] at he
            have := h7 j e he (by omega)
            rw [← this]
            congr 1
            omega
        · intro i hi
          rw [hlen] at hi
          rw [h8 i (by omega)]
          have hne : ¬ i = v.replies := by omega
          simp [hne]
      · rw [if_neg hlt] at hres
        obtain ⟨h1, h2, h3, h4, h5, h6, h7, h8⟩ := ih _ _ res _ hdel2 rfl hnos2
          (by show v.replies ≤ c; omega) hres
        simp only at h4 h5 h6 h7 h8
        refine ⟨h1, h2, h3, ?_, ?_, ?_, ?_, ?_⟩
        · rw [h4, hlen]; omega
        · rw [h5, hlen]; omega
        · rw [h6, hlen]
          have hm : min (v.replies + ((mid.filter
                (fun p => p.isReply SH_CR_REPORT_ERRORS k)).length + 1)) c - v.replies
              = min (v.replies + (mid.filter
                (fun p => p.isReply SH_CR_REPORT_ERRORS k)).length) c - v.replies := by
            omega
          rw [hm]
        · intro i e he hi
          omega
        · intro i hi
          rw [hlen] at hi
          exact h8 i (by omega)
    · have hnr : p.isNoReply SH_CR_REPORT_ERRORS k = true := by
        simp [Poll.isNoReply, hd, hp]
      rw [List.filter_cons_of_neg (by simpa using hp)] at hes
      rw [List.cons_append, inLoop_skip onFail _ (getErrorsBody_local k c sh sent) _
        (getErrorsBody_skips_others k c sh sent) p hnr] at hres
      exact ih R v res es hdel2 hes hnos hv hres

/-- C19 (error-queue read): the request of `sh_getErrors` being sent with success, on every
stream of delivered reports in which the replies to it (COMMAND_RESPONSE reports with
command 0x01 and the cmdSeq of the request) are `k` error records followed by a sentinel
(source 255 or severity 255), and for every capacity `c` (the incoming `*numErrors`, a
`uint16_t`): the call takes all `k + 1` replies, returns 0, leaves `min k c` in
`*numErrors` and in `pErrors[i]`, for `i < min k c`, the severity, sequence, source, error,
module and code of the `i`-th reply in the order of arrival; it stores to the indices
`0 .. min k c - 1` in turn and to no other, so to none at `c` or above, and the rest of
`pErrors` is as it was. -/
theorem getErrors_drains_queue (mid rest : List Poll) (s : Poll) (inReport0 : Mem)
    (sh : SensorHub) (severity : Nat) (pErrors : Nat → ErrorRecord) (numErrors : Nat)
    (hdel : ∀ p ∈ mid, p.delivered = true)
    (hnos : ∀ e ∈ mid.filter (fun p => p.isReply SH_CR_REPORT_ERRORS sh.thisSeq),
      e.isSentinel = false)
    (hs : s.isReply SH_CR_REPORT_ERRORS sh.thisSeq = true) (hsen : s.isSentinel = true) :
    (sh_getErrors (mid ++ s :: rest) inReport0 0 sh severity pErrors numErrors).rc = 0
      ∧ (sh_getErrors (mid ++ s :: rest) inReport0 0 sh severity pErrors numErrors).out.numErrors
        = min (mid.filter (fun p => p.isReply SH_CR_REPORT_ERRORS sh.thisSeq)).length
            (numErrors % 65536)
      ∧ (∀ i e, (mid.filter (fun p => p.isReply SH_CR_REPORT_ERRORS sh.thisSeq))[i]? = some e →
          i < numErrors % 65536 →
          (sh_getErrors (mid ++ s :: rest) inReport0 0 sh severity pErrors numErrors).out.pErrors i
            = e.errorRecord)
      ∧ (∀ i, min (mid.filter (fun p => p.isReply SH_CR_REPORT_ERRORS sh.thisSeq)).length
            (numErrors % 65536) ≤ i →
          (sh_getErrors (mid ++ s :: rest) inReport0 0 sh severity pErrors numErrors).out.pErrors i
            = pErrors i)
      ∧ (sh_getErrors (mid ++ s :: rest) inReport0 0 sh severity pErrors numErrors).out.stores
        = List.range (min (mid.filter (fun p => p.isReply SH_CR_REPORT_ERRORS sh.thisSeq)).length
            (numErrors % 65536))
      ∧ (∀ i ∈ (sh_getErrors (mid ++ s :: rest) inReport0 0 sh severity pErrors
            numErrors).out.stores, i < numErrors % 65536)
      ∧ (sh_getErrors (mid ++ s :: rest) inReport0 0 sh severity pErrors numErrors).out.seen
        = (mid.filter (fun p => p.isReply SH_CR_REPORT_ERRORS sh.thisSeq)).length + 1 := by
  have hc : numErrors % 65536 < 65536 := Nat.mod_lt _ (by decide)
  have hrun : sh_getErrors (mid ++ s :: rest) inReport0 0 sh severity pErrors numErrors
      = inLoop (fun rc v => (⟨rc, ⟨numErrors % 65536, v.pErrors, v.stores, v.seen⟩, sh.incr,
            [[SH_COMMAND_REQUEST, sh.thisSeq, SH_CR_REPORT_ERRORS, severity % 256]
              ++ List.replicate 8 0]⟩ : CmdResult GetErrsOut))
          (getErrorsBody sh.thisSeq (numErrors % 65536) sh.incr
            [[SH_COMMAND_REQUEST, sh.thisSeq, SH_CR_REPORT_ERRORS, severity % 256]
              ++ List.replicate 8 0])
          (mid ++ s :: rest) inReport0 ⟨0, pErrors, [], 0⟩ := by
    unfold sh_getErrors
    dsimp only
    rw [if_neg (by simp)]
  obtain ⟨h1, _, _, h4, h5, h6, h7, h8⟩ := getErrorsLoop_drain sh.thisSeq (numErrors % 65536)
    sh.incr _ _ s rest hc hs hsen mid inReport0 ⟨0, pErrors, [], 0⟩ _ _ hdel rfl hnos
    (Nat.zero_le _) hrun
  simp only [Nat.zero_add, Nat.sub_zero, List.nil_append] at h4 h5 h6 h7 h8
  have hst : (sh_getErrors (mid ++ s :: rest) inReport0 0 sh severity pErrors
      numErrors).out.stores
      = List.range (min (mid.filter (fun p => p.isReply SH_CR_REPORT_ERRORS sh.thisSeq)).length
          (numErrors % 65536)) := by
    rw [h6, List.range_eq_range']
  refine ⟨h1, h4, h7, fun i hi => h8 i (Or.inr hi), hst, ?_, h5⟩
  intro i hi
  rw [hst, List.mem_range] at hi
  omega

/-- C19 at work: session counter 6, capacity 1; the replies are two error records and
the sentinel, with a sensor event between them: two replies are taken before the
sentinel, one record is stored, and `*numErrors` is 1. -/
theorem getErrors_drains_queue_witness :
    (sh_getErrors ([reportPoll [0x88, 0, 1, 6, 0, 2, 0, 3, 4, 5, 6, 0, 0, 0, 0, 0],
          sensorEventPoll 5, reportPoll [0x88, 0, 1, 6, 1, 2, 1, 3, 7, 8, 9, 0, 0, 0, 0, 0]]
        ++ reportPoll [0x88, 0, 1, 6, 2, 0, 0, 255, 0, 0, 0, 0, 0, 0, 0, 0] :: [])
        (fun _ => 0) 0 ⟨6⟩ 0 (fun _ => ⟨0, 0, 0, 0, 0, 0⟩) 1).out.numErrors = 1
      ∧ (sh_getErrors ([reportPoll [0x88, 0, 1, 6, 0, 2, 0, 3, 4, 5, 6, 0, 0, 0, 0, 0],
          sensorEventPoll 5, reportPoll [0x88, 0, 1, 6, 1, 2, 1, 3, 7, 8, 9, 0, 0, 0, 0, 0]]
        ++ reportPoll [0x88, 0, 1, 6, 2, 0, 0, 255, 0, 0, 0, 0, 0, 0, 0, 0] :: [])
        (fun _ => 0) 0 ⟨6⟩ 0 (fun _ => ⟨0, 0, 0, 0, 0, 0⟩) 1).out.seen = 3 := by
  have h := getErrors_drains_queue
    [reportPoll [0x88, 0, 1, 6, 0, 2, 0, 3, 4, 5, 6, 0, 0, 0, 0, 0], sensorEventPoll 5,
      reportPoll [0x88, 0, 1, 6, 1, 2, 1, 3, 7, 8, 9, 0, 0, 0, 0, 0]] []
    (reportPoll [0x88, 0, 1, 6, 2, 0, 0, 255, 0, 0, 0, 0, 0, 0, 0, 0]) (fun _ => 0) ⟨6⟩ 0
    (fun _ => ⟨0, 0, 0, 0, 0, 0⟩) 1 (by decide) (by decide) (by decide) (by decide)
  exact ⟨h.2.1, h.2.2.2.2.2.2⟩

/-! ## Proofs: the event decoder -/

theorem or_shift8 (x y : Nat) (hx : x < 2 ^ 8) : x ||| y <<< 8 = x + 2 ^ 8 * y := by
  rw [Nat.shiftLeft_eq, Nat.mul_comm y (2 ^ 8), Nat.lor_comm, Nat.add_comm]
  exact (Nat.mul_add_lt_is_or hx _).symm

/-- The value `read16` reads at byte `k` of a buffer. -/
theorem read16_at (m : Mem) (k : Nat) : read16 (m.shift k) = u16At m k := by
  have h0 : m k % 256 < 2 ^ 8 := Nat.mod_lt _ (by decide)
  have h1 : m (k + 1) % 256 < 256 := Nat.mod_lt _ (by decide)
  simp only [read16, Mem.shift, u16At, Nat.zero_add, Nat.add_comm 1 k]
  rw [or_shift8 _ _ h0]
  norm_num
  omega

theorem read32_eq_load32 (m : Mem) : read32 m = load32 m := rfl

/-- The value `read32` or a `uint32_t` overlay reads at byte `k` of a buffer. -/
theorem load32_at (m : Mem) (k : Nat) : load32 (m.shift k) = u32At m k := by
  rw [load32_eq]
  simp only [Mem.shift, u32At, Nat.zero_add, Nat.add_comm 1 k, Nat.add_comm 2 k,
    Nat.add_comm 3 k]

theorem u16At_lt (m : Mem) (k : Nat) : u16At m k < 65536 := by
  unfold u16At
  omega

theorem u32At_lt (m : Mem) (k : Nat) : u32At m k < 2 ^ 32 := by
  unfold u32At
  norm_num
  omega

theorem u16At_shift (m : Mem) (j k : Nat) : u16At (m.shift j) k = u16At m (j + k) := by
  simp only [u16At, Mem.shift]
  rw [Nat.add_comm k j, Nat.add_right_comm k 1 j, Nat.add_comm (k + j) 1, Nat.add_comm 1 (k + j),
    Nat.add_comm k j]

theorem u32At_shift (m : Mem) (j k : Nat) : u32At (m.shift j) k = u32At m (j + k) := by
  simp only [u32At, Mem.shift]
  have e0 : k + j = j + k := Nat.add_comm k j
  have e1 : k + 1 + j = j + k + 1 := by omega
  have e2 : k + 2 + j = j + k + 2 := by omega
  have e3 : k + 3 + j = j + k + 3 := by omega
  rw [e0, e1, e2, e3]

/-- Reading back the `uint16_t` that was stored. -/
theorem u16At_store16_same (m : Mem) (i v : Nat) : u16At (m.store16 i v) i = v % 65536 := by
  simp only [u16At, Mem.store16, Mem.set]
  norm_num
  omega

/-- A cell outside the two a `uint16_t` store writes keeps its value. -/
theorem Mem.store16_other (m : Mem) (i v j : Nat) (h : j < i ∨ i + 2 ≤ j) :
    m.store16 i v j = m j := by
  unfold Mem.store16
  iterate 2 rw [Mem.set_other _ _ _ _ (by omega)]

/-- A cell outside the four a `uint32_t` store writes keeps its value. -/
theorem Mem.store32_other (m : Mem) (i v j : Nat) (h : j < i ∨ i + 4 ≤ j) :
    m.store32 i v j = m j := by
  unfold Mem.store32
  iterate 4 rw [Mem.set_other _ _ _ _ (by omega)]

theorem u16At_store16_other (m : Mem) (i v j : Nat) (h : j + 2 ≤ i ∨ i + 2 ≤ j) :
    u16At (m.store16 i v) j = u16At m j := by
  simp only [u16At]
  iterate 2 rw [Mem.store16_other _ _ _ _ (by omega)]

theorem u32At_store32_same (m : Mem) (i v : Nat) : u32At (m.store32 i v) i = v % 2 ^ 32 := by
  simp only [u32At, Mem.store32, Mem.set]
  norm_num
  omega

theorem u16At_store32_other (m : Mem) (i v j : Nat) (h : j + 2 ≤ i ∨ i + 4 ≤ j) :
    u16At (m.store32 i v) j = u16At m j := by
  simp only [u16At]
  iterate 2 rw [Mem.store32_other _ _ _ _ (by omega)]

theorem u32At_store16_other (m : Mem) (i v j : Nat) (h : j + 4 ≤ i ∨ i + 2 ≤ j) :
    u32At (m.store16 i v) j = u32At m j := by
  simp only [u32At]
  iterate 4 rw [Mem.store16_other _ _ _ _ (by omega)]

/-- The status of `decodeEvent` for a report of at most 16 bytes, by its reportId and
length. -/
theorem decodeEvent_rc (st : DecoderState) (event : SensorEvent) (report : Mem)
    (length timestamp : Nat) (hlen : length ≤ 16) :
    (decodeEvent st event report length timestamp).rc
      = if report 0 % 256 ≥ 0x80 then SH_STATUS_BAD_REPORT
        else match layoutMin (report 0 % 256) with
          | some m => if length < m then SH_STATUS_BAD_REPORT else SH_STATUS_SUCCESS
          | none => SH_STATUS_BAD_REPORT := by
  have hl : length % 65536 = length := Nat.mod_eq_of_lt (by omega)
  have h1 : ¬ (length > SHHID_MAX_INPUT_REPORT_LEN) := by
    simp only [SHHID_MAX_INPUT_REPORT_LEN]; omega
  unfold decodeEvent
  simp only [hl, h1, if_false]
  generalize report 0 % 256 = s
  by_cases h80 : s ≥ 0x80
  · simp only [h80, if_true]
  · simp only [h80, if_false]
    by_cases g1 : s = SH_HUMIDITY ∨ s = SH_PROXIMITY ∨ s = SH_TEMPERATURE
        ∨ s = SH_SIGNIFICANT_MOTION ∨ s = SH_SHAKE_DETECTOR
        ∨ s = SH_FLIP_DETECTOR ∨ s = SH_PICKUP_DETECTOR
        ∨ s = SH_STABILITY_DETECTOR
    · rcases g1 with g | g | g | g | g | g | g | g <;> subst g <;> simp [layoutMin] <;>
        split_ifs <;> rfl
    by_cases g2 : s = SH_PRESSURE ∨ s = SH_AMBIENT_LIGHT ∨ s = SH_STEP_DETECTOR
    · rcases g2 with g | g | g <;> subst g <;> simp [layoutMin] <;> split_ifs <;> rfl
    by_cases g3 : s = SH_RAW_ACCELEROMETER ∨ s = SH_RAW_GYROSCOPE ∨ s = SH_RAW_MAGNETOMETER
    · rcases g3 with g | g | g <;> subst g <;> simp [layoutMin] <;> split_ifs <;> rfl
    by_cases g4 : s = SH_ACCELEROMETER ∨ s = SH_LINEAR_ACCELERATION ∨ s = SH_GRAVITY
        ∨ s = SH_GYROSCOPE_CALIBRATED ∨ s = SH_MAGNETIC_FIELD_CALIBRATED
    · rcases g4 with g | g | g | g | g <;> subst g <;> simp [layoutMin] <;> split_ifs <;> rfl
    by_cases g5 : s = SH_GAME_ROTATION_VECTOR
    · subst g5
      simp [layoutMin]
      split_ifs <;> rfl
    by_cases g6 : s = SH_ROTATION_VECTOR ∨ s = SH_GEOMAGNETIC_ROTATION_VECTOR
    · rcases g6 with g | g <;> subst g <;> simp [layoutMin] <;> split_ifs <;> rfl
    by_cases g7 : s = SH_GYROSCOPE_UNCALIBRATED ∨ s = SH_MAGNETIC_FIELD_UNCALIBRATED
    · rcases g7 with g | g <;> subst g <;> simp [layoutMin] <;> split_ifs <;> rfl
    by_cases g8 : s = SH_STEP_COUNTER
    · subst g8
      simp [layoutMin]
      split_ifs <;> rfl
    have hnone : layoutMin s = none := by
      simp only [not_or] at g1 g2 g3 g4 g6 g7
      simp [layoutMin, g1, g2, g3, g4, g5, g6, g7, g8]
    rw [hnone]
    simp only [g1, g2, g3, g4, g5, g6, g7, g8, if_false]

theorem u16At_mod (m : Mem) (k : Nat) : u16At m k % 65536 = u16At m k :=
  Nat.mod_eq_of_lt (u16At_lt m k)

theorem u32At_mod (m : Mem) (k : Nat) : u32At m k % 2 ^ 32 = u32At m k :=
  Nat.mod_eq_of_lt (u32At_lt m k)

theorem u32At_mod_lit (m : Mem) (k : Nat) : u32At m k % 4294967296 = u32At m k :=
  Nat.mod_eq_of_lt (u32At_lt m k)

/-- One 16-bit value: humidity, proximity, temperature, significant motion, shake, flip,
pickup, stability. -/
theorem decodeEvent_one16 (st : DecoderState) (event : SensorEvent) (report : Mem)
    (length timestamp : Nat) (hlen : length ≤ 16) (hmin : 6 ≤ length)
    (hs : report 0 % 256 = SH_HUMIDITY ∨ report 0 % 256 = SH_PROXIMITY
      ∨ report 0 % 256 = SH_TEMPERATURE ∨ report 0 % 256 = SH_SIGNIFICANT_MOTION
      ∨ report 0 % 256 = SH_SHAKE_DETECTOR ∨ report 0 % 256 = SH_FLIP_DETECTOR
      ∨ report 0 % 256 = SH_PICKUP_DETECTOR ∨ report 0 % 256 = SH_STABILITY_DETECTOR) :
    (decodeEvent st event report length timestamp).rc = SH_STATUS_SUCCESS
      ∧ CommonFields (decodeEvent st event report length timestamp) report
      ∧ Decoded16 (decodeEvent st event report length timestamp) report 1 := by
  have hl : length % 65536 = length := Nat.mod_eq_of_lt (by omega)
  have h1 : ¬ (length > SHHID_MAX_INPUT_REPORT_LEN) := by
    simp only [SHHID_MAX_INPUT_REPORT_LEN]; omega
  have h2 : ¬ (length < 6) := by omega
  simp only [SH_HUMIDITY, SH_PROXIMITY, SH_TEMPERATURE, SH_SIGNIFICANT_MOTION, SH_SHAKE_DETECTOR,
    SH_FLIP_DETECTOR, SH_PICKUP_DETECTOR, SH_STABILITY_DETECTOR] at hs
  rcases hs with hs | hs | hs | hs | hs | hs | hs | hs
  all_goals
    refine ⟨?_, ?_, ?_⟩
    · unfold decodeEvent
      simp [hl, h1, h2, hs]
    · unfold CommonFields decodeEvent
      simp [hl, h1, h2, hs]
    · intro k hk
      unfold SensorEvent.field16 decodeEvent
      simp only [hl, h1, h2, hs, if_false]
      simp only [read16_at, u16At_shift]
      simp
      interval_cases k
      simp [u16At_store16_same, u16At_mod]

/-- One 32-bit value: pressure, ambient light, step detector. -/
theorem decodeEvent_one32 (st : DecoderState) (event : SensorEvent) (report : Mem)
    (length timestamp : Nat) (hlen : length ≤ 16) (hmin : 8 ≤ length)
    (hs : report 0 % 256 = SH_PRESSURE ∨ report 0 % 256 = SH_AMBIENT_LIGHT
      ∨ report 0 % 256 = SH_STEP_DETECTOR) :
    (decodeEvent st event report length timestamp).rc = SH_STATUS_SUCCESS
      ∧ CommonFields (decodeEvent st event report length timestamp) report
      ∧ (decodeEvent st event report length timestamp).event.field32 0 = u32At report 4 := by
  have hl : length % 65536 = length := Nat.mod_eq_of_lt (by omega)
  have h1 : ¬ (length > SHHID_MAX_INPUT_REPORT_LEN) := by
    simp only [SHHID_MAX_INPUT_REPORT_LEN]; omega
  have h2 : ¬ (length < 8) := by omega
  simp only [SH_PRESSURE, SH_AMBIENT_LIGHT, SH_STEP_DETECTOR] at hs
  rcases hs with hs | hs | hs
  all_goals
    refine ⟨?_, ?_, ?_⟩
    · unfold decodeEvent
      simp [hl, h1, h2, hs]
    · unfold CommonFields decodeEvent
      simp [hl, h1, h2, hs]
    · unfold SensorEvent.field32 decodeEvent
      simp only [hl, h1, h2, hs, if_false]
      simp only [read32_eq_load32, load32_at, u32At_shift]
      simp [u32At_store32_same, u32At_mod_lit]

/-- Four 16-bit values and a 32-bit value: the raw accelerometer, gyroscope and
magnetometer. -/
theorem decodeEvent_raw (st : DecoderState) (event : SensorEvent) (report : Mem)
    (length timestamp : Nat) (hlen : length ≤ 16) (hmin : 16 ≤ length)
    (hs : report 0 % 256 = SH_RAW_ACCELEROMETER ∨ report 0 % 256 = SH_RAW_GYROSCOPE
      ∨ report 0 % 256 = SH_RAW_MAGNETOMETER) :
    (decodeEvent st event report length timestamp).rc = SH_STATUS_SUCCESS
      ∧ CommonFields (decodeEvent st event report length timestamp) report
      ∧ Decoded16 (decodeEvent st event report length timestamp) report 4
      ∧ (decodeEvent st event report length timestamp).event.field32 2 = u32At report 12 := by
  have hl : length % 65536 = length := Nat.mod_eq_of_lt (by omega)
  have h1 : ¬ (length > SHHID_MAX_INPUT_REPORT_LEN) := by
    simp only [SHHID_MAX_INPUT_REPORT_LEN]; omega
  have h2 : ¬ (length < 16) := by omega
  simp only [SH_RAW_ACCELEROMETER, SH_RAW_GYROSCOPE, SH_RAW_MAGNETOMETER] at hs
  rcases hs with hs | hs | hs
  all_goals
    refine ⟨?_, ?_, ?_, ?_⟩
    · unfold decodeEvent
      simp [hl, h1, h2, hs]
    · unfold CommonFields decodeEvent
      simp [hl, h1, h2, hs]
    · intro k hk
      unfold SensorEvent.field16 decodeEvent
      simp only [hl, h1, h2, hs, if_false]
      simp only [read16_at, u16At_shift]
      simp
      interval_cases k <;>
        simp [u16At_store16_same, u16At_store16_other, u16At_store32_other, u16At_mod]
    · unfold SensorEvent.field32 decodeEvent
      simp only [hl, h1, h2, hs, if_false]
      simp only [read32_eq_load32, load32_at, read16_at, u32At_shift, u16At_shift]
      simp [u32At_store32_same, u32At_mod_lit]

/-- Three 16-bit values: accelerometer, linear acceleration, gravity, calibrated
gyroscope, calibrated magnetic field. -/
theorem decodeEvent_three16 (st : DecoderState) (event : SensorEvent) (report : Mem)
    (length timestamp : Nat) (hlen : length ≤ 16) (hmin : 10 ≤ length)
    (hs : report 0 % 256 = SH_ACCELEROMETER ∨ report 0 % 256 = SH_LINEAR_ACCELERATION
      ∨ report 0 % 256 = SH_GRAVITY ∨ report 0 % 256 = SH_GYROSCOPE_CALIBRATED
      ∨ report 0 % 256 = SH_MAGNETIC_FIELD_CALIBRATED) :
    (decodeEvent st event report length timestamp).rc = SH_STATUS_SUCCESS
      ∧ CommonFields (decodeEvent st event report length timestamp) report
      ∧ Decoded16 (decodeEvent st event report length timestamp) report 3 := by
  have hl : length % 65536 = length := Nat.mod_eq_of_lt (by omega)
  have h1 : ¬ (length > SHHID_MAX_INPUT_REPORT_LEN) := by
    simp only [SHHID_MAX_INPUT_REPORT_LEN]; omega
  have h2 : ¬ (length < 10) := by omega
  simp only [SH_ACCELEROMETER, SH_LINEAR_ACCELERATION, SH_GRAVITY, SH_GYROSCOPE_CALIBRATED,
    SH_MAGNETIC_FIELD_CALIBRATED] at hs
  rcases hs with hs | hs | hs | hs | hs
  all_goals
    refine ⟨?_, ?_, ?_⟩
    · unfold decodeEvent
      simp [hl, h1, h2, hs]
    · unfold CommonFields decodeEvent
      simp [hl, h1, h2, hs]
    · intro k hk
      unfold SensorEvent.field16 decodeEvent
      simp only [hl, h1, h2, hs, if_false]
      simp only [read16_at, u16At_shift]
      simp
      interval_cases k <;>
        simp [u16At_store16_same, u16At_store16_other, u16At_mod]

/-- Four 16-bit values: the game rotation vector. -/
theorem decodeEvent_four16 (st : DecoderState) (event : SensorEvent) (report : Mem)
    (length timestamp : Nat) (hlen : length ≤ 16) (hmin : 12 ≤ length)
    (hs : report 0 % 256 = SH_GAME_ROTATION_VECTOR) :
    (decodeEvent st event report length timestamp).rc = SH_STATUS_SUCCESS
      ∧ CommonFields (decodeEvent st event report length timestamp) report
      ∧ Decoded16 (decodeEvent st event report length timestamp) report 4 := by
  have hl : length % 65536 = length := Nat.mod_eq_of_lt (by omega)
  have h1 : ¬ (length > SHHID_MAX_INPUT_REPORT_LEN) := by
    simp only [SHHID_MAX_INPUT_REPORT_LEN]; omega
  have h2 : ¬ (length < 12) := by omega
  simp only [SH_GAME_ROTATION_VECTOR] at hs
  refine ⟨?_, ?_, ?_⟩
  · unfold decodeEvent
    simp [hl, h1, h2, hs]
  · unfold CommonFields decodeEvent
    simp [hl, h1, h2, hs]
  · intro k hk
    unfold SensorEvent.field16 decodeEvent
    simp only [hl, h1, h2, hs, if_false]
    simp only [read16_at, u16At_shift]
    simp
    interval_cases k <;>
      simp [u16At_store16_same, u16At_store16_other, u16At_mod]

/-- Five 16-bit values: the rotation vector and the geomagnetic rotation vector. -/
theorem decodeEvent_five16 (st : DecoderState) (event : SensorEvent) (report : Mem)
    (length timestamp : Nat) (hlen : length ≤ 16) (hmin : 14 ≤ length)
    (hs : report 0 % 256 = SH_ROTATION_VECTOR
      ∨ report 0 % 256 = SH_GEOMAGNETIC_ROTATION_VECTOR) :
    (decodeEvent st event report length timestamp).rc = SH_STATUS_SUCCESS
      ∧ CommonFields (decodeEvent st event report length timestamp) report
      ∧ Decoded16 (decodeEvent st event report length timestamp) report 5 := by
  have hl : length % 65536 = length := Nat.mod_eq_of_lt (by omega)
  have h1 : ¬ (length > SHHID_MAX_INPUT_REPORT_LEN) := by
    simp only [SHHID_MAX_INPUT_REPORT_LEN]; omega
  have h2 : ¬ (length < 14) := by omega
  simp only [SH_ROTATION_VECTOR, SH_GEOMAGNETIC_ROTATION_VECTOR] at hs
  rcases hs with hs | hs
  all_goals
    refine ⟨?_, ?_, ?_⟩
    · unfold decodeEvent
      simp [hl, h1, h2, hs]
    · unfold CommonFields decodeEvent
      simp [hl, h1, h2, hs]
    · intro k hk
      unfold SensorEvent.field16 decodeEvent
      simp only [hl, h1, h2, hs, if_false]
      simp only [read16_at, u16At_shift]
      simp
      interval_cases k <;>
        simp [u16At_store16_same, u16At_store16_other, u16At_mod]

/-- Six 16-bit values: the uncalibrated gyroscope and magnetic field. -/
theorem decodeEvent_six16 (st : DecoderState) (event : SensorEvent) (report : Mem)
    (length timestamp : Nat) (hlen : length ≤ 16) (hmin : 16 ≤ length)
    (hs : report 0 % 256 = SH_GYROSCOPE_UNCALIBRATED
      ∨ report 0 % 256 = SH_MAGNETIC_FIELD_UNCALIBRATED) :
    (decodeEvent st event report length timestamp).rc = SH_STATUS_SUCCESS
      ∧ CommonFields (decodeEvent st event report length timestamp) report
      ∧ Decoded16 (decodeEvent st event report length timestamp) report 6 := by
  have hl : length % 65536 = length := Nat.mod_eq_of_lt (by omega)
  have h1 : ¬ (length > SHHID_MAX_INPUT_REPORT_LEN) := by
    simp only [SHHID_MAX_INPUT_REPORT_LEN]; omega
  have h2 : ¬ (length < 16) := by omega
  simp only [SH_GYROSCOPE_UNCALIBRATED, SH_MAGNETIC_FIELD_UNCALIBRATED] at hs
  rcases hs with hs | hs
  all_goals
    refine ⟨?_, ?_, ?_⟩
    · unfold decodeEvent
      simp [hl, h1, h2, hs]
    · unfold CommonFields decodeEvent
      simp [hl, h1, h2, hs]
    · intro k hk
      unfold SensorEvent.field16 decodeEvent
      simp only [hl, h1, h2, hs, if_false]
      simp only [read16_at, u16At_shift]
      simp
      interval_cases k <;>
        simp [u16At_store16_same, u16At_store16_other, u16At_mod]

/-- The step counter: a 32-bit latency and two 16-bit values. -/
theorem decodeEvent_stepCounter (st : DecoderState) (event : SensorEvent) (report : Mem)
    (length timestamp : Nat) (hlen : length ≤ 16) (hmin : 12 ≤ length)
    (hs : report 0 % 256 = SH_STEP_COUNTER) :
    (decodeEvent st event report length timestamp).rc = SH_STATUS_SUCCESS
      ∧ CommonFields (decodeEvent st event report length timestamp) report
      ∧ (decodeEvent st event report length timestamp).event.detectLatency = u32At report 4
      ∧ (decodeEvent st event report length timestamp).event.steps = u16At report 8
      ∧ (decodeEvent st event report length timestamp).event.reserved = u16At report 10 := by
  have hl : length % 65536 = length := Nat.mod_eq_of_lt (by omega)
  have h1 : ¬ (length > SHHID_MAX_INPUT_REPORT_LEN) := by
    simp only [SHHID_MAX_INPUT_REPORT_LEN]; omega
  have h2 : ¬ (length < 12) := by omega
  simp only [SH_STEP_COUNTER] at hs
  have e0 : ∀ m : Mem, load32 m = u32At m 0 := fun m => by
    have := load32_at m 0
    simpa [Mem.shift] using this
  refine ⟨?_, ?_, ?_, ?_, ?_⟩
  · unfold decodeEvent
    simp [hl, h1, h2, hs]
  · unfold CommonFields decodeEvent
    simp [hl, h1, h2, hs]
  · unfold SensorEvent.detectLatency decodeEvent
    simp only [hl, h1, h2, hs, if_false]
    simp only [read32_eq_load32, e0, read16_at, u32At_shift, u16At_shift]
    simp [u32At_store32_same, u32At_store16_other, u32At_mod_lit]
  · unfold SensorEvent.steps decodeEvent
    simp only [hl, h1, h2, hs, if_false]
    simp only [read32_eq_load32, e0, read16_at, u32At_shift, u16At_shift]
    simp [u16At_store16_same, u16At_store16_other, u16At_mod]
  · unfold SensorEvent.reserved decodeEvent
    simp only [hl, h1, h2, hs, if_false]
    simp only [read32_eq_load32, e0, read16_at, u32At_shift, u16At_shift]
    simp [u16At_store16_same, u16At_store16_other, u16At_mod]

/-- C22 (event decoding layouts): for every report whose reportId (byte 0) is a decodable
sensor and whose length is between that sensor's minimum and 16, for every state of the
decoder, event record and timestamp, `decodeEvent` returns `SH_STATUS_SUCCESS` with
sensor, sequenceNumber, status and delay the bytes 0 to 3 of the report, and the payload
decoded little-endian from the data bytes (from byte 4 on): `field16[0]` for the one-value
sensors; `field32[0]` for pressure, ambient light and step detector; `field16[0..3]` and
`field32[2]` from data bytes 8..11 for the raw sensors; `field16[0..2]`, `field16[0..3]`,
`field16[0..4]` and `field16[0..5]` for the three- to six-value sensors; latency, steps
and reserved for the step counter. -/
theorem decodeEvent_layouts (st : DecoderState) (event : SensorEvent) (report : Mem)
    (length timestamp : Nat) (hlen : length ≤ 16) :
    ((report 0 % 256 = SH_HUMIDITY ∨ report 0 % 256 = SH_PROXIMITY
        ∨ report 0 % 256 = SH_TEMPERATURE ∨ report 0 % 256 = SH_SIGNIFICANT_MOTION
        ∨ report 0 % 256 = SH_SHAKE_DETECTOR ∨ report 0 % 256 = SH_FLIP_DETECTOR
        ∨ report 0 % 256 = SH_PICKUP_DETECTOR ∨ report 0 % 256 = SH_STABILITY_DETECTOR) →
      6 ≤ length →
      (decodeEvent st event report length timestamp).rc = SH_STATUS_SUCCESS
        ∧ CommonFields (decodeEvent st event report length timestamp) report
        ∧ Decoded16 (decodeEvent st event report length timestamp) report 1)
    ∧ ((report 0 % 256 = SH_PRESSURE ∨ report 0 % 256 = SH_AMBIENT_LIGHT
        ∨ report 0 % 256 = SH_STEP_DETECTOR) →
      8 ≤ length →
      (decodeEvent st event report length timestamp).rc = SH_STATUS_SUCCESS
        ∧ CommonFields (decodeEvent st event report length timestamp) report
        ∧ (decodeEvent st event report length timestamp).event.field32 0 = u32At report 4)
    ∧ ((report 0 % 256 = SH_RAW_ACCELEROMETER ∨ report 0 % 256 = SH_RAW_GYROSCOPE
        ∨ report 0 % 256 = SH_RAW_MAGNETOMETER) →
      16 ≤ length →
      (decodeEvent st event report length timestamp).rc = SH_STATUS_SUCCESS
        ∧ CommonFields (decodeEvent st event report length timestamp) report
        ∧ Decoded16 (decodeEvent st event report length timestamp) report 4
        ∧ (decodeEvent st event report length timestamp).event.field32 2 = u32At report 12)
    ∧ ((report 0 % 256 = SH_ACCELEROMETER ∨ report 0 % 256 = SH_LINEAR_ACCELERATION
        ∨ report 0 % 256 = SH_GRAVITY ∨ report 0 % 256 = SH_GYROSCOPE_CALIBRATED
        ∨ report 0 % 256 = SH_MAGNETIC_FIELD_CALIBRATED) →
      10 ≤ length →
      (decodeEvent st event report length timestamp).rc = SH_STATUS_SUCCESS
        ∧ CommonFields (decodeEvent st event report length timestamp) report
        ∧ Decoded16 (decodeEvent st event report length timestamp) report 3)
    ∧ (report 0 % 256 = SH_GAME_ROTATION_VECTOR → 12 ≤ length →
      (decodeEvent st event report length timestamp).rc = SH_STATUS_SUCCESS
        ∧ CommonFields (decodeEvent st event report length timestamp) report
        ∧ Decoded16 (decodeEvent st event report length timestamp) report 4)
    ∧ ((report 0 % 256 = SH_ROTATION_VECTOR
        ∨ report 0 % 256 = SH_GEOMAGNETIC_ROTATION_VECTOR) →
      14 ≤ length →
      (decodeEvent st event report length timestamp).rc = SH_STATUS_SUCCESS
        ∧ CommonFields (decodeEvent st event report length timestamp) report
        ∧ Decoded16 (decodeEvent st event report length timestamp) report 5)
    ∧ ((report 0 % 256 = SH_GYROSCOPE_UNCALIBRATED
        ∨ report 0 % 256 = SH_MAGNETIC_FIELD_UNCALIBRATED) →
      16 ≤ length →
      (decodeEvent st event report length timestamp).rc = SH_STATUS_SUCCESS
        ∧ CommonFields (decodeEvent st event report length timestamp) report
        ∧ Decoded16 (decodeEvent st event report length timestamp) report 6)
    ∧ (report 0 % 256 = SH_STEP_COUNTER → 12 ≤ length →
      (decodeEvent st event report length timestamp).rc = SH_STATUS_SUCCESS
        ∧ CommonFields (decodeEvent st event report length timestamp) report
        ∧ (decodeEvent st event report length timestamp).event.detectLatency = u32At report 4
        ∧ (decodeEvent st event report length timestamp).event.steps = u16At report 8
        ∧ (decodeEvent st event report length timestamp).event.reserved = u16At report 10) :=
  ⟨fun hs hmin => decodeEvent_one16 st event report length timestamp hlen hmin hs,
    fun hs hmin => decodeEvent_one32 st event report length timestamp hlen hmin hs,
    fun hs hmin => decodeEvent_raw st event report length timestamp hlen hmin hs,
    fun hs hmin => decodeEvent_three16 st event report length timestamp hlen hmin hs,
    fun hs hmin => decodeEvent_four16 st event report length timestamp hlen hmin hs,
    fun hs hmin => decodeEvent_five16 st event report length timestamp hlen hmin hs,
    fun hs hmin => decodeEvent_six16 st event report length timestamp hlen hmin hs,
    fun hs hmin => decodeEvent_stepCounter st event report length timestamp hlen hmin hs⟩

/-- C22 at work, the scenario of the specification: the 16-byte report with reportId
0x05, sequence number 7, status 0x03, delay 10 and the values 100, 200, 300, 400, 500
decodes with success to sensor 5, sequence number 7, and `field16[0..4]` = 100, 200, 300,
400, 500. -/
theorem decodeEvent_layouts_witness :
    (decodeEvent DecoderState.init zeroEvent rotationVectorReport 16 1000).rc = SH_STATUS_SUCCESS
      ∧ (decodeEvent DecoderState.init zeroEvent rotationVectorReport 16 1000).event.sensor = 5
      ∧ (decodeEvent DecoderState.init zeroEvent rotationVectorReport 16 1000).event.sequenceNumber
        = 7
      ∧ (List.range 5).map
          (decodeEvent DecoderState.init zeroEvent rotationVectorReport 16 1000).event.field16
        = [100, 200, 300, 400, 500] := by
  have h := (decodeEvent_layouts DecoderState.init zeroEvent rotationVectorReport 16 1000
    (by decide)).2.2.2.2.2.1 (Or.inl (by decide)) (by decide)
  refine ⟨h.1, h.2.1.1, h.2.1.2.1, ?_⟩
  simp only [List.range, List.range.loop, List.map]
  rw [h.2.2 0 (by decide), h.2.2 1 (by decide), h.2.2 2 (by decide), h.2.2 3 (by decide),
    h.2.2 4 (by decide)]
  decide

/-- C23 (event decoder acceptance): for every report of length at most 16, every state of
the decoder, event record and timestamp, `decodeEvent` returns `SH_STATUS_SUCCESS` if and
only if the reportId (byte 0) is below 0x80 and has a layout whose minimum the length
reaches, and returns `SH_STATUS_BAD_REPORT` otherwise; so it returns
`SH_STATUS_BAD_REPORT` for every reportId from 0x80 on, for SAR (0x17), the tap detector
(0x10), activity classification (0x13) and every other ID without a layout, and for
every length below the minimum of the layout. -/
theorem decodeEvent_acceptance (st : DecoderState) (event : SensorEvent) (report : Mem)
    (length timestamp : Nat) (hlen : length ≤ 16) :
    ((decodeEvent st event report length timestamp).rc = SH_STATUS_SUCCESS
        ↔ ∃ m, layoutMin (report 0 % 256) = some m ∧ m ≤ length)
      ∧ ((decodeEvent st event report length timestamp).rc ≠ SH_STATUS_SUCCESS →
          (decodeEvent st event report length timestamp).rc = SH_STATUS_BAD_REPORT)
      ∧ (0x80 ≤ report 0 % 256 →
          (decodeEvent st event report length timestamp).rc = SH_STATUS_BAD_REPORT)
      ∧ (layoutMin (report 0 % 256) = none →
          (decodeEvent st event report length timestamp).rc = SH_STATUS_BAD_REPORT)
      ∧ layoutMin SH_SAR = none ∧ layoutMin SH_TAP_DETECTOR = none
      ∧ layoutMin SH_ACTIVITY_CLASSIFICATION = none
      ∧ (∀ s m, layoutMin s = some m → s < 0x80) := by
  have hrc := decodeEvent_rc st event report length timestamp hlen
  have hsmall : ∀ s m, layoutMin s = some m → s < 0x80 := by
    intro s m h
    unfold layoutMin at h
    simp only [List.mem_cons, List.mem_singleton, List.not_mem_nil, or_false] at h
    split_ifs at h with h1 h2 h3 h4 h5 h6
    · rcases h1 with g | g | g | g | g | g | g | g <;> rw [g] <;> decide
    · rcases h2 with g | g | g <;> rw [g] <;> decide
    · rcases h3 with g | g | g | g | g <;> rw [g] <;> decide
    · rcases h4 with g | g <;> rw [g] <;> decide
    · rcases h5 with g | g <;> rw [g] <;> decide
    · rcases h6 with g | g | g | g | g <;> rw [g] <;> decide
  refine ⟨?_, ?_, ?_, ?_, by decide, by decide, by decide, hsmall⟩
  · rw [hrc]
    by_cases h80 : report 0 % 256 ≥ 0x80
    · rw [if_pos h80]
      constructor
      · intro h
        exact absurd h (by decide)
      · rintro ⟨m, hm, _⟩
        have := hsmall _ _ hm
        omega
    · rw [if_neg h80]
      cases hm : layoutMin (report 0 % 256) with
      | none =>
        simp only []
        constructor
        · intro h
          exact absurd h (by decide)
        · rintro ⟨m, hm2, _⟩
          cases hm2
      | some m =>
        simp only []
        by_cases hlt : length < m
        · rw [if_pos hlt]
          constructor
          · intro h
            exact absurd h (by decide)
          · rintro ⟨m2, hm2, hle⟩
            injection hm2 with hm2
            omega
        · rw [if_neg hlt]
          constructor
          · intro _
            exact ⟨m, rfl, by omega⟩
          · intro _
            rfl
  · rw [hrc]
    intro h
    split_ifs at h ⊢
    · rfl
    · revert h
      cases layoutMin (report 0 % 256) with
      | none => intro _; rfl
      | some m =>
        simp only []
        intro h
        split_ifs at h ⊢
        · rfl
        · exact absurd rfl h
  · intro h80
    rw [hrc, if_pos h80]
  · intro hnone
    rw [hrc, hnone]
    split_ifs <;> rfl

/-- C23 at work: the rotation-vector report is decoded at 14 bytes, the minimum of its
layout, and refused with `SH_STATUS_BAD_REPORT` at 13. -/
theorem decodeEvent_acceptance_witness :
    (decodeEvent DecoderState.init zeroEvent rotationVectorReport 14 1000).rc
        = SH_STATUS_SUCCESS
      ∧ (decodeEvent DecoderState.init zeroEvent rotationVectorReport 13 1000).rc
        = SH_STATUS_BAD_REPORT :=
  ⟨(decodeEvent_acceptance DecoderState.init zeroEvent rotationVectorReport 14 1000
      (by decide)).1.mpr ⟨14, by decide, by decide⟩,
    (decodeEvent_acceptance DecoderState.init zeroEvent rotationVectorReport 13 1000
      (by decide)).2.1 (by decide)⟩

/-! ## Proofs: timestamps of the decoder -/

/-- A property of both branches of a conditional is one of the conditional. -/
theorem ite_of_both {α : Type} (P : α → Prop) (c : Prop) [Decidable c] (a b : α)
    (ha : P a) (hb : P b) : P (if c then a else b) := by
  by_cases h : c
  · rw [if_pos h]; exact ha
  · rw [if_neg h]; exact hb

/-- A call of `decodeEvent` that passes the two entry checks advances the statics and
writes the time and the common fields of the event, whatever its status. -/
theorem decodeEvent_advanced (st : DecoderState) (event : SensorEvent) (report : Mem)
    (length timestamp : Nat) (hl : length % 65536 ≤ 16) (h80 : report 0 % 256 < 0x80) :
    Advanced st report timestamp (decodeEvent st event report length timestamp) := by
  have h1 : ¬ (length % 65536 > SHHID_MAX_INPUT_REPORT_LEN) := by
    simp only [SHHID_MAX_INPUT_REPORT_LEN]; omega
  have h2 : ¬ (report 0 % 256 ≥ 0x80) := by omega
  unfold decodeEvent
  simp only []
  rw [if_neg h1, if_neg h2]
  repeat' apply ite_of_both (Advanced st report timestamp)
  all_goals exact ⟨rfl, rfl, rfl, rfl, rfl, rfl⟩

theorem decodeEvent_advance (st : DecoderState) (event : SensorEvent) (report : Mem)
    (length timestamp : Nat) (hl : length % 65536 ≤ 16) (h80 : report 0 % 256 < 0x80) :
    (decodeEvent st event report length timestamp).st
        = ⟨((((st.time_us % 2 ^ 64 : Nat) : Int)
            + toInt32 ((timestamp % 2 ^ 32 + 2 ^ 32 - st.last_timestamp % 2 ^ 32) % 2 ^ 32))
              % 2 ^ 64).toNat, timestamp % 2 ^ 32⟩
      ∧ (decodeEvent st event report length timestamp).event.time_us
        = (((((st.time_us % 2 ^ 64 : Nat) : Int)
            + toInt32 ((timestamp % 2 ^ 32 + 2 ^ 32 - st.last_timestamp % 2 ^ 32) % 2 ^ 32))
              % 2 ^ 64).toNat + 2 ^ 64
            - ((report 3 % 256) * (1 <<< (((report 2 % 256) >>> 2) &&& 0x07))) % 2 ^ 32)
              % 2 ^ 64
      ∧ CommonFields (decodeEvent st event report length timestamp) report := by
  obtain ⟨h1, h2, h3⟩ := decodeEvent_advanced st event report length timestamp hl h80
  rw [h1] at h2
  exact ⟨h1, h2, h3⟩

/-- A call of `decodeEvent` that fails one of the two entry checks leaves the statics and
the event as they were. -/
theorem decodeEvent_rejected (st : DecoderState) (event : SensorEvent) (report : Mem)
    (length timestamp : Nat) (h : 16 < length % 65536 ∨ 0x80 ≤ report 0 % 256) :
    (decodeEvent st event report length timestamp).st = st
      ∧ (decodeEvent st event report length timestamp).event = event
      ∧ (decodeEvent st event report length timestamp).rc
        = if 16 < length % 65536 then SH_STATUS_BAD_PARAM else SH_STATUS_BAD_REPORT := by
  unfold decodeEvent
  simp only [SHHID_MAX_INPUT_REPORT_LEN]
  by_cases h1 : length % 65536 > 16
  · rw [if_pos h1, if_pos h1]
    exact ⟨rfl, rfl, rfl⟩
  · have h2 : report 0 % 256 ≥ 0x80 := by omega
    rw [if_neg h1, if_pos h2, if_neg h1]
    exact ⟨rfl, rfl, rfl⟩

/-- The conversion to `int32_t` of a difference of timestamps is the signed step. -/
theorem toInt32_sub (ts last : Nat) (hts : ts < 2 ^ 32) (hlast : last < 2 ^ 32) :
    toInt32 ((ts % 2 ^ 32 + 2 ^ 32 - last % 2 ^ 32) % 2 ^ 32) = signedDelta ts last := by
  unfold toInt32 signedDelta
  rw [Nat.mod_mod, Nat.mod_eq_of_lt hts, Nat.mod_eq_of_lt hlast]
  have e : (((ts + 2 ^ 32 - last) % 2 ^ 32 : Nat) : Int) = ((ts : Int) - (last : Int)) % 2 ^ 32 := by
    omega
  have e2 : ((ts + 2 ^ 32 - last) % 2 ^ 32 < 2 ^ 31)
      ↔ (((ts : Int) - (last : Int)) % 2 ^ 32 < 2 ^ 31) := by
    omega
  by_cases c : (ts + 2 ^ 32 - last) % 2 ^ 32 < 2 ^ 31
  · rw [if_pos c, if_pos (e2.mp c), e]
  · rw [if_neg c, if_neg (fun h => c (e2.mpr h)), e]

/-- The delay `decodeEvent` computes is the one of the specification. -/
theorem delay_eq_delayUs (report : Mem) :
    ((report 3 % 256) * (1 <<< (((report 2 % 256) >>> 2) &&& 0x07))) % 2 ^ 32 = delayUs report
      ∧ delayUs report ≤ 255 * 128 := by
  have hand : ((report 2 % 256) >>> 2) &&& 0x07 = (report 2 % 256) / 4 % 8 := by
    rw [Nat.shiftRight_eq_div_pow]
    exact Nat.and_pow_two_sub_one_eq_mod _ 3
  have he : (report 2 % 256) / 4 % 8 < 8 := Nat.mod_lt _ (by decide)
  have hp : 2 ^ ((report 2 % 256) / 4 % 8) ≤ 2 ^ 7 :=
    Nat.pow_le_pow_right (by decide) (by omega)
  have hd : report 3 % 256 ≤ 255 := by omega
  have hb : (report 3 % 256) * 2 ^ ((report 2 % 256) / 4 % 8) ≤ 255 * 128 :=
    Nat.mul_le_mul hd hp
  unfold delayUs
  rw [hand, Nat.one_shiftLeft]
  exact ⟨Nat.mod_eq_of_lt (by omega), hb⟩

/-- The statics stay in the range of their types. -/
theorem decodeEvent_st_bounds (st : DecoderState) (event : SensorEvent) (report : Mem)
    (length timestamp : Nat) (hb : st.time_us < 2 ^ 64 ∧ st.last_timestamp < 2 ^ 32) :
    (decodeEvent st event report length timestamp).st.time_us < 2 ^ 64
      ∧ (decodeEvent st event report length timestamp).st.last_timestamp < 2 ^ 32 := by
  by_cases h : 16 < length % 65536 ∨ 0x80 ≤ report 0 % 256
  · rw [(decodeEvent_rejected st event report length timestamp h).1]
    exact hb
  · rw [(decodeEvent_advance st event report length timestamp (by omega) (by omega)).1]
    refine ⟨?_, Nat.mod_lt _ (by decide)⟩
    simp only []
    omega

theorem foldl_decoder_bounds (calls : List DecodeCall) (st : DecoderState)
    (hb : st.time_us < 2 ^ 64 ∧ st.last_timestamp < 2 ^ 32) :
    (calls.foldl (fun st c => (decodeEvent st c.event c.report c.length c.timestamp).st)
        st).time_us < 2 ^ 64
      ∧ (calls.foldl (fun st c => (decodeEvent st c.event c.report c.length c.timestamp).st)
        st).last_timestamp < 2 ^ 32 := by
  induction calls generalizing st with
  | nil => exact hb
  | cons c cs ih =>
    rw [List.foldl_cons]
    exact ih _ (decodeEvent_st_bounds st c.event c.report c.length c.timestamp hb)

theorem decoderAfter_bounds (calls : List DecodeCall) :
    (decoderAfter calls).time_us < 2 ^ 64 ∧ (decoderAfter calls).last_timestamp < 2 ^ 32 :=
  foldl_decoder_bounds calls DecoderState.init ⟨by decide, by decide⟩

/-- The timestamp processing of `decodeEvent` in the words of the specification, for a
call that passes the two entry checks, from statics in the range of their types. -/
theorem decodeEvent_time (st : DecoderState) (event : SensorEvent) (report : Mem)
    (length timestamp : Nat) (hb : st.time_us < 2 ^ 64 ∧ st.last_timestamp < 2 ^ 32)
    (hts : timestamp < 2 ^ 32) (hl : length % 65536 ≤ 16) (h80 : report 0 % 256 < 0x80) :
    ((decodeEvent st event report length timestamp).st.time_us : Int)
        = ((st.time_us : Int) + signedDelta timestamp st.last_timestamp) % 2 ^ 64
      ∧ (decodeEvent st event report length timestamp).st.last_timestamp = timestamp
      ∧ ((decodeEvent st event report length timestamp).event.time_us : Int)
        = (((decodeEvent st event report length timestamp).st.time_us : Int)
            - (delayUs report : Int)) % 2 ^ 64 := by
  obtain ⟨h1, h2, _⟩ := decodeEvent_advance st event report length timestamp hl h80
  rw [h2, h1]
  simp only []
  rw [toInt32_sub timestamp st.last_timestamp hts hb.2, (delay_eq_delayUs report).1,
    Nat.mod_eq_of_lt hb.1, Nat.mod_eq_of_lt hts]
  have hd := (delay_eq_delayUs report).2
  generalize delayUs report = d at hd ⊢
  generalize signedDelta timestamp st.last_timestamp = s
  refine ⟨?_, rfl, ?_⟩
  · omega
  · omega

/-- A call of `decodeEvent` that returns success has passed the two entry checks. -/
theorem decodeEvent_success_entry (st : DecoderState) (event : SensorEvent) (report : Mem)
    (length timestamp : Nat)
    (hrc : (decodeEvent st event report length timestamp).rc = SH_STATUS_SUCCESS) :
    length % 65536 ≤ 16 ∧ report 0 % 256 < 0x80 := by
  by_contra hc
  have h : 16 < length % 65536 ∨ 0x80 ≤ report 0 % 256 := by omega
  have h3 := (decodeEvent_rejected st event report length timestamp h).2.2
  rw [hrc] at h3
  by_cases c : 16 < length % 65536
  · rw [if_pos c] at h3
    exact absurd h3 (by decide)
  · rw [if_neg c] at h3
    exact absurd h3 (by decide)

/-- A reportId with a layout is below 0x80, and the minimum of its layout is at most 16. -/
theorem layoutMin_some (s m : Nat) (h : layoutMin s = some m) : s < 0x80 ∧ m ≤ 16 := by
  unfold layoutMin at h
  simp only [List.mem_cons, List.mem_singleton, List.not_mem_nil, or_false] at h
  split_ifs at h with h1 h2 h3 h4 h5 h6
  · injection h with h
    refine ⟨?_, by omega⟩
    rcases h1 with g | g | g | g | g | g | g | g <;> rw [g] <;> decide
  · injection h with h
    refine ⟨?_, by omega⟩
    rcases h2 with g | g | g <;> rw [g] <;> decide
  · injection h with h
    refine ⟨?_, by omega⟩
    rcases h3 with g | g | g | g | g <;> rw [g] <;> decide
  · injection h with h
    refine ⟨?_, by omega⟩
    rcases h4 with g | g <;> rw [g] <;> decide
  · injection h with h
    refine ⟨?_, by omega⟩
    rcases h5 with g | g <;> rw [g] <;> decide
  · injection h with h
    refine ⟨?_, by omega⟩
    rcases h6 with g | g | g | g | g <;> rw [g] <;> decide

/-- A step below 2^31 is taken as it is. -/
theorem signedDelta_small (ts last : Nat) (hts : ts < 2 ^ 32) (hlast : last < 2 ^ 32)
    (h : (ts + 2 ^ 32 - last) % 2 ^ 32 < 2 ^ 31) :
    signedDelta ts last = (((ts + 2 ^ 32 - last) % 2 ^ 32 : Nat) : Int) := by
  unfold signedDelta
  have e : (((ts + 2 ^ 32 - last) % 2 ^ 32 : Nat) : Int) = ((ts : Int) - (last : Int)) % 2 ^ 32 := by
    omega
  rw [if_pos (by omega), e]

/-- C24 (timestamp reconstruction): the statics start at last_ts = 0 and acc_us = 0, and
for every event decoded after any sequence of earlier calls, with a 32-bit timestamp ts,
`decodeEvent` sets acc_us to (acc_us + delta) mod 2^64 where delta is (ts - last_ts) mod
2^32 read as a signed 32-bit integer, sets last_ts to ts, and reports event.time_us =
(acc_us - d * 2^e) mod 2^64 with the new acc_us, d the delay byte of the event and e the
bits 4..2 of its status byte. -/
theorem decodeEvent_timestamps (calls : List DecodeCall) (event : SensorEvent) (report : Mem)
    (length timestamp : Nat) (hts : timestamp < 2 ^ 32)
    (hrc : (decodeEvent (decoderAfter calls) event report length timestamp).rc
      = SH_STATUS_SUCCESS) :
    decoderAfter [] = ⟨0, 0⟩
      ∧ ((decodeEvent (decoderAfter calls) event report length timestamp).st.time_us : Int)
        = (((decoderAfter calls).time_us : Int)
            + signedDelta timestamp (decoderAfter calls).last_timestamp) % 2 ^ 64
      ∧ (decodeEvent (decoderAfter calls) event report length timestamp).st.last_timestamp
        = timestamp
      ∧ ((decodeEvent (decoderAfter calls) event report length timestamp).event.time_us : Int)
        = (((decodeEvent (decoderAfter calls) event report length timestamp).st.time_us : Int)
            - (((decodeEvent (decoderAfter calls) event report length timestamp).event.delay
              * 2 ^ ((decodeEvent (decoderAfter calls) event report length
                timestamp).event.status / 4 % 8) : Nat) : Int)) % 2 ^ 64
      ∧ (decodeEvent (decoderAfter calls) event report length timestamp).event.delay ≤ 255
      ∧ (decodeEvent (decoderAfter calls) event report length timestamp).event.status / 4 % 8
        ≤ 7 := by
  obtain ⟨hl, h80⟩ := decodeEvent_success_entry _ event report length timestamp hrc
  obtain ⟨h1, h2, h3⟩ := decodeEvent_time (decoderAfter calls) event report length timestamp
    (decoderAfter_bounds calls) hts hl h80
  obtain ⟨_, _, _, _, c3, c4⟩ :=
    decodeEvent_advance (decoderAfter calls) event report length timestamp hl h80
  refine ⟨rfl, h1, h2, ?_, ?_, ?_⟩
  · rw [h3, c3, c4]
    rfl
  · rw [c4]
    omega
  · omega

/-- C24, at an instance: a rotation-vector report with delay 10 and exponent 0 decoded at
timestamp 1000 after a humidity report decoded at timestamp 400. -/
theorem decodeEvent_timestamps_witness :
    ((decodeEvent (decoderAfter [⟨zeroEvent, humidityReport 0, 6, 400⟩]) zeroEvent
        rotationVectorReport 16 1000).st.time_us : Int)
        = (((decoderAfter [⟨zeroEvent, humidityReport 0, 6, 400⟩]).time_us : Int)
            + signedDelta 1000 (decoderAfter [⟨zeroEvent, humidityReport 0, 6,
              400⟩]).last_timestamp) % 2 ^ 64
      ∧ (decodeEvent (decoderAfter [⟨zeroEvent, humidityReport 0, 6, 400⟩]) zeroEvent
        rotationVectorReport 16 1000).st.last_timestamp = 1000 :=
  ⟨(decodeEvent_timestamps [⟨zeroEvent, humidityReport 0, 6, 400⟩] zeroEvent
      rotationVectorReport 16 1000 (by decide) (by decide)).2.1,
    (decodeEvent_timestamps [⟨zeroEvent, humidityReport 0, 6, 400⟩] zeroEvent
      rotationVectorReport 16 1000 (by decide) (by decide)).2.2.1⟩

/-- C25, refuted as worded: two humidity reports decoded one after the other, the second
with the later timestamp (1010 after 1000) and the larger delay byte (100 after 0), are
reported with the times 1000 and then 910. -/
theorem time_us_can_decrease :
    (decodeEvent DecoderState.init zeroEvent (humidityReport 0) 6 1000).rc = SH_STATUS_SUCCESS
      ∧ (decodeEvent (decodeEvent DecoderState.init zeroEvent (humidityReport 0) 6 1000).st
          zeroEvent (humidityReport 100) 6 1010).rc = SH_STATUS_SUCCESS
      ∧ (1010 + 2 ^ 32 - 1000) % 2 ^ 32 = 10
      ∧ (decodeEvent DecoderState.init zeroEvent (humidityReport 0) 6 1000).event.time_us = 1000
      ∧ (decodeEvent (decodeEvent DecoderState.init zeroEvent (humidityReport 0) 6 1000).st
          zeroEvent (humidityReport 100) 6 1010).event.time_us = 910 := by
  decide

/-- C25, amended: for two events decoded one after the other on one session, with 32-bit
timestamps whose step is below 2^31, when the accumulated time does not pass 2^64, the
delay of the first event does not exceed the accumulated time, and the delay of the
second exceeds the delay of the first by no more than the step, the accumulated time and
the reported `event.time_us` do not decrease. -/
theorem time_us_monotone (calls : List DecodeCall) (e1 e2 : SensorEvent) (rep1 rep2 : Mem)
    (l1 l2 ts1 ts2 : Nat) (hts1 : ts1 < 2 ^ 32) (hts2 : ts2 < 2 ^ 32)
    (hrc1 : (decodeEvent (decoderAfter calls) e1 rep1 l1 ts1).rc = SH_STATUS_SUCCESS)
    (hrc2 : (decodeEvent (decodeEvent (decoderAfter calls) e1 rep1 l1 ts1).st e2 rep2 l2
      ts2).rc = SH_STATUS_SUCCESS)
    (hstep : (ts2 + 2 ^ 32 - ts1) % 2 ^ 32 < 2 ^ 31)
    (hacc : (decodeEvent (decoderAfter calls) e1 rep1 l1 ts1).st.time_us
      + (ts2 + 2 ^ 32 - ts1) % 2 ^ 32 < 2 ^ 64)
    (hd1 : delayUs rep1 ≤ (decodeEvent (decoderAfter calls) e1 rep1 l1 ts1).st.time_us)
    (hd2 : delayUs rep2 ≤ delayUs rep1 + (ts2 + 2 ^ 32 - ts1) % 2 ^ 32) :
    (decodeEvent (decoderAfter calls) e1 rep1 l1 ts1).event.time_us
        ≤ (decodeEvent (decodeEvent (decoderAfter calls) e1 rep1 l1 ts1).st e2 rep2 l2
          ts2).event.time_us
      ∧ (decodeEvent (decoderAfter calls) e1 rep1 l1 ts1).st.time_us
        ≤ (decodeEvent (decodeEvent (decoderAfter calls) e1 rep1 l1 ts1).st e2 rep2 l2
          ts2).st.time_us := by
  obtain ⟨hl1, h801⟩ := decodeEvent_success_entry _ e1 rep1 l1 ts1 hrc1
  obtain ⟨hl2, h802⟩ := decodeEvent_success_entry _ e2 rep2 l2 ts2 hrc2
  have hb1 := decodeEvent_st_bounds (decoderAfter calls) e1 rep1 l1 ts1
    (decoderAfter_bounds calls)
  obtain ⟨_, a2, a3⟩ := decodeEvent_time (decoderAfter calls) e1 rep1 l1 ts1
    (decoderAfter_bounds calls) hts1 hl1 h801
  obtain ⟨b1, _, b3⟩ := decodeEvent_time (decodeEvent (decoderAfter calls) e1 rep1 l1 ts1).st
    e2 rep2 l2 ts2 hb1 hts2 hl2 h802
  rw [a2, signedDelta_small ts2 ts1 hts2 hts1 hstep] at b1
  generalize (decodeEvent (decodeEvent (decoderAfter calls) e1 rep1 l1 ts1).st e2 rep2 l2
    ts2).event.time_us = t2 at b3 ⊢
  generalize (decodeEvent (decodeEvent (decoderAfter calls) e1 rep1 l1 ts1).st e2 rep2 l2
    ts2).st.time_us = acc2 at b1 b3 ⊢
  generalize (decodeEvent (decoderAfter calls) e1 rep1 l1 ts1).event.time_us = t1 at a3 ⊢
  generalize (decodeEvent (decoderAfter calls) e1 rep1 l1 ts1).st.time_us = acc1
    at a3 b1 hacc hd1 hb1 ⊢
  generalize (ts2 + 2 ^ 32 - ts1) % 2 ^ 32 = step at b1 hacc hd2 hstep
  generalize delayUs rep1 = d1 at a3 hd1 hd2
  generalize delayUs rep2 = d2 at b3 hd2
  omega

/-- C25, amended, at an instance: two humidity reports with the delay byte 5, decoded at
the timestamps 1000 and 1010. -/
theorem time_us_monotone_witness :
    (decodeEvent (decoderAfter []) zeroEvent (humidityReport 5) 6 1000).event.time_us
        ≤ (decodeEvent (decodeEvent (decoderAfter []) zeroEvent (humidityReport 5) 6 1000).st
          zeroEvent (humidityReport 5) 6 1010).event.time_us
      ∧ (decodeEvent (decoderAfter []) zeroEvent (humidityReport 5) 6 1000).st.time_us
        ≤ (decodeEvent (decodeEvent (decoderAfter []) zeroEvent (humidityReport 5) 6 1000).st
          zeroEvent (humidityReport 5) 6 1010).st.time_us :=
  time_us_monotone [] zeroEvent zeroEvent (humidityReport 5) (humidityReport 5) 6 6 1000 1010
    (by decide) (by decide) (by decide) (by decide) (by decide) (by decide) (by decide)
    (by decide)

/-- C26, refuted as worded: a rotation-vector report of 13 bytes, one below the minimum
of its layout, is answered with `SH_STATUS_BAD_REPORT`, and the statics of the decoder,
both 0 before the call, are both 5 (the timestamp) after it. -/
theorem short_report_changes_state :
    layoutMin (rotationVectorReport 0 % 256) = some 14
      ∧ (decodeEvent DecoderState.init zeroEvent rotationVectorReport 13 5).rc
        = SH_STATUS_BAD_REPORT
      ∧ DecoderState.init = ⟨0, 0⟩
      ∧ (decodeEvent DecoderState.init zeroEvent rotationVectorReport 13 5).st = ⟨5, 5⟩
      ∧ (decodeEvent DecoderState.init zeroEvent rotationVectorReport 13 5).event.sensor
        = 5 := by
  decide

/-- C26, amended: for every report whose reportId has a layout and whose length is below
the minimum of that layout, `decodeEvent` returns `SH_STATUS_BAD_REPORT` after it has
advanced its statics as for a decoded event (accumulated time by the signed step, last
timestamp to the new one) and has written the time and the common fields of the event;
the statics and the event are left as they were by the reports it rejects at entry, those
longer than 16 bytes or with a reportId from 0x80 on. -/
theorem short_report_advances (calls : List DecodeCall) (event : SensorEvent) (report : Mem)
    (length timestamp m : Nat) (hts : timestamp < 2 ^ 32)
    (hm : layoutMin (report 0 % 256) = some m) (hlen : length < m) :
    (decodeEvent (decoderAfter calls) event report length timestamp).rc = SH_STATUS_BAD_REPORT
      ∧ ((decodeEvent (decoderAfter calls) event report length timestamp).st.time_us : Int)
        = (((decoderAfter calls).time_us : Int)
            + signedDelta timestamp (decoderAfter calls).last_timestamp) % 2 ^ 64
      ∧ (decodeEvent (decoderAfter calls) event report length timestamp).st.last_timestamp
        = timestamp
      ∧ ((decodeEvent (decoderAfter calls) event report length timestamp).event.time_us : Int)
        = (((decodeEvent (decoderAfter calls) event report length timestamp).st.time_us : Int)
            - (delayUs report : Int)) % 2 ^ 64
      ∧ CommonFields (decodeEvent (decoderAfter calls) event report length timestamp) report
      ∧ (∀ (st : DecoderState) (ev : SensorEvent) (rep : Mem) (len ts : Nat),
          16 < len % 65536 ∨ 0x80 ≤ rep 0 % 256 →
            (decodeEvent st ev rep len ts).st = st ∧ (decodeEvent st ev rep len ts).event = ev
              ∧ (decodeEvent st ev rep len ts).rc ≠ SH_STATUS_SUCCESS) := by
  obtain ⟨h80, hm16⟩ := layoutMin_some _ _ hm
  have hl16 : length ≤ 16 := by omega
  have hl : length % 65536 ≤ 16 := by
    rw [Nat.mod_eq_of_lt (by omega)]
    exact hl16
  obtain ⟨h1, h2, h3⟩ := decodeEvent_time (decoderAfter calls) event report length timestamp
    (decoderAfter_bounds calls) hts hl h80
  refine ⟨?_, h1, h2, h3,
    (decodeEvent_advance (decoderAfter calls) event report length timestamp hl h80).2.2, ?_⟩
  · rw [decodeEvent_rc _ event report length timestamp hl16, if_neg (by omega), hm]
    simp only []
    rw [if_pos hlen]
  · intro st ev rep len ts h
    obtain ⟨r1, r2, r3⟩ := decodeEvent_rejected st ev rep len ts h
    refine ⟨r1, r2, ?_⟩
    rw [r3]
    split_ifs <;> decide

/-- C26, amended, at an instance: the rotation-vector report of 13 bytes at timestamp 5. -/
theorem short_report_advances_witness :
    (decodeEvent (decoderAfter []) zeroEvent rotationVectorReport 13 5).rc
        = SH_STATUS_BAD_REPORT
      ∧ (decodeEvent (decoderAfter []) zeroEvent rotationVectorReport 13 5).st.last_timestamp
        = 5 :=
  ⟨(short_report_advances [] zeroEvent rotationVectorReport 13 5 14 (by decide) (by decide)
      (by decide)).1,
    (short_report_advances [] zeroEvent rotationVectorReport 13 5 14 (by decide) (by decide)
      (by decide)).2.2.1⟩

/-! ## Proofs: SET_REPORT and GET_REPORT -/

theorem or_lt_256 (a b : Nat) (ha : a < 256) (hb : b < 256) : a ||| b < 256 :=
  Nat.or_lt_two_pow (n := 8) ha hb

/-- The bytes of a buffer that holds a list, behind whatever else it held. -/
theorem Mem.bytes_store (junk : Mem) (data : List Nat) (hb : ∀ b ∈ data, b < 256) :
    (Mem.store junk data).bytes data.length = data :=
  Mem.bytes_eq _ data hb (fun i h => Mem.store_lt junk data i h)

/-- The cells `shhid_setReport` fills, for a report type and reportId of one byte and a
payload of at most 253 bytes. -/
theorem setReport_cmd (i2cRc : Int) (reportType reportId : Nat) (payload : List Nat)
    (junk : Mem) (ht : reportType < 256) (hid : reportId < 256) (hL : payload.length ≤ 253)
    (hb : ∀ b ∈ payload, b < 256) :
    (shhid_setReport i2cRc reportType reportId (Mem.store junk payload) payload.length).cmd
        = setReportFrame reportType reportId payload
      ∧ (shhid_setReport i2cRc reportType reportId (Mem.store junk payload) payload.length).i2c
        = [⟨setReportFrame reportType reportId payload, 0⟩]
      ∧ (shhid_setReport i2cRc reportType reportId (Mem.store junk payload) payload.length).rc
        = i2cRc := by
  have e1 : reportType % 256 = reportType := Nat.mod_eq_of_lt ht
  have e2 : reportId % 256 = reportId := Nat.mod_eq_of_lt hid
  have e3 : payload.length % 65536 = payload.length := Nat.mod_eq_of_lt (by omega)
  have e4 : (payload.length + 2) % 256 = payload.length + 2 := Nat.mod_eq_of_lt (by omega)
  have e5 : (payload.length + 2) / 256 % 256 = 0 := by omega
  have key : (shhid_setReport i2cRc reportType reportId (Mem.store junk payload)
      payload.length).cmd = setReportFrame reportType reportId payload := by
    unfold shhid_setReport setReportFrame hidCommandByte hidExtension le16
    simp only [e1, e2, e3, e4, e5, Mem.bytes_store junk payload hb]
    by_cases c : reportId < 0x0F
    · rw [if_pos c, if_pos c, if_neg (by omega),
        Nat.mod_eq_of_lt (or_lt_256 _ _ ht (by omega))]
      rfl
    · rw [if_neg c, if_neg c, if_pos (by omega),
        Nat.mod_eq_of_lt (or_lt_256 _ _ ht (by decide))]
      rfl
  refine ⟨key, ?_, rfl⟩
  rw [← key]
  rfl

/-- C29, refuted as worded: for the feature report type, the reportId 5 and the payload
1, 2, 3 the frame of the claim has twelve bytes, with a 0x00 between the command register
and the command byte; `shhid_setReport` writes the eleven bytes without it. -/
theorem setReport_frame_not_as_worded :
    (shhid_setReport 0 0x30 5 (Mem.store zeroMem [1, 2, 3]) 3).i2c
        = [⟨[5, 0, 0x35, 3, 6, 0, 5, 0, 1, 2, 3], 0⟩]
      ∧ setReportFrameAsWorded 0x30 5 [1, 2, 3] = [5, 0, 0, 0x35, 3, 6, 0, 5, 0, 1, 2, 3]
      ∧ (shhid_setReport 0 0x30 5 (Mem.store zeroMem [1, 2, 3]) 3).i2c
        ≠ [⟨setReportFrameAsWorded 0x30 5 [1, 2, 3], 0⟩] := by
  decide

/-- C29, amended: for every reportType in {0x10, 0x20, 0x30}, reportId and payload of
length L <= 15, `shhid_setReport` writes in one I2C transfer, with nothing read back,
exactly the bytes: REG_COMMAND (5) as little-endian 16 bits, the command byte (reportType
| reportId when reportId < 0x0F, else reportType | 0x0F), the opcode 0x03, the reportId
as an extension byte only when reportId >= 0x0F, REG_DATA (6) as little-endian 16 bits,
L+2 as little-endian 16 bits, then the L payload bytes; the frame has at most 24 bytes
and the status is the one of the transfer. -/
theorem setReport_frame (i2cRc : Int) (reportType reportId : Nat) (payload : List Nat)
    (junk : Mem) (ht : reportType = 0x10 ∨ reportType = 0x20 ∨ reportType = 0x30)
    (hid : reportId < 256) (hL : payload.length ≤ 15) (hb : ∀ b ∈ payload, b < 256) :
    (shhid_setReport i2cRc reportType reportId (Mem.store junk payload) payload.length).i2c
        = [⟨setReportFrame reportType reportId payload, 0⟩]
      ∧ (shhid_setReport i2cRc reportType reportId (Mem.store junk payload) payload.length).rc
        = i2cRc
      ∧ (setReportFrame reportType reportId payload).length
        = (if reportId < 0x0F then 8 else 9) + payload.length
      ∧ (setReportFrame reportType reportId payload).length ≤ SHHID_MAX_REPORT_LEN + 8 := by
  have ht2 : reportType < 256 := by omega
  obtain ⟨_, h2, h3⟩ := setReport_cmd i2cRc reportType reportId payload junk ht2 hid
    (by omega) hb
  have hlen : (setReportFrame reportType reportId payload).length
      = (if reportId < 0x0F then 8 else 9) + payload.length := by
    unfold setReportFrame hidExtension le16
    by_cases c : reportId < 0x0F
    · rw [if_pos c, if_neg (by omega)]
      simp only [List.length_append, List.length_cons, List.length_nil]
    · rw [if_neg c, if_pos (by omega)]
      simp only [List.length_append, List.length_cons, List.length_nil]
  refine ⟨h2, h3, hlen, ?_⟩
  rw [hlen]
  simp only [SHHID_MAX_REPORT_LEN]
  split_ifs <;> omega

/-- C29, amended, at an instance: the output report type, the reportId 0x87 and three
payload bytes. -/
theorem setReport_frame_witness :
    (shhid_setReport 0 0x20 0x87 (Mem.store zeroMem [1, 2, 3]) 3).i2c
        = [⟨setReportFrame 0x20 0x87 [1, 2, 3], 0⟩]
      ∧ setReportFrame 0x20 0x87 [1, 2, 3] = [5, 0, 0x2F, 3, 0x87, 6, 0, 5, 0, 1, 2, 3] :=
  ⟨(setReport_frame 0 0x20 0x87 [1, 2, 3] zeroMem (by decide) (by decide) (by decide)
      (by decide)).1, by decide⟩

/-- The frame `shhid_getReport` sends, and the 18 bytes it asks for, whatever the answer. -/
theorem getReport_i2c (sizeBits : Nat) (i2cRc : Int) (buffer : Mem) (reportType reportId : Nat)
    (payload : Mem) (payloadLen : Nat) (ht : reportType < 256) (hid : reportId < 256) :
    (shhid_getReport sizeBits i2cRc buffer reportType reportId payload payloadLen).i2c
        = [⟨getReportFrame reportType reportId, 18⟩]
      ∧ (shhid_getReport sizeBits i2cRc buffer reportType reportId payload payloadLen).status
        = i2cRc := by
  have e1 : reportType % 256 = reportType := Nat.mod_eq_of_lt ht
  have e2 : reportId % 256 = reportId := Nat.mod_eq_of_lt hid
  have hf : (if reportId < 0x0F then
        [SH_REGISTER_COMMAND, 0, (reportType ||| reportId) % 256, HID_GET_REPORT_OPCODE]
      else [SH_REGISTER_COMMAND, 0, (reportType ||| 0x0F) % 256, HID_GET_REPORT_OPCODE,
        reportId]) ++ [SH_REGISTER_DATA, 0] = getReportFrame reportType reportId := by
    unfold getReportFrame hidCommandByte hidExtension le16
    by_cases c : reportId < 0x0F
    · rw [if_pos c, if_pos c, if_neg (by omega),
        Nat.mod_eq_of_lt (or_lt_256 _ _ ht (by omega))]
      rfl
    · rw [if_neg c, if_neg c, if_pos (by omega),
        Nat.mod_eq_of_lt (or_lt_256 _ _ ht (by decide))]
      rfl
  unfold shhid_getReport
  simp only [e1, e2, hf, SHHID_MAX_REPORT_LEN]
  by_cases c : i2cRc < 0
  · rw [if_pos c]
    exact ⟨rfl, rfl⟩
  · rw [if_neg c]
    exact ⟨rfl, rfl⟩

/-- What `shhid_getReport` copies when the transfer succeeds: the value of `copylen`, the
count `memcpy` takes, the memory at `payload` and `*payloadLen`. -/
theorem getReport_copy (sizeBits : Nat) (i2cRc : Int) (buffer : Mem) (reportType reportId : Nat)
    (payload : Mem) (payloadLen : Nat) (hrc : 0 ≤ i2cRc) :
    (shhid_getReport sizeBits i2cRc buffer reportType reportId payload payloadLen).copylen
        = some (min ((read16 buffer : Int) - 2) ((payloadLen % 65536 : Nat) : Int))
      ∧ (shhid_getReport sizeBits i2cRc buffer reportType reportId payload payloadLen).copied
        = some (toSizeT sizeBits (min ((read16 buffer : Int) - 2)
            ((payloadLen % 65536 : Nat) : Int)))
      ∧ (shhid_getReport sizeBits i2cRc buffer reportType reportId payload payloadLen).payload
        = memcpy payload (buffer.shift 2) (toSizeT sizeBits (min ((read16 buffer : Int) - 2)
            ((payloadLen % 65536 : Nat) : Int)))
      ∧ (shhid_getReport sizeBits i2cRc buffer reportType reportId payload
          payloadLen).payloadLen
        = ((min ((read16 buffer : Int) - 2) ((payloadLen % 65536 : Nat) : Int)) % 65536).toNat
      := by
  have e : (if (read16 buffer : Int) - 2 > ((payloadLen % 65536 : Nat) : Int) then
      ((payloadLen % 65536 : Nat) : Int) else (read16 buffer : Int) - 2)
      = min ((read16 buffer : Int) - 2) ((payloadLen % 65536 : Nat) : Int) := by
    by_cases c : (read16 buffer : Int) - 2 > ((payloadLen % 65536 : Nat) : Int)
    · rw [if_pos c, min_eq_right (le_of_lt c)]
    · rw [if_neg c, min_eq_left (not_lt.mp c)]
  unfold shhid_getReport
  simp only []
  rw [if_neg (not_lt.mpr hrc), e]
  exact ⟨rfl, rfl, rfl, rfl⟩

theorem read16_lt (m : Mem) : read16 m < 65536 := by
  unfold read16
  exact Nat.mod_lt _ (by decide)

theorem toSizeT_of_nat (sizeBits n : Nat) (hs : 16 ≤ sizeBits) (hn : n < 65536) :
    toSizeT sizeBits (n : Int) = n := by
  unfold toSizeT
  have h2 : 2 ^ 16 ≤ 2 ^ sizeBits := Nat.pow_le_pow_right (by decide) hs
  have h3 : ((n : Int)) % ((2 : Int) ^ sizeBits) = (n : Int) := by
    apply Int.emod_eq_of_lt (by omega)
    have : ((2 ^ sizeBits : Nat) : Int) = (2 : Int) ^ sizeBits := by push_cast; rfl
    rw [← this]
    omega
  rw [h3]
  rfl

theorem toSizeT_neg (sizeBits k : Nat) (hs : 16 ≤ sizeBits) (hk1 : 1 ≤ k) (hk : k ≤ 2) :
    toSizeT sizeBits (-(k : Int)) = 2 ^ sizeBits - k := by
  unfold toSizeT
  have h2 : 2 ^ 16 ≤ 2 ^ sizeBits := Nat.pow_le_pow_right (by decide) hs
  have hcast : ((2 ^ sizeBits : Nat) : Int) = (2 : Int) ^ sizeBits := by push_cast; rfl
  rw [← hcast]
  generalize 2 ^ sizeBits = P at h2 ⊢
  have h16 : (2 : Nat) ^ 16 = 65536 := by decide
  rw [h16] at h2
  have e : -(k : Int) % (P : Int) = (P : Int) - (k : Int) := by
    rw [← Int.add_emod_self]
    rw [Int.emod_eq_of_lt (by omega) (by omega)]
    omega
  rw [e]
  omega

/-- The copy is not bounded by the 16 payload bytes received: with a capacity of 50 and an
answer whose length field is 100, `shhid_getReport` copies 50 bytes; the last of them is
the cell 51 of the 18-cell buffer. -/
theorem getReport_copies_past_buffer :
    (shhid_getReport 32 0 (Mem.store (fun i => i) (le16 100)) 0x30 5 zeroMem 50).copied
        = some 50
      ∧ (shhid_getReport 32 0 (Mem.store (fun i => i) (le16 100)) 0x30 5 zeroMem 50).payloadLen
        = 50
      ∧ (shhid_getReport 32 0 (Mem.store (fun i => i) (le16 100)) 0x30 5 zeroMem 50).payload 49
        = 51
      ∧ ¬ (50 ≤ SHHID_MAX_REPORT_LEN) := by
  decide

/-- The capacity 15 of the callers in the driver and an answer whose length field is 0:
the value of `copylen` is -2, which `memcpy` takes as 2^32 - 2 where `size_t` has 32 bits,
and `*payloadLen` becomes 65534. -/
theorem getReport_length_below_two :
    (shhid_getReport 32 0 (Mem.store zeroMem (le16 0)) 0x30 5 zeroMem 15).copylen = some (-2)
      ∧ (shhid_getReport 32 0 (Mem.store zeroMem (le16 0)) 0x30 5 zeroMem 15).copied
        = some (2 ^ 32 - 2)
      ∧ (shhid_getReport 32 0 (Mem.store zeroMem (le16 0)) 0x30 5 zeroMem 15).payloadLen
        = 65534 := by
  decide

/-- C30 (GET_REPORT), where the code departs from it: for every reportType and reportId
of one byte, `shhid_getReport` sends in one transfer the frame REG_COMMAND as
little-endian 16 bits, the command byte, the opcode 0x02, the extension byte when
reportId >= 0x0F and REG_DATA as little-endian 16 bits, with no payload, and asks for 18
bytes.  When the transfer succeeds, for a length field Len >= 2 and every capacity C (16
bits) the number of bytes copied is min(Len - 2, C), the bytes behind the length field,
and the value returned in `*payloadLen`.  For a length field of 0 or 1 the value of
`copylen` is Len - 2, negative; `memcpy` is given 2^sizeBits - 2 + Len, more than the 16
payload bytes and more than every capacity below 65534, and `*payloadLen` becomes
65534 + Len.  And for a capacity above 16 and a
length field above 18 more than the 16 payload bytes received are copied. -/
theorem getReport_copies (sizeBits : Nat) (i2cRc : Int) (buffer : Mem)
    (reportType reportId : Nat) (payload : Mem) (C : Nat) (hs : 16 ≤ sizeBits)
    (ht : reportType < 256) (hid : reportId < 256) (hrc : 0 ≤ i2cRc) (hC : C < 65536) :
    (shhid_getReport sizeBits i2cRc buffer reportType reportId payload C).i2c
        = [⟨getReportFrame reportType reportId, 18⟩]
      ∧ (shhid_getReport sizeBits i2cRc buffer reportType reportId payload C).status = i2cRc
      ∧ (2 ≤ read16 buffer →
          (shhid_getReport sizeBits i2cRc buffer reportType reportId payload C).copied
            = some (min (read16 buffer - 2) C)
          ∧ (shhid_getReport sizeBits i2cRc buffer reportType reportId payload C).payloadLen
            = min (read16 buffer - 2) C
          ∧ min (read16 buffer - 2) C ≤ C
          ∧ (C ≤ 16 → min (read16 buffer - 2) C ≤ 16)
          ∧ (∀ i, i < min (read16 buffer - 2) C →
              (shhid_getReport sizeBits i2cRc buffer reportType reportId payload C).payload i
                = buffer (i + 2))
          ∧ (∀ i, min (read16 buffer - 2) C ≤ i →
              (shhid_getReport sizeBits i2cRc buffer reportType reportId payload C).payload i
                = payload i))
      ∧ (read16 buffer < 2 →
          (shhid_getReport sizeBits i2cRc buffer reportType reportId payload C).copylen
            = some ((read16 buffer : Int) - 2)
          ∧ (shhid_getReport sizeBits i2cRc buffer reportType reportId payload C).copied
            = some (2 ^ sizeBits - (2 - read16 buffer))
          ∧ 16 < 2 ^ sizeBits - (2 - read16 buffer)
          ∧ (C < 65534 → C < 2 ^ sizeBits - (2 - read16 buffer))
          ∧ (shhid_getReport sizeBits i2cRc buffer reportType reportId payload C).payloadLen
            = 65534 + read16 buffer)
      ∧ (16 < C → 18 < read16 buffer →
          ∃ n, (shhid_getReport sizeBits i2cRc buffer reportType reportId payload C).copied
            = some n ∧ 16 < n) := by
  obtain ⟨f1, f2⟩ := getReport_i2c sizeBits i2cRc buffer reportType reportId payload C ht hid
  obtain ⟨c1, c2, c3, c4⟩ :=
    getReport_copy sizeBits i2cRc buffer reportType reportId payload C hrc
  have hr := read16_lt buffer
  have hCm : C % 65536 = C := Nat.mod_eq_of_lt hC
  rw [hCm] at c1 c2 c3 c4
  have hge : 2 ≤ read16 buffer →
      (shhid_getReport sizeBits i2cRc buffer reportType reportId payload C).copied
          = some (min (read16 buffer - 2) C)
        ∧ (shhid_getReport sizeBits i2cRc buffer reportType reportId payload C).payload
          = memcpy payload (buffer.shift 2) (min (read16 buffer - 2) C) := by
    intro hLen
    have em : min ((read16 buffer : Int) - 2) ((C : Nat) : Int)
        = ((min (read16 buffer - 2) C : Nat) : Int) := by omega
    have hlt : min (read16 buffer - 2) C < 65536 := by omega
    rw [em, toSizeT_of_nat sizeBits _ hs hlt] at c2 c3
    exact ⟨c2, c3⟩
  refine ⟨f1, f2, fun hLen => ?_, fun hLen => ?_, fun h16 h18 => ?_⟩
  · obtain ⟨d2, d3⟩ := hge hLen
    refine ⟨d2, ?_, by omega, by omega, ?_, ?_⟩
    · rw [c4]
      omega
    · intro i hi
      rw [d3, memcpy_lt _ _ _ _ hi]
      rfl
    · intro i hi
      rw [d3, memcpy_ge _ _ _ _ hi]
  · have em : min ((read16 buffer : Int) - 2) ((C : Nat) : Int)
        = -((2 - read16 buffer : Nat) : Int) := by omega
    have hp : 2 ^ 16 ≤ 2 ^ sizeBits := Nat.pow_le_pow_right (by decide) hs
    have h16 : (2 : Nat) ^ 16 = 65536 := by decide
    rw [h16] at hp
    refine ⟨?_, ?_, by omega, fun _ => by omega, ?_⟩
    · rw [c1]
      congr 1
      omega
    · rw [c2, em, toSizeT_neg sizeBits _ hs (by omega) (by omega)]
    · rw [c4]
      omega
  · obtain ⟨d2, _⟩ := hge (by omega)
    exact ⟨_, d2, by omega⟩

/-- C30 at a failing input: the capacity 15 of the callers in the driver and an answer
whose length field is 0: `memcpy` is given 2^32 - 2 and `*payloadLen` becomes 65534. -/
theorem getReport_copies_witness :
    (shhid_getReport 32 0 (Mem.store zeroMem (le16 0)) 0x30 5 zeroMem 15).copylen
        = some ((read16 (Mem.store zeroMem (le16 0)) : Int) - 2)
      ∧ (shhid_getReport 32 0 (Mem.store zeroMem (le16 0)) 0x30 5 zeroMem 15).copied
        = some (2 ^ 32 - (2 - read16 (Mem.store zeroMem (le16 0))))
      ∧ 16 < 2 ^ 32 - (2 - read16 (Mem.store zeroMem (le16 0)))
      ∧ (15 < 65534 → 15 < 2 ^ 32 - (2 - read16 (Mem.store zeroMem (le16 0))))
      ∧ (shhid_getReport 32 0 (Mem.store zeroMem (le16 0)) 0x30 5 zeroMem 15).payloadLen
        = 65534 + read16 (Mem.store zeroMem (le16 0)) :=
  (getReport_copies 32 0 (Mem.store zeroMem (le16 0)) 0x30 5 zeroMem 15 (by decide)
    (by decide) (by decide) (by decide) (by decide)).2.2.2.1 (by decide)

/-! ## Proofs: sensor configuration -/

/-- What `shhid_getFeatureReport` leaves when it is called with `*reportLen` = 16 and the
transfer succeeds: the first cell of the report is never written, the body is filled from
the answer, and `*reportLen` is the count of `shhid_getReport` plus one. -/
theorem getFeatureReport_16 (sizeBits : Nat) (buffer report : Mem) (hs : 16 ≤ sizeBits) :
    (shhid_getFeatureReport sizeBits 0 buffer report 16).rc = 0
      ∧ (shhid_getFeatureReport sizeBits 0 buffer report 16).report 0 = report 0
      ∧ (17 ≤ read16 buffer →
          (shhid_getFeatureReport sizeBits 0 buffer report 16).reportLen = 16
            ∧ ∀ i, 1 ≤ i → i < 16 →
              (shhid_getFeatureReport sizeBits 0 buffer report 16).report i = buffer (i + 1))
      ∧ (read16 buffer ≤ 16 →
          (shhid_getFeatureReport sizeBits 0 buffer report 16).reportLen ≠ 16)
      ∧ (shhid_getFeatureReport sizeBits 0 buffer report 16).copied
        = some (toSizeT sizeBits (min ((read16 buffer : Int) - 2) ((15 : Nat) : Int))) := by
  obtain ⟨_, c2, c3, c4⟩ := getReport_copy sizeBits 0 buffer HID_REPORT_TYPE_FEATURE (report 0)
    (report.shift 1) ((16 % 65536 + 65535) % 65536) (le_refl 0)
  have hst : (shhid_getReport sizeBits 0 buffer HID_REPORT_TYPE_FEATURE (report 0)
      (report.shift 1) ((16 % 65536 + 65535) % 65536)).status = 0 := by
    unfold shhid_getReport
    simp only []
    rw [if_neg (by decide)]
  have h15 : ((16 % 65536 + 65535) % 65536) % 65536 = 15 := by decide
  rw [h15] at c2 c3 c4
  have hr := read16_lt buffer
  have hg : shhid_getFeatureReport sizeBits 0 buffer report 16
      = ⟨0, withBody report (shhid_getReport sizeBits 0 buffer HID_REPORT_TYPE_FEATURE
          (report 0) (report.shift 1) ((16 % 65536 + 65535) % 65536)).payload,
        ((shhid_getReport sizeBits 0 buffer HID_REPORT_TYPE_FEATURE (report 0)
          (report.shift 1) ((16 % 65536 + 65535) % 65536)).payloadLen + 1) % 65536,
        (shhid_getReport sizeBits 0 buffer HID_REPORT_TYPE_FEATURE (report 0)
          (report.shift 1) ((16 % 65536 + 65535) % 65536)).i2c,
        (shhid_getReport sizeBits 0 buffer HID_REPORT_TYPE_FEATURE (report 0)
          (report.shift 1) ((16 % 65536 + 65535) % 65536)).copied⟩ := by
    unfold shhid_getFeatureReport
    simp only []
    rw [if_neg (by rw [hst]; decide), hst]
  rw [hg, c2, c3, c4]
  refine ⟨rfl, rfl, ?_, ?_, rfl⟩
  · intro h17
    have em : min ((read16 buffer : Int) - 2) ((15 : Nat) : Int) = ((15 : Nat) : Int) := by
      omega
    rw [em, toSizeT_of_nat sizeBits 15 hs (by decide)]
    refine ⟨rfl, ?_⟩
    intro i h1 h16
    simp only [withBody]
    rw [if_neg (by omega), memcpy_lt _ _ _ _ (by omega)]
    simp only [Mem.shift]
    congr 1
    omega
  · intro h16
    simp only []
    omega

/-- The count of the copy into `report.body` that `sh_getSensorConfig` causes: within the
15 bytes for a length field of 2 or more, far beyond them for a length field below 2. -/
theorem getSensorConfig_copied (sizeBits : Nat) (buffer report : Mem) (hs : 16 ≤ sizeBits) :
    (2 ≤ read16 buffer →
        (shhid_getFeatureReport sizeBits 0 buffer report 16).copied
          = some (min (read16 buffer - 2) 15))
      ∧ (read16 buffer < 2 →
        (shhid_getFeatureReport sizeBits 0 buffer report 16).copied
          = some (2 ^ sizeBits - (2 - read16 buffer))) := by
  have hc := (getFeatureReport_16 sizeBits buffer report hs).2.2.2.2
  have hr := read16_lt buffer
  constructor
  · intro h2
    have em : min ((read16 buffer : Int) - 2) ((15 : Nat) : Int)
        = ((min (read16 buffer - 2) 15 : Nat) : Int) := by omega
    rw [hc, em, toSizeT_of_nat sizeBits _ hs (by omega)]
  · intro h2
    have em : min ((read16 buffer : Int) - 2) ((15 : Nat) : Int)
        = -((2 - read16 buffer : Nat) : Int) := by omega
    rw [hc, em, toSizeT_neg sizeBits _ hs (by omega) (by omega)]

/-- An answer with a length field of 17 or more is taken by `sh_getSensorConfig`, whatever
its bytes are: the flags come from the cell 2 of the answer, the change sensitivity from
the cells 3 and 4, the interval from the cells 5 to 8, the reserved word from the cells 9
to 12; `sensorSpecific` is not assigned. -/
theorem getSensorConfig_long (sizeBits : Nat) (buffer report0 : Mem) (sensorId : Nat)
    (config : SensorConfig) (hs : 16 ≤ sizeBits) (h17 : 17 ≤ read16 buffer) :
    (sh_getSensorConfig sizeBits 0 buffer report0 sensorId config).map GetConfigResult.rc
        = some 0
      ∧ (sh_getSensorConfig sizeBits 0 buffer report0 sensorId config).map
          GetConfigResult.config
        = some ⟨decide (buffer 2 % 256 &&& SH_CHANGE_SENSITIVITY_ENABLED ≠ 0),
            decide (buffer 2 % 256 &&& SH_CHANGE_SENSITIVITY_RELATIVE ≠ 0),
            decide (buffer 2 % 256 &&& SH_WAKEUP_ENABLED ≠ 0),
            u16At buffer 3, u32At buffer 5, u32At buffer 9, config.sensorSpecific⟩ := by
  obtain ⟨g1, g2, g3, _, _⟩ := getFeatureReport_16 sizeBits buffer
    (report0.set 0 (sensorId % 256)) hs
  have gc := (getSensorConfig_copied sizeBits buffer (report0.set 0 (sensorId % 256)) hs).1
    (by omega)
  obtain ⟨g3, g4⟩ := g3 h17
  have hb : ∀ i, 1 ≤ i → i < 16 →
      (shhid_getFeatureReport sizeBits 0 buffer (report0.set 0 (sensorId % 256)) 16).report i
        = buffer (i + 1) := g4
  have e16 : read16 ((shhid_getFeatureReport sizeBits 0 buffer
      (report0.set 0 (sensorId % 256)) 16).report.shift 2) = u16At buffer 3 := by
    rw [read16_at]
    unfold u16At
    rw [hb 2 (by decide) (by decide), hb 3 (by decide) (by decide)]
  have e32a : load32 ((shhid_getFeatureReport sizeBits 0 buffer
      (report0.set 0 (sensorId % 256)) 16).report.shift 4) = u32At buffer 5 := by
    rw [load32_at]
    unfold u32At
    rw [hb 4 (by decide) (by decide), hb 5 (by decide) (by decide),
      hb 6 (by decide) (by decide), hb 7 (by decide) (by decide)]
  have e32b : load32 ((shhid_getFeatureReport sizeBits 0 buffer
      (report0.set 0 (sensorId % 256)) 16).report.shift 8) = u32At buffer 9 := by
    rw [load32_at]
    unfold u32At
    rw [hb 8 (by decide) (by decide), hb 9 (by decide) (by decide),
      hb 10 (by decide) (by decide), hb 11 (by decide) (by decide)]
  have e0 : (shhid_getFeatureReport sizeBits 0 buffer
      (report0.set 0 (sensorId % 256)) 16).report 0 % 256 = sensorId % 256 := by
    rw [g2, Mem.set_same, Nat.mod_mod]
  unfold sh_getSensorConfig
  simp only []
  rw [if_neg (by rw [gc, Option.getD_some]; omega), if_neg (by rw [g1]; decide),
    if_neg (by rw [g3, e0]; simp), e16, e32a, e32b, hb 1 (by decide) (by decide)]
  exact ⟨rfl, rfl⟩

/-- An answer with a length field from 2 to 16 is refused by `sh_getSensorConfig`, and
`*config` stays as it was. -/
theorem getSensorConfig_short (sizeBits : Nat) (buffer report0 : Mem) (sensorId : Nat)
    (config : SensorConfig) (hs : 16 ≤ sizeBits) (h2 : 2 ≤ read16 buffer)
    (h16 : read16 buffer ≤ 16) :
    (sh_getSensorConfig sizeBits 0 buffer report0 sensorId config).map GetConfigResult.rc
        = some SH_STATUS_BAD_REPORT
      ∧ (sh_getSensorConfig sizeBits 0 buffer report0 sensorId config).map
          GetConfigResult.config = some config := by
  obtain ⟨g1, _, _, g4, _⟩ := getFeatureReport_16 sizeBits buffer
    (report0.set 0 (sensorId % 256)) hs
  have gc := (getSensorConfig_copied sizeBits buffer (report0.set 0 (sensorId % 256)) hs).1 h2
  have g5 := g4 h16
  unfold sh_getSensorConfig
  simp only []
  rw [if_neg (by rw [gc, Option.getD_some]; omega), if_neg (by rw [g1]; decide),
    if_pos (Or.inl g5)]
  exact ⟨rfl, rfl⟩

/-- An answer with a length field of 0 or 1 makes `shhid_getReport` copy 2^sizeBits - 2
or 2^sizeBits - 1 bytes into the 15 bytes of `report.body`: `sh_getSensorConfig` has no
defined return. -/
theorem getSensorConfig_overrun (sizeBits : Nat) (buffer report0 : Mem) (sensorId : Nat)
    (config : SensorConfig) (hs : 16 ≤ sizeBits) (h2 : read16 buffer < 2) :
    sh_getSensorConfig sizeBits 0 buffer report0 sensorId config = none := by
  have gc := (getSensorConfig_copied sizeBits buffer (report0.set 0 (sensorId % 256)) hs).2 h2
  have hp : 2 ^ 16 ≤ 2 ^ sizeBits := Nat.pow_le_pow_right (by decide) hs
  have h16 : (2 : Nat) ^ 16 = 65536 := by decide
  rw [h16] at hp
  unfold sh_getSensorConfig
  simp only []
  rw [if_pos (by rw [gc, Option.getD_some]; omega)]

/-! ## Proofs: the size of the reports sent -/

/-- The number of cells `shhid_setOutReport` fills in `cmd`. -/
theorem setOutReport_cmd_length (i2cRc : Int) (report : Mem) (reportLen : Nat) :
    (shhid_setOutReport i2cRc report reportLen).cmd.length
      = (if report 0 % 256 < 0x0F then 8 else 9) + (reportLen % 65536 + 65535) % 65536 := by
  unfold shhid_setOutReport shhid_setReport
  simp only [Mem.bytes, List.length_append, List.length_map, List.length_range]
  by_cases c : report 0 % 256 < 0x0F
  · rw [if_pos c, if_pos c]
    rfl
  · rw [if_neg c, if_neg c]
    rfl

/-- The number of cells `shhid_setFeatureReport` fills in `cmd`. -/
theorem setFeatureReport_cmd_length (i2cRc : Int) (report : Mem) (reportLen : Nat) :
    (shhid_setFeatureReport i2cRc report reportLen).cmd.length
      = (if report 0 % 256 < 0x0F then 8 else 9) + (reportLen % 65536 + 65535) % 65536 := by
  unfold shhid_setFeatureReport shhid_setReport
  simp only [Mem.bytes, List.length_append, List.length_map, List.length_range]
  by_cases c : report 0 % 256 < 0x0F
  · rw [if_pos c, if_pos c]
    rfl
  · rw [if_neg c, if_neg c]
    rfl

/-- The frame of a command request of `n` bytes has `n + 8` bytes. -/
theorem commandReq_cmd_length (i2cRc : Int) (junk : Mem) (rest : List Nat)
    (h : rest.length < 65535) :
    (shhid_setOutReport i2cRc (Mem.store junk (SH_COMMAND_REQUEST :: rest))
      (SH_COMMAND_REQUEST :: rest).length).cmd.length
      = (SH_COMMAND_REQUEST :: rest).length + 8 := by
  rw [setOutReport_cmd_length]
  have h0 : Mem.store junk (SH_COMMAND_REQUEST :: rest) 0 = SH_COMMAND_REQUEST := by
    simp [Mem.store]
  rw [h0, if_neg (by decide), List.length_cons]
  omega

/-- The one report a command function sends: a COMMAND_REQUEST of 20 bytes for the two
functions that use `sh_SetReorientationReq_t`, of 12 bytes for the nine others. -/
theorem apiSent_shape (sh : SensorHub) (c : ApiCall) (hc : c.isCommand = true) :
    ∃ rest, apiSent sh c = [SH_COMMAND_REQUEST :: rest]
      ∧ rest.length + 1 = (if c.usesReorientationReq = true then 20 else 12) := by
  cases c with
  | getErrors polls inReport0 sendRc severity pErrors numErrors =>
    exact ⟨_, (sh_getErrors_frame polls inReport0 sendRc sh severity pErrors numErrors).2, rfl⟩
  | getCounts polls inReport0 sendRc sensorId pCounts =>
    exact ⟨_, (sh_getCounts_frame polls inReport0 sendRc sh sensorId pCounts).2, rfl⟩
  | dcdSaveNow polls inReport0 sendRc =>
    exact ⟨_, (sh_dcdSaveNow_frame polls inReport0 sendRc sh).2, rfl⟩
  | calConfig polls inReport0 sendRc sensors =>
    obtain ⟨_, a, g, m, h2⟩ := sh_calConfig_frame polls inReport0 sendRc sh sensors
    exact ⟨_, h2, rfl⟩
  | clearCounts polls sendRc sensorId =>
    show ∃ rest, (sh_clearCounts polls sendRc sh sensorId).sent = _ ∧ _
    unfold sh_clearCounts
    dsimp only
    by_cases hs : sendRc ≠ 0
    · rw [if_pos hs]
      exact ⟨_, rfl, rfl⟩
    · rw [if_neg hs]
      exact ⟨_, rfl, rfl⟩
  | tareNow polls sendRc axes basis =>
    show ∃ rest, (sh_tareNow polls sendRc sh axes basis).sent = _ ∧ _
    unfold sh_tareNow
    dsimp only
    by_cases hs : sendRc ≠ 0
    · rw [if_pos hs]
      exact ⟨_, rfl, rfl⟩
    · rw [if_neg hs]
      exact ⟨_, rfl, rfl⟩
  | tareClear polls sendRc =>
    show ∃ rest, (sh_tareClear polls sendRc sh).sent = _ ∧ _
    unfold sh_tareClear
    dsimp only
    by_cases hs : sendRc ≠ 0
    · rw [if_pos hs]
      exact ⟨_, rfl, rfl⟩
    · rw [if_neg hs]
      exact ⟨_, rfl, rfl⟩
  | persistTare polls sendRc =>
    show ∃ rest, (sh_persistTare polls sendRc sh).sent = _ ∧ _
    unfold sh_persistTare
    dsimp only
    by_cases hs : sendRc ≠ 0
    · rw [if_pos hs]
      exact ⟨_, rfl, rfl⟩
    · rw [if_neg hs]
      exact ⟨_, rfl, rfl⟩
  | setReorientation polls sendRc x y z w =>
    show ∃ rest, (sh_setReorientation polls sendRc sh x y z w).sent = _ ∧ _
    unfold sh_setReorientation
    dsimp only
    by_cases hs : sendRc ≠ 0
    · rw [if_pos hs]
      exact ⟨_, rfl, rfl⟩
    · rw [if_neg hs]
      exact ⟨_, rfl, rfl⟩
  | reinitialize polls sendRc =>
    show ∃ rest, ( sh_reinitialize polls sendRc sh).sent = _ ∧ _
    unfold sh_reinitialize
    dsimp only
    by_cases hs : sendRc ≠ 0
    · rw [if_pos hs]
      exact ⟨_, rfl, rfl⟩
    · rw [if_neg hs]
      exact ⟨_, rfl, rfl⟩
  | rvSync polls sendRc rvSyncOp =>
    exact ⟨_, rfl, rfl⟩
  | getFrs => simp [ApiCall.isCommand] at hc
  | setFrs => simp [ApiCall.isCommand] at hc
  | getProdIds => simp [ApiCall.isCommand] at hc
  | getSensorConfig => simp [ApiCall.isCommand] at hc
  | setSensorConfig => simp [ApiCall.isCommand] at hc
  | getEventTO => simp [ApiCall.isCommand] at hc
  | getMetadata => simp [ApiCall.isCommand] at hc

/-- C21 (outbound report size), where the code departs from it: a call of `sh_tareClear`
or `sh_setReorientation` hands to SET_REPORT a report of 20 bytes, the reportId and 19
payload bytes, and `shhid_setReport` fills 28 cells of its array `cmd`, which has
`SHHID_MAX_REPORT_LEN+8` = 24; the report of each of the nine other command functions
has 12 bytes and its frame 20, the FRS write request has 6 bytes, the FRS write-data
request 12, and the sensor-config feature report 16, its frame at most 24. -/
theorem outbound_report_sizes (sh : SensorHub) (c : ApiCall) (junk : Mem) (i2cRc : Int)
    (hc : c.isCommand = true) :
    (∃ req, apiSent sh c = [req]
        ∧ req.length = (if c.usesReorientationReq = true then 20 else 12)
        ∧ (shhid_setOutReport i2cRc (Mem.store junk req) req.length).cmd.length
          = req.length + 8
        ∧ (c.usesReorientationReq = true →
            SHHID_MAX_REPORT_LEN < req.length
              ∧ SHHID_MAX_REPORT_LEN + 8
                < (shhid_setOutReport i2cRc (Mem.store junk req) req.length).cmd.length)
        ∧ (c.usesReorientationReq = false →
            req.length ≤ SHHID_MAX_REPORT_LEN
              ∧ (shhid_setOutReport i2cRc (Mem.store junk req) req.length).cmd.length
                ≤ SHHID_MAX_REPORT_LEN + 8))
      ∧ (∀ dataLen recordId, (frsWriteReq dataLen recordId).length = 6)
      ∧ (∀ wordOffset data0 data1, (frsWriteDataReq wordOffset data0 data1).length = 12)
      ∧ (∀ sensorId config, (sensorConfigReport sensorId config).length = 16
          ∧ (sh_setSensorConfig i2cRc junk sensorId config).cmd.length
            ≤ SHHID_MAX_REPORT_LEN + 8) := by
  obtain ⟨rest, h1, h2⟩ := apiSent_shape sh c hc
  have hlen : (SH_COMMAND_REQUEST :: rest).length
      = (if c.usesReorientationReq = true then 20 else 12) := by
    rw [List.length_cons]
    exact h2
  have hcmd := commandReq_cmd_length i2cRc junk rest (by split_ifs at h2 <;> omega)
  refine ⟨⟨_, h1, hlen, hcmd, ?_, ?_⟩, fun _ _ => rfl, fun _ _ _ => rfl, ?_⟩
  · intro hr
    rw [hcmd, hlen, if_pos hr]
    decide
  · intro hr
    rw [hcmd, hlen, if_neg (by rw [hr]; decide)]
    decide
  · intro sensorId config
    refine ⟨rfl, ?_⟩
    unfold sh_setSensorConfig
    rw [setFeatureReport_cmd_length]
    simp only [SHHID_MAX_REPORT_LEN]
    split_ifs <;> omega

/-- C21 at the failing calls: `sh_tareClear` and `sh_setReorientation` each send a report
of 20 bytes, for which `shhid_setReport` fills 28 cells. -/
theorem outbound_report_sizes_witness :
    (apiSent ⟨0⟩ (ApiCall.tareClear [] 0)).map List.length = [20]
      ∧ (apiSent ⟨0⟩ (ApiCall.setReorientation [] 0 1 2 3 4)).map List.length = [20]
      ∧ ∃ req, apiSent ⟨0⟩ (ApiCall.tareClear [] 0) = [req]
          ∧ 24 < (shhid_setOutReport 0 (Mem.store zeroMem req) req.length).cmd.length := by
  obtain ⟨req, h1, h2, h3, h4, _⟩ :=
    (outbound_report_sizes ⟨0⟩ (ApiCall.tareClear [] 0) zeroMem 0 rfl).1
  exact ⟨by decide, by decide, req, h1, (h4 rfl).2⟩

theorem Mem.store_cons_zero (m : Mem) (a : Nat) (l : List Nat) : Mem.store m (a :: l) 0 = a := by
  simp [Mem.store]

theorem Mem.store_cons_succ (m : Mem) (a : Nat) (l : List Nat) (k : Nat) :
    Mem.store m (a :: l) (k + 1) = Mem.store (m.shift 1) l k := by
  simp [Mem.store, Mem.shift]

/-- The frame of `sh_setSensorConfig`: the feature report type, the sensor as reportId,
and the 15 bytes of the report behind the reportId as payload. -/
theorem setSensorConfig_cmd (i2cRc : Int) (junk : Mem) (sensorId : Nat) (c : SensorConfig)
    (hid : sensorId < 256) :
    (sh_setSensorConfig i2cRc junk sensorId c).cmd
      = setReportFrame HID_REPORT_TYPE_FEATURE sensorId (sensorConfigReport sensorId c).tail
      := by
  have hb : ∀ b ∈ (sensorConfigReport sensorId c).tail, b < 256 := by
    intro b hb
    simp only [sensorConfigReport, le16, le32, List.cons_append, List.nil_append,
      List.tail_cons, List.mem_cons, List.mem_singleton, List.not_mem_nil, or_false] at hb
    rcases hb with h | h | h | h | h | h | h | h | h | h | h | h | h | h | h <;> rw [h] <;>
      exact Nat.mod_lt _ (by decide)
  have h := (setReport_cmd i2cRc HID_REPORT_TYPE_FEATURE sensorId
    (sensorConfigReport sensorId c).tail (junk.shift 16) (by decide) hid
    (by show (15 : Nat) ≤ 253; decide) hb).1
  rw [← h]
  unfold sh_setSensorConfig shhid_setFeatureReport shhid_setReport
  have e0 : Mem.store junk (sensorConfigReport sensorId c) 0 % 256 = sensorId % 256 := by
    show sensorId % 256 % 256 = sensorId % 256
    exact Nat.mod_mod _ _
  have eb : ((Mem.store junk (sensorConfigReport sensorId c)).shift 1).bytes 15
      = (Mem.store (junk.shift 16) (sensorConfigReport sensorId c).tail).bytes 15 := by
    apply Mem.bytes_congr
    intro i hi
    have h1 : i + 1 < (sensorConfigReport sensorId c).length := by
      show i + 1 < 16
      omega
    have h2 : i < (sensorConfigReport sensorId c).tail.length := by
      show i < 15
      omega
    simp only [Mem.shift, Mem.store, h1, h2, dite_true]
    rfl
  have e15 : (16 % 65536 + 65535) % 65536 = 15 := by decide
  have e15b : (sensorConfigReport sensorId c).tail.length % 65536 = 15 := rfl
  simp only [e0, e15, e15b, eb, Nat.mod_mod]

/-- C27 (sensor-config round trip), where the code departs from it: when the hub answers
the GET_REPORT of `sh_getSensorConfig(sensorId)` with exactly the payload that
`sh_setSensorConfig(sensorId, c)` wrote, `sh_getSensorConfig` returns success with the
three booleans, the change sensitivity, the report interval and the reserved word of c,
but with `sensorSpecific` as `*config` held it before the call: the function has no
assignment to that member, so the configuration returned differs from c whenever the old
value is not the one of c. -/
theorem sensorConfig_roundtrip (sizeBits : Nat) (i2cRc : Int) (junk junk2 report0 : Mem)
    (sensorId : Nat) (c old : SensorConfig) (hs : 16 ≤ sizeBits) (hid : sensorId < 256)
    (hc : c.InRange) :
    (sh_setSensorConfig i2cRc junk sensorId c).cmd
        = setReportFrame HID_REPORT_TYPE_FEATURE sensorId (sensorConfigReport sensorId c).tail
      ∧ (sh_getSensorConfig sizeBits 0
          (getReportAnswer junk2 (sensorConfigReport sensorId c).tail) report0 sensorId
          old).map GetConfigResult.rc = some SH_STATUS_SUCCESS
      ∧ (sh_getSensorConfig sizeBits 0
          (getReportAnswer junk2 (sensorConfigReport sensorId c).tail) report0 sensorId
          old).map GetConfigResult.config = some { c with sensorSpecific := old.sensorSpecific }
      ∧ (old.sensorSpecific ≠ c.sensorSpecific →
          (sh_getSensorConfig sizeBits 0
            (getReportAnswer junk2 (sensorConfigReport sensorId c).tail) report0 sensorId
            old).map GetConfigResult.config ≠ some c) := by
  have h17 : read16 (getReportAnswer junk2 (sensorConfigReport sensorId c).tail) = 17 := by
    show read16 ((getReportAnswer junk2 (sensorConfigReport sensorId c).tail).shift 0) = 17
    rw [read16_at]
    simp only [getReportAnswer, sensorConfigReport, le16, le32, List.cons_append,
      List.nil_append, List.tail_cons, List.length_cons, List.length_nil, u16At,
      Mem.store_cons_zero, Mem.store_cons_succ]
  obtain ⟨r1, r2⟩ := getSensorConfig_long sizeBits
    (getReportAnswer junk2 (sensorConfigReport sensorId c).tail) report0 sensorId old hs
    (by rw [h17])
  obtain ⟨en, rel, wk, cs, ri, res, ss⟩ := c
  obtain ⟨h1, h2, h3, _⟩ := hc
  simp only at h1 h2 h3
  have e3 : u16At (getReportAnswer junk2 (sensorConfigReport sensorId
      ⟨en, rel, wk, cs, ri, res, ss⟩).tail) 3 = cs := by
    simp only [getReportAnswer, sensorConfigReport, le16, le32, List.cons_append,
      List.nil_append, List.tail_cons, List.length_cons, List.length_nil, u16At,
      Mem.store_cons_zero, Mem.store_cons_succ]
    omega
  have e5 : u32At (getReportAnswer junk2 (sensorConfigReport sensorId
      ⟨en, rel, wk, cs, ri, res, ss⟩).tail) 5 = ri := by
    simp only [getReportAnswer, sensorConfigReport, le16, le32, List.cons_append,
      List.nil_append, List.tail_cons, List.length_cons, List.length_nil, u32At,
      Mem.store_cons_zero, Mem.store_cons_succ]
    omega
  have e9 : u32At (getReportAnswer junk2 (sensorConfigReport sensorId
      ⟨en, rel, wk, cs, ri, res, ss⟩).tail) 9 = res := by
    simp only [getReportAnswer, sensorConfigReport, le16, le32, List.cons_append,
      List.nil_append, List.tail_cons, List.length_cons, List.length_nil, u32At,
      Mem.store_cons_zero, Mem.store_cons_succ]
    omega
  have ef : getReportAnswer junk2 (sensorConfigReport sensorId
      ⟨en, rel, wk, cs, ri, res, ss⟩).tail 2
      = ((if rel = true then SH_CHANGE_SENSITIVITY_RELATIVE else 0)
        ||| (if en = true then SH_CHANGE_SENSITIVITY_ENABLED else 0)
        ||| (if wk = true then SH_WAKEUP_ENABLED else 0)) % 256 := by
    simp only [getReportAnswer, sensorConfigReport, le16, le32, List.cons_append,
      List.nil_append, List.tail_cons, List.length_cons, List.length_nil,
      Mem.store_cons_zero, Mem.store_cons_succ]
  rw [e3, e5, e9, ef] at r2
  have hcfg : (sh_getSensorConfig sizeBits 0
      (getReportAnswer junk2 (sensorConfigReport sensorId ⟨en, rel, wk, cs, ri, res, ss⟩).tail)
      report0 sensorId old).map GetConfigResult.config
      = some ⟨en, rel, wk, cs, ri, res, old.sensorSpecific⟩ := by
    rw [r2]
    cases en <;> cases rel <;> cases wk <;> rfl
  refine ⟨setSensorConfig_cmd i2cRc junk sensorId _ hid, r1, hcfg, ?_⟩
  intro hne heq
  rw [hcfg] at heq
  injection heq with heq
  injection heq with _ _ _ _ _ _ h7
  exact hne h7

/-- C27 at a failing input: the configuration with the sensor-specific word 99 written
for the sensor 1 and read back into a record of zeros comes back with the word 0. -/
theorem sensorConfig_roundtrip_witness :
    (sh_getSensorConfig 32 0 (getReportAnswer zeroMem (sensorConfigReport 1 exampleConfig).tail)
        zeroMem 1 ⟨false, false, false, 0, 0, 0, 0⟩).map GetConfigResult.config
        = some { exampleConfig with sensorSpecific := 0 }
      ∧ (sh_getSensorConfig 32 0
          (getReportAnswer zeroMem (sensorConfigReport 1 exampleConfig).tail)
          zeroMem 1 ⟨false, false, false, 0, 0, 0, 0⟩).map GetConfigResult.config
        ≠ some exampleConfig :=
  ⟨(sensorConfig_roundtrip 32 0 zeroMem zeroMem zeroMem 1 exampleConfig
      ⟨false, false, false, 0, 0, 0, 0⟩ (by decide) (by decide)
      ⟨by decide, by decide, by decide, by decide⟩).2.2.1,
    (sensorConfig_roundtrip 32 0 zeroMem zeroMem zeroMem 1 exampleConfig
      ⟨false, false, false, 0, 0, 0, 0⟩ (by decide) (by decide)
      ⟨by decide, by decide, by decide, by decide⟩).2.2.2 (by decide)⟩

/-- C28 (sensor-config validation), where the code departs from it: an answer whose
length field is from 2 to 16, so shorter than the sensor-config record, is answered with
`SH_STATUS_BAD_REPORT` and `*config` is left as it was; but the reportId the function
compares with `sensorId` is the cell it has set to `sensorId` itself, which GET_REPORT
never writes, so every answer whose length field is 17 or more is taken with success,
whatever reportId it carries and however long it is, and `*config` is filled from its
cells 2 to 12.  With a length field of 0 or 1 the copy of `shhid_getReport` runs past the
local report and the call has no defined return. -/
theorem sensorConfig_validation (sizeBits : Nat) (buffer report0 : Mem) (sensorId : Nat)
    (config : SensorConfig) (hs : 16 ≤ sizeBits) :
    (2 ≤ read16 buffer → read16 buffer ≤ 16 →
        (sh_getSensorConfig sizeBits 0 buffer report0 sensorId config).map GetConfigResult.rc
            = some SH_STATUS_BAD_REPORT
          ∧ (sh_getSensorConfig sizeBits 0 buffer report0 sensorId config).map
              GetConfigResult.config = some config)
      ∧ (shhid_getFeatureReport sizeBits 0 buffer (report0.set 0 (sensorId % 256)) 16).report 0
        = sensorId % 256
      ∧ (17 ≤ read16 buffer →
          (sh_getSensorConfig sizeBits 0 buffer report0 sensorId config).map GetConfigResult.rc
              = some SH_STATUS_SUCCESS
            ∧ (sh_getSensorConfig sizeBits 0 buffer report0 sensorId config).map
                GetConfigResult.config
              = some ⟨decide (buffer 2 % 256 &&& SH_CHANGE_SENSITIVITY_ENABLED ≠ 0),
                  decide (buffer 2 % 256 &&& SH_CHANGE_SENSITIVITY_RELATIVE ≠ 0),
                  decide (buffer 2 % 256 &&& SH_WAKEUP_ENABLED ≠ 0),
                  u16At buffer 3, u32At buffer 5, u32At buffer 9, config.sensorSpecific⟩)
      ∧ (read16 buffer < 2 →
          (shhid_getFeatureReport sizeBits 0 buffer (report0.set 0 (sensorId % 256)) 16).copied
              = some (2 ^ sizeBits - (2 - read16 buffer))
            ∧ sh_getSensorConfig sizeBits 0 buffer report0 sensorId config = none) := by
  refine ⟨getSensorConfig_short sizeBits buffer report0 sensorId config hs, ?_,
    getSensorConfig_long sizeBits buffer report0 sensorId config hs,
    fun h2 => ⟨(getSensorConfig_copied sizeBits buffer (report0.set 0 (sensorId % 256)) hs).2 h2,
      getSensorConfig_overrun sizeBits buffer report0 sensorId config hs h2⟩⟩
  rw [(getFeatureReport_16 sizeBits buffer (report0.set 0 (sensorId % 256)) hs).2.1,
    Mem.set_same]

/-- C28 at a failing input: asked for the sensor 1, the hub answers with a report of 16
bytes (length field 18) that starts with the reportId 2; `sh_getSensorConfig` returns
success and takes the flags from the reportId byte. -/
theorem sensorConfig_validation_witness :
    read16 (Mem.store zeroMem (le16 18 ++ [2, 4, 0, 0])) = 18
      ∧ (sh_getSensorConfig 32 0 (Mem.store zeroMem (le16 18 ++ [2, 4, 0, 0])) zeroMem 1
          ⟨false, false, false, 0, 0, 0, 0⟩).map GetConfigResult.rc = some SH_STATUS_SUCCESS
      ∧ (sh_getSensorConfig 32 0 (Mem.store zeroMem (le16 18 ++ [2, 4, 0, 0])) zeroMem 1
          ⟨false, false, false, 0, 0, 0, 0⟩).map
            (fun r => r.config.changeSensitivityEnabled) = some true :=
  ⟨by decide,
    ((sensorConfig_validation 32 (Mem.store zeroMem (le16 18 ++ [2, 4, 0, 0])) zeroMem 1
      ⟨false, false, false, 0, 0, 0, 0⟩ (by decide)).2.2.1 (by decide)).1,
    by decide⟩

/-! ## Proofs: the invariant of the decoder's statics -/

/-- One call of `decodeEvent` keeps the accumulated time congruent to the last timestamp
modulo 2^32. -/
theorem decodeEvent_keeps_congruence (st : DecoderState) (event : SensorEvent) (report : Mem)
    (length timestamp : Nat) (h : st.time_us % 2 ^ 32 = st.last_timestamp) :
    (decodeEvent st event report length timestamp).st.time_us % 2 ^ 32
      = (decodeEvent st event report length timestamp).st.last_timestamp := by
  by_cases hr : 16 < length % 65536 ∨ 0x80 ≤ report 0 % 256
  · rw [(decodeEvent_rejected st event report length timestamp hr).1]
    exact h
  · rw [(decodeEvent_advance st event report length timestamp (by omega) (by omega)).1]
    simp only []
    unfold toInt32
    split_ifs <;> omega

theorem foldl_decoder_congruence (calls : List DecodeCall) (st : DecoderState)
    (h : st.time_us % 2 ^ 32 = st.last_timestamp) :
    (calls.foldl (fun st c => (decodeEvent st c.event c.report c.length c.timestamp).st)
        st).time_us % 2 ^ 32
      = (calls.foldl (fun st c => (decodeEvent st c.event c.report c.length c.timestamp).st)
        st).last_timestamp := by
  induction calls generalizing st with
  | nil => exact h
  | cons c cs ih =>
    rw [List.foldl_cons]
    exact ih _ (decodeEvent_keeps_congruence st c.event c.report c.length c.timestamp h)

/-- C37 (decoder state invariant): after any sequence of `decodeEvent` calls from the
initial statics (both zero), with any events, reports, lengths and timestamps (so also
with backward jumps of the timestamp and with its wrap at 2^32), the accumulated 64-bit
time reduced modulo 2^32 equals the last 32-bit timestamp stored; the accumulated time
is below 2^64 and the stored timestamp below 2^32. -/
theorem decoder_state_invariant (calls : List DecodeCall) :
    (decoderAfter calls).time_us % 2 ^ 32 = (decoderAfter calls).last_timestamp
      ∧ (decoderAfter calls).time_us < 2 ^ 64
      ∧ (decoderAfter calls).last_timestamp < 2 ^ 32 :=
  ⟨foldl_decoder_congruence calls DecoderState.init rfl, decoderAfter_bounds calls⟩

/-! ## Proofs: `open()` and `close()` of the blob -/

theorem dfu_send_events (o : SendOutcome) (packet : Mem) (len : Nat) :
    closeCalls (dfu_send o packet len).2.2 = 0 ∧ openCalls (dfu_send o packet len).2.2 = 0
      ∧ (0 ≤ (dfu_send o packet len).1 → packetsSent (dfu_send o packet len).2.2 = 1) := by
  unfold dfu_send
  simp only []
  split_ifs
  · exact ⟨rfl, rfl, fun h => absurd (show (0 : Int) ≤ SH_STATUS_ERROR_I2C_IO from h) (by decide)⟩
  · exact ⟨rfl, rfl, fun h => absurd (show (0 : Int) ≤ SH_STATUS_ERROR_I2C_IO from h) (by decide)⟩
  · exact ⟨rfl, rfl, fun h => absurd (show (0 : Int) ≤ SH_STATUS_NACK from h) (by decide)⟩
  · exact ⟨rfl, rfl, fun _ => rfl⟩

theorem waitIntnLoop_events (plat : DfuPlatform) :
    ∀ (fuel j : Nat) (w : List DfuEvent), waitIntnLoop plat fuel j = some w →
      closeCalls w = 0 ∧ openCalls w = 0 ∧ packetsSent w = 0 := by
  intro fuel
  induction fuel with
  | zero =>
    intro j w h
    simp [waitIntnLoop] at h
  | succ fuel ih =>
    intro j w h
    unfold waitIntnLoop at h
    by_cases c : plat.waitIntn j = true
    · rw [if_pos c] at h
      cases hw : waitIntnLoop plat fuel (j + 1) with
      | none => rw [hw] at h; simp at h
      | some w2 =>
        rw [hw] at h
        simp only [Option.map_some', Option.some.injEq] at h
        obtain ⟨h1, h2, h3⟩ := ih (j + 1) w2 hw
        rw [← h]
        exact ⟨h1, h2, h3⟩
    · rw [if_neg c] at h
      simp only [Option.some.injEq] at h
      rw [← h]
      exact ⟨rfl, rfl, rfl⟩

theorem closeCalls_append (a b : List DfuEvent) : closeCalls (a ++ b) = closeCalls a + closeCalls b :=
  List.count_append _ _ _

theorem openCalls_append (a b : List DfuEvent) : openCalls (a ++ b) = openCalls a + openCalls b :=
  List.count_append _ _ _

theorem packetsSent_append (a b : List DfuEvent) :
    packetsSent (a ++ b) = packetsSent a + packetsSent b :=
  List.countP_append _ _ _

/-- Every return of the streaming loop, and of what follows it, has called `close()` once. -/
theorem dfuStream_close (hcbin : HcBin) (plat : DfuPlatform) (app_len packet_len fuel0 : Nat) :
    ∀ (fuel offset j : Nat) (packet : Mem) (rc : Int) (r : DfuResult),
      dfuStream hcbin plat app_len packet_len fuel0 fuel offset j packet rc = some r →
      closeCalls r.events = 1 ∧ openCalls r.events = 0 := by
  intro fuel
  induction fuel with
  | zero =>
    intro offset j packet rc r h
    simp [dfuStream] at h
  | succ fuel ih =>
    intro offset j packet rc r h
    unfold dfuStream at h
    simp only [] at h
    by_cases c1 : offset < app_len
    · rw [if_pos c1] at h
      by_cases c2 : (hcbin.getAppData offset (min (app_len - offset) packet_len)).1 < 0
      · rw [if_pos c2] at h
        simp only [Option.some.injEq] at h
        rw [← h]
        exact ⟨rfl, rfl⟩
      · rw [if_neg c2] at h
        obtain ⟨s1, s2, _⟩ := dfu_send_events (plat.xfer j)
          (packet.store (hcbin.getAppData offset (min (app_len - offset) packet_len)).2)
          (min (app_len - offset) packet_len)
        by_cases c3 : (dfu_send (plat.xfer j)
            (packet.store (hcbin.getAppData offset (min (app_len - offset) packet_len)).2)
            (min (app_len - offset) packet_len)).1 < 0
        · rw [if_pos c3] at h
          simp only [Option.some.injEq] at h
          rw [← h]
          simp only [closeCalls_append, openCalls_append, s1, s2]
          exact ⟨rfl, rfl⟩
        · rw [if_neg c3] at h
          cases hrec : dfuStream hcbin plat app_len packet_len fuel0 fuel
              ((offset + packet_len) % 2 ^ 32) (j + 1)
              (dfu_send (plat.xfer j)
                (packet.store (hcbin.getAppData offset (min (app_len - offset) packet_len)).2)
                (min (app_len - offset) packet_len)).2.1
              (dfu_send (plat.xfer j)
                (packet.store (hcbin.getAppData offset (min (app_len - offset) packet_len)).2)
                (min (app_len - offset) packet_len)).1 with
          | none => rw [hrec] at h; simp at h
          | some r2 =>
            rw [hrec] at h
            simp only [Option.map_some', Option.some.injEq] at h
            obtain ⟨i1, i2⟩ := ih _ _ _ _ r2 hrec
            rw [← h]
            simp only [closeCalls_append, openCalls_append, s1, s2, i1, i2]
            exact ⟨trivial, trivial⟩
    · rw [if_neg c1] at h
      cases hw : waitIntnLoop plat fuel0 0 with
      | none => rw [hw] at h; simp at h
      | some w =>
        rw [hw] at h
        simp only [Option.map_some', Option.some.injEq] at h
        obtain ⟨w1, w2, _⟩ := waitIntnLoop_events plat fuel0 0 w hw
        rw [← h]
        have e : (DfuEvent.hcbinClose :: w) = [DfuEvent.hcbinClose] ++ w := rfl
        simp only [e, closeCalls_append, openCalls_append, w1, w2]
        exact ⟨rfl, rfl⟩

/-- C40 (blob open/close pairing), where the code departs from it: every return of
`bno070_performDfu` has called the blob's `open()` exactly once, first of all; it has
called `close()` exactly once when the firmware format is valid and the DFU reset
succeeded (success, `getAppData` failure, I2C failure, NACK), and not at all on the
return for an invalid firmware format and on the return for a failed DFU reset. -/
theorem performDfu_close_pairing (fuel : Nat) (plat : DfuPlatform) (hcbin : HcBin)
    (packet0 : Mem) (r : DfuResult) (h : bno070_performDfu fuel plat hcbin packet0 = some r) :
    r.events.head? = some DfuEvent.hcbinOpen
      ∧ openCalls r.events = 1
      ∧ closeCalls r.events
        = (if hcbin.getMeta "FW-Format" ≠ some "BNO_V1" ∨ plat.resetDfuRc ≠ SH_STATUS_SUCCESS
            then 0 else 1) := by
  unfold bno070_performDfu at h
  by_cases hdev : plat.dev = 0
  · rw [if_pos hdev] at h
    cases h
  rw [if_neg hdev] at h
  simp only [] at h
  by_cases hfmt : hcbin.getMeta "FW-Format" = none ∨ hcbin.getMeta "FW-Format" ≠ some "BNO_V1"
  · rw [if_pos hfmt] at h
    simp only [Option.some.injEq] at h
    have hne : hcbin.getMeta "FW-Format" ≠ some "BNO_V1" := by
      rcases hfmt with h1 | h1
      · rw [h1]; simp
      · exact h1
    rw [← h, if_pos (Or.inl hne)]
    exact ⟨rfl, rfl, rfl⟩
  rw [if_neg hfmt] at h
  have hfmt2 : ¬ (hcbin.getMeta "FW-Format" ≠ some "BNO_V1") := fun hne => hfmt (Or.inr hne)
  by_cases hreset : plat.resetDfuRc ≠ SH_STATUS_SUCCESS
  · rw [if_pos hreset] at h
    simp only [Option.some.injEq] at h
    rw [← h, if_pos (Or.inr hreset)]
    exact ⟨rfl, rfl, rfl⟩
  rw [if_neg hreset] at h
  rw [if_neg (by tauto)]
  by_cases c1 : (dfu_send (plat.xfer 0) (write32be packet0 (hcbin.getAppLen % 2 ^ 32)) 4).1 < 0
  · rw [if_pos c1] at h
    simp only [Option.some.injEq] at h
    obtain ⟨s1, s2, _⟩ := dfu_send_events (plat.xfer 0)
      (write32be packet0 (hcbin.getAppLen % 2 ^ 32)) 4
    rw [← h]
    simp only [closeCalls_append, openCalls_append, s1, s2]
    exact ⟨rfl, rfl, rfl⟩
  rw [if_neg c1] at h
  obtain ⟨s1, s2, _⟩ := dfu_send_events (plat.xfer 0)
    (write32be packet0 (hcbin.getAppLen % 2 ^ 32)) 4
  generalize dfu_send (plat.xfer 0) (write32be packet0 (hcbin.getAppLen % 2 ^ 32)) 4 = S1
    at h s1 s2
  generalize (if hcbin.getPacketLen % 2 ^ 32 = 0 ∨ hcbin.getPacketLen % 2 ^ 32 > MAX_PACKET_LEN
    then MAX_PACKET_LEN else hcbin.getPacketLen % 2 ^ 32) = pl at h
  obtain ⟨t1, t2, _⟩ := dfu_send_events (plat.xfer 1) (S1.2.1.set 0 (pl % 256)) 1
  generalize dfu_send (plat.xfer 1) (S1.2.1.set 0 (pl % 256)) 1 = S2 at h t1 t2
  by_cases c2 : S2.1 < 0
  · rw [if_pos c2] at h
    simp only [Option.some.injEq] at h
    rw [← h]
    simp only [closeCalls_append, openCalls_append, s1, s2, t1, t2]
    exact ⟨rfl, rfl, rfl⟩
  rw [if_neg c2] at h
  cases hrec : dfuStream hcbin plat (hcbin.getAppLen % 2 ^ 32) pl fuel fuel 0 2 S2.2.1 S2.1 with
  | none => rw [hrec] at h; simp at h
  | some r2 =>
    rw [hrec] at h
    simp only [Option.map_some', Option.some.injEq] at h
    obtain ⟨i1, i2⟩ := dfuStream_close hcbin plat _ _ _ _ _ _ _ _ r2 hrec
    rw [← h]
    simp only [closeCalls_append, openCalls_append, s1, s2, t1, t2, i1, i2]
    exact ⟨rfl, rfl, rfl⟩

/-- C40 at the failing inputs: with a blob whose firmware format is not "BNO_V1" the
call returns without any `close()`; so does the call on a platform whose DFU reset
fails; a download that runs to its end closes the blob once. -/
theorem performDfu_close_pairing_witness :
    (bno070_performDfu 2 (ackPlatform (fun _ => 0x73)) (silentBlob (some "BNO_V2") 3 64)
        zeroMem).map (fun r => closeCalls r.events) = some 0
      ∧ (bno070_performDfu 2 ⟨1, -1, fun _ => ⟨0, 0, 0x73⟩, fun _ => false⟩
          (silentBlob (some "BNO_V1") 3 64) zeroMem).map (fun r => closeCalls r.events)
        = some 0
      ∧ ∀ r, bno070_performDfu 2 (ackPlatform (fun _ => 0x73))
          (silentBlob (some "BNO_V2") 3 64) zeroMem = some r → closeCalls r.events = 0 :=
  ⟨by decide, by decide, fun r h =>
    (performDfu_close_pairing 2 (ackPlatform (fun _ => 0x73)) (silentBlob (some "BNO_V2") 3 64)
      zeroMem r h).2.2.trans (by decide)⟩

/-! ## Proofs: the iterations of the streaming loop -/

theorem dfu_send_acked (o : SendOutcome) (packet : Mem) (len : Nat)
    (h : o.writeRc = SH_STATUS_SUCCESS ∧ o.readRc = SH_STATUS_SUCCESS ∧ o.ack % 256 = 0x73) :
    (dfu_send o packet len).1 = SH_STATUS_SUCCESS := by
  unfold dfu_send
  simp only []
  rw [if_neg (by rw [h.1]; simp), if_neg (by rw [h.2.1]; simp), if_neg (by rw [h.2.2]; simp)]

/-- One pass of the streaming loop when the blob and the transfers succeed: one packet is
sent and the loop goes on at the offset plus the packet size, modulo 2^32. -/
theorem dfuStream_pass (hcbin : HcBin) (plat : DfuPlatform) (appLen p fuel0 fuel offset j : Nat)
    (packet : Mem) (rc : Int) (hlt : offset < appLen)
    (hok : ∀ off len, 0 ≤ (hcbin.getAppData off len).1)
    (hxfer : ∀ j, (plat.xfer j).writeRc = SH_STATUS_SUCCESS
      ∧ (plat.xfer j).readRc = SH_STATUS_SUCCESS ∧ (plat.xfer j).ack % 256 = 0x73) :
    ∃ (packet2 : Mem) (sent : List DfuEvent), packetsSent sent = 1
      ∧ dfuStream hcbin plat appLen p fuel0 (fuel + 1) offset j packet rc
        = (dfuStream hcbin plat appLen p fuel0 fuel ((offset + p) % 2 ^ 32) (j + 1) packet2
            SH_STATUS_SUCCESS).map (fun r => ⟨r.rc, sent ++ r.events⟩) := by
  have hs := dfu_send_acked (plat.xfer j)
    (packet.store (hcbin.getAppData offset (min (appLen - offset) p)).2)
    (min (appLen - offset) p) (hxfer j)
  have hev := (dfu_send_events (plat.xfer j)
    (packet.store (hcbin.getAppData offset (min (appLen - offset) p)).2)
    (min (appLen - offset) p)).2.2 (by rw [hs])
  refine ⟨(dfu_send (plat.xfer j)
      (packet.store (hcbin.getAppData offset (min (appLen - offset) p)).2)
      (min (appLen - offset) p)).2.1,
    (dfu_send (plat.xfer j)
      (packet.store (hcbin.getAppData offset (min (appLen - offset) p)).2)
      (min (appLen - offset) p)).2.2, hev, ?_⟩
  rw [dfuStream]
  simp only []
  rw [if_pos hlt, if_neg (not_lt.mpr (hok _ _)), if_neg (by rw [hs]; exact lt_irrefl _), hs]

/-- Without a wrap of the offset the loop makes one pass for each chunk and ends. -/
theorem dfuStream_counts (hcbin : HcBin) (plat : DfuPlatform) (appLen p fuel0 : Nat)
    (tail : List DfuEvent) (hp1 : 1 ≤ p)
    (hnowrap : numChunks appLen p * p < 2 ^ 32)
    (hok : ∀ off len, 0 ≤ (hcbin.getAppData off len).1)
    (hxfer : ∀ j, (plat.xfer j).writeRc = SH_STATUS_SUCCESS
      ∧ (plat.xfer j).readRc = SH_STATUS_SUCCESS ∧ (plat.xfer j).ack % 256 = 0x73)
    (hwait : waitIntnLoop plat fuel0 0 = some tail) :
    ∀ (m i fuel j : Nat) (packet : Mem), i + m = numChunks appLen p → m < fuel →
      ∃ r, dfuStream hcbin plat appLen p fuel0 fuel (i * p) j packet SH_STATUS_SUCCESS = some r
        ∧ r.rc = SH_STATUS_SUCCESS ∧ packetsSent r.events = m := by
  intro m
  induction m with
  | zero =>
    intro i fuel j packet him hfuel
    obtain ⟨f, rfl⟩ : ∃ f, fuel = f + 1 := ⟨fuel - 1, by omega⟩
    have hge : ¬ (i * p < appLen) := by
      rw [← lt_numChunks appLen p i hp1]
      omega
    refine ⟨⟨SH_STATUS_SUCCESS, DfuEvent.hcbinClose :: tail⟩, ?_, rfl, ?_⟩
    · rw [dfuStream, if_neg hge, hwait]
      rfl
    · have := (waitIntnLoop_events plat fuel0 0 tail hwait).2.2
      unfold packetsSent at this ⊢
      rw [List.countP_cons_of_neg _ _ (by decide), this]
  | succ m ih =>
    intro i fuel j packet him hfuel
    obtain ⟨f, rfl⟩ : ∃ f, fuel = f + 1 := ⟨fuel - 1, by omega⟩
    have hlt : i * p < appLen := by
      rw [← lt_numChunks appLen p i hp1]
      omega
    obtain ⟨packet2, sent, hsent, hstep⟩ :=
      dfuStream_pass hcbin plat appLen p fuel0 f (i * p) j packet SH_STATUS_SUCCESS hlt hok hxfer
    have hle : (i + 1) * p ≤ numChunks appLen p * p := Nat.mul_le_mul_right p (by omega)
    have hoff : (i * p + p) % 2 ^ 32 = (i + 1) * p := by
      rw [Nat.add_mul, Nat.one_mul] at hle ⊢
      exact Nat.mod_eq_of_lt (by omega)
    rw [hoff] at hstep
    obtain ⟨r, hr, hrc, hcount⟩ := ih (i + 1) f (j + 1) packet2 (by omega) (by omega)
    refine ⟨⟨r.rc, sent ++ r.events⟩, ?_, hrc, ?_⟩
    · rw [hstep, hr]
      rfl
    · show packetsSent (sent ++ r.events) = m + 1
      rw [packetsSent_append, hsent, hcount]
      omega

/-- With a wrap of the offset the loop makes more passes than there are chunks. -/
theorem dfuStream_wraps (hcbin : HcBin) (plat : DfuPlatform) (appLen p fuel0 : Nat)
    (hp1 : 1 ≤ p) (hp2 : p ≤ 64) (happ : appLen < 2 ^ 32)
    (hwrap : 2 ^ 32 ≤ numChunks appLen p * p)
    (hok : ∀ off len, 0 ≤ (hcbin.getAppData off len).1)
    (hxfer : ∀ j, (plat.xfer j).writeRc = SH_STATUS_SUCCESS
      ∧ (plat.xfer j).readRc = SH_STATUS_SUCCESS ∧ (plat.xfer j).ack % 256 = 0x73) :
    ∀ (m i fuel j : Nat) (packet : Mem) (rc : Int) (r : DfuResult),
      i + m = numChunks appLen p →
      dfuStream hcbin plat appLen p fuel0 fuel ((i * p) % 2 ^ 32) j packet rc = some r →
      m < packetsSent r.events := by
  have hlast : (numChunks appLen p - 1) * p < appLen := by
    rw [← lt_numChunks appLen p _ hp1]
    have : 0 < numChunks appLen p := by
      by_contra hc
      have : numChunks appLen p = 0 := by omega
      rw [this] at hwrap
      simp at hwrap
    omega
  have hup : numChunks appLen p * p < appLen + p := by
    have e : numChunks appLen p * p = (numChunks appLen p - 1) * p + p := by
      have : 0 < numChunks appLen p := by
        by_contra hc
        have : numChunks appLen p = 0 := by omega
        rw [this] at hwrap
        simp at hwrap
      conv => lhs; rw [show numChunks appLen p = (numChunks appLen p - 1) + 1 by omega]
      rw [Nat.add_mul, Nat.one_mul]
    omega
  intro m
  induction m with
  | zero =>
    intro i fuel j packet rc r him h
    have hi : i = numChunks appLen p := by omega
    have hlt : (i * p) % 2 ^ 32 < appLen := by
      rw [hi]
      omega
    cases fuel with
    | zero => simp [dfuStream] at h
    | succ f =>
      obtain ⟨packet2, sent, hsent, hstep⟩ :=
        dfuStream_pass hcbin plat appLen p fuel0 f ((i * p) % 2 ^ 32) j packet rc hlt hok hxfer
      rw [hstep] at h
      cases hrec : dfuStream hcbin plat appLen p fuel0 f (((i * p) % 2 ^ 32 + p) % 2 ^ 32)
          (j + 1) packet2 SH_STATUS_SUCCESS with
      | none => rw [hrec] at h; simp at h
      | some r2 =>
        rw [hrec] at h
        simp only [Option.map_some', Option.some.injEq] at h
        rw [← h]
        show 0 < packetsSent (sent ++ r2.events)
        rw [packetsSent_append, hsent]
        omega
  | succ m ih =>
    intro i fuel j packet rc r him h
    have hlt0 : i * p < appLen := by
      rw [← lt_numChunks appLen p i hp1]
      omega
    have hmod : (i * p) % 2 ^ 32 = i * p := Nat.mod_eq_of_lt (by omega)
    have hlt : (i * p) % 2 ^ 32 < appLen := by rw [hmod]; exact hlt0
    cases fuel with
    | zero => simp [dfuStream] at h
    | succ f =>
      obtain ⟨packet2, sent, hsent, hstep⟩ :=
        dfuStream_pass hcbin plat appLen p fuel0 f ((i * p) % 2 ^ 32) j packet rc hlt hok hxfer
      rw [hstep] at h
      have hoff : ((i * p) % 2 ^ 32 + p) % 2 ^ 32 = ((i + 1) * p) % 2 ^ 32 := by
        rw [hmod, Nat.add_mul, Nat.one_mul]
      rw [hoff] at h
      cases hrec : dfuStream hcbin plat appLen p fuel0 f (((i + 1) * p) % 2 ^ 32)
          (j + 1) packet2 SH_STATUS_SUCCESS with
      | none => rw [hrec] at h; simp at h
      | some r2 =>
        rw [hrec] at h
        simp only [Option.map_some', Option.some.injEq] at h
        have := ih (i + 1) f (j + 1) packet2 SH_STATUS_SUCCESS r2 (by omega) hrec
        rw [← h]
        show m + 1 < packetsSent (sent ++ r2.events)
        rw [packetsSent_append, hsent]
        omega

/-- When the packet size divides 2^32 and the image is longer than 2^32 minus the packet
size, the offset comes back to 0 and the loop never ends. -/
theorem dfuStream_never_ends (hcbin : HcBin) (plat : DfuPlatform) (appLen p fuel0 : Nat)
    (hdvd : p ∣ 2 ^ 32) (hlong : 2 ^ 32 - p < appLen)
    (hok : ∀ off len, 0 ≤ (hcbin.getAppData off len).1)
    (hxfer : ∀ j, (plat.xfer j).writeRc = SH_STATUS_SUCCESS
      ∧ (plat.xfer j).readRc = SH_STATUS_SUCCESS ∧ (plat.xfer j).ack % 256 = 0x73) :
    ∀ (fuel offset j : Nat) (packet : Mem) (rc : Int), p ∣ offset → offset < 2 ^ 32 →
      dfuStream hcbin plat appLen p fuel0 fuel offset j packet rc = none := by
  intro fuel
  induction fuel with
  | zero =>
    intro offset j packet rc _ _
    simp [dfuStream]
  | succ f ih =>
    intro offset j packet rc hd hlt32
    have hsub : p ∣ 2 ^ 32 - offset := Nat.dvd_sub' hdvd hd
    have hpos : 0 < 2 ^ 32 - offset := by omega
    have hge : p ≤ 2 ^ 32 - offset := Nat.le_of_dvd hpos hsub
    have hlt : offset < appLen := by omega
    obtain ⟨packet2, sent, _, hstep⟩ :=
      dfuStream_pass hcbin plat appLen p fuel0 f offset j packet rc hlt hok hxfer
    rw [hstep, ih ((offset + p) % 2 ^ 32) (j + 1) packet2 SH_STATUS_SUCCESS
      ((Nat.dvd_mod_iff hdvd).2 (Nat.dvd_add hd (dvd_refl p))) (Nat.mod_lt _ (by decide))]
    rfl

/-- A download of an image longer than 2^32 - 64 bytes in packets of 64 never returns,
when the blob and every transfer succeed. -/
theorem performDfu_never_returns (fuel : Nat) (plat : DfuPlatform) (hcbin : HcBin)
    (packet0 : Mem) (hdev : plat.dev ≠ 0) (hfmt : hcbin.getMeta "FW-Format" = some "BNO_V1")
    (hpl : hcbin.getPacketLen = 64) (hlong : 2 ^ 32 - 64 < hcbin.getAppLen)
    (happ : hcbin.getAppLen < 2 ^ 32) (hreset : plat.resetDfuRc = SH_STATUS_SUCCESS)
    (hok : ∀ off len, 0 ≤ (hcbin.getAppData off len).1)
    (hxfer : ∀ j, (plat.xfer j).writeRc = SH_STATUS_SUCCESS
      ∧ (plat.xfer j).readRc = SH_STATUS_SUCCESS ∧ (plat.xfer j).ack % 256 = 0x73) :
    bno070_performDfu fuel plat hcbin packet0 = none := by
  obtain ⟨packet, h⟩ := performDfu_header fuel plat hcbin (List.replicate hcbin.getAppLen 0)
    packet0 hdev hfmt (by rw [List.length_replicate]) (by rw [List.length_replicate]; exact happ)
    (by rw [hpl]; decide) hreset (hxfer 0) (hxfer 1)
  have he : effPacketLen hcbin.getPacketLen = 64 := by rw [hpl]; rfl
  rw [h, List.length_replicate, he,
    dfuStream_never_ends hcbin plat hcbin.getAppLen 64 fuel (by decide) hlong hok hxfer
      fuel 0 2 packet SH_STATUS_SUCCESS (dvd_zero 64) (by decide)]
  rfl

/-- C38 (DFU streaming terminates), where the code departs from it: for every 32-bit
appLen and every packet size p in 1..64, with the blob and all transfers succeeding, the
streaming loop makes exactly ceil(appLen/p) passes and ends whenever ceil(appLen/p) * p is
below 2^32, which is so for every appLen up to 2^32 - p; when ceil(appLen/p) * p reaches
2^32 the 32-bit offset wraps to a value below appLen and every run that ends has made
more than ceil(appLen/p) passes; when moreover p divides 2^32 (so for p = 64 and appLen
above 2^32 - 64) the offset comes back to 0 and the loop never ends. -/
theorem dfuStream_iterations (hcbin : HcBin) (plat : DfuPlatform) (appLen p fuel0 : Nat)
    (tail : List DfuEvent) (hp1 : 1 ≤ p) (hp2 : p ≤ 64) (happ : appLen < 2 ^ 32)
    (hok : ∀ off len, 0 ≤ (hcbin.getAppData off len).1)
    (hxfer : ∀ j, (plat.xfer j).writeRc = SH_STATUS_SUCCESS
      ∧ (plat.xfer j).readRc = SH_STATUS_SUCCESS ∧ (plat.xfer j).ack % 256 = 0x73)
    (hwait : waitIntnLoop plat fuel0 0 = some tail) :
    (numChunks appLen p * p < 2 ^ 32 → ∀ fuel packet, numChunks appLen p < fuel →
        ∃ r, dfuStream hcbin plat appLen p fuel0 fuel 0 2 packet SH_STATUS_SUCCESS = some r
          ∧ r.rc = SH_STATUS_SUCCESS ∧ packetsSent r.events = numChunks appLen p)
      ∧ (appLen + p ≤ 2 ^ 32 → numChunks appLen p * p < 2 ^ 32)
      ∧ (2 ^ 32 ≤ numChunks appLen p * p → ∀ fuel packet r,
          dfuStream hcbin plat appLen p fuel0 fuel 0 2 packet SH_STATUS_SUCCESS = some r →
          numChunks appLen p < packetsSent r.events)
      ∧ (p ∣ 2 ^ 32 → 2 ^ 32 - p < appLen → ∀ fuel packet,
          dfuStream hcbin plat appLen p fuel0 fuel 0 2 packet SH_STATUS_SUCCESS = none) := by
  refine ⟨?_, ?_, ?_, ?_⟩
  · intro hnowrap fuel packet hfuel
    have := dfuStream_counts hcbin plat appLen p fuel0 tail hp1 hnowrap hok hxfer hwait
      (numChunks appLen p) 0 fuel 2 packet (by omega) hfuel
    rw [Nat.zero_mul] at this
    exact this
  · intro hle
    by_cases h0 : numChunks appLen p = 0
    · rw [h0, Nat.zero_mul]
      decide
    · have h1 : (numChunks appLen p - 1) * p < appLen := by
        rw [← lt_numChunks appLen p _ hp1]
        omega
      have e : numChunks appLen p * p = (numChunks appLen p - 1) * p + p := by
        conv => lhs; rw [show numChunks appLen p = (numChunks appLen p - 1) + 1 by omega]
        rw [Nat.add_mul, Nat.one_mul]
      omega
  · intro hwrap fuel packet r h
    have := dfuStream_wraps hcbin plat appLen p fuel0 hp1 hp2 happ hwrap hok hxfer
      (numChunks appLen p) 0 fuel 2 packet SH_STATUS_SUCCESS r (by omega)
    rw [Nat.zero_mul] at this
    exact this h
  · intro hdvd hlong fuel packet
    exact dfuStream_never_ends hcbin plat appLen p fuel0 hdvd hlong hok hxfer fuel 0 2 packet
      SH_STATUS_SUCCESS (dvd_zero p) (by decide)

/-- C38 at work: an image of 130 bytes in packets of 64 takes three passes; an image of
2^32 - 1 bytes in packets of 64 never ends. -/
theorem dfuStream_iterations_witness :
    (∃ r, dfuStream (silentBlob (some "BNO_V1") 130 64) (ackPlatform (fun _ => 0x73)) 130 64 1
          4 0 2 zeroMem SH_STATUS_SUCCESS = some r
        ∧ r.rc = SH_STATUS_SUCCESS ∧ packetsSent r.events = numChunks 130 64)
      ∧ numChunks 130 64 = 3
      ∧ ∀ fuel packet, dfuStream (silentBlob (some "BNO_V1") (2 ^ 32 - 1) 64)
          (ackPlatform (fun _ => 0x73)) (2 ^ 32 - 1) 64 1 fuel 0 2 packet SH_STATUS_SUCCESS
            = none :=
  ⟨(dfuStream_iterations (silentBlob (some "BNO_V1") 130 64) (ackPlatform (fun _ => 0x73))
      130 64 1 [DfuEvent.waitIntn] (by decide) (by decide) (by decide)
      (fun _ _ => le_refl 0) (fun _ => ⟨rfl, rfl, rfl⟩) rfl).1 (by decide) 4 zeroMem (by decide),
    by decide,
    (dfuStream_iterations (silentBlob (some "BNO_V1") (2 ^ 32 - 1) 64)
      (ackPlatform (fun _ => 0x73)) (2 ^ 32 - 1) 64 1 [DfuEvent.waitIntn] (by decide)
      (by decide) (by decide) (fun _ _ => le_refl 0) (fun _ => ⟨rfl, rfl, rfl⟩) rfl).2.2.2
      (by decide) (by decide)⟩

/-! ## Proofs: the IN primitive -/

/-- C31 (IN primitive): when INTN is not asserted within the wait, `shhid_in` returns
`SH_STATUS_NO_DATA` with `*reportLen` = 0, makes no I2C transfer and leaves the report
buffer as it was; when INTN is asserted it makes one read of 18 bytes, and when that read
succeeds with the little-endian length field Len it returns `SH_STATUS_ERROR_I2C_IO` for
Len < 2 and for Len > 18, leaving the report as it was, and otherwise returns success
with `*reportLen` = Len - 2 and the report equal to the bytes 2 .. Len-1 of the transfer,
the rest of the buffer as it was.  So `sh_getEventTO` on timeout returns
`SH_STATUS_NO_DATA` with the event and the statics of the decoder as they were. -/
theorem shhid_in_contract (p : Poll) (report : Mem) (reportLen : Nat) (wantTs : Bool) :
    (p.intn = true →
        shhid_in p report reportLen wantTs = ⟨SH_STATUS_NO_DATA, 0, report, none⟩
          ∧ shhid_in_i2c p = [])
      ∧ (p.intn = false → shhid_in_i2c p = [⟨[], 18⟩])
      ∧ (p.intn = false → p.i2cRc = SH_STATUS_SUCCESS →
          read16 p.buffer < 2 ∨ 18 < read16 p.buffer →
          (shhid_in p report reportLen wantTs).rc = SH_STATUS_ERROR_I2C_IO
            ∧ (shhid_in p report reportLen wantTs).report = report)
      ∧ (p.intn = false → p.i2cRc = SH_STATUS_SUCCESS →
          2 ≤ read16 p.buffer → read16 p.buffer ≤ 18 →
          (shhid_in p report reportLen wantTs).rc = SH_STATUS_SUCCESS
            ∧ (shhid_in p report reportLen wantTs).reportLen = read16 p.buffer - 2
            ∧ (∀ i, i < read16 p.buffer - 2 →
                (shhid_in p report reportLen wantTs).report i = p.buffer (i + 2))
            ∧ (∀ i, read16 p.buffer - 2 ≤ i →
                (shhid_in p report reportLen wantTs).report i = report i))
      ∧ (p.intn = true → ∀ (inReport0 : Mem) (timestamp0 : Nat) (st : DecoderState)
          (pEvent : SensorEvent),
          (sh_getEventTO p inReport0 timestamp0 st pEvent).rc = SH_STATUS_NO_DATA
            ∧ (sh_getEventTO p inReport0 timestamp0 st pEvent).event = pEvent
            ∧ (sh_getEventTO p inReport0 timestamp0 st pEvent).st = st) := by
  refine ⟨?_, ?_, ?_, ?_, ?_⟩
  · intro h
    unfold shhid_in shhid_in_i2c
    simp [h]
  · intro h
    unfold shhid_in_i2c
    simp [h]
  · intro h hrc hlen
    have hc : read16 p.buffer < 2 ∨ read16 p.buffer > 16 + 2 := by omega
    unfold shhid_in
    simp only [h, hrc, SHHID_MAX_INPUT_REPORT_LEN]
    rw [if_pos hc]
    exact ⟨rfl, rfl⟩
  · intro h hrc h2 h18
    have hc : ¬ (read16 p.buffer < 2 ∨ read16 p.buffer > 16 + 2) := by omega
    unfold shhid_in
    simp only [h, hrc, SHHID_MAX_INPUT_REPORT_LEN]
    rw [if_neg hc]
    refine ⟨rfl, rfl, ?_, ?_⟩
    · intro i hi
      show memcpy report (p.buffer.shift 2) (read16 p.buffer - 2) i = p.buffer (i + 2)
      rw [memcpy_lt _ _ _ _ hi]
      rfl
    · intro i hi
      show memcpy report (p.buffer.shift 2) (read16 p.buffer - 2) i = report i
      rw [memcpy_ge _ _ _ _ hi]
  · intro h inReport0 timestamp0 st pEvent
    unfold sh_getEventTO shhid_in
    simp [h]

/-! ## Proofs: the replies `sh_getCounts` counts -/

/-- C35 (counts completion), where the code departs from it: the request being sent with
success, `sh_getCounts` returns 0 at the second reply to its request with status byte 1,
whatever the respSeq of the two replies; each reply stores its two words by its own
respSeq (0: offered and accepted, 1: on and attempted, any other: nothing), so when
neither reply has respSeq 1 the call returns 0 with `on` and `attempted` as they were in
`*pCounts` before the call, and when neither has respSeq 0 with `offered` and `accepted`
as they were. -/
theorem getCounts_counts_any_replies (pre0 pre1 rest : List Poll) (r0 r1 : Poll)
    (inReport0 : Mem) (sh : SensorHub) (sensorId : Nat) (pCounts : Counts)
    (hpre0 : ∀ p ∈ pre0, p.isNoReply SH_CR_COUNTS sh.thisSeq = true)
    (hpre1 : ∀ p ∈ pre1, p.isNoReply SH_CR_COUNTS sh.thisSeq = true)
    (h0 : r0.isReply SH_CR_COUNTS sh.thisSeq = true)
    (h1 : r1.isReply SH_CR_COUNTS sh.thisSeq = true)
    (hs0 : r0.frame 6 % 256 = 1) (hs1 : r1.frame 6 % 256 = 1) :
    (sh_getCounts (pre0 ++ r0 :: (pre1 ++ r1 :: rest)) inReport0 0 sh sensorId pCounts).rc = 0
      ∧ (sh_getCounts (pre0 ++ r0 :: (pre1 ++ r1 :: rest)) inReport0 0 sh sensorId pCounts).out
        = storeCounts (storeCounts pCounts r0) r1
      ∧ (r0.frame 4 % 256 ≠ 1 → r1.frame 4 % 256 ≠ 1 →
          (storeCounts (storeCounts pCounts r0) r1).on_ = pCounts.on_
            ∧ (storeCounts (storeCounts pCounts r0) r1).attempted = pCounts.attempted)
      ∧ (r0.frame 4 % 256 ≠ 0 → r1.frame 4 % 256 ≠ 0 →
          (storeCounts (storeCounts pCounts r0) r1).offered = pCounts.offered
            ∧ (storeCounts (storeCounts pCounts r0) r1).accepted = pCounts.accepted) := by
  have hrun : sh_getCounts (pre0 ++ r0 :: (pre1 ++ r1 :: rest)) inReport0 0 sh sensorId pCounts
      = inLoop (fun rc v => (⟨rc, v.pCounts, sh.incr,
            [[SH_COMMAND_REQUEST, sh.thisSeq, SH_CR_COUNTS, SH_CR_COUNTS_GET, sensorId % 256]
              ++ List.replicate 7 0]⟩ : CmdResult Counts))
          (getCountsBody sh.thisSeq sh.incr
            [[SH_COMMAND_REQUEST, sh.thisSeq, SH_CR_COUNTS, SH_CR_COUNTS_GET, sensorId % 256]
              ++ List.replicate 7 0])
          (pre0 ++ r0 :: (pre1 ++ r1 :: rest)) inReport0 ⟨0, pCounts⟩ := by
    unfold sh_getCounts
    dsimp only
    rw [if_neg (by simp)]
  rw [hrun, getCountsLoop_reply _ _ _ _ pre0 _ r0 _ _ hpre0 h0, getCountsBody_reply _ _ _ _ _ _ h0,
    if_neg (by simp [hs0]), if_pos (by simp)]
  dsimp only
  rw [getCountsLoop_reply _ _ _ _ pre1 _ r1 _ _ hpre1 h1, getCountsBody_reply _ _ _ _ _ _ h1,
    if_neg (by simp [hs1]), if_neg (by simp)]
  refine ⟨rfl, rfl, ?_, ?_⟩
  · intro a b
    unfold storeCounts
    rw [if_neg b]
    by_cases c1 : r1.frame 4 % 256 = 0
    · rw [if_pos c1, if_neg a]
      by_cases c0 : r0.frame 4 % 256 = 0
      · rw [if_pos c0]
        exact ⟨rfl, rfl⟩
      · rw [if_neg c0]
        exact ⟨rfl, rfl⟩
    · rw [if_neg c1, if_neg a]
      by_cases c0 : r0.frame 4 % 256 = 0
      · rw [if_pos c0]
        exact ⟨rfl, rfl⟩
      · rw [if_neg c0]
        exact ⟨rfl, rfl⟩
  · intro a b
    unfold storeCounts
    rw [if_neg b, if_neg a]
    by_cases c1 : r1.frame 4 % 256 = 1
    · rw [if_pos c1]
      by_cases c0 : r0.frame 4 % 256 = 1
      · rw [if_pos c0]
        exact ⟨rfl, rfl⟩
      · rw [if_neg c0]
        exact ⟨rfl, rfl⟩
    · rw [if_neg c1]
      by_cases c0 : r0.frame 4 % 256 = 1
      · rw [if_pos c0]
        exact ⟨rfl, rfl⟩
      · rw [if_neg c0]
        exact ⟨rfl, rfl⟩

/-- C35 at a failing input: sensor 1, session counter 6, and two replies that both have
respSeq 0, with the words (9, 8) and (7, 6): the call returns 0 with `offered` 7,
`accepted` 6, and `on` and `attempted` still the 55 and 66 of the caller. -/
theorem getCounts_counts_any_replies_witness :
    (sh_getCounts ([] ++ reportPoll [0x88, 0, 2, 6, 0, 1, 1, 0, 9, 0, 0, 0, 8, 0, 0, 0]
        :: ([] ++ reportPoll [0x88, 1, 2, 6, 0, 1, 1, 0, 7, 0, 0, 0, 6, 0, 0, 0] :: []))
        zeroMem 0 ⟨6⟩ 1 ⟨0, 0, 55, 66⟩).rc = 0
      ∧ (sh_getCounts ([] ++ reportPoll [0x88, 0, 2, 6, 0, 1, 1, 0, 9, 0, 0, 0, 8, 0, 0, 0]
        :: ([] ++ reportPoll [0x88, 1, 2, 6, 0, 1, 1, 0, 7, 0, 0, 0, 6, 0, 0, 0] :: []))
        zeroMem 0 ⟨6⟩ 1 ⟨0, 0, 55, 66⟩).out = ⟨7, 6, 55, 66⟩ := by
  have h := getCounts_counts_any_replies [] [] []
    (reportPoll [0x88, 0, 2, 6, 0, 1, 1, 0, 9, 0, 0, 0, 8, 0, 0, 0])
    (reportPoll [0x88, 1, 2, 6, 0, 1, 1, 0, 7, 0, 0, 0, 6, 0, 0, 0]) zeroMem ⟨6⟩ 1
    ⟨0, 0, 55, 66⟩ (by decide) (by decide) (by decide) (by decide) (by decide) (by decide)
  exact ⟨h.1, h.2.1.trans (by decide)⟩

/-! ## Proofs: the data words `sh_getFrs` reads from a response -/

/-- The copy loop of `sh_getFrs` within the capacity: it stores `dataWord[n]` for every
`n` below the word count of the response. -/
theorem frsCopy_all_words (c b : Nat) (R : Mem) (hc : c < 65536) :
    ∀ (k : Nat) (v : FrsVars), b + k ≤ c →
      ((List.range k).foldl (frsCopyWord c b R) v).writes
          = v.writes ++ (List.range k).map (fun n => (b + n, frsDataWord R n))
        ∧ ((List.range k).foldl (frsCopyWord c b R) v).rc = v.rc := by
  intro k
  induction k with
  | zero =>
    intro v _
    simp
  | succ k ih =>
    intro v hb
    obtain ⟨h1, h2⟩ := ih v (by omega)
    rw [List.range_succ, List.foldl_append, List.map_append, ← List.append_assoc, ← h1]
    simp only [List.foldl_cons, List.foldl_nil, List.map_cons, List.map_nil]
    unfold frsCopyWord
    rw [if_neg (by omega)]
    simp only []
    rw [Nat.mod_eq_of_lt (by omega)]
    exact ⟨rfl, h2⟩

/-- What lies at `dataWord[2]` of a response is its `recordId` and `reserved` members;
what lies at `dataWord[n]` for `n` from 3 on is the memory behind the report. -/
theorem frsDataWord_beyond (inReport frame : Mem) :
    frsDataWord (memcpy inReport frame 16) 2 = frsRecordId frame + 65536 * read16 (frame.shift 14)
      ∧ ∀ n, 3 ≤ n → frsDataWord (memcpy inReport frame 16) n = load32 (inReport.shift (4 + 4 * n))
      := by
  constructor
  · unfold frsDataWord frsRecordId
    rw [load32_at, read16_at, read16_at]
    unfold u32At u16At
    rw [memcpy_lt _ _ _ _ (by decide), memcpy_lt _ _ _ _ (by decide),
      memcpy_lt _ _ _ _ (by decide), memcpy_lt _ _ _ _ (by decide)]
    simp only [Nat.reduceAdd, Nat.reduceMul]
    omega
  · intro n hn
    unfold frsDataWord
    rw [load32_at, load32_at]
    unfold u32At
    rw [memcpy_ge _ _ _ _ (by omega), memcpy_ge _ _ _ _ (by omega),
      memcpy_ge _ _ _ _ (by omega), memcpy_ge _ _ _ _ (by omega)]

/-- C36 (FRS read response width), where the code departs from it: from an accepted
response with the status RECORD_COMPLETED, within the capacity, `sh_getFrs` stores
`dataWord[n]` for every n below the 4-bit word count of the response, so for a word
count of 3 or more also for n from 2 on: `dataWord[2]` is the recordId and the reserved
member of the response, and `dataWord[n]` for n from 3 on is the memory behind the
16-byte report. -/
theorem getFrs_reads_all_words (p : Poll) (rest : List Poll) (inReport0 : Mem)
    (recordId : Nat) (pData : Mem) (c : Nat)
    (hp : p.isFrsReadResp (recordId % 65536) = true)
    (hst : p.frsStatus = SH_FRS_READ_RECORD_COMPLETED)
    (hcap : frsOffset p.frame % 256 + p.frsWords ≤ c) (hc : c < 65536) :
    p.frsWords ≤ 15
      ∧ (sh_getFrs (p :: rest) inReport0 recordId pData c).rc = SH_STATUS_SUCCESS
      ∧ (sh_getFrs (p :: rest) inReport0 recordId pData c).writes
        = (List.range p.frsWords).map
            (fun n => (frsOffset p.frame % 256 + n, frsDataWord (memcpy inReport0 p.frame 16) n))
      ∧ frsDataWord (memcpy inReport0 p.frame 16) 2
        = frsRecordId p.frame + 65536 * read16 (p.frame.shift 14)
      ∧ (∀ n, 3 ≤ n →
          frsDataWord (memcpy inReport0 p.frame 16) n = load32 (inReport0.shift (4 + 4 * n)))
      := by
  have hw : p.frsWords ≤ 15 := by
    unfold Poll.frsWords
    rw [Nat.and_pow_two_sub_one_eq_mod _ 4]
    omega
  have hcm : c % 65536 = c := Nat.mod_eq_of_lt hc
  have hfold := frsCopy_all_words c (frsOffset p.frame % 256) (memcpy inReport0 p.frame 16) hc
    p.frsWords ⟨SH_STATUS_SUCCESS, 0, pData, []⟩ hcap
  have hS : frsWordsStatus (memcpy inReport0 p.frame 16) &&& 0x0F = 3 := by
    rw [frsWordsStatus_memcpy]
    exact hst
  have hW : (frsWordsStatus (memcpy inReport0 p.frame 16) >>> 4) &&& 0x0F = p.frsWords := by
    rw [frsWordsStatus_memcpy]
    rfl
  have hrun : sh_getFrs (p :: rest) inReport0 recordId pData c
      = ⟨((List.range p.frsWords).foldl (frsCopyWord c (frsOffset p.frame % 256)
            (memcpy inReport0 p.frame 16)) ⟨SH_STATUS_SUCCESS, 0, pData, []⟩).rc,
          (((List.range p.frsWords).foldl (frsCopyWord c (frsOffset p.frame % 256)
            (memcpy inReport0 p.frame 16)) ⟨SH_STATUS_SUCCESS, 0, pData, []⟩).lastCopied + 1)
              % 65536,
          ((List.range p.frsWords).foldl (frsCopyWord c (frsOffset p.frame % 256)
            (memcpy inReport0 p.frame 16)) ⟨SH_STATUS_SUCCESS, 0, pData, []⟩).pData,
          ((List.range p.frsWords).foldl (frsCopyWord c (frsOffset p.frame % 256)
            (memcpy inReport0 p.frame 16)) ⟨SH_STATUS_SUCCESS, 0, pData, []⟩).writes,
          [SH_FRS_READ_REQUEST, 0, 0, 0, recordId % 65536 % 256, recordId % 65536 / 256,
            c % 256, c / 256], FrsExit.done⟩ := by
    unfold sh_getFrs
    simp only [hcm]
    rw [getFrsLoop_cons_resp _ _ _ _ _ _ _ hp]
    unfold frsHandleResp
    simp only [hS, hW, frsOffset_memcpy]
    simp
  rw [hrun]
  refine ⟨hw, hfold.2, ?_, (frsDataWord_beyond inReport0 p.frame).1,
    (frsDataWord_beyond inReport0 p.frame).2⟩
  show ((List.range p.frsWords).foldl (frsCopyWord c (frsOffset p.frame % 256)
    (memcpy inReport0 p.frame 16)) ⟨SH_STATUS_SUCCESS, 0, pData, []⟩).writes = _
  rw [hfold.1]
  rfl

/-- C36 at a failing input: a response for the record 0xE302 with the word count 3, the
offset 0 and the data words 10 and 11: `sh_getFrs` stores three words, the third one the
record id. -/
theorem getFrs_reads_all_words_witness :
    (sh_getFrs (frsReadRespPoll 0xE302 3 3 0 10 11 :: []) zeroMem 0xE302 zeroMem 72).writes
        = (List.range (frsReadRespPoll 0xE302 3 3 0 10 11).frsWords).map
            (fun n => (frsOffset (frsReadRespPoll 0xE302 3 3 0 10 11).frame % 256 + n,
              frsDataWord (memcpy zeroMem (frsReadRespPoll 0xE302 3 3 0 10 11).frame 16) n))
      ∧ (sh_getFrs (frsReadRespPoll 0xE302 3 3 0 10 11 :: []) zeroMem 0xE302 zeroMem 72).writes
        = [(0, 10), (1, 11), (2, 0xE302)] :=
  ⟨(getFrs_reads_all_words (frsReadRespPoll 0xE302 3 3 0 10 11) [] zeroMem 0xE302 zeroMem 72
      (by decide) (by decide) (by decide) (by decide)).2.2.1, by decide⟩

/-! ## Proofs: the product-ID responses `sh_getProdIds` collects -/

theorem Poll.isProdIdResp_iff (p : Poll) :
    p.isProdIdResp = true ↔ p.delivered = true ∧ p.len = 16 ∧ p.frame 0 % 256 = 0x81 := by
  simp [Poll.isProdIdResp, and_assoc]

/-- What the loop body of `sh_getProdIds` does with a product-ID response. -/
theorem getProdIdsBody_resp (sent : List (List Nat)) (r : Poll) (R : Mem) (v : ProdIdVars)
    (h : r.isProdIdResp = true) :
    getProdIdsBody sent r.len (memcpy R r.frame r.len) v
      = if v.prodIds + 1 < SH_NUM_PRODUCT_IDS then
          LoopStep.next ⟨v.prodIds + 1, fun i => if i = v.prodIds then r.productId else v.prodId i⟩
        else
          LoopStep.ret ⟨SH_STATUS_SUCCESS,
            fun i => if i = v.prodIds then r.productId else v.prodId i, sent⟩ := by
  obtain ⟨_, hl, hid⟩ := (Poll.isProdIdResp_iff r).mp h
  rw [hl]
  have h1 : (16 : Nat) = 16 ∧ memcpy R r.frame 16 0 % 256 = SH_PRODUCT_ID_RESPONSE := by
    rw [memcpy_lt _ _ _ _ (by decide), hid]
    exact ⟨rfl, rfl⟩
  have h16 : read16 ((memcpy R r.frame 16).shift 12) = u16At r.frame 12 := by
    rw [read16_at]
    unfold u16At
    rw [memcpy_lt _ _ _ _ (by decide), memcpy_lt _ _ _ _ (by decide)]
  unfold getProdIdsBody
  rw [if_pos h1, load32_report R r 4 (by decide), load32_report R r 8 (by decide), h16,
    memcpy_lt _ _ _ _ (by decide : 1 < 16), memcpy_lt _ _ _ _ (by decide : 2 < 16),
    memcpy_lt _ _ _ _ (by decide : 3 < 16)]
  rfl

theorem getProdIdsBody_skips_others (sent : List (List Nat)) :
    BodySkips (getProdIdsBody sent) Poll.isNoProdId := by
  intro p hp
  have hd : p.delivered = true ∧ p.isProdIdResp = false := by
    simpa [Poll.isNoProdId] using hp
  refine ⟨hd.1, fun R v => ?_⟩
  unfold getProdIdsBody
  by_cases h1 : p.len = 16 ∧ memcpy R p.frame p.len 0 % 256 = SH_PRODUCT_ID_RESPONSE
  · obtain ⟨hl, hid⟩ := h1
    rw [hl, memcpy_lt _ _ _ _ (by decide)] at hid
    have : p.isProdIdResp = true := (Poll.isProdIdResp_iff p).mpr ⟨hd.1, hl, hid⟩
    rw [hd.2] at this
    cases this
  · rw [if_neg h1]

/-- The loop of `sh_getProdIds` over delivered reports that hold fewer responses than are
still wanted, followed by the response that completes the four. -/
theorem getProdIdsLoop_collect (sent : List (List Nat))
    (onFail : Int → ProdIdVars → ProdIdResult) (r4 : Poll) (rest : List Poll)
    (h4 : r4.isProdIdResp = true) :
    ∀ (mid : List Poll) (R : Mem) (v : ProdIdVars),
      (∀ p ∈ mid, p.delivered = true) →
      v.prodIds + (mid.filter Poll.isProdIdResp).length = 3 →
      (inLoop onFail (getProdIdsBody sent) (mid ++ r4 :: rest) R v).rc = SH_STATUS_SUCCESS
        ∧ (inLoop onFail (getProdIdsBody sent) (mid ++ r4 :: rest) R v).sent = sent
        ∧ (∀ i e, (mid.filter Poll.isProdIdResp ++ [r4])[i]? = some e →
            (inLoop onFail (getProdIdsBody sent) (mid ++ r4 :: rest) R v).prodId (v.prodIds + i)
              = e.productId)
        ∧ (∀ i, i < v.prodIds ∨ 4 ≤ i →
            (inLoop onFail (getProdIdsBody sent) (mid ++ r4 :: rest) R v).prodId i
              = v.prodId i) := by
  intro mid
  induction mid with
  | nil =>
    intro R v _ hv
    simp only [List.filter_nil, List.length_nil, Nat.add_zero] at hv
    obtain ⟨hd, _, _⟩ := (Poll.isProdIdResp_iff r4).mp h4
    rw [List.nil_append, inLoop_cons_delivered _ _ _ _ _ _ hd, getProdIdsBody_resp _ _ _ _ h4,
      if_neg (by simp only [SH_NUM_PRODUCT_IDS]; omega)]
    refine ⟨rfl, rfl, ?_, ?_⟩
    · intro i e he
      simp only [List.filter_nil, List.nil_append] at he
      cases i with
      | zero =>
        simp only [List.getElem?_cons_zero, Option.some.injEq] at he
        rw [← he]
        simp
      | succ j => simp at he
    · intro i hi
      have hne : ¬ i = v.prodIds := by omega
      simp [hne]
  | cons p mid ih =>
    intro R v hdel hv
    have hdel2 : ∀ q ∈ mid, q.delivered = true := fun q hq => hdel q (List.mem_cons_of_mem _ hq)
    have hd : p.delivered = true := hdel p (List.mem_cons_self _ _)
    by_cases hp : p.isProdIdResp = true
    · rw [List.filter_cons_of_pos hp] at hv ⊢
      simp only [List.length_cons] at hv
      rw [List.cons_append, inLoop_cons_delivered _ _ _ _ _ _ hd,
        getProdIdsBody_resp _ _ _ _ hp, if_pos (by simp only [SH_NUM_PRODUCT_IDS]; omega)]
      dsimp only
      obtain ⟨i1, i2, i3, i4⟩ := ih (memcpy R p.frame p.len)
        ⟨v.prodIds + 1, fun i => if i = v.prodIds then p.productId else v.prodId i⟩ hdel2
        (by show v.prodIds + 1 + _ = 3; omega)
      simp only at i3 i4
      refine ⟨i1, i2, ?_, ?_⟩
      · intro i e he
        cases i with
        | zero =>
          simp only [List.cons_append, List.getElem?_cons_zero, Option.some.injEq] at he
          have hi4 := i4 v.prodIds (Or.inl (by omega))
          rw [if_pos rfl] at hi4
          rw [← he]
          exact hi4
        | succ j =>
          simp only [List.cons_append, List.getElem?_cons_succ] at he
          have := i3 j e he
          rw [← this]
          congr 1
          omega
      · intro i hi
        rw [i4 i (by omega)]
        have hne : ¬ i = v.prodIds := by omega
        simp [hne]
    · have hnr : p.isNoProdId = true := by
        simp [Poll.isNoProdId, hd, hp]
      rw [List.filter_cons_of_neg hp] at hv ⊢
      rw [List.cons_append, inLoop_skip onFail _ (getProdIdsBody_local sent) _
        (getProdIdsBody_skips_others sent) p hnr]
      exact ih R v hdel2 hv

/-- The loop of `sh_getProdIds` over delivered reports that hold fewer than the responses
still wanted, followed by a call of `shhid_in` that fails. -/
theorem getProdIdsLoop_fails (sent : List (List Nat))
    (onFail : Int → ProdIdVars → ProdIdResult) (f : Poll) (rest : List Poll)
    (hf : f.delivered = false) (hrc : ∀ rc v, (onFail rc v).rc = rc) :
    ∀ (pre : List Poll) (R : Mem) (v : ProdIdVars),
      (∀ p ∈ pre, p.delivered = true) →
      v.prodIds + (pre.filter Poll.isProdIdResp).length < 4 →
      (inLoop onFail (getProdIdsBody sent) (pre ++ f :: rest) R v).rc
        = (shhid_in f R 16 false).rc := by
  intro pre
  induction pre with
  | nil =>
    intro R v _ _
    rw [List.nil_append, inLoop_cons_failed _ _ _ _ _ _ hf, hrc]
  | cons p pre ih =>
    intro R v hdel hv
    have hdel2 : ∀ q ∈ pre, q.delivered = true := fun q hq => hdel q (List.mem_cons_of_mem _ hq)
    have hd : p.delivered = true := hdel p (List.mem_cons_self _ _)
    by_cases hp : p.isProdIdResp = true
    · rw [List.filter_cons_of_pos hp] at hv
      simp only [List.length_cons] at hv
      rw [List.cons_append, inLoop_cons_delivered _ _ _ _ _ _ hd,
        getProdIdsBody_resp _ _ _ _ hp, if_pos (by simp only [SH_NUM_PRODUCT_IDS]; omega)]
      simp only []
      rw [ih (memcpy R p.frame p.len) _ hdel2 (by show v.prodIds + 1 + _ < 4; omega)]
      exact shhid_in_rc_indep f _ _
    · have hnr : p.isNoProdId = true := by
        simp [Poll.isNoProdId, hd, hp]
      rw [List.filter_cons_of_neg hp] at hv
      rw [List.cons_append, inLoop_skip onFail _ (getProdIdsBody_local sent) _
        (getProdIdsBody_skips_others sent) p hnr]
      exact ih R v hdel2 hv

/-- C32 (product-ID collection): the request being sent with success, on every stream of
delivered reports up to its fourth 16-byte report with reportId 0x81, whatever follows,
`sh_getProdIds` returns success with `prodId[i]`, i = 0..3, holding resetCause,
swVersionMajor, swVersionMinor, swPartNumber, swBuildNumber and swVersionPatch of the
i-th such report in the order of arrival, the other reports having no part in it, and
with the rest of `prodId` as it was; when a call of `shhid_in` fails before the fourth
such report, its failure status is returned. -/
theorem getProdIds_collects (mid rest : List Poll) (r4 : Poll) (inReport0 : Mem)
    (prodId : Nat → ProductId)
    (hdel : ∀ p ∈ mid, p.delivered = true)
    (h3 : (mid.filter Poll.isProdIdResp).length = 3)
    (h4 : r4.isProdIdResp = true) :
    (sh_getProdIds (mid ++ r4 :: rest) inReport0 0 prodId).rc = SH_STATUS_SUCCESS
      ∧ (∀ i e, (mid.filter Poll.isProdIdResp ++ [r4])[i]? = some e →
          (sh_getProdIds (mid ++ r4 :: rest) inReport0 0 prodId).prodId i = e.productId)
      ∧ (∀ i, 4 ≤ i → (sh_getProdIds (mid ++ r4 :: rest) inReport0 0 prodId).prodId i = prodId i)
      ∧ (∀ (pre rest2 : List Poll) (f : Poll), (∀ p ∈ pre, p.delivered = true) →
          (pre.filter Poll.isProdIdResp).length < 4 → f.delivered = false →
          (sh_getProdIds (pre ++ f :: rest2) inReport0 0 prodId).rc
              = (shhid_in f inReport0 16 false).rc
            ∧ (shhid_in f inReport0 16 false).rc ≠ SH_STATUS_SUCCESS) := by
  have hrun : ∀ polls, sh_getProdIds polls inReport0 0 prodId
      = inLoop (fun rc v => (⟨rc, v.prodId, [[SH_PRODUCT_ID_REQUEST, 0]]⟩ : ProdIdResult))
          (getProdIdsBody [[SH_PRODUCT_ID_REQUEST, 0]]) polls inReport0 ⟨0, prodId⟩ := by
    intro polls
    unfold sh_getProdIds
    dsimp only
    rw [if_neg (by simp)]
  obtain ⟨c1, _, c3, c4⟩ := getProdIdsLoop_collect [[SH_PRODUCT_ID_REQUEST, 0]]
    (fun rc v => (⟨rc, v.prodId, [[SH_PRODUCT_ID_REQUEST, 0]]⟩ : ProdIdResult)) r4 rest h4 mid
    inReport0 ⟨0, prodId⟩ hdel (by show 0 + _ = 3; omega)
  refine ⟨?_, ?_, ?_, ?_⟩
  · rw [hrun]
    exact c1
  · intro i e he
    rw [hrun]
    have := c3 i e he
    simp only [Nat.zero_add] at this
    exact this
  · intro i hi
    rw [hrun]
    exact c4 i (Or.inr hi)
  · intro pre rest2 f hdel2 hlt hf
    rw [hrun]
    exact ⟨getProdIdsLoop_fails _ _ f rest2 hf (fun _ _ => rfl) pre inReport0 ⟨0, prodId⟩ hdel2
      (by show 0 + _ < 4; omega), shhid_in_failed f inReport0 hf⟩

/-- C32 at work: four product-ID responses with a sensor event between them, and a fifth
response behind: the four records are those of the first four responses. -/
theorem getProdIds_collects_witness :
    (sh_getProdIds ([prodIdPoll 1 3 2 100 200 7, sensorEventPoll 5, prodIdPoll 0 1 0 101 201 8,
          prodIdPoll 0 1 1 102 202 9] ++ prodIdPoll 0 1 2 103 203 10
          :: [prodIdPoll 9 9 9 9 9 9]) zeroMem 0 (fun _ => ⟨0, 0, 0, 0, 0, 0⟩)).rc
        = SH_STATUS_SUCCESS
      ∧ (List.range 4).map (sh_getProdIds ([prodIdPoll 1 3 2 100 200 7, sensorEventPoll 5,
          prodIdPoll 0 1 0 101 201 8, prodIdPoll 0 1 1 102 202 9] ++ prodIdPoll 0 1 2 103 203 10
          :: [prodIdPoll 9 9 9 9 9 9]) zeroMem 0 (fun _ => ⟨0, 0, 0, 0, 0, 0⟩)).prodId
        = [⟨1, 3, 2, 100, 200, 7⟩, ⟨0, 1, 0, 101, 201, 8⟩, ⟨0, 1, 1, 102, 202, 9⟩,
            ⟨0, 1, 2, 103, 203, 10⟩] :=
  ⟨(getProdIds_collects [prodIdPoll 1 3 2 100 200 7, sensorEventPoll 5,
      prodIdPoll 0 1 0 101 201 8, prodIdPoll 0 1 1 102 202 9] [prodIdPoll 9 9 9 9 9 9]
      (prodIdPoll 0 1 2 103 203 10) zeroMem (fun _ => ⟨0, 0, 0, 0, 0, 0⟩) (by decide)
      (by decide) (by decide)).1, by decide⟩

/-! ## Proofs: sensor metadata -/

theorem shr_and_ff (x s : Nat) : (x >>> s) &&& 0xFF = x / 2 ^ s % 256 := by
  rw [Nat.shiftRight_eq_div_pow]
  exact Nat.and_pow_two_sub_one_eq_mod _ 8

theorem shr_and_ffff (x s : Nat) : (x >>> s) &&& 0xFFFF = x / 2 ^ s % 65536 := by
  rw [Nat.shiftRight_eq_div_pow]
  exact Nat.and_pow_two_sub_one_eq_mod _ 16

/-- The fields `populateMetadata` fills from the words 0..6, whatever it returns. -/
theorem populateMetadata_header (f : Mem) (md : SensorMetadata) :
    (populateMetadata f md).md.meVersion = f 0 % 2 ^ 32 % 256
      ∧ (populateMetadata f md).md.mhVersion = f 0 % 2 ^ 32 / 2 ^ 8 % 256
      ∧ (populateMetadata f md).md.shVersion = f 0 % 2 ^ 32 / 2 ^ 16 % 256
      ∧ (populateMetadata f md).md.range = f 1 % 2 ^ 32
      ∧ (populateMetadata f md).md.resolution = f 2 % 2 ^ 32
      ∧ (populateMetadata f md).md.power_mA = f 3 % 2 ^ 32 % 65536
      ∧ (populateMetadata f md).md.revision = f 3 % 2 ^ 32 / 2 ^ 16 % 65536
      ∧ (populateMetadata f md).md.minPeriod_uS = f 4 % 2 ^ 32
      ∧ (populateMetadata f md).md.fifoMax = f 5 % 2 ^ 32 % 65536
      ∧ (populateMetadata f md).md.fifoReserved = f 5 % 2 ^ 32 / 2 ^ 16 % 65536
      ∧ (populateMetadata f md).md.batchBufferBytes = f 6 % 2 ^ 32 % 65536
      ∧ (populateMetadata f md).md.vendorIdLen = f 6 % 2 ^ 32 / 2 ^ 16 % 65536 := by
  unfold populateMetadata
  simp only [shr_and_ff, shr_and_ffff, pow_zero, Nat.div_one]
  split_ifs <;> exact ⟨rfl, rfl, rfl, rfl, rfl, rfl, rfl, rfl, rfl, rfl, rfl, rfl⟩

/-- When `populateMetadata` succeeds and when it rejects. -/
theorem populateMetadata_rc (f : Mem) (md : SensorMetadata) :
    (populateMetadata f md).rc
      = if f 6 % 2 ^ 32 / 2 ^ 16 % 65536 > 48 then SH_STATUS_BAD_PARAM
        else if f 3 % 2 ^ 32 / 2 ^ 16 % 65536 = 2 ∧ f 8 % 2 ^ 32 % 65536 > 48 then
          SH_STATUS_BAD_PARAM
        else SH_STATUS_SUCCESS := by
  unfold populateMetadata
  simp only [shr_and_ff, shr_and_ffff, pow_zero, Nat.div_one]
  split_ifs <;> first | rfl | omega

/-- The byte counts of the copies `populateMetadata` makes. -/
theorem populateMetadata_copies (f : Mem) (md : SensorMetadata) :
    ((populateMetadata f md).rc = SH_STATUS_BAD_PARAM →
        (populateMetadata f md).vendorCopy = none ∧ (populateMetadata f md).specificCopy = none)
      ∧ (∀ n, (populateMetadata f md).vendorCopy = some n →
          n ≤ 48 ∧ n = (populateMetadata f md).md.vendorIdLen)
      ∧ (∀ n, (populateMetadata f md).specificCopy = some n →
          n ≤ 48 ∧ n = (populateMetadata f md).md.sensorSpecificLen) := by
  unfold populateMetadata
  simp only [shr_and_ff, shr_and_ffff, pow_zero, Nat.div_one]
  split_ifs <;> simp <;> omega

/-- The words 0..6 are read by every run of `populateMetadata`. -/
theorem populateMetadata_reads (f : Mem) (md : SensorMetadata) (i : Nat) (hi : i < 7) :
    i ∈ (populateMetadata f md).wordsRead := by
  have h : i ∈ [0, 1, 2, 3, 4, 5, 6] := by
    simp only [List.mem_cons, List.mem_singleton, List.not_mem_nil, or_false]
    omega
  unfold populateMetadata
  simp only []
  split_ifs <;> simp only [List.mem_append, List.append_assoc] <;> first | exact h | exact Or.inl h

/-- The revision-specific fields after a successful `populateMetadata`. -/
theorem populateMetadata_extended (f : Mem) (md : SensorMetadata)
    (hrc : (populateMetadata f md).rc = SH_STATUS_SUCCESS) :
    ((populateMetadata f md).md.revision = 0 →
        ∀ k, k < (populateMetadata f md).md.vendorIdLen →
          (populateMetadata f md).md.vendorId k = wordBytes (fun i => f i % 2 ^ 32) (4 * 7 + k))
      ∧ ((populateMetadata f md).md.revision = 1 →
          (populateMetadata f md).md.qPoint1 = f 7 % 2 ^ 32 % 65536
          ∧ (populateMetadata f md).md.qPoint2 = f 7 % 2 ^ 32 / 2 ^ 16 % 65536
          ∧ ∀ k, k < (populateMetadata f md).md.vendorIdLen →
            (populateMetadata f md).md.vendorId k
              = wordBytes (fun i => f i % 2 ^ 32) (4 * 8 + k))
      ∧ ((populateMetadata f md).md.revision = 2 →
          (populateMetadata f md).md.qPoint1 = f 7 % 2 ^ 32 % 65536
          ∧ (populateMetadata f md).md.qPoint2 = f 7 % 2 ^ 32 / 2 ^ 16 % 65536
          ∧ (populateMetadata f md).md.sensorSpecificLen = f 8 % 2 ^ 32 % 65536
          ∧ (∀ k, k < (populateMetadata f md).md.sensorSpecificLen →
              (populateMetadata f md).md.sensorSpecific k
                = wordBytes (fun i => f i % 2 ^ 32) (4 * 9 + k))
          ∧ ∀ k, k < (populateMetadata f md).md.vendorIdLen →
            (populateMetadata f md).md.vendorId k
              = wordBytes (fun i => f i % 2 ^ 32)
                  (4 * (9 + ((populateMetadata f md).md.sensorSpecificLen + 3) / 4) + k))
      ∧ (3 ≤ (populateMetadata f md).md.revision →
          (populateMetadata f md).md.qPoint1 = md.qPoint1
          ∧ (populateMetadata f md).md.qPoint2 = md.qPoint2
          ∧ (populateMetadata f md).md.sensorSpecificLen = md.sensorSpecificLen
          ∧ (populateMetadata f md).md.sensorSpecific = md.sensorSpecific) := by
  unfold populateMetadata at hrc ⊢
  simp only [shr_and_ff, shr_and_ffff, pow_zero, Nat.div_one] at hrc ⊢
  split_ifs at hrc ⊢ with h1 h2 h3 h4 h5
  · exact absurd (show SH_STATUS_BAD_PARAM = SH_STATUS_SUCCESS from hrc) (by decide)
  · refine ⟨fun _ k hk => ?_, fun h => ?_, fun h => ?_, fun h => ?_⟩
    · simp only [memcpy, Mem.shift] at hk ⊢
      rw [if_pos hk, Nat.add_comm]
    · simp only [] at h; omega
    · simp only [] at h; omega
    · simp only [] at h; omega
  · refine ⟨fun h => ?_, fun _ => ⟨rfl, rfl, fun k hk => ?_⟩, fun h => ?_, fun h => ?_⟩
    · simp only [] at h; omega
    · simp only [memcpy, Mem.shift] at hk ⊢
      rw [if_pos hk, Nat.add_comm]
    · simp only [] at h; omega
    · simp only [] at h; omega
  · exact absurd (show SH_STATUS_BAD_PARAM = SH_STATUS_SUCCESS from hrc) (by decide)
  · refine ⟨fun h => ?_, fun h => ?_, fun _ => ⟨rfl, rfl, rfl, fun k hk => ?_, fun k hk => ?_⟩,
      fun h => ?_⟩
    · simp only [] at h; omega
    · simp only [] at h; omega
    · simp only [memcpy, Mem.shift] at hk ⊢
      rw [if_pos hk, Nat.add_comm]
    · simp only [memcpy, Mem.shift] at hk ⊢
      rw [if_pos hk, Nat.add_comm]
    · simp only [] at h; omega
  · refine ⟨fun h => ?_, fun h => ?_, fun h => ?_, fun _ => ⟨rfl, rfl, rfl, rfl⟩⟩
    · simp only [] at h; omega
    · simp only [] at h; omega
    · simp only [] at h; omega

theorem getMetadata_unknown (polls : List Poll) (inReport0 frsData0 : Mem) (sensorId : Nat)
    (md : SensorMetadata) (h : metadataRecordId sensorId = none) :
    sh_getMetadata polls inReport0 frsData0 sensorId (some md)
      = ⟨SH_STATUS_BAD_PARAM, some md, none, [], none, none⟩ := by
  unfold metadataRecordId at h
  rw [Option.map_eq_none'] at h
  unfold sh_getMetadata
  simp only [h]

/-- The run of `sh_getMetadata` for a sensor of the table: the fetch, then the unpacking. -/
theorem getMetadata_fetch (polls : List Poll) (inReport0 frsData0 : Mem) (sensorId rid : Nat)
    (md : SensorMetadata) (h : metadataRecordId sensorId = some rid) :
    sh_getMetadata polls inReport0 frsData0 sensorId (some md)
      = if (sh_getFrs polls inReport0 rid frsData0 MAX_FRS_WORDS).rc ≠ 0 then
          ⟨(sh_getFrs polls inReport0 rid frsData0 MAX_FRS_WORDS).rc, some md,
            some (sh_getFrs polls inReport0 rid frsData0 MAX_FRS_WORDS), [], none, none⟩
        else
          ⟨(populateMetadata (sh_getFrs polls inReport0 rid frsData0 MAX_FRS_WORDS).pData md).rc,
            some (populateMetadata (sh_getFrs polls inReport0 rid frsData0 MAX_FRS_WORDS).pData
              md).md,
            some (sh_getFrs polls inReport0 rid frsData0 MAX_FRS_WORDS),
            (populateMetadata (sh_getFrs polls inReport0 rid frsData0 MAX_FRS_WORDS).pData
              md).wordsRead,
            (populateMetadata (sh_getFrs polls inReport0 rid frsData0 MAX_FRS_WORDS).pData
              md).vendorCopy,
            (populateMetadata (sh_getFrs polls inReport0 rid frsData0 MAX_FRS_WORDS).pData
              md).specificCopy⟩ := by
  unfold metadataRecordId at h
  obtain ⟨entry, hfind, he⟩ := Option.map_eq_some'.mp h
  unfold sh_getMetadata
  simp only [hfind]
  rw [he]

/-- A fetch that succeeded hands the array to the unpacking. -/
theorem getMetadata_fetched (polls : List Poll) (inReport0 frsData0 : Mem) (sensorId rid : Nat)
    (md : SensorMetadata) (h : metadataRecordId sensorId = some rid)
    (hfrs : (sh_getFrs polls inReport0 rid frsData0 MAX_FRS_WORDS).rc = 0) :
    sh_getMetadata polls inReport0 frsData0 sensorId (some md)
      = ⟨(populateMetadata (sh_getFrs polls inReport0 rid frsData0 MAX_FRS_WORDS).pData md).rc,
          some (populateMetadata (sh_getFrs polls inReport0 rid frsData0 MAX_FRS_WORDS).pData
            md).md,
          some (sh_getFrs polls inReport0 rid frsData0 MAX_FRS_WORDS),
          (populateMetadata (sh_getFrs polls inReport0 rid frsData0 MAX_FRS_WORDS).pData
            md).wordsRead,
          (populateMetadata (sh_getFrs polls inReport0 rid frsData0 MAX_FRS_WORDS).pData
            md).vendorCopy,
          (populateMetadata (sh_getFrs polls inReport0 rid frsData0 MAX_FRS_WORDS).pData
            md).specificCopy⟩ := by
  rw [getMetadata_fetch polls inReport0 frsData0 sensorId rid md h, if_neg (not_not.mpr hfrs)]

/-- A run of `sh_getMetadata` that returns success has fetched the record. -/
theorem getMetadata_success_fetched (polls : List Poll) (inReport0 frsData0 : Mem)
    (sensorId rid : Nat) (md : SensorMetadata) (h : metadataRecordId sensorId = some rid)
    (hrc : (sh_getMetadata polls inReport0 frsData0 sensorId (some md)).rc = SH_STATUS_SUCCESS) :
    (sh_getFrs polls inReport0 rid frsData0 MAX_FRS_WORDS).rc = 0 := by
  by_contra hne
  rw [getMetadata_fetch polls inReport0 frsData0 sensorId rid md h, if_pos hne] at hrc
  exact hne hrc

/-- C33: for a sensor of the table whose record `rid` was fetched into the words `w`, a
successful `sh_getMetadata` leaves in the caller's structure: the three versions from
bytes 0, 1, 2 of `w[0]`, range `w[1]`, resolution `w[2]`, power and revision from the
halves of `w[3]`, the minimum period `w[4]`, fifoMax and fifoReserved from the halves of
`w[5]`, batchBufferBytes and vendorIdLen from the halves of `w[6]`; for revision 0 the
vendor id bytes from word 7 on; for revision 1 the Q points from `w[7]` and the vendor id
from word 8 on; for revision 2 also sensorSpecificLen from `w[8]`, the sensor-specific
bytes from word 9 on and the vendor id from word 9 + ceil(sensorSpecificLen / 4) on; for
any other revision the Q points, sensorSpecificLen and sensorSpecific as they were. -/
theorem getMetadata_unpacks (polls : List Poll) (inReport0 frsData0 : Mem)
    (sensorId rid : Nat) (md : SensorMetadata) (w : Mem)
    (hrid : metadataRecordId sensorId = some rid)
    (hw : w = fetchedWords polls inReport0 frsData0 rid)
    (hrc : (sh_getMetadata polls inReport0 frsData0 sensorId (some md)).rc = SH_STATUS_SUCCESS) :
    ∃ out, (sh_getMetadata polls inReport0 frsData0 sensorId (some md)).pData = some out
      ∧ out.meVersion = w 0 % 256
      ∧ out.mhVersion = w 0 / 2 ^ 8 % 256
      ∧ out.shVersion = w 0 / 2 ^ 16 % 256
      ∧ out.range = w 1
      ∧ out.resolution = w 2
      ∧ out.power_mA = w 3 % 2 ^ 16
      ∧ out.revision = w 3 / 2 ^ 16
      ∧ out.minPeriod_uS = w 4
      ∧ out.fifoMax = w 5 % 2 ^ 16
      ∧ out.fifoReserved = w 5 / 2 ^ 16
      ∧ out.batchBufferBytes = w 6 % 2 ^ 16
      ∧ out.vendorIdLen = w 6 / 2 ^ 16
      ∧ (out.revision = 0 → ∀ k, k < out.vendorIdLen → out.vendorId k = wordBytes w (4 * 7 + k))
      ∧ (out.revision = 1 →
          out.qPoint1 = w 7 % 2 ^ 16 ∧ out.qPoint2 = w 7 / 2 ^ 16
          ∧ ∀ k, k < out.vendorIdLen → out.vendorId k = wordBytes w (4 * 8 + k))
      ∧ (out.revision = 2 →
          out.qPoint1 = w 7 % 2 ^ 16 ∧ out.qPoint2 = w 7 / 2 ^ 16
          ∧ out.sensorSpecificLen = w 8 % 2 ^ 16
          ∧ (∀ k, k < out.sensorSpecificLen → out.sensorSpecific k = wordBytes w (4 * 9 + k))
          ∧ ∀ k, k < out.vendorIdLen →
              out.vendorId k = wordBytes w (4 * (9 + (out.sensorSpecificLen + 3) / 4) + k))
      ∧ (3 ≤ out.revision →
          out.qPoint1 = md.qPoint1 ∧ out.qPoint2 = md.qPoint2
          ∧ out.sensorSpecificLen = md.sensorSpecificLen
          ∧ out.sensorSpecific = md.sensorSpecific) := by
  have hfrs := getMetadata_success_fetched polls inReport0 frsData0 sensorId rid md hrid hrc
  rw [getMetadata_fetched polls inReport0 frsData0 sensorId rid md hrid hfrs] at hrc ⊢
  simp only [] at hrc
  obtain ⟨a1, a2, a3, a4, a5, a6, a7, a8, a9, a10, a11, a12⟩ :=
    populateMetadata_header (sh_getFrs polls inReport0 rid frsData0 MAX_FRS_WORDS).pData md
  obtain ⟨r0, r1, r2, r3⟩ :=
    populateMetadata_extended (sh_getFrs polls inReport0 rid frsData0 MAX_FRS_WORDS).pData md hrc
  have hwi : ∀ i, w i = (sh_getFrs polls inReport0 rid frsData0 MAX_FRS_WORDS).pData i % 2 ^ 32 :=
    fun i => by rw [hw]; rfl
  have hwf : (fun i => (sh_getFrs polls inReport0 rid frsData0 MAX_FRS_WORDS).pData i % 2 ^ 32)
      = w := by rw [hw]; rfl
  rw [hwf] at r0 r1 r2
  simp only [← hwi] at a1 a2 a3 a4 a5 a6 a7 a8 a9 a10 a11 a12 r1 r2
  have hlt : ∀ i, w i < 2 ^ 32 := fun i => by rw [hwi]; exact Nat.mod_lt _ (by decide)
  have h3 := hlt 3
  have h5 := hlt 5
  have h6 := hlt 6
  have h7 := hlt 7
  refine ⟨_, rfl, a1, a2, a3, a4, a5, a6, ?_, a8, a9, ?_, a11, ?_, r0, ?_, ?_, r3⟩
  · rw [a7]; omega
  · rw [a10]; omega
  · rw [a12]; omega
  · intro h
    obtain ⟨q1, q2, q3⟩ := r1 h
    exact ⟨q1, by rw [q2]; omega, q3⟩
  · intro h
    obtain ⟨q1, q2, q3, q4, q5⟩ := r2 h
    exact ⟨q1, by rw [q2]; omega, q3, q4, q5⟩

/-- C33 at an input: the twelve-word record of revision 2 delivered for `SH_ACCELEROMETER`
is accepted and unpacked into versions 1.2.3, range 100, vendorIdLen 4, Q points 12 and 14,
five sensor-specific bytes, and the vendor id read from word 11. -/
theorem getMetadata_unpacks_witness :
    metadataRecordId SH_ACCELEROMETER = some 0xE302
      ∧ (sh_getMetadata exampleRecordPolls zeroMem zeroMem SH_ACCELEROMETER
          (some exampleMetadata0)).rc = SH_STATUS_SUCCESS
      ∧ ∃ out, (sh_getMetadata exampleRecordPolls zeroMem zeroMem SH_ACCELEROMETER
          (some exampleMetadata0)).pData = some out
        ∧ out.meVersion = 1 ∧ out.mhVersion = 2 ∧ out.shVersion = 3 ∧ out.range = 100
        ∧ out.revision = 2 ∧ out.vendorIdLen = 4 ∧ out.qPoint1 = 12 ∧ out.qPoint2 = 14
        ∧ out.sensorSpecificLen = 5
        ∧ out.vendorId 0 = 0x42 := by
  refine ⟨by decide, by decide, ?_⟩
  obtain ⟨out, ho, b1, b2, b3, b4, _, _, b7, _, _, _, _, b12, _, _, r2, _⟩ :=
    getMetadata_unpacks exampleRecordPolls zeroMem zeroMem SH_ACCELEROMETER 0xE302
      exampleMetadata0 (fetchedWords exampleRecordPolls zeroMem zeroMem 0xE302)
      (by decide) rfl (by decide)
  have e0 : fetchedWords exampleRecordPolls zeroMem zeroMem 0xE302 0 = 0x00030201 := by decide
  have e1 : fetchedWords exampleRecordPolls zeroMem zeroMem 0xE302 1 = 100 := by decide
  have e3 : fetchedWords exampleRecordPolls zeroMem zeroMem 0xE302 3 = 0x00020400 := by decide
  have e6 : fetchedWords exampleRecordPolls zeroMem zeroMem 0xE302 6 = 0x00040040 := by decide
  have e7 : fetchedWords exampleRecordPolls zeroMem zeroMem 0xE302 7 = 0x000E000C := by decide
  have e8 : fetchedWords exampleRecordPolls zeroMem zeroMem 0xE302 8 = 5 := by decide
  have e11 : fetchedWords exampleRecordPolls zeroMem zeroMem 0xE302 11 = 0x214F4E42 := by
    decide
  rw [e0] at b1 b2 b3
  rw [e1] at b4
  rw [e3] at b7
  rw [e6] at b12
  obtain ⟨q1, q2, q3, _, q5⟩ := r2 b7
  rw [e7] at q1 q2
  rw [e8] at q3
  have hv := q5 0 (by rw [b12]; decide)
  rw [q3] at hv
  refine ⟨out, ho, b1, b2, b3, b4, b7, b12, q1, q2, q3, ?_⟩
  rw [hv]
  show (fetchedWords exampleRecordPolls zeroMem zeroMem 0xE302 11 % 2 ^ 32) / 2 ^ (8 * 0) % 256
    = 0x42
  rw [e11]
  decide


/-- C34: `sh_getMetadata` returns `SH_STATUS_BAD_PARAM` without calling `sh_getFrs` for a
null `pData` and for a sensor id without an entry in the table, `SH_SAR` being one; for a
fetched record whose vendorIdLen (high half of word 6) exceeds 48, and for a fetched
record of revision 2 whose sensorSpecificLen (low half of word 8) exceeds 48, it returns
`SH_STATUS_BAD_PARAM` and makes no copy; a copy it makes into either array never has
more than 48 bytes. -/
theorem getMetadata_rejections (polls : List Poll) (inReport0 frsData0 : Mem)
    (sensorId : Nat) (md : SensorMetadata) :
    ((sh_getMetadata polls inReport0 frsData0 sensorId none).rc = SH_STATUS_BAD_PARAM
        ∧ (sh_getMetadata polls inReport0 frsData0 sensorId none).frs.isNone = true
        ∧ (sh_getMetadata polls inReport0 frsData0 sensorId none).vendorCopy = none
        ∧ (sh_getMetadata polls inReport0 frsData0 sensorId none).specificCopy = none)
      ∧ (metadataRecordId sensorId = none →
          (sh_getMetadata polls inReport0 frsData0 sensorId (some md)).rc = SH_STATUS_BAD_PARAM
          ∧ (sh_getMetadata polls inReport0 frsData0 sensorId (some md)).frs.isNone = true
          ∧ (sh_getMetadata polls inReport0 frsData0 sensorId (some md)).vendorCopy = none
          ∧ (sh_getMetadata polls inReport0 frsData0 sensorId (some md)).specificCopy = none)
      ∧ metadataRecordId SH_SAR = none
      ∧ (∀ rid, metadataRecordId sensorId = some rid →
          (sh_getFrs polls inReport0 rid frsData0 MAX_FRS_WORDS).rc = 0 →
          (fetchedWords polls inReport0 frsData0 rid 6 / 2 ^ 16 > 48
              ∨ (fetchedWords polls inReport0 frsData0 rid 3 / 2 ^ 16 = 2
                  ∧ fetchedWords polls inReport0 frsData0 rid 8 % 2 ^ 16 > 48)) →
          (sh_getMetadata polls inReport0 frsData0 sensorId (some md)).rc = SH_STATUS_BAD_PARAM
          ∧ (sh_getMetadata polls inReport0 frsData0 sensorId (some md)).vendorCopy = none
          ∧ (sh_getMetadata polls inReport0 frsData0 sensorId (some md)).specificCopy = none)
      ∧ (∀ n, (sh_getMetadata polls inReport0 frsData0 sensorId (some md)).vendorCopy = some n →
          n ≤ 48)
      ∧ (∀ n, (sh_getMetadata polls inReport0 frsData0 sensorId (some md)).specificCopy
          = some n → n ≤ 48) := by
  have hcopies : ∀ n,
      ((sh_getMetadata polls inReport0 frsData0 sensorId (some md)).vendorCopy = some n → n ≤ 48)
      ∧ ((sh_getMetadata polls inReport0 frsData0 sensorId (some md)).specificCopy = some n →
          n ≤ 48) := by
    intro n
    cases hm : metadataRecordId sensorId with
    | none =>
      rw [getMetadata_unknown polls inReport0 frsData0 sensorId md hm]
      exact ⟨fun h => Option.noConfusion h, fun h => Option.noConfusion h⟩
    | some rid =>
      rw [getMetadata_fetch polls inReport0 frsData0 sensorId rid md hm]
      by_cases hf : (sh_getFrs polls inReport0 rid frsData0 MAX_FRS_WORDS).rc ≠ 0
      · rw [if_pos hf]
        exact ⟨fun h => Option.noConfusion h, fun h => Option.noConfusion h⟩
      · rw [if_neg hf]
        obtain ⟨_, hv, hs⟩ := populateMetadata_copies
          (sh_getFrs polls inReport0 rid frsData0 MAX_FRS_WORDS).pData md
        exact ⟨fun h => (hv n h).1, fun h => (hs n h).1⟩
  refine ⟨⟨rfl, rfl, rfl, rfl⟩, fun hm => ?_, by decide, fun rid hm hfrs hbig => ?_,
    fun n => (hcopies n).1, fun n => (hcopies n).2⟩
  · rw [getMetadata_unknown polls inReport0 frsData0 sensorId md hm]
    exact ⟨rfl, rfl, rfl, rfl⟩
  · rw [getMetadata_fetched polls inReport0 frsData0 sensorId rid md hm hfrs]
    have hrc : (populateMetadata (sh_getFrs polls inReport0 rid frsData0 MAX_FRS_WORDS).pData
        md).rc = SH_STATUS_BAD_PARAM := by
      rw [populateMetadata_rc]
      simp only [fetchedWords] at hbig
      by_cases hv : (sh_getFrs polls inReport0 rid frsData0 MAX_FRS_WORDS).pData 6 % 2 ^ 32
          / 2 ^ 16 % 65536 > 48
      · rw [if_pos hv]
      · rw [if_neg hv, if_pos (by omega)]
    exact ⟨hrc, (populateMetadata_copies _ md).1 hrc⟩

/-- C34 at an input: a record for `SH_ACCELEROMETER` whose word 6 announces a vendor id of
49 bytes is rejected and nothing is copied. -/
theorem getMetadata_rejections_witness :
    (sh_getMetadata (frsReadRespPoll 0xE302 2 3 6 (49 * 65536) 0 :: []) zeroMem zeroMem
        SH_ACCELEROMETER (some exampleMetadata0)).rc = SH_STATUS_BAD_PARAM
      ∧ (sh_getMetadata (frsReadRespPoll 0xE302 2 3 6 (49 * 65536) 0 :: []) zeroMem zeroMem
        SH_ACCELEROMETER (some exampleMetadata0)).vendorCopy = none
      ∧ (sh_getMetadata (frsReadRespPoll 0xE302 2 3 6 (49 * 65536) 0 :: []) zeroMem zeroMem
        SH_ACCELEROMETER (some exampleMetadata0)).specificCopy = none :=
  (getMetadata_rejections (frsReadRespPoll 0xE302 2 3 6 (49 * 65536) 0 :: []) zeroMem zeroMem
    SH_ACCELEROMETER exampleMetadata0).2.2.2.1 0xE302 (by decide) (by decide)
    (Or.inl (by decide))

/-- C39: for a sensor of the table whose fetch succeeded, `sh_getMetadata` reads the
words 0..6 of `frsData` whatever word count `sh_getFrs` returned, so with a count below
seven it reads a word at or beyond the count; and it returns success exactly when
vendorIdLen is at most 48 and, for revision 2, sensorSpecificLen is at most 48: the
returned word count has no part in the status. -/
theorem getMetadata_reads_unfetched_words (polls : List Poll) (inReport0 frsData0 : Mem)
    (sensorId rid : Nat) (md : SensorMetadata)
    (hrid : metadataRecordId sensorId = some rid)
    (hfrs : (sh_getFrs polls inReport0 rid frsData0 MAX_FRS_WORDS).rc = 0) :
    (∀ i, i < 7 → i ∈ (sh_getMetadata polls inReport0 frsData0 sensorId (some md)).wordsRead)
      ∧ ((sh_getFrs polls inReport0 rid frsData0 MAX_FRS_WORDS).dataLenWords < 7 →
          ∃ i, i ∈ (sh_getMetadata polls inReport0 frsData0 sensorId (some md)).wordsRead
            ∧ (sh_getFrs polls inReport0 rid frsData0 MAX_FRS_WORDS).dataLenWords ≤ i)
      ∧ ((sh_getMetadata polls inReport0 frsData0 sensorId (some md)).rc = SH_STATUS_SUCCESS
          ↔ fetchedWords polls inReport0 frsData0 rid 6 / 2 ^ 16 ≤ 48
            ∧ (fetchedWords polls inReport0 frsData0 rid 3 / 2 ^ 16 = 2 →
                fetchedWords polls inReport0 frsData0 rid 8 % 2 ^ 16 ≤ 48)) := by
  rw [getMetadata_fetched polls inReport0 frsData0 sensorId rid md hrid hfrs]
  have hreads := populateMetadata_reads
    (sh_getFrs polls inReport0 rid frsData0 MAX_FRS_WORDS).pData md
  refine ⟨hreads, fun hlt => ⟨6, hreads 6 (by decide), by omega⟩, ?_⟩
  show (populateMetadata (sh_getFrs polls inReport0 rid frsData0 MAX_FRS_WORDS).pData md).rc
    = SH_STATUS_SUCCESS ↔ _
  rw [populateMetadata_rc]
  simp only [fetchedWords]
  by_cases hv : (sh_getFrs polls inReport0 rid frsData0 MAX_FRS_WORDS).pData 6 % 2 ^ 32
      / 2 ^ 16 % 65536 > 48
  · rw [if_pos hv]
    exact ⟨fun h => absurd h (by decide), fun h => by omega⟩
  · rw [if_neg hv]
    by_cases hs : (sh_getFrs polls inReport0 rid frsData0 MAX_FRS_WORDS).pData 3 % 2 ^ 32
        / 2 ^ 16 % 65536 = 2
        ∧ (sh_getFrs polls inReport0 rid frsData0 MAX_FRS_WORDS).pData 8 % 2 ^ 32 % 65536 > 48
    · rw [if_pos hs]
      exact ⟨fun h => absurd h (by decide), fun h => by omega⟩
    · rw [if_neg hs]
      refine ⟨fun _ => ⟨by omega, fun h2 => ?_⟩, fun _ => rfl⟩
      by_contra hgt
      exact hs ⟨by omega, by omega⟩

/-- C39 at a failing input: the hub answers the read of the record 0xE301 with the status
"empty", `sh_getFrs` returns success with zero words, and `sh_getMetadata` returns success
all the same, having read the words 0..6 of the array that was never filled. -/
theorem getMetadata_reads_unfetched_words_witness :
    metadataRecordId SH_RAW_ACCELEROMETER = some 0xE301
      ∧ (sh_getFrs (frsReadRespPoll 0xE301 0 5 0 0 0 :: []) zeroMem 0xE301 zeroMem
          MAX_FRS_WORDS).rc = 0
      ∧ (sh_getFrs (frsReadRespPoll 0xE301 0 5 0 0 0 :: []) zeroMem 0xE301 zeroMem
          MAX_FRS_WORDS).dataLenWords = 0
      ∧ (sh_getMetadata (frsReadRespPoll 0xE301 0 5 0 0 0 :: []) zeroMem zeroMem
          SH_RAW_ACCELEROMETER (some exampleMetadata0)).rc = SH_STATUS_SUCCESS
      ∧ ∀ i, i < 7 → i ∈ (sh_getMetadata (frsReadRespPoll 0xE301 0 5 0 0 0 :: []) zeroMem
          zeroMem SH_RAW_ACCELEROMETER (some exampleMetadata0)).wordsRead :=
  ⟨by decide, by decide, by decide, by decide,
    (getMetadata_reads_unfetched_words (frsReadRespPoll 0xE301 0 5 0 0 0 :: []) zeroMem zeroMem
      SH_RAW_ACCELEROMETER 0xE301 exampleMetadata0 (by decide) (by decide)).1⟩


/-! ## Proofs: the length `sh_getFrs` returns -/

/-- The variable `lastCopied` behind the copy loop of `sh_getFrs` within the capacity: the
index of the last word of the response, or its old value when the response has no word. -/
theorem frsCopy_lastCopied (c b : Nat) (R : Mem) (hc : c < 65536) :
    ∀ (k : Nat) (v : FrsVars), b + k ≤ c →
      ((List.range k).foldl (frsCopyWord c b R) v).lastCopied
          = (if k = 0 then v.lastCopied else b + k - 1)
        ∧ ((List.range k).foldl (frsCopyWord c b R) v).pData
          = (if k = 0 then v.pData
              else ((List.range k).foldl (frsCopyWord c b R) v).pData) := by
  intro k
  induction k with
  | zero =>
    intro v _
    simp
  | succ k ih =>
    intro v hb
    rw [List.range_succ, List.foldl_append]
    simp only [List.foldl_cons, List.foldl_nil]
    refine ⟨?_, by rw [if_neg (Nat.succ_ne_zero k)]⟩
    unfold frsCopyWord
    rw [if_neg (by omega), if_neg (Nat.succ_ne_zero k)]
    simp only []
    rw [Nat.mod_eq_of_lt (by omega)]
    omega

/-- The run of `sh_getFrs` on a stream that starts with an accepted response of terminal
status: the copy loop on that response, then the return behind the loop. -/
theorem getFrs_terminal_run (p : Poll) (rest : List Poll) (inReport0 : Mem)
    (recordId : Nat) (pData : Mem) (c : Nat)
    (hp : p.isFrsReadResp (recordId % 65536) = true)
    (hst : p.frsStatus = SH_FRS_READ_RECORD_COMPLETED
      ∨ p.frsStatus = SH_FRS_READ_BLOCK_COMPLETED ∨ p.frsStatus = SH_FRS_READ_BOTH_COMPLETED)
    (hc : c < 65536) :
    sh_getFrs (p :: rest) inReport0 recordId pData c
      = ⟨((List.range p.frsWords).foldl (frsCopyWord c (frsOffset p.frame % 256)
            (memcpy inReport0 p.frame 16)) ⟨SH_STATUS_SUCCESS, 0, pData, []⟩).rc,
          (((List.range p.frsWords).foldl (frsCopyWord c (frsOffset p.frame % 256)
            (memcpy inReport0 p.frame 16)) ⟨SH_STATUS_SUCCESS, 0, pData, []⟩).lastCopied + 1)
              % 65536,
          ((List.range p.frsWords).foldl (frsCopyWord c (frsOffset p.frame % 256)
            (memcpy inReport0 p.frame 16)) ⟨SH_STATUS_SUCCESS, 0, pData, []⟩).pData,
          ((List.range p.frsWords).foldl (frsCopyWord c (frsOffset p.frame % 256)
            (memcpy inReport0 p.frame 16)) ⟨SH_STATUS_SUCCESS, 0, pData, []⟩).writes,
          [SH_FRS_READ_REQUEST, 0, 0, 0, recordId % 65536 % 256, recordId % 65536 / 256,
            c % 256, c / 256], FrsExit.done⟩ := by
  have hcm : c % 65536 = c := Nat.mod_eq_of_lt hc
  have hW : (frsWordsStatus (memcpy inReport0 p.frame 16) >>> 4) &&& 0x0F = p.frsWords := by
    rw [frsWordsStatus_memcpy]
    rfl
  have hS : frsWordsStatus (memcpy inReport0 p.frame 16) &&& 0x0F = p.frsStatus := by
    rw [frsWordsStatus_memcpy]
    rfl
  unfold sh_getFrs
  simp only [hcm]
  rw [getFrsLoop_cons_resp _ _ _ _ _ _ _ hp]
  unfold frsHandleResp
  simp only [hS, hW, frsOffset_memcpy]
  rcases hst with h | h | h <;> rw [h] <;> simp

/-- C9 (FRS read returned length), where the code departs from it: on a stream that starts
with an accepted response of terminal status (3, 6 or 7) whose words lie within the
capacity, `sh_getFrs` returns `SH_STATUS_SUCCESS` having copied as many words as the
response announces, and `*dataLenWords` is the offset plus the word count, or 1 when the
response has no word; so the returned length is the number of words copied only when
the response has a word and its offset is 0.  With the word count 0 no word of `pData` is
written and the returned length is 1. -/
theorem getFrs_returned_length (p : Poll) (rest : List Poll) (inReport0 : Mem)
    (recordId : Nat) (pData : Mem) (c : Nat)
    (hp : p.isFrsReadResp (recordId % 65536) = true)
    (hst : p.frsStatus = SH_FRS_READ_RECORD_COMPLETED
      ∨ p.frsStatus = SH_FRS_READ_BLOCK_COMPLETED ∨ p.frsStatus = SH_FRS_READ_BOTH_COMPLETED)
    (hcap : frsOffset p.frame % 256 + p.frsWords ≤ c) (hc : c < 65536) :
    (sh_getFrs (p :: rest) inReport0 recordId pData c).rc = SH_STATUS_SUCCESS
      ∧ (sh_getFrs (p :: rest) inReport0 recordId pData c).exit = FrsExit.done
      ∧ (sh_getFrs (p :: rest) inReport0 recordId pData c).writes.length = p.frsWords
      ∧ (sh_getFrs (p :: rest) inReport0 recordId pData c).dataLenWords
        = (if p.frsWords = 0 then 1 else frsOffset p.frame % 256 + p.frsWords)
      ∧ ((sh_getFrs (p :: rest) inReport0 recordId pData c).dataLenWords
            = (sh_getFrs (p :: rest) inReport0 recordId pData c).writes.length
          ↔ p.frsWords ≠ 0 ∧ frsOffset p.frame % 256 = 0)
      ∧ (p.frsWords = 0 →
          (sh_getFrs (p :: rest) inReport0 recordId pData c).writes = []
            ∧ (sh_getFrs (p :: rest) inReport0 recordId pData c).pData = pData
            ∧ (sh_getFrs (p :: rest) inReport0 recordId pData c).dataLenWords = 1) := by
  have hfold := frsCopy_all_words c (frsOffset p.frame % 256) (memcpy inReport0 p.frame 16) hc
    p.frsWords ⟨SH_STATUS_SUCCESS, 0, pData, []⟩ hcap
  have hlast := frsCopy_lastCopied c (frsOffset p.frame % 256) (memcpy inReport0 p.frame 16) hc
    p.frsWords ⟨SH_STATUS_SUCCESS, 0, pData, []⟩ hcap
  rw [getFrs_terminal_run p rest inReport0 recordId pData c hp hst hc]
  have hwr : ((List.range p.frsWords).foldl (frsCopyWord c (frsOffset p.frame % 256)
      (memcpy inReport0 p.frame 16)) ⟨SH_STATUS_SUCCESS, 0, pData, []⟩).writes.length
      = p.frsWords := by
    rw [hfold.1]
    simp
  have hlen : (((List.range p.frsWords).foldl (frsCopyWord c (frsOffset p.frame % 256)
      (memcpy inReport0 p.frame 16)) ⟨SH_STATUS_SUCCESS, 0, pData, []⟩).lastCopied + 1) % 65536
      = (if p.frsWords = 0 then 1 else frsOffset p.frame % 256 + p.frsWords) := by
    rw [hlast.1]
    by_cases h0 : p.frsWords = 0
    · rw [if_pos h0, if_pos h0]
      rfl
    · rw [if_neg h0, if_neg h0]
      omega
  refine ⟨hfold.2, rfl, hwr, hlen, ?_, fun h0 => ⟨?_, ?_, ?_⟩⟩
  · show (_ + 1) % 65536 = _ ↔ _
    rw [hlen, hwr]
    by_cases h0 : p.frsWords = 0
    · rw [if_pos h0, h0]
      exact ⟨fun h => absurd h (by decide), fun h => absurd rfl h.1⟩
    · rw [if_neg h0]
      exact ⟨fun h => ⟨h0, by omega⟩, fun h => by omega⟩
  · show FrsVars.writes (List.foldl _ _ _) = []
    rw [hfold.1, h0]
    rfl
  · show FrsVars.pData (List.foldl _ _ _) = pData
    rw [hlast.2, if_pos h0]
  · show (_ + 1) % 65536 = 1
    rw [hlen, if_pos h0]

/-- C9 at a failing input: one response with the word count 0 and the status
RECORD_COMPLETED: the read is done with success, no word is written, and the returned
length is 1. -/
theorem getFrs_returned_length_witness :
    (sh_getFrs (frsReadRespPoll 0xE302 0 3 0 0 0 :: []) zeroMem 0xE302 zeroMem 16).rc
        = SH_STATUS_SUCCESS
      ∧ (sh_getFrs (frsReadRespPoll 0xE302 0 3 0 0 0 :: []) zeroMem 0xE302 zeroMem 16).writes
        = []
      ∧ (sh_getFrs (frsReadRespPoll 0xE302 0 3 0 0 0 :: []) zeroMem 0xE302 zeroMem
          16).dataLenWords = 1 := by
  have h := getFrs_returned_length (frsReadRespPoll 0xE302 0 3 0 0 0) [] zeroMem 0xE302
    zeroMem 16 (by decide) (Or.inl (by decide)) (by decide) (by decide)
  exact ⟨h.1, (h.2.2.2.2.2 (by decide)).1, (h.2.2.2.2.2 (by decide)).2.2⟩


/-! ## Proofs: the COMPLETED response that ends `sh_setFrs` -/

/-- A COMPLETED write response ends the loop of `sh_setFrs` wherever it is reached, so
nothing behind it in the stream is read. -/
theorem setFrsLoop_stops_at_completed (pData : Mem) (sendRc : Nat → Int) (t : Poll)
    (rest : List Poll) (ht : t.isFrsWriteResp = true) (h3 : t.frame 1 % 256 = 3) :
    ∀ (pre : List Poll) (R : Mem) (v : FrsWriteVars),
      inLoop (fun rc v => (⟨rc, v, FrsWriteExit.inFailed⟩ : FrsWriteResult))
          (setFrsBody pData sendRc) (pre ++ t :: rest) R v
        = inLoop (fun rc v => (⟨rc, v, FrsWriteExit.inFailed⟩ : FrsWriteResult))
          (setFrsBody pData sendRc) (pre ++ t :: []) R v := by
  simp only [Poll.isFrsWriteResp, Bool.and_eq_true, decide_eq_true_eq] at ht
  obtain ⟨⟨hd, hlen⟩, hid⟩ := ht
  intro pre
  induction pre with
  | nil =>
    intro R v
    rw [List.nil_append, List.nil_append, inLoop_cons_delivered _ _ _ _ _ _ hd,
      inLoop_cons_delivered _ _ _ _ _ _ hd, hlen]
    have e0 : memcpy R t.frame 4 0 % 256 = 0x84 := by rw [memcpy_lt _ _ _ _ (by decide)]; exact hid
    have e1 : memcpy R t.frame 4 1 % 256 = 3 := by rw [memcpy_lt _ _ _ _ (by decide)]; exact h3
    rcases setFrsBody_cases pData sendRc 4 (memcpy R t.frame 4) v with
      ⟨h, _⟩ | ⟨_, _, ⟨he, _⟩ | ⟨_, _, h⟩ | ⟨_, _, h⟩ | ⟨hc, _⟩ | ⟨hc, _⟩ | ⟨hc, _⟩⟩
    · exact absurd ⟨e0, rfl⟩ h
    · rw [e1] at he
      exact absurd he (by decide)
    · rw [h]
    · rw [h]
    · rw [e1] at hc
      exact absurd hc not_continues_completed
    · rw [e1] at hc
      exact absurd hc not_continues_completed
    · rw [e1] at hc
      exact absurd hc not_continues_completed
  | cons p pre ih =>
    intro R v
    rw [List.cons_append, List.cons_append]
    by_cases hp : p.delivered = true
    · rw [inLoop_cons_delivered _ _ _ _ _ _ hp, inLoop_cons_delivered _ _ _ _ _ _ hp]
      cases setFrsBody pData sendRc p.len (memcpy R p.frame p.len) v with
      | next s2 => exact ih _ _
      | ret res => rfl
    · have hf : p.delivered = false := by simpa using hp
      rw [inLoop_cons_failed _ _ _ _ _ _ hf, inLoop_cons_failed _ _ _ _ _ _ hf]

/-- The loop of `sh_setFrs` on a stream that delivers a COMPLETED write response behind
reports that are neither error nor COMPLETED responses, with every send succeeding: the
loop returns at that response; each of the write responses before it has taken two words
off `toWrite` (one, when one was left) through one write-data request, as long as words
were left. -/
theorem setFrsLoop_to_completed (pData : Mem) (sendRc : Nat → Int) (t : Poll)
    (rest : List Poll) (ht : t.isFrsWriteResp = true) (h3 : t.frame 1 % 256 = 3)
    (hsend : ∀ k, 1 ≤ k → sendRc k = 0) :
    ∀ (pre : List Poll) (R : Mem) (v : FrsWriteVars) (r : FrsWriteResult),
      v.toWrite < 65536 → 1 ≤ v.sends →
      (∀ p ∈ pre, p.delivered = true ∧ p.isFrsWriteEnd = false) →
      inLoop (fun rc v => (⟨rc, v, FrsWriteExit.inFailed⟩ : FrsWriteResult))
          (setFrsBody pData sendRc) (pre ++ t :: rest) R v = r →
      r.exit = FrsWriteExit.completed
        ∧ r.vars.toWrite = v.toWrite - 2 * pre.countP Poll.isFrsWriteResp
        ∧ (dataReqs r.vars.log).length
          = (dataReqs v.log).length + min (pre.countP Poll.isFrsWriteResp) ((v.toWrite + 1) / 2)
        ∧ responseCount r.vars.log = responseCount v.log + pre.countP Poll.isFrsWriteResp + 1
        ∧ r.rc = (if v.toWrite ≤ 2 * pre.countP Poll.isFrsWriteResp then SH_STATUS_SUCCESS
            else SH_STATUS_FRS_WRITE_NOT_ENOUGH) := by
  have ht2 := ht
  simp only [Poll.isFrsWriteResp, Bool.and_eq_true, decide_eq_true_eq] at ht2
  obtain ⟨⟨hd, hlen⟩, hid⟩ := ht2
  intro pre
  induction pre with
  | nil =>
    intro R v r hv _ _ hr
    rw [List.nil_append, inLoop_cons_delivered _ _ _ _ _ _ hd, hlen] at hr
    have e0 : memcpy R t.frame 4 0 % 256 = 0x84 := by rw [memcpy_lt _ _ _ _ (by decide)]; exact hid
    have e1 : memcpy R t.frame 4 1 % 256 = 3 := by rw [memcpy_lt _ _ _ _ (by decide)]; exact h3
    simp only [List.countP_nil, Nat.mul_zero, Nat.sub_zero, Nat.zero_min, Nat.add_zero,
      Nat.le_zero_eq]
    rcases setFrsBody_cases pData sendRc 4 (memcpy R t.frame 4) v with
      ⟨h, _⟩ | ⟨_, _, ⟨he, _⟩ | ⟨_, h0, h⟩ | ⟨_, h0, h⟩ | ⟨hc, _⟩ | ⟨hc, _⟩ | ⟨hc, _⟩⟩
    · exact absurd ⟨e0, rfl⟩ h
    · rw [e1] at he
      exact absurd he (by decide)
    · rw [h] at hr
      subst hr
      refine ⟨rfl, rfl, ?_, ?_, ?_⟩
      · simp [FrsWriteVars.logResponse, dataReqs_append, dataReqs]
      · simp [FrsWriteVars.logResponse, responseCount_append, responseCount]
      · rw [if_pos h0]
    · rw [h] at hr
      subst hr
      refine ⟨rfl, rfl, ?_, ?_, ?_⟩
      · simp [FrsWriteVars.logResponse, dataReqs_append, dataReqs]
      · simp [FrsWriteVars.logResponse, responseCount_append, responseCount]
      · rw [if_neg h0]
    · rw [e1] at hc
      exact absurd hc not_continues_completed
    · rw [e1] at hc
      exact absurd hc not_continues_completed
    · rw [e1] at hc
      exact absurd hc not_continues_completed
  | cons p pre ih =>
    intro R v r hv hs hpre hr
    obtain ⟨hpd, hne⟩ := hpre p (List.mem_cons_self _ _)
    have hpre2 : ∀ q ∈ pre, q.delivered = true ∧ q.isFrsWriteEnd = false :=
      fun q hq => hpre q (List.mem_cons_of_mem _ hq)
    rw [List.cons_append, inLoop_cons_delivered _ _ _ _ _ _ hpd] at hr
    have hresp : ∀ (h0 : memcpy R p.frame p.len 0 % 256 = 0x84) (h4 : p.len = 4),
        p.isFrsWriteResp = true
          ∧ frsWriteContinues (memcpy R p.frame p.len 1 % 256) = true := by
      intro h0 h4
      rw [h4] at h0 ⊢
      rw [memcpy_lt _ _ _ _ (by decide)] at h0 ⊢
      have hw : p.isFrsWriteResp = true := by simp [Poll.isFrsWriteResp, hpd, h4, h0]
      refine ⟨hw, ?_⟩
      simpa [Poll.isFrsWriteEnd, hw] using hne
    rcases setFrsBody_cases pData sendRc p.len (memcpy R p.frame p.len) v with
      ⟨hno, h⟩ | ⟨h0, h4, ⟨he, _⟩ | ⟨hc3, _⟩ | ⟨hc3, _⟩ | ⟨_, hz, h⟩ | ⟨_, hpos, _, h⟩
        | ⟨_, hpos, hfail, _⟩⟩
    · rw [h] at hr
      have hnw : p.isFrsWriteResp = false := by
        by_contra hw
        have hw2 : p.isFrsWriteResp = true := by simpa using hw
        simp only [Poll.isFrsWriteResp, Bool.and_eq_true, decide_eq_true_eq] at hw2
        obtain ⟨⟨_, h4⟩, h84⟩ := hw2
        apply hno
        refine ⟨?_, h4⟩
        rw [h4, memcpy_lt _ _ _ _ (by decide)]
        exact h84
      rw [List.countP_cons_of_neg _ _ (by simp [hnw])]
      exact ih _ v r hv hs hpre2 hr
    · exact absurd (hresp h0 h4).2 (frsWriteError_not_continues _ he)
    · exact absurd hc3 (frsWriteContinues_ne_completed _ (hresp h0 h4).2)
    · exact absurd hc3 (frsWriteContinues_ne_completed _ (hresp h0 h4).2)
    · rw [h] at hr
      rw [List.countP_cons_of_pos _ _ (hresp h0 h4).1]
      obtain ⟨i1, i2, i3, i4, i5⟩ := ih _ (v.logResponse (memcpy R p.frame p.len)) r
        (by exact hv) (by exact hs) hpre2 hr
      have l1 : (v.logResponse (memcpy R p.frame p.len)).toWrite = v.toWrite := rfl
      have l2 : (dataReqs (v.logResponse (memcpy R p.frame p.len)).log).length
          = (dataReqs v.log).length := by
        simp [FrsWriteVars.logResponse, dataReqs_append, dataReqs]
      have l3 : responseCount (v.logResponse (memcpy R p.frame p.len)).log
          = responseCount v.log + 1 := by
        simp [FrsWriteVars.logResponse, responseCount_append, responseCount]
      rw [l1] at i2 i3 i5
      rw [l2] at i3
      rw [l3] at i4
      refine ⟨i1, by omega, by omega, by omega, ?_⟩
      rw [i5, hz, if_pos (Nat.zero_le _), if_pos (Nat.zero_le _)]
    · rw [h] at hr
      rw [List.countP_cons_of_pos _ _ (hresp h0 h4).1]
      have t1 : (setFrsData pData (v.logResponse (memcpy R p.frame p.len))).toWrite
          = v.toWrite - 2 := by
        show (if (v.toWrite - 1) % 65536 > 0 then ((v.toWrite - 1) % 65536 - 1) % 65536
          else (v.toWrite - 1) % 65536) = v.toWrite - 2
        split_ifs <;> omega
      have t2 : (dataReqs (setFrsData pData (v.logResponse (memcpy R p.frame p.len))).log).length
          = (dataReqs v.log).length + 1 := by
        simp [setFrsData, FrsWriteVars.logResponse, dataReqs_append, dataReqs]
      have t3 : responseCount (setFrsData pData (v.logResponse (memcpy R p.frame p.len))).log
          = responseCount v.log + 1 := by
        simp [setFrsData, FrsWriteVars.logResponse, responseCount_append, responseCount]
      have t4 : (setFrsData pData (v.logResponse (memcpy R p.frame p.len))).sends
          = v.sends + 1 := rfl
      obtain ⟨i1, i2, i3, i4, i5⟩ := ih _ (setFrsData pData
        (v.logResponse (memcpy R p.frame p.len))) r (by rw [t1]; omega) (by rw [t4]; omega)
        hpre2 hr
      rw [t1] at i2 i3 i5
      rw [t2] at i3
      rw [t3] at i4
      refine ⟨i1, by omega, by omega, by omega, ?_⟩
      rw [i5]
      by_cases c : v.toWrite ≤ 2 * (List.countP Poll.isFrsWriteResp pre + 1)
      · rw [if_pos c, if_pos (by omega)]
      · rw [if_neg c, if_neg (by omega)]
    · exact absurd (hsend v.sends hs) hfail

/-- C13 (FRS write completion): on every stream that delivers a write response with status
COMPLETED behind reports that are neither error nor COMPLETED responses, with every send
succeeding, `sh_setFrs` returns at that response, whatever follows it in the stream; it
has then sent one write-data request for each write response received before, as long as
words were left, each carrying the next two words of the record; it returns
`SH_STATUS_SUCCESS` if and only if all `dataLen` words have been sent, none remaining,
and `SH_STATUS_FRS_WRITE_NOT_ENOUGH` when a word remains unsent.  With `dataLen = 0` it
returns `SH_STATUS_SUCCESS` at that response having sent the write request only. -/
theorem setFrs_completion (pre rest : List Poll) (t : Poll) (inReport0 : Mem)
    (sendRc : Nat → Int) (data1 recordId : Nat) (pData : Mem) (dataLen : Nat)
    (hpre : ∀ p ∈ pre, p.delivered = true ∧ p.isFrsWriteEnd = false)
    (ht : t.isFrsWriteResp = true) (h3 : t.frame 1 % 256 = 3)
    (hsend : ∀ k, 1 ≤ k → sendRc k = 0) :
    (sh_setFrs (pre ++ t :: rest) inReport0 sendRc data1 recordId pData dataLen).exit
        = FrsWriteExit.completed
      ∧ EndsCompleted
          (sh_setFrs (pre ++ t :: rest) inReport0 sendRc data1 recordId pData dataLen).vars.log
      ∧ sh_setFrs (pre ++ t :: rest) inReport0 sendRc data1 recordId pData dataLen
        = sh_setFrs (pre ++ t :: []) inReport0 sendRc data1 recordId pData dataLen
      ∧ responseCount
          (sh_setFrs (pre ++ t :: rest) inReport0 sendRc data1 recordId pData dataLen).vars.log
        = pre.countP Poll.isFrsWriteResp + 1
      ∧ (dataReqs (sh_setFrs (pre ++ t :: rest) inReport0 sendRc data1 recordId pData
            dataLen).vars.log).length
        = min (pre.countP Poll.isFrsWriteResp) ((dataLen % 65536 + 1) / 2)
      ∧ Streamed (dataLen % 65536) pData
          (dataReqs (sh_setFrs (pre ++ t :: rest) inReport0 sendRc data1 recordId pData
            dataLen).vars.log)
      ∧ (sh_setFrs (pre ++ t :: rest) inReport0 sendRc data1 recordId pData dataLen).vars.toWrite
        = dataLen % 65536 - 2 * (dataReqs (sh_setFrs (pre ++ t :: rest) inReport0 sendRc data1
            recordId pData dataLen).vars.log).length
      ∧ ((sh_setFrs (pre ++ t :: rest) inReport0 sendRc data1 recordId pData dataLen).rc
            = SH_STATUS_SUCCESS
          ↔ dataLen % 65536 ≤ 2 * (dataReqs (sh_setFrs (pre ++ t :: rest) inReport0 sendRc
              data1 recordId pData dataLen).vars.log).length)
      ∧ (2 * (dataReqs (sh_setFrs (pre ++ t :: rest) inReport0 sendRc data1 recordId pData
            dataLen).vars.log).length < dataLen % 65536 →
          (sh_setFrs (pre ++ t :: rest) inReport0 sendRc data1 recordId pData dataLen).rc
            = SH_STATUS_FRS_WRITE_NOT_ENOUGH)
      ∧ (dataLen % 65536 = 0 →
          (sh_setFrs (pre ++ t :: rest) inReport0 sendRc data1 recordId pData dataLen).rc
              = SH_STATUS_SUCCESS
            ∧ dataReqs (sh_setFrs (pre ++ t :: rest) inReport0 sendRc data1 recordId pData
                dataLen).vars.log = []
            ∧ (sh_setFrs (pre ++ t :: rest) inReport0 sendRc data1 recordId pData
                dataLen).vars.sends = 1) := by
  have hn : dataLen % 65536 < 65536 := Nat.mod_lt _ (by decide)
  obtain ⟨i1, _, i3, i4, _⟩ := setFrsLoop_to_completed pData sendRc t rest ht h3 hsend pre
    inReport0 ⟨dataLen % 65536, 0, data1, 1,
      [FrsWriteEvent.writeReq (frsWriteReq (dataLen % 65536) (recordId % 65536))]⟩
    (sh_setFrs (pre ++ t :: rest) inReport0 sendRc data1 recordId pData dataLen)
    hn (le_refl 1) hpre rfl
  have hstop : sh_setFrs (pre ++ t :: rest) inReport0 sendRc data1 recordId pData dataLen
      = sh_setFrs (pre ++ t :: []) inReport0 sendRc data1 recordId pData dataLen := by
    unfold sh_setFrs
    exact setFrsLoop_stops_at_completed pData sendRc t rest ht h3 pre inReport0 _
  obtain ⟨⟨h1, _, _, h4, h5, _⟩, hex, _, _⟩ :=
    setFrs_post (pre ++ t :: rest) inReport0 sendRc data1 recordId pData dataLen
  obtain ⟨l1, _⟩ := setFrs_completed_log (pre ++ t :: rest) inReport0 sendRc data1
    recordId pData dataLen
  have hend := hex.mp i1
  simp only [dataReqs, List.length_nil, Nat.zero_add, responseCount] at i3 i4
  refine ⟨i1, hend, hstop, i4, i3, h5, h1, (l1 hend).1, (l1 hend).2, fun h0 => ?_⟩
  have hz : (dataReqs (sh_setFrs (pre ++ t :: rest) inReport0 sendRc data1 recordId pData
      dataLen).vars.log).length = 0 := by
    rw [i3, h0]
    simp
  refine ⟨((l1 hend).1).mpr (by omega), List.length_eq_zero.mp hz, ?_⟩
  rw [h4, hz]

/-- C13 at two streams for a record of three words: COMPLETED behind two responses that
ask for data (and a sensor event) finds both requests sent and gives success; COMPLETED
behind one such response finds a word unsent and gives NOT_ENOUGH. -/
theorem setFrs_completion_witness :
    (sh_setFrs ([frsWriteRespPoll 4 0, sensorEventPoll 5, frsWriteRespPoll 0 0]
        ++ frsWriteRespPoll 3 2 :: []) zeroMem (fun _ => 0) 77 0xE302 (fun i => 100 + i)
        3).rc = SH_STATUS_SUCCESS
      ∧ (dataReqs (sh_setFrs ([frsWriteRespPoll 4 0, sensorEventPoll 5, frsWriteRespPoll 0 0]
        ++ frsWriteRespPoll 3 2 :: []) zeroMem (fun _ => 0) 77 0xE302 (fun i => 100 + i)
        3).vars.log).length = 2
      ∧ (sh_setFrs ([frsWriteRespPoll 4 0] ++ frsWriteRespPoll 3 0 :: [sensorEventPoll 5])
        zeroMem (fun _ => 0) 77 0xE302 (fun i => 100 + i) 3).rc
          = SH_STATUS_FRS_WRITE_NOT_ENOUGH := by
  have ha := setFrs_completion [frsWriteRespPoll 4 0, sensorEventPoll 5, frsWriteRespPoll 0 0]
    [] (frsWriteRespPoll 3 2) zeroMem (fun _ => 0) 77 0xE302 (fun i => 100 + i) 3
    (by decide) (by decide) (by decide) (fun _ _ => rfl)
  have hb := setFrs_completion [frsWriteRespPoll 4 0] [sensorEventPoll 5]
    (frsWriteRespPoll 3 0) zeroMem (fun _ => 0) 77 0xE302 (fun i => 100 + i) 3
    (by decide) (by decide) (by decide) (fun _ _ => rfl)
  obtain ⟨_, _, _, _, a5, _, _, a8, _, _⟩ := ha
  obtain ⟨_, _, _, _, b5, _, _, _, b9, _⟩ := hb
  have ea : (dataReqs (sh_setFrs ([frsWriteRespPoll 4 0, sensorEventPoll 5,
      frsWriteRespPoll 0 0] ++ frsWriteRespPoll 3 2 :: []) zeroMem (fun _ => 0) 77 0xE302
      (fun i => 100 + i) 3).vars.log).length = 2 := by
    rw [a5]
    decide
  have eb : (dataReqs (sh_setFrs ([frsWriteRespPoll 4 0] ++ frsWriteRespPoll 3 0
      :: [sensorEventPoll 5]) zeroMem (fun _ => 0) 77 0xE302
      (fun i => 100 + i) 3).vars.log).length = 1 := by
    rw [b5]
    decide
  exact ⟨a8.mpr (by rw [ea]; decide), ea, b9 (by rw [eb]; decide)⟩

end Bno070
